import Mathlib

/-!
# NMEA sentence codec and SiRF frame checks of the precision-location client

Shallow embedding of `src/spi/utils/nmea` (Variant, Dataset, Token, Sentence,
GSVSentence, the sentence catalog, `NMEA::generate` / `NMEA::parse`, `Info`) and of
the frame validation of `src/spi/gps/protocol/sirf/SirfProtocol.cpp`.

Conventions of the embedding.

* A `char` is its byte value `0..255`, held in a `Nat`; text is a list of such
  values.  Plain `char` is signed, as on x86-64: `static_cast<int>(c)` is `c` for a
  byte below 128 and `c - 256` for a byte from 128 on (`charBits`, `charInt`); for
  7-bit NMEA text signed and unsigned `char` agree.
* An `int` is an `Int`; overflow of `atoi` on very long digit runs is not modelled.
  Where the bits of an `int` matter (the checksum), it is held as its 32-bit two's
  complement pattern, which is also what `printf("%X")` prints.
* A finite `double` is a sign and an exact decimal magnitude `mant / 10 ^ scale`
  in lowest decimal terms (every finite binary double is such a decimal).
  `printf("%0W.Df")` is exact on it; `atof` is modelled on plain decimal text and
  returns the decimal that was written (the rounding of `atof` to 53 bits is
  not modelled, nor are exponents, hexadecimal floats, infinities or NaNs).
* A pointer into a buffer together with the remaining length is the list of the
  remaining bytes.
* `assert` does not alter control flow (as when compiled with `NDEBUG`); the value of
  an uninitialised `int` is a parameter `u` of the functions that can read one: it
  stands for what the reads of one call return, and calls whose results are compared
  are given parameters of their own.
-/

namespace NMEA

/-! ## Text -/

/-- Text: a sequence of `char` values. -/
abbrev Text := List Nat

/-- The bytes of a string literal. -/
def str (s : String) : Text := s.toList.map Char.toNat

/-- The bytes of a NUL-terminated C string stored in `l`: everything before the first `0`. -/
def cstr (l : Text) : Text := l.takeWhile (fun c => c != 0)

/-! ## Types.h -/

/-- The struct `Satellite` of `Types.h`. -/
structure Satellite where
  prn : Int
  elevation : Int
  azimuth : Int
  snr : Int
deriving DecidableEq, Repr

/-- The struct `Time` of `Types.h`. -/
structure Time where
  hour : Int
  minute : Int
  second : Int
  hsecond : Int
deriving DecidableEq, Repr

/-- The struct `Date` of `Types.h`. -/
structure Date where
  day : Int
  month : Int
  year : Int
deriving DecidableEq, Repr

/-- A finite `double`: sign bit and the exact decimal magnitude `mant / 10 ^ scale`. -/
structure Dbl where
  neg : Bool
  mant : Nat
  scale : Nat
deriving DecidableEq, Repr

/-- Lowest decimal terms: no trailing zero digit can be dropped from the fraction. -/
def Dbl.normalized (x : Dbl) : Prop := x.scale = 0 ∨ x.mant % 10 ≠ 0

instance (x : Dbl) : Decidable x.normalized := by
  unfold Dbl.normalized; exact inferInstance

/-- Drop up to `k` trailing zero digits of the fraction (`k` is the scale). -/
def Dbl.normalizeAux (neg : Bool) : Nat → Nat → Dbl
  | 0, m => ⟨neg, m, 0⟩
  | k + 1, m => if m % 10 = 0 then Dbl.normalizeAux neg k (m / 10) else ⟨neg, m, k + 1⟩

/-- The decimal `mant / 10 ^ scale` in lowest decimal terms. -/
def Dbl.ofDecimal (neg : Bool) (mant scale : Nat) : Dbl := Dbl.normalizeAux neg scale mant

/-! ## Variant.h -/

/-- The tagged union `Variant`. -/
inductive Variant where
  | uninitialized
  | char (c : Nat)
  | int (d : Int)
  | double (f : Dbl)
  | satellite (sat : Satellite)
  | time (t : Time)
  | date (d : Date)
  | string (s : Text)
deriving DecidableEq, Repr

/-- Conversion `Variant::operator char()`; a tag mismatch trips the assertion of the source. -/
def Variant.toChar : Variant → Nat
  | .uninitialized => 0
  | .char c => c % 256
  | _ => 0

/-- Conversion `Variant::operator int()`; a tag mismatch trips the assertion of the source. -/
def Variant.toInt : Variant → Int
  | .uninitialized => 0
  | .int d => d
  | _ => 0

/-- Conversion `Variant::operator double()`; a tag mismatch trips the assertion of the source. -/
def Variant.toDouble : Variant → Dbl
  | .uninitialized => ⟨false, 0, 0⟩
  | .double f => f
  | _ => ⟨false, 0, 0⟩

/-- Conversion `Variant::operator const Satellite&()`; a tag mismatch trips the assertion. -/
def Variant.toSatellite : Variant → Satellite
  | .satellite s => s
  | _ => ⟨0, 0, 0, 0⟩

/-- Conversion `Variant::operator const Time&()`; a tag mismatch trips the assertion. -/
def Variant.toTime : Variant → Time
  | .time t => t
  | _ => ⟨0, 0, 0, 0⟩

/-- Conversion `Variant::operator const Date&()`; a tag mismatch trips the assertion. -/
def Variant.toDate : Variant → Date
  | .date d => d
  | _ => ⟨0, 0, 0⟩

/-- Conversion `Variant::operator std::string()` (the stored C string up to its first NUL);
a tag mismatch trips the assertion. -/
def Variant.toStr : Variant → Text
  | .string s => cstr (s.map (fun c => c % 256))
  | _ => []

/-! ## Dataset.h -/

/-- The record store `Dataset`: a `std::map<int, Variant>`, as the lookup function. -/
def Dataset := Nat → Option Variant

/-- A freshly constructed `Dataset`. -/
def Dataset.empty : Dataset := fun _ => none

/-- Method `Dataset::isPresent`. -/
def Dataset.isPresent (d : Dataset) (field : Nat) : Bool := (d field).isSome

/-- Method `Dataset::get`: the stored value, or a default-constructed `Variant`. -/
def Dataset.get (d : Dataset) (field : Nat) : Variant := (d field).getD Variant.uninitialized

/-- Method `Dataset::set`. -/
def Dataset.set (d : Dataset) (field : Nat) (value : Variant) : Dataset :=
  fun k => if k = field then some value else d k

/-- Method `Dataset::remove`. -/
def Dataset.remove (d : Dataset) (field : Nat) : Dataset :=
  fun k => if k = field then none else d k

/-- Method `Dataset::copy(field, to)`: the destination store after the call. -/
def Dataset.copy (d : Dataset) (field : Nat) (dst : Dataset) : Dataset :=
  if d.isPresent field then dst.set field (d.get field) else dst.remove field

/-! ## Fields.h -/

def MAX_SAT_IN_USE : Nat := 12
def MAX_SAT_IN_VIEW : Nat := 16

def FIX_TYPE : Nat := 0
def FIX_QUALITY : Nat := 1
def FIX_MODE : Nat := 2
def LATITUDE : Nat := 3
def LATITUDE_NS : Nat := 4
def LONGITUDE : Nat := 5
def LONGITUDE_EW : Nat := 6
def ALTITUDE : Nat := 7
def ALTITUDE_UNITS : Nat := 8
def SPEED : Nat := 9
def DIRECTION : Nat := 10
def DECLINATION : Nat := 11
def DECLINATION_EW : Nat := 12
def DIFF : Nat := 13
def DIFF_UNITS : Nat := 14
def FIX_MODE_INDICATOR : Nat := 15
def STATUS : Nat := 16
def PDOP : Nat := 17
def HDOP : Nat := 18
def VDOP : Nat := 19
def TIME : Nat := 20
def DATE : Nat := 21
def DGPS_TIME : Nat := 22
def DGPS_ID : Nat := 23
def SAT_IN_VIEW : Nat := 24
def SAT_IN_USE : Nat := 25
def SAT_IN_USE_01 : Nat := 26
def SATELLITE_01 : Nat := 38

/-! ## Models of the C library calls -/

/-- Decimal digits of `n`, most significant first (`fuel` bounds the number of digits). -/
def natDigitsAux : Nat → Nat → Text → Text
  | 0, _, acc => acc
  | fuel + 1, n, acc =>
    if n < 10 then (48 + n) :: acc else natDigitsAux fuel (n / 10) ((48 + n % 10) :: acc)

/-- The text `printf("%d")` writes for a natural number. -/
def natDigits (n : Nat) : Text := natDigitsAux (n + 1) n []

/-- Left padding with `'0'` up to width `w`. -/
def zeroPad (w : Nat) (s : Text) : Text := List.replicate (w - s.length) 48 ++ s

/-- The text of `printf("%0wd", v)`. -/
def fmtInt (w : Nat) (v : Int) : Text :=
  if v < 0 then 45 :: zeroPad (w - 1) (natDigits v.natAbs) else zeroPad w (natDigits v.toNat)

/-- An upper-case hexadecimal digit. -/
def hexDigit (n : Nat) : Nat := if n % 16 < 10 then 48 + n % 16 else 55 + n % 16

/-- Upper-case hexadecimal digits of `n`, most significant first. -/
def natHexAux : Nat → Nat → Text → Text
  | 0, _, acc => acc
  | fuel + 1, n, acc =>
    if n < 16 then hexDigit n :: acc else natHexAux fuel (n / 16) (hexDigit n :: acc)

/-- The text of `printf("%02X", n)`, `n` being the argument read as `unsigned int` (for an
`int`, its 32-bit two's complement pattern). -/
def fmtHex2 (n : Nat) : Text := zeroPad 2 (natHexAux (n + 1) n [])

/-- The nearest integer to `mant * 10 ^ d / 10 ^ scale`, ties to even (`printf` rounding). -/
def roundDecimal (mant scale d : Nat) : Nat :=
  if scale ≤ d then mant * 10 ^ (d - scale)
  else
    let p := 10 ^ (scale - d)
    let q := mant / p
    let r := mant % p
    if 2 * r < p then q else if p < 2 * r then q + 1 else if q % 2 = 0 then q else q + 1

/-- The text of `printf("%0W.Df", x)`. -/
def fmtFloat (w d : Nat) (x : Dbl) : Text :=
  let r := roundDecimal x.mant x.scale d
  let body := natDigits (r / 10 ^ d) ++ (if d = 0 then [] else 46 :: zeroPad d (natDigits (r % 10 ^ d)))
  if x.neg then 45 :: zeroPad (w - 1) body else zeroPad w body

/-- The C predicate `isspace` in the "C" locale. -/
def isSpace (c : Nat) : Bool := c = 32 || (9 ≤ c && c ≤ 13)

/-- The C predicate `isdigit`. -/
def isDigit (c : Nat) : Bool := 48 ≤ c && c ≤ 57

/-- The number written by a run of decimal digits. -/
def digitsVal (s : Text) : Nat := s.foldl (fun a c => 10 * a + (c - 48)) 0

/-- Model of `atoi(std::string(s))`: optional white space, optional sign, then the leading digits. -/
def atoi (s : Text) : Int :=
  match s.dropWhile isSpace with
  | 45 :: r => - (digitsVal (r.takeWhile isDigit) : Int)
  | 43 :: r => (digitsVal (r.takeWhile isDigit) : Int)
  | r => (digitsVal (r.takeWhile isDigit) : Int)

/-- The unsigned part of `atof`: digits, then optionally `'.'` and more digits. -/
def atofUnsigned (neg : Bool) (r : Text) : Dbl :=
  let ip := r.takeWhile isDigit
  match r.dropWhile isDigit with
  | 46 :: r' =>
    let fp := r'.takeWhile isDigit
    Dbl.ofDecimal neg (digitsVal ip * 10 ^ fp.length + digitsVal fp) fp.length
  | _ => Dbl.ofDecimal neg (digitsVal ip) 0

/-- Model of `atof(std::string(s))` on plain decimal text. -/
def atof (s : Text) : Dbl :=
  match s.dropWhile isSpace with
  | 45 :: r => atofUnsigned true r
  | 43 :: r => atofUnsigned false r
  | r => atofUnsigned false r

/-! ## Token.h and Tokens.h -/

/-- The codecs: `IntToken<digits>`, `FloatToken<totalDigits, decimalDigits>`, `CharToken`,
`StringToken`, `TimeToken`, `DateToken`. -/
inductive Token where
  | int (digits : Nat)
  | float (totalDigits decimalDigits : Nat)
  | char
  | string
  | time
  | date
deriving DecidableEq, Repr

def tChar : Token := Token.char
def tString : Token := Token.string
def tTime : Token := Token.time
def tDate : Token := Token.date
def tInt1 : Token := Token.int 1
def tInt2 : Token := Token.int 2
def tInt3 : Token := Token.int 3
def tInt4 : Token := Token.int 4
def tFloat3_1 : Token := Token.float 3 1
def tFloat9_4 : Token := Token.float 9 4
def tFloat10_4 : Token := Token.float 10 4

/-- The centisecond value `TimeToken::toString` prints for `Time::hsecond`. -/
def TimeToken.hsecondOut (hsecond : Int) : Int :=
  if 0 < hsecond ∧ hsecond < 10 then hsecond * 10
  else if 100 ≤ hsecond then hsecond.tdiv 10
  else hsecond

/-- The text `Token::toString(from, to)` appends; `snprintf` cuts at the buffer size. -/
def Token.toString : Token → Variant → Text
  | .int digits, v => (fmtInt digits v.toInt).take (digits + 1)
  | .float t d, v => (fmtFloat t d v.toDouble).take (t + 2)
  | .char, v => [v.toChar]
  | .string, v => v.toStr
  | .time, v =>
    let t := v.toTime
    (fmtInt 2 t.hour ++ fmtInt 2 t.minute ++ fmtInt 2 t.second ++ 46 ::
      fmtInt 2 (TimeToken.hsecondOut t.hsecond)).take 9
  | .date, v =>
    let d := v.toDate
    (fmtInt 2 d.day ++ fmtInt 2 d.month ++ fmtInt 2 d.year).take 6

/-- The `switch (hsec_length)` of `TimeToken::parse`; with no case taken (the branch of
`assert(false)`) the field keeps its uninitialised value `u`. -/
def TimeToken.hsecondIn (u : Int) (hsecLength : Nat) (hsec : Int) : Int :=
  match hsecLength with
  | 1 => hsec * 10
  | 2 => hsec
  | 3 => hsec.tdiv 10
  | _ => u

/-- Method `TimeToken::parse`; `u` is the value this call finds in the uninitialised
`time.hsecond`. It is read for tokens of 6 and of 7 characters only; every call has its own
`u`. -/
def TimeToken.parse (u : Int) (s : Text) : Option Time :=
  if s.length < 6 ∨ 10 < s.length then none
  else
    some {
      hour := atoi (s.take 2)
      minute := atoi ((s.drop 2).take 2)
      second := atoi ((s.drop 4).take 2)
      hsecond :=
        if 6 < s.length then
          TimeToken.hsecondIn u (s.length - 7) (atoi ((s.drop 7).take (s.length - 7)))
        else u }

/-- Whether a call of `TimeToken::parse` reaches the `assert(false)` of its `switch`: the
token passes the length check, is longer than `"hhmmss"`, and `hsec_length` is none of 1, 2
and 3. -/
def TimeToken.parseAssertFails (s : Text) : Bool :=
  if s.length < 6 ∨ 10 < s.length then false
  else if 6 < s.length then
    match s.length - 7 with
    | 1 => false
    | 2 => false
    | 3 => false
    | _ => true
  else false

/-- Method `Token::parse(from, length, to)`: the value stored in `to`, or `none` for `false`. -/
def Token.parse (u : Int) : Token → Text → Option Variant
  | .int _, s => some (Variant.int (atoi s))
  | .float _ _, s => if s = [110, 97, 110] then none else some (Variant.double (atof s))
  | .char, s => if s.length ≠ 1 then none else some (Variant.char (s.headD 0))
  | .string, s => some (Variant.string s)
  | .time, s => (TimeToken.parse u s).map Variant.time
  | .date, s =>
    if s.length ≠ 6 then none
    else some (Variant.date ⟨atoi (s.take 2), atoi ((s.drop 2).take 2), atoi ((s.drop 4).take 2)⟩)

/-! ## Sentence.h and Sentence.cpp -/

/-- A format entry `std::pair<int, const Token*>`. -/
abbrev Field := Nat × Token

/-- The function `field(id, token)`. -/
def field (id : Nat) (token : Token) : Field := (id, token)

/-- The class `Sentence`: header and format. -/
structure Sentence where
  head : Text
  format : List Field
deriving DecidableEq, Repr

/-- Bitwise or of two `int` values in two's complement. -/
def intLor : Int → Int → Int
  | Int.ofNat m, Int.ofNat n => Int.ofNat (m ||| n)
  | Int.ofNat m, Int.negSucc n => Int.negSucc (n ^^^ (n &&& m))
  | Int.negSucc m, Int.ofNat n => Int.negSucc (m ^^^ (m &&& n))
  | Int.negSucc m, Int.negSucc n => Int.negSucc (m &&& n)

/-- The bits of `static_cast<int>(c)` for a plain (signed) `char`: the 32-bit two's
complement pattern of the sign-extended byte, `c` below 128 and `0xFFFFFF00 + c` from 128
on. -/
def charBits (c : Nat) : Nat := if c < 128 then c else c + 0xFFFFFF00

/-- The `int` that a 32-bit two's complement pattern stands for. A value beyond 32 bits,
which no text of bytes produces, is left as it is. -/
def int32 (bits : Nat) : Int :=
  if 2 ^ 31 ≤ bits ∧ bits < 2 ^ 32 then (bits : Int) - 2 ^ 32 else (bits : Int)

/-- The value of a plain (signed) `char` promoted to `int`. -/
def charInt (c : Nat) : Int := int32 (charBits c)

/-- The function `hexToNumber(h)`; `h` is a plain `char`, compared and subtracted as the
`int` it promotes to. -/
def hexToNumber (h : Nat) : Int :=
  if 48 ≤ charInt h ∧ charInt h ≤ 57 then charInt h - 48
  else if 65 ≤ charInt h ∧ charInt h ≤ 70 then charInt h - 65 + 10
  else charInt h - 97 + 10

/-- The function `extractChecksum(from)`, reading `from[0]` and `from[1]`. -/
def extractChecksum (p : Text) : Int :=
  intLor (hexToNumber (p.headD 0) * 16) (hexToNumber (p.tail.headD 0))

/-- The function `calcChecksum(payload, length)`: the bits of the returned `int`, the
exclusive or of the sign-extended bytes. -/
def calcChecksum (payload : Text) : Nat :=
  payload.foldl (fun checksum c => checksum ^^^ charBits c) 0

/-- The function `findChar(from, c, length)`: the offset of the first `c`, or `none` for `NULL`. -/
def findChar : Text → Nat → Option Nat
  | [], _ => none
  | x :: xs, c => if x = c then some 0 else (findChar xs c).map (fun i => i + 1)

/-- The loop of `calcTokens`: `p` is the text from the pointer `p` to the end of the payload. -/
def calcTokensLoop : Nat → Text → Nat → Nat
  | 0, _, n => n
  | fuel + 1, p, n =>
    if 0 < p.length then
      match findChar p 44 with
      | some i => calcTokensLoop fuel (p.drop (i + 1)) (n + 1)
      | none => n
    else n

/-- The function `calcTokens(payload, length)`. -/
def calcTokens (payload : Text) : Nat := calcTokensLoop (payload.length + 1) payload 1

/-- The length of the token at `p`: up to the next comma, or all that remains. -/
def tokenLength (p : Text) : Nat :=
  match findChar p 44 with
  | some i => i
  | none => p.length

/-- The text `Sentence::toString` builds in `s` after the header. -/
def Sentence.renderFields (src : Dataset) : List Field → Text
  | [] => []
  | (id, token) :: rest =>
    44 :: ((if src.isPresent id then token.toString (src.get id) else []) ++
      Sentence.renderFields src rest)

/-- Method `Sentence::toString(from, to)`: the string `to` after the call. -/
def Sentence.toString (self : Sentence) (src : Dataset) (dst : Text) : Text :=
  let s := self.head ++ Sentence.renderFields src self.format
  dst ++ 36 :: s ++ 42 :: (fmtHex2 (calcChecksum s)).take 2 ++ [13, 10]

/-- The loop of `Sentence::parsePayload` over the format, `p` being the text from the
pointer `p` to the end of the payload. -/
def Sentence.parseFields (u : Int) : List Field → Text → Dataset → Dataset
  | [], _, dst => dst
  | (id, token) :: rest, p, dst =>
    let n := tokenLength p
    let dst1 :=
      if 0 < n then
        match token.parse u (p.take n) with
        | some value => dst.set id value
        | none => dst.remove id
      else dst.remove id
    Sentence.parseFields u rest (p.drop (n + 1)) dst1

/-- Method `Sentence::parsePayload(from, length, to)`: the result and the store after the call. -/
def Sentence.parsePayload (self : Sentence) (u : Int) (payload : Text) (dst : Dataset) :
    Bool × Dataset :=
  if calcTokens payload ≠ self.format.length then (false, dst)
  else (true, Sentence.parseFields u self.format payload dst)

/-- Method `Sentence::parse(from, length, to)`: the result and the store after the call.
The header comparison converts `from` to a `std::string`, hence reads it as a C string. -/
def Sentence.parse (self : Sentence) (u : Int) (text : Text) (dst : Dataset) : Bool × Dataset :=
  if text.length < self.head.length + 4 then (false, dst)
  else if (cstr text).take self.head.length ≠ self.head then (false, dst)
  else
    let checksumOffset := text.length - 3
    if int32 (calcChecksum (text.take checksumOffset))
        ≠ extractChecksum (text.drop (checksumOffset + 1)) then (false, dst)
    else
      self.parsePayload u
        ((text.drop (self.head.length + 1)).take (checksumOffset - self.head.length - 1)) dst

/-- The scan for `'$'` in `Sentence::find`: the text after the first `'$'`. -/
def Sentence.findBegin : Text → Option Text
  | [] => none
  | c :: r => if c = 0 then none else if c = 36 then some r else Sentence.findBegin r

/-- The scan for `"\r\n"` in `Sentence::find`: the span before it and the text after it. -/
def Sentence.findEnd : Text → Option (Text × Text)
  | [] => none
  | c :: r =>
    if c = 0 then none
    else if c = 13 ∧ r.head? = some 10 then some ([], r.tail)
    else (Sentence.findEnd r).map (fun x => (c :: x.1, x.2))

/-- Method `Sentence::find(from, length, next)` on a C string: the sentence text (of the
returned `length`) and the text at `next`, or `none` for `NULL`. -/
def Sentence.find (src : Text) : Option (Text × Text) :=
  match Sentence.findBegin src with
  | none => none
  | some r => Sentence.findEnd r

/-! ## GGA.h, GSA.h, GSA1.h, RMC1.h -/

def fGGA : List Field :=
  [field TIME tTime, field LATITUDE tFloat9_4, field LATITUDE_NS tChar,
   field LONGITUDE tFloat10_4, field LONGITUDE_EW tChar, field FIX_QUALITY tInt1,
   field SAT_IN_USE tInt2, field HDOP tFloat3_1, field ALTITUDE tFloat3_1,
   field ALTITUDE_UNITS tChar, field DIFF tFloat3_1, field DIFF_UNITS tChar,
   field DGPS_TIME tFloat3_1, field DGPS_ID tInt4]

def sGGA : Sentence := ⟨str "GPGGA", fGGA⟩

/-- The twelve entries `SAT_IN_USE_01 .. SAT_IN_USE_12` shared by `fGSA` and `fGSA1`. -/
def fGSA_sats : List Field :=
  [field SAT_IN_USE_01 tInt2, field (SAT_IN_USE_01 + 1) tInt2, field (SAT_IN_USE_01 + 2) tInt2,
   field (SAT_IN_USE_01 + 3) tInt2, field (SAT_IN_USE_01 + 4) tInt2,
   field (SAT_IN_USE_01 + 5) tInt2, field (SAT_IN_USE_01 + 6) tInt2,
   field (SAT_IN_USE_01 + 7) tInt2, field (SAT_IN_USE_01 + 8) tInt2,
   field (SAT_IN_USE_01 + 9) tInt2, field (SAT_IN_USE_01 + 10) tInt2,
   field (SAT_IN_USE_01 + 11) tInt2]

def fGSA : List Field :=
  [field FIX_MODE tChar, field FIX_TYPE tInt1] ++ fGSA_sats ++
  [field PDOP tFloat3_1, field HDOP tFloat3_1, field VDOP tFloat3_1]

def sGSA : Sentence := ⟨str "GPGSA", fGSA⟩

def GSA_UNKNOWN_1 : Nat := 1000

def fGSA1 : List Field :=
  [field FIX_MODE tChar, field FIX_TYPE tInt1] ++ fGSA_sats ++
  [field GSA_UNKNOWN_1 tInt2, field PDOP tFloat3_1, field HDOP tFloat3_1, field VDOP tFloat3_1]

def sGSA1 : Sentence := ⟨str "GPGSA", fGSA1⟩

def fRMC1 : List Field :=
  [field TIME tTime, field STATUS tChar, field LATITUDE tFloat9_4, field LATITUDE_NS tChar,
   field LONGITUDE tFloat10_4, field LONGITUDE_EW tChar, field SPEED tFloat3_1,
   field DIRECTION tFloat3_1, field DATE tDate, field DECLINATION tFloat3_1,
   field DECLINATION_EW tChar, field FIX_MODE_INDICATOR tChar]

def sRMC1 : Sentence := ⟨str "GPRMC", fRMC1⟩

/-- Modelled from the spec: the format table of `RMC.h`, which is not among the sources.
It is the shape of `RMC1.h` without the trailing mode indicator (section 4.3, and the
comment on `RMC1` in `NMEA.cpp`); the sentences of `test.cpp` fix its eleven fields. -/
def fRMC : List Field :=
  [field TIME tTime, field STATUS tChar, field LATITUDE tFloat9_4, field LATITUDE_NS tChar,
   field LONGITUDE tFloat10_4, field LONGITUDE_EW tChar, field SPEED tFloat3_1,
   field DIRECTION tFloat3_1, field DATE tDate, field DECLINATION tFloat3_1,
   field DECLINATION_EW tChar]

def sRMC : Sentence := ⟨str "GPRMC", fRMC⟩

/-- Modelled from the spec: the format table of `GLL.h`, which is not among the sources.
The sentences of `test.cpp` (`"$GPGLL,0123.4560,N,00987.6540,W,172724.00,A*15"`) fix its
six fields and their codecs. -/
def fGLL : List Field :=
  [field LATITUDE tFloat9_4, field LATITUDE_NS tChar, field LONGITUDE tFloat10_4,
   field LONGITUDE_EW tChar, field TIME tTime, field STATUS tChar]

def sGLL : Sentence := ⟨str "GPGLL", fGLL⟩

/-! ## GSV.h and GSV.cpp -/

def GSV_MESSAGE_COUNT : Nat := 100
def GSV_MESSAGE_NUMBER : Nat := 101
def GSV_SATELLITE_01_PRN : Nat := 102
def GSV_SATELLITE_01_ELV : Nat := 103
def GSV_SATELLITE_01_AZM : Nat := 104
def GSV_SATELLITE_01_SNR : Nat := 105

/-- The macro `GSV_FORMAT_HEADER`. -/
def GSV_FORMAT_HEADER : List Field :=
  [field GSV_MESSAGE_COUNT tInt1, field GSV_MESSAGE_NUMBER tInt1, field SAT_IN_VIEW tInt2]

/-- The macro `GSV_FORMAT_SAT(n)`, with `k = n - 1`. -/
def GSV_FORMAT_SAT (k : Nat) : List Field :=
  [field (GSV_SATELLITE_01_PRN + k * 4) tInt2, field (GSV_SATELLITE_01_ELV + k * 4) tInt2,
   field (GSV_SATELLITE_01_AZM + k * 4) tInt3, field (GSV_SATELLITE_01_SNR + k * 4) tInt2]

def fGSV1 : List Field := GSV_FORMAT_HEADER ++ GSV_FORMAT_SAT 0
def fGSV2 : List Field := GSV_FORMAT_HEADER ++ GSV_FORMAT_SAT 0 ++ GSV_FORMAT_SAT 1
def fGSV3 : List Field :=
  GSV_FORMAT_HEADER ++ GSV_FORMAT_SAT 0 ++ GSV_FORMAT_SAT 1 ++ GSV_FORMAT_SAT 2
def fGSV : List Field :=
  GSV_FORMAT_HEADER ++ GSV_FORMAT_SAT 0 ++ GSV_FORMAT_SAT 1 ++ GSV_FORMAT_SAT 2 ++
    GSV_FORMAT_SAT 3

/-- The `Sentence` base object of the `GSVSentence` named `sGSV1`. -/
def sGSV1 : Sentence := ⟨str "GPGSV", fGSV1⟩
/-- The `Sentence` base object of the `GSVSentence` named `sGSV2`. -/
def sGSV2 : Sentence := ⟨str "GPGSV", fGSV2⟩
/-- The `Sentence` base object of the `GSVSentence` named `sGSV3`. -/
def sGSV3 : Sentence := ⟨str "GPGSV", fGSV3⟩
/-- The `Sentence` base object of the `GSVSentence` named `sGSV`. -/
def sGSV : Sentence := ⟨str "GPGSV", fGSV⟩

def SAT_IN_MESSAGE : Nat := 4
def MAX_GSV_MESSAGES : Nat := MAX_SAT_IN_VIEW / SAT_IN_MESSAGE

/-- The store `gsv` that `GSVSentence::toString` fills for message `msgNo` of `msgCount`:
the inner loop over `satNo`. -/
def GSVSentence.frameSats (src : Dataset) (msgNo : Nat) : List Nat → Dataset → Dataset
  | [], gsv => gsv
  | satNo :: rest, gsv =>
    let i := SATELLITE_01 + (msgNo - 1) * SAT_IN_MESSAGE + satNo
    let gsv1 :=
      if src.isPresent i then
        let sat := (src.get i).toSatellite
        (((gsv.set (GSV_SATELLITE_01_PRN + satNo * 4) (Variant.int sat.prn)).set
          (GSV_SATELLITE_01_ELV + satNo * 4) (Variant.int sat.elevation)).set
          (GSV_SATELLITE_01_AZM + satNo * 4) (Variant.int sat.azimuth)).set
          (GSV_SATELLITE_01_SNR + satNo * 4) (Variant.int sat.snr)
      else gsv
    GSVSentence.frameSats src msgNo rest gsv1

/-- The store `gsv` of one iteration of the loop over `msgNo` in `GSVSentence::toString`. -/
def GSVSentence.frame (src : Dataset) (msgCount msgNo : Nat) : Dataset :=
  GSVSentence.frameSats src msgNo (List.range SAT_IN_MESSAGE)
    (((src.copy SAT_IN_VIEW Dataset.empty).set GSV_MESSAGE_COUNT (Variant.int msgCount)).set
      GSV_MESSAGE_NUMBER (Variant.int msgNo))

/-- The loop over `msgNo` in `GSVSentence::toString`. -/
def GSVSentence.frames (self : Sentence) (src : Dataset) (msgCount : Nat) :
    List Nat → Text → Text
  | [], dst => dst
  | msgNo :: rest, dst =>
    GSVSentence.frames self src msgCount rest
      (self.toString (GSVSentence.frame src msgCount msgNo) dst)

/-- Method `GSVSentence::toString(from, to)`: the string `to` after the call. -/
def GSVSentence.toString (self : Sentence) (src : Dataset) (dst : Text) : Text :=
  let satCount0 := (src.get SAT_IN_VIEW).toInt
  if satCount0 ≤ 0 then dst
  else
    let satCount := if satCount0 > MAX_SAT_IN_VIEW then MAX_SAT_IN_VIEW else satCount0.toNat
    let msgCount := satCount / SAT_IN_MESSAGE + (if satCount % SAT_IN_MESSAGE ≠ 0 then 1 else 0)
    GSVSentence.frames self src msgCount (List.range' 1 msgCount) dst

/-- The loop of `GSVSentence::parse` that removes the slots from `first` on. -/
def GSVSentence.clearFrom (first : Nat) (dst : Dataset) : Dataset :=
  (List.range' first (MAX_GSV_MESSAGES * SAT_IN_MESSAGE - first)).foldl
    (fun d i => d.remove (SATELLITE_01 + i)) dst

/-- One iteration of the loop over `satNo` in `GSVSentence::parse`. -/
def GSVSentence.parseSlot (gsv : Dataset) (msgNo : Nat) (dst : Dataset) (satNo : Nat) : Dataset :=
  let i := SATELLITE_01 + (msgNo - 1) * SAT_IN_MESSAGE + satNo
  if gsv.isPresent (GSV_SATELLITE_01_PRN + satNo * 4)
      && gsv.isPresent (GSV_SATELLITE_01_ELV + satNo * 4)
      && gsv.isPresent (GSV_SATELLITE_01_AZM + satNo * 4)
      && gsv.isPresent (GSV_SATELLITE_01_SNR + satNo * 4) then
    dst.set i (Variant.satellite
      { prn := (gsv.get (GSV_SATELLITE_01_PRN + satNo * 4)).toInt
        elevation := (gsv.get (GSV_SATELLITE_01_ELV + satNo * 4)).toInt
        azimuth := (gsv.get (GSV_SATELLITE_01_AZM + satNo * 4)).toInt
        snr := (gsv.get (GSV_SATELLITE_01_SNR + satNo * 4)).toInt })
  else dst.remove i

/-- Method `GSVSentence::parse(from, length, to)`: the result and the store after the call. -/
def GSVSentence.parse (self : Sentence) (u : Int) (text : Text) (dst : Dataset) :
    Bool × Dataset :=
  let r := self.parse u text Dataset.empty
  if r.1 = false then (false, dst)
  else
    let gsv := r.2
    let msgCount := (gsv.get GSV_MESSAGE_COUNT).toInt
    if msgCount ≤ 0 ∨ msgCount > MAX_GSV_MESSAGES then (false, dst)
    else
      let msgNo := (gsv.get GSV_MESSAGE_NUMBER).toInt
      if msgNo ≤ 0 ∨ msgNo > msgCount then (false, dst)
      else
        let dst1 :=
          if msgNo = 1 ∧ msgCount < MAX_GSV_MESSAGES then
            GSVSentence.clearFrom (msgCount.toNat * SAT_IN_MESSAGE) dst
          else dst
        let dst2 := gsv.copy SAT_IN_VIEW dst1
        (true, (List.range SAT_IN_MESSAGE).foldl (GSVSentence.parseSlot gsv msgNo.toNat) dst2)

/-! ## NMEA.h and NMEA.cpp -/

def GGA : Nat := 0x00000001
def GSA : Nat := 0x00000002
def GSV : Nat := 0x00000004
def RMC : Nat := 0x00000008
def GLL : Nat := 0x00000010
def ALL : Nat := 0x0000FFFF
def GSA1 : Nat := 0x00010000
def RMC1 : Nat := 0x00020000
def GSV1 : Nat := 0x00400000
def GSV2 : Nat := 0x00800000
def GSV3 : Nat := 0x01000000

/-- A `const Sentence*` into the catalog: the address of one of the ten catalog objects. -/
inductive SentencePtr where
  | GGA | GSA | GSA1 | GSV | GSV1 | GSV2 | GSV3 | RMC | RMC1 | GLL
deriving DecidableEq, Repr

/-- The `Sentence` (base) object a catalog pointer points to. -/
def SentencePtr.sentence : SentencePtr → Sentence
  | .GGA => sGGA | .GSA => sGSA | .GSA1 => sGSA1
  | .GSV => sGSV | .GSV1 => sGSV1 | .GSV2 => sGSV2 | .GSV3 => sGSV3
  | .RMC => sRMC | .RMC1 => sRMC1 | .GLL => sGLL

/-- Whether the object is a `GSVSentence`, whose virtual methods override the generic ones. -/
def SentencePtr.isGSV : SentencePtr → Bool
  | .GSV | .GSV1 | .GSV2 | .GSV3 => true
  | _ => false

/-- The virtual call `(*i)->toString(from, to)`. -/
def SentencePtr.toString (p : SentencePtr) (src : Dataset) (dst : Text) : Text :=
  if p.isGSV then GSVSentence.toString p.sentence src dst else p.sentence.toString src dst

/-- The virtual call `(*i)->parse(p, length, to)`. -/
def SentencePtr.parse (p : SentencePtr) (u : Int) (text : Text) (dst : Dataset) :
    Bool × Dataset :=
  if p.isGSV then GSVSentence.parse p.sentence u text dst else p.sentence.parse u text dst

/-- The function `getSentences(s)`. -/
def getSentences (s : Nat) : List SentencePtr :=
  (if s &&& GGA ≠ 0 then [SentencePtr.GGA] else []) ++
  (if s &&& GSA ≠ 0 then [SentencePtr.GSA] else []) ++
  (if s &&& GSA1 ≠ 0 then [SentencePtr.GSA1] else []) ++
  (if s &&& GSV ≠ 0 then [SentencePtr.GSV] else []) ++
  (if s &&& GSV1 ≠ 0 then [SentencePtr.GSV1] else []) ++
  (if s &&& GSV2 ≠ 0 then [SentencePtr.GSV2] else []) ++
  (if s &&& GSV3 ≠ 0 then [SentencePtr.GSV3] else []) ++
  (if s &&& RMC ≠ 0 then [SentencePtr.RMC] else []) ++
  (if s &&& RMC1 ≠ 0 then [SentencePtr.RMC1] else []) ++
  (if s &&& GLL ≠ 0 then [SentencePtr.GLL] else [])

/-- The function `toSentenceId(pSentence)`. -/
def toSentenceId : SentencePtr → Nat
  | .GGA => GGA
  | .GSA | .GSA1 => GSA
  | .GSV | .GSV1 | .GSV2 | .GSV3 => GSV
  | .RMC | .RMC1 => RMC
  | .GLL => GLL

/-- The loop over the sentence chain in `NMEA::generate`. -/
def generateLoop (src : Dataset) : List SentencePtr → Text → Text
  | [], dst => dst
  | p :: rest, dst => generateLoop src rest (p.toString src dst)

/-- The function `NMEA::generate(from, to, s)`: the string `to` after the call. -/
def generate (src : Dataset) (dst : Text) (s : Nat) : Text :=
  generateLoop src (getSentences s) dst

/-- The inner loop of `NMEA::parse`: the first sentence of the chain that accepts the
text updates the store and the mask. -/
def parseChain (u : Int) (text : Text) : List SentencePtr → Dataset → Nat → Dataset × Nat
  | [], dst, s => (dst, s)
  | p :: rest, dst, s =>
    let r := p.parse u text dst
    if r.1 then (r.2, s ||| toSentenceId p) else parseChain u text rest r.2 s

/-- The outer loop of `NMEA::parse`: `next` is the text at the pointer `next`; the result is
the text at `next` on exit, the store and the mask. -/
def parseLoop (u : Int) (chain : List SentencePtr) :
    Nat → Text → Dataset → Nat → Text × Dataset × Nat
  | 0, next, dst, s => (next, dst, s)
  | fuel + 1, next, dst, s =>
    match Sentence.find next with
    | none => (next, dst, s)
    | some (text, next1) =>
      let r := parseChain u text chain dst s
      parseLoop u chain fuel next1 r.1 r.2

/-- The function `NMEA::parse(from, to, s)` on the C string `src`: the returned count of
consumed bytes, the store and the mask `s` after the call. -/
def parse (u : Int) (src : Text) (dst : Dataset) (s : Nat) : Nat × Dataset × Nat :=
  let s1 := if s &&& GSA ≠ 0 then s ||| GSA1 else s
  let s2 := if s1 &&& RMC ≠ 0 then s1 ||| RMC1 else s1
  let s3 := if s2 &&& GSV ≠ 0 then s2 ||| (GSV1 ||| GSV2 ||| GSV3) else s2
  let r := parseLoop u (getSentences s3) (src.length + 1) src dst 0
  (src.length - r.1.length, r.2.1, r.2.2)

/-! ## Info.h -/

/-- Method `Info::setFixQuality`. -/
def Info.setFixQuality (d : Dataset) (fixQuality : Int) : Dataset :=
  ((d.set FIX_QUALITY (Variant.int fixQuality)).set FIX_MODE_INDICATOR
    (Variant.char (if fixQuality > 0 then 65 else 78))).set STATUS
    (Variant.char (if fixQuality > 0 then 65 else 86))

/-- The constructor `Info::Info()`. -/
def Info.new : Dataset :=
  Info.setFixQuality ((Dataset.empty.set FIX_MODE (Variant.char 65)).set FIX_TYPE (Variant.int 1)) 0

/-- The loop of `Info::setSatsInView` from index `i` on. -/
def Info.setSats : List Satellite → Nat → Dataset → Dataset
  | [], _, d => d
  | sat :: rest, i, d => Info.setSats rest (i + 1) (d.set (SATELLITE_01 + i) (Variant.satellite sat))

/-- Method `Info::setSatsInView`. -/
def Info.setSatsInView (d : Dataset) (satsInView : List Satellite) : Dataset :=
  (Info.setSats satsInView 0 d).set SAT_IN_VIEW (Variant.int satsInView.length)

/-- Method `Info::clearSatsInView`. -/
def Info.clearSatsInView (d : Dataset) : Dataset :=
  (List.range MAX_SAT_IN_VIEW).foldl (fun acc i => acc.remove (SATELLITE_01 + i))
    (d.set SAT_IN_VIEW (Variant.int 0))

/-- Method `Info::getSatsInView() const`: the number of satellite slots present. -/
def Info.getSatsInView (d : Dataset) : Nat :=
  ((List.range MAX_SAT_IN_VIEW).filter (fun i => d.isPresent (SATELLITE_01 + i))).length

/-- Method `Info::copyFixInformation(to)`: the store `to` after the call. -/
def Info.copyFixInformation (d dst : Dataset) : Dataset :=
  d.copy STATUS (d.copy FIX_MODE_INDICATOR (d.copy FIX_QUALITY (d.copy FIX_TYPE dst)))

/-- Method `Info::copyLatitude(to)`. -/
def Info.copyLatitude (d dst : Dataset) : Dataset :=
  d.copy LATITUDE_NS (d.copy LATITUDE dst)

/-- Method `Info::copyLongitude(to)`. -/
def Info.copyLongitude (d dst : Dataset) : Dataset :=
  d.copy LONGITUDE_EW (d.copy LONGITUDE dst)

/-- Method `Info::copyAltitude(to)`. -/
def Info.copyAltitude (d dst : Dataset) : Dataset :=
  d.copy ALTITUDE_UNITS (d.copy ALTITUDE dst)

/-- Method `Info::copySpeed(to)`. -/
def Info.copySpeed (d dst : Dataset) : Dataset := d.copy SPEED dst

/-- Method `Info::copyDirection(to)`. -/
def Info.copyDirection (d dst : Dataset) : Dataset := d.copy DIRECTION dst

/-- Method `Info::copyDeclination(to)`. -/
def Info.copyDeclination (d dst : Dataset) : Dataset :=
  d.copy DECLINATION_EW (d.copy DECLINATION dst)

/-- Method `Info::copyDiff(to)`. -/
def Info.copyDiff (d dst : Dataset) : Dataset :=
  d.copy DIFF_UNITS (d.copy DIFF dst)

/-- Method `Info::copyDGPS(to)`. -/
def Info.copyDGPS (d dst : Dataset) : Dataset :=
  d.copy DGPS_ID (d.copy DGPS_TIME dst)

/-- Method `Info::copyDateTime(to)`. -/
def Info.copyDateTime (d dst : Dataset) : Dataset :=
  d.copy TIME (d.copy DATE dst)

/-- Method `Info::copySatellites(to)`. -/
def Info.copySatellites (d dst : Dataset) : Dataset :=
  (List.range MAX_SAT_IN_USE).foldl (fun acc i => d.copy (SAT_IN_USE_01 + i) acc)
    ((List.range MAX_SAT_IN_VIEW).foldl (fun acc i => d.copy (SATELLITE_01 + i) acc)
      (d.copy SAT_IN_VIEW (d.copy SAT_IN_USE dst)))

/-- The eleven copier calls of `test_copy`, in its order: the store `to` after them. -/
def Info.copyGroups (src dst : Dataset) : Dataset :=
  Info.copyDateTime src (Info.copySatellites src (Info.copyDGPS src (Info.copyDiff src
    (Info.copyDeclination src (Info.copyDirection src (Info.copySpeed src
      (Info.copyAltitude src (Info.copyLongitude src (Info.copyLatitude src
        (Info.copyFixInformation src dst))))))))))

/-! ## Sentences of test.cpp -/

/-- The first sentence of `test_parse_gobi_gsv`, between `'$'` and the line end. -/
def gobiFrame1 : Text := str "GPGSV,2,1,08,01,11,051,91,02,,052,92,03,13,,93,04,14,054,*4A"

/-- The second sentence of `test_parse_gobi_gsv`. -/
def gobiFrame2 : Text := str "GPGSV,2,2,08,05,,,95,06,16,,,07,,057,,08,18,058,98*71"

/-- The three sentences of the twelve-satellite update of `test_parse_sat_decrease`. -/
def decreaseFrames : List Text :=
  [str "GPGSV,3,1,12,01,50,090,99,02,50,090,99,03,50,090,99,04,50,090,99*7C",
   str "GPGSV,3,2,12,05,50,090,99,06,50,090,99,07,50,090,99,08,50,090,99*77",
   str "GPGSV,3,3,12,09,50,090,99,10,50,090,99,11,50,090,99,12,50,090,99*71"]

/-- The four sentences of the sixteen-satellite update of `test_parse_sat`. -/
def sixteenFrames : List Text :=
  [str "GPGSV,4,1,16,01,50,090,99,02,50,090,99,03,50,090,99,04,50,090,99*7F",
   str "GPGSV,4,2,16,05,50,090,99,06,50,090,99,07,50,090,99,08,50,090,99*74",
   str "GPGSV,4,3,16,09,50,090,99,10,50,090,99,11,50,090,99,12,50,090,99*72",
   str "GPGSV,4,4,16,13,50,090,99,14,50,090,99,15,50,090,99,16,50,090,99*7A"]

end NMEA

/-! ## SirfProtocol.cpp: framing -/

namespace Sirf

def SIRF_HEADER : Nat := 0xA0A2
def SIRF_FOOTER : Nat := 0xB0B3
def SIRF_AUX_SIZE : Nat := 8
def SIRF_MIN_SIZE : Nat := SIRF_AUX_SIZE + 2

/-- The function `sirfChecksum(payload, size)`: a `uint16_t` sum, masked to 15 bits. -/
def sirfChecksum (payload : List Nat) : Nat :=
  (payload.foldl (fun checksum b => (checksum + b) % 65536) 0) &&& 0x7FFF

/-- Method `SirfInputStream::read16` at offset `off`: the two bytes, most significant first. -/
def read16 (data : List Nat) (off : Nat) : Nat := data.getD off 0 * 256 + data.getD (off + 1) 0

/-- One iteration of the `while` loop of `SirfProtocol::tryParse` with the stream at offset
`off`: the offset after the iteration and the payload if a message was validated. -/
def tryParseStep (data : List Nat) (off : Nat) : Nat × Option (List Nat) :=
  if read16 data off = SIRF_HEADER then
    let len := read16 data (off + 2)
    if len + 4 > data.length - (off + 4) ∨ len ≤ 0 then (off + 4, none)
    else
      let payload := (data.drop (off + 4)).take len
      let checksum := read16 data (off + 4 + len)
      if read16 data (off + 6 + len) ≠ SIRF_FOOTER then (off + 8 + len, none)
      else if checksum ≠ sirfChecksum payload then (off + 8 + len, none)
      else (off + 8 + len, some payload)
  else (off + 1, none)

/-- The `while` loop of `SirfProtocol::tryParse`: the value of `parsedBytes` and the payloads
of the validated messages, in order. -/
def tryParseLoop (data : List Nat) : Nat → Nat → Nat → List (List Nat) → Nat × List (List Nat)
  | 0, _, parsedBytes, msgs => (parsedBytes, msgs)
  | fuel + 1, off, parsedBytes, msgs =>
    if SIRF_MIN_SIZE ≤ data.length - off then
      match tryParseStep data off with
      | (off1, some payload) => tryParseLoop data fuel off1 off1 (msgs ++ [payload])
      | (off1, none) => tryParseLoop data fuel off1 parsedBytes msgs
    else (parsedBytes, msgs)

/-- Method `SirfProtocol::tryParse(data, size)`: the returned `parsedBytes` and the payloads
of the validated messages. -/
def tryParse (data : List Nat) : Nat × List (List Nat) :=
  tryParseLoop data (data.length + 1) 0 0 []

end Sirf

/-! ## Terms in which the properties are stated -/

namespace NMEA

/-- The comma-separated tokens of a payload. -/
def splitTokens : Text → List Text
  | [] => [[]]
  | c :: r =>
    if c = 44 then [] :: splitTokens r
    else
      match splitTokens r with
      | t :: ts => (c :: t) :: ts
      | [] => [[c]]

/-- The payload region of a sentence text: between the comma after the header and the
checksum marker. -/
def payloadOf (self : Sentence) (text : Text) : Text :=
  (text.drop (self.head.length + 1)).take (text.length - 3 - self.head.length - 1)

/-- The value a field takes from its token: what the codec parsed if the token is not
empty and the codec accepts it. -/
def fieldValue (u : Int) (token : Token) (t : Text) : Option Variant :=
  if t = [] then none else token.parse u t

/-- The sixteen upper-case hexadecimal digits. -/
def hexUpper (d : Nat) : Nat := (str "0123456789ABCDEF").getD d 0

/-- The exclusive or of all the bytes of a text. -/
def xorBytes (l : Text) : Nat := l.foldr (fun c acc => c ^^^ acc) 0

/-- The satellite record `GSVSentence::parse` commits for slot `satNo` of a decoded frame
`gsv`, or `none` when one of its four sub-fields is absent. -/
def GSVSentence.slotValue (gsv : Dataset) (satNo : Nat) : Option Variant :=
  if gsv.isPresent (GSV_SATELLITE_01_PRN + satNo * 4)
      && gsv.isPresent (GSV_SATELLITE_01_ELV + satNo * 4)
      && gsv.isPresent (GSV_SATELLITE_01_AZM + satNo * 4)
      && gsv.isPresent (GSV_SATELLITE_01_SNR + satNo * 4) then
    some (Variant.satellite
      { prn := (gsv.get (GSV_SATELLITE_01_PRN + satNo * 4)).toInt
        elevation := (gsv.get (GSV_SATELLITE_01_ELV + satNo * 4)).toInt
        azimuth := (gsv.get (GSV_SATELLITE_01_AZM + satNo * 4)).toInt
        snr := (gsv.get (GSV_SATELLITE_01_SNR + satNo * 4)).toInt })
  else none

/-- The token of sub-field `c` (prn, elevation, azimuth, snr) of slot `j` of the GPGSV
text; empty when the payload has no such token. -/
def gsvToken (self : Sentence) (text : Text) (j c : Nat) : Text :=
  (splitTokens (payloadOf self text)).getD (3 + 4 * j + c) []

/-- The message count written in a GPGSV text: its first token read as a number. -/
def gsvMessageCount (self : Sentence) (text : Text) : Nat :=
  (atoi ((splitTokens (payloadOf self text)).getD 0 [])).toNat

/-- The message number written in a GPGSV text: its second token read as a number. -/
def gsvMessageNumber (self : Sentence) (text : Text) : Nat :=
  (atoi ((splitTokens (payloadOf self text)).getD 1 [])).toNat

/-- A GPGSV text that `sGSV` accepts as message `k` of `m` with all four sub-fields of all
four slots written. -/
def GSVSentence.fullFrame (u : Int) (m k : Nat) (text : Text) : Prop :=
  (SentencePtr.GSV.parse u text Dataset.empty).1 = true ∧
  gsvMessageCount sGSV text = m ∧ gsvMessageNumber sGSV text = k ∧
  ∀ j, j < 4 → ∀ c, c < 4 → gsvToken sGSV text j c ≠ []

instance (u : Int) (m k : Nat) (text : Text) : Decidable (GSVSentence.fullFrame u m k text) := by
  unfold GSVSentence.fullFrame; exact inferInstance

/-- The store after decoding the given sentence texts in order with the catalog object `p`. -/
def decodeFrames (p : SentencePtr) (u : Int) (frames : List Text) (dst : Dataset) : Dataset :=
  frames.foldl (fun d t => (p.parse u t d).2) dst

/-- The text a codec writes for a field of the store: empty when the field is absent. -/
def renderOf (src : Dataset) (f : Field) : Text :=
  match src f.1 with
  | some v => f.2.toString v
  | none => []

/-- The sentence text that `Sentence::toString` writes between `'$'` and `"\r\n"`. -/
def Sentence.body (self : Sentence) (src : Dataset) : Text :=
  self.head ++ Sentence.renderFields src self.format ++
    42 :: (fmtHex2 (calcChecksum (self.head ++ Sentence.renderFields src self.format))).take 2

/-- The values a codec can render, as the round-trip property lists them: integers
`0 <= v < 10 ^ digits`, decimals of at most `decimalDigits` fraction digits whose text the
buffer does not cut, 7-bit characters (below 128) other than `','`, times and dates within
their ranges. -/
def Token.representable : Token → Variant → Prop
  | .int digits, .int v => 0 ≤ v ∧ v < 10 ^ digits
  | .float w d, .double x => x.normalized ∧ x.scale ≤ d ∧ (fmtFloat w d x).length ≤ w + 2
  | .char, .char c => c < 128 ∧ c ≠ 44
  | .time, .time t =>
    0 ≤ t.hour ∧ t.hour ≤ 23 ∧ 0 ≤ t.minute ∧ t.minute ≤ 59 ∧ 0 ≤ t.second ∧ t.second ≤ 60 ∧
      0 ≤ t.hsecond ∧ t.hsecond ≤ 999
  | .date, .date d =>
    1 ≤ d.day ∧ d.day ≤ 31 ∧ 1 ≤ d.month ∧ d.month ≤ 12 ∧ 0 ≤ d.year ∧ d.year ≤ 99
  | _, _ => False

instance (token : Token) (v : Variant) : Decidable (token.representable v) := by
  unfold Token.representable
  split <;> exact inferInstance

/-- A time of day whose `hsecond` is a centisecond count the codec writes unchanged: zero or
two digits. -/
def Variant.centisecondTime : Variant → Prop
  | .time t => t.hsecond = 0 ∨ (10 ≤ t.hsecond ∧ t.hsecond ≤ 99)
  | _ => True

instance (v : Variant) : Decidable v.centisecondTime := by
  unfold Variant.centisecondTime
  split <;> exact inferInstance

/-- The field is absent or holds a value its codec can render. -/
def Dataset.representableAt (src : Dataset) (f : Field) : Prop :=
  match src f.1 with
  | some v => f.2.representable v
  | none => True

instance (src : Dataset) (f : Field) : Decidable (src.representableAt f) := by
  unfold Dataset.representableAt
  split <;> exact inferInstance

/-- Every present field of the format holds a value its codec can render. -/
def Dataset.representable (src : Dataset) (format : List Field) : Prop :=
  ∀ f ∈ format, src.representableAt f

instance (src : Dataset) (format : List Field) : Decidable (src.representable format) := by
  unfold Dataset.representable; exact inferInstance

/-- The field is absent, or holds no time of day, or holds a centisecond time. -/
def Dataset.centisecondTimeAt (src : Dataset) (f : Field) : Prop :=
  match src f.1 with
  | some v => v.centisecondTime
  | none => True

instance (src : Dataset) (f : Field) : Decidable (src.centisecondTimeAt f) := by
  unfold Dataset.centisecondTimeAt
  split <;> exact inferInstance

/-- Every time of day among the present fields of the format is a centisecond time. -/
def Dataset.centisecondTimes (src : Dataset) (format : List Field) : Prop :=
  ∀ f ∈ format, src.centisecondTimeAt f

instance (src : Dataset) (format : List Field) : Decidable (src.centisecondTimes format) := by
  unfold Dataset.centisecondTimes; exact inferInstance

/-- The part of one generated sentence between `'$'` and `"\r\n"`. -/
def stripFrame (text : Text) : Text := (text.drop 1).take (text.length - 3)

/-- A GPGLL text whose second field is the byte `0xC8` and whose two hex digits are those
of the exclusive or of the bytes before the `'*'`, read as unsigned. -/
def highByteText : Text := str "GPGLL,," ++ [0xC8] ++ str ",,,,*98"

/-- A store whose only field is the latitude hemisphere character `0xC8`. -/
def highByteStore : Dataset := Dataset.empty.set LATITUDE_NS (Variant.char 0xC8)

/-- A store whose only field is a time of day with `hsecond = 9`. -/
def hsecondStore : Dataset := Dataset.empty.set TIME (Variant.time ⟨0, 0, 0, 9⟩)

/-- A sentence text in which `Sentence::find` meets neither a NUL nor a `"\r\n"`. -/
def frameSafe : Text → Prop
  | [] => True
  | c :: r => c ≠ 0 ∧ ¬ (c = 13 ∧ r.head? = some 10) ∧ frameSafe r

instance (t : Text) : Decidable (frameSafe t) := by
  induction t with
  | nil => exact isTrue trivial
  | cons c r ih =>
    show Decidable (c ≠ 0 ∧ ¬ (c = 13 ∧ r.head? = some 10) ∧ frameSafe r)
    exact inferInstance

/-- The buffer made of the given sentence texts, each between `'$'` and `"\r\n"`. -/
def joinFrames : List Text → Text
  | [] => []
  | b :: rest => 36 :: b ++ 13 :: 10 :: joinFrames rest

/-- The store and mask after the inner loop of `NMEA::parse` has run on each of the given
sentence texts in order. -/
def parseFrames (u : Int) (chain : List SentencePtr) : List Text → Dataset → Nat → Dataset × Nat
  | [], dst, s => (dst, s)
  | b :: rest, dst, s =>
    parseFrames u chain rest (parseChain u b chain dst s).1 (parseChain u b chain dst s).2

/-- The integer the codec `IntToken<digits>` reads from the text it writes for `v`. -/
def intReadBack (digits : Nat) (v : Int) : Int := atoi ((fmtInt digits v).take (digits + 1))

/-- Sub-field `c` of a satellite record: prn, elevation, azimuth, snr. -/
def Satellite.component (sat : Satellite) (c : Nat) : Int :=
  match c with
  | 0 => sat.prn
  | 1 => sat.elevation
  | 2 => sat.azimuth
  | _ => sat.snr

/-- The satellite record read back from the four sub-fields the GPGSV format writes. -/
def Satellite.readBack (sat : Satellite) : Satellite :=
  ⟨intReadBack 2 sat.prn, intReadBack 2 sat.elevation, intReadBack 3 sat.azimuth,
   intReadBack 2 sat.snr⟩

/-- The sentence texts `GSVSentence::toString` writes for the message numbers `ks`. -/
def GSVSentence.bodies (self : Sentence) (src : Dataset) (msgCount : Nat) (ks : List Nat) :
    List Text :=
  ks.map (fun k => self.body (GSVSentence.frame src msgCount k))

/-- Five satellites within the ranges `Info::setSatsInView` asserts, one below the horizon. -/
def fiveSats : List Satellite :=
  [⟨1, 50, 90, 99⟩, ⟨2, -5, 359, 0⟩, ⟨33, 90, 0, 7⟩, ⟨51, -90, 180, 42⟩, ⟨17, 8, 45, 30⟩]

/-- Eight satellites with the values of `test_parse_sat_decrease`. -/
def eightSats : List Satellite := (List.range 8).map (fun i => ⟨(i : Int) + 1, 50, 90, 99⟩)

/-- A fresh `Info` after `setSatsInView` of eight satellites and then of five: the second
call overwrites slots 1..5 and the count, and the slots 6..8 keep the satellites of the
first call. -/
def staleSatsStore : Dataset :=
  Info.setSatsInView (Info.setSatsInView Info.new eightSats) fiveSats

/-- A value of the codec's type that passes the assertions of the encoder: any integer, any
finite decimal, a 7-bit character (below 128) other than NUL and `','`, a time of day or a
date within the ranges `TimeToken::toString` and `DateToken::toString` assert. -/
def Token.wellTyped : Token → Variant → Prop
  | .int _, .int _ => True
  | .float _ _, .double _ => True
  | .char, .char c => c % 256 ≠ 0 ∧ c % 256 ≠ 44 ∧ c % 256 < 128
  | .time, .time t =>
    0 ≤ t.hour ∧ t.hour ≤ 23 ∧ 0 ≤ t.minute ∧ t.minute ≤ 59 ∧ 0 ≤ t.second ∧ t.second ≤ 60 ∧
      0 ≤ t.hsecond ∧ t.hsecond ≤ 999
  | .date, .date d =>
    1 ≤ d.day ∧ d.day ≤ 31 ∧ 1 ≤ d.month ∧ d.month ≤ 12 ∧ 0 ≤ d.year ∧ d.year ≤ 99
  | _, _ => False

instance (token : Token) (v : Variant) : Decidable (token.wellTyped v) := by
  unfold Token.wellTyped
  split <;> exact inferInstance

/-- The field is absent or holds a well-typed value of its codec. -/
def Dataset.wellTypedAt (src : Dataset) (f : Field) : Prop :=
  match src f.1 with
  | some v => f.2.wellTyped v
  | none => True

instance (src : Dataset) (f : Field) : Decidable (src.wellTypedAt f) := by
  unfold Dataset.wellTypedAt
  split <;> exact inferInstance

/-- The field is absent or holds an integer. -/
def Dataset.intAt (src : Dataset) (key : Nat) : Prop :=
  match src key with
  | some (Variant.int _) => True
  | none => True
  | _ => False

instance (src : Dataset) (key : Nat) : Decidable (src.intAt key) := by
  unfold Dataset.intAt
  split <;> exact inferInstance

/-- The field is absent or holds a satellite record. -/
def Dataset.satelliteAt (src : Dataset) (key : Nat) : Prop :=
  match src key with
  | some (Variant.satellite _) => True
  | none => True
  | _ => False

instance (src : Dataset) (key : Nat) : Decidable (src.satelliteAt key) := by
  unfold Dataset.satelliteAt
  split <;> exact inferInstance

/-- A well-typed store, as far as `NMEA::generate` with the mask `ALL` reads it: every field
of the GPGGA, GPGSA, GPRMC and GPGLL formats is absent or well-typed, `SAT_IN_VIEW` is absent
or an integer and the sixteen satellite slots are absent or satellite records. -/
def Dataset.wellTyped (src : Dataset) : Prop :=
  (∀ f ∈ sGGA.format ++ sGSA.format ++ sRMC.format ++ sGLL.format, src.wellTypedAt f) ∧
  src.intAt SAT_IN_VIEW ∧ ∀ i < MAX_SAT_IN_VIEW, src.satelliteAt (SATELLITE_01 + i)

instance (src : Dataset) : Decidable src.wellTyped := by
  unfold Dataset.wellTyped; exact inferInstance

/-- The seven-sentence capture of `test_loop_back`. -/
def loopBackText : Text :=
  str ("$GPGGA,172724.00,0123.4560,N,00987.6540,W,1,08,1.5,,,,,,0004*45\r\n" ++
    "$GPGSA,A,3,01,02,03,04,05,06,07,08,,,,,,1.5,*3E\r\n" ++
    "$GPGSV,3,1,09,01,10,020,30,02,11,021,31,03,12,022,32,04,13,023,33*76\r\n" ++
    "$GPGSV,3,2,09,05,14,024,34,06,15,025,35,07,16,026,36,08,17,027,37*7D\r\n" ++
    "$GPGSV,3,3,09,09,18,028,38,,,,,,,,,,,,*41\r\n" ++
    "$GPRMC,172724.00,A,0123.4560,N,00987.6540,W,14.4,25.1,160908,,*23\r\n" ++
    "$GPGLL,0123.4560,N,00987.6540,W,172724.00,A*15\r\n")

/-- The store `test_loop_back` decodes from its capture into a fresh `Info`. -/
def loopBackStore : Dataset := (parse 0 loopBackText Info.new ALL).2.1

/-- A fresh `Info` whose latitude hemisphere character is `','`. -/
def commaStore : Dataset := Info.new.set LATITUDE_NS (Variant.char 44)

/-- A fresh `Info` after `setHDOP(1.5)`. -/
def hdopStore : Dataset := Info.new.set HDOP (Variant.double ⟨false, 15, 1⟩)

/-- The sentence of `test_parse_new_rmc`, whose time of day `"123519"` has no fraction. -/
def newRmcText : Text :=
  str "$GPRMC,123519,A,4807.038,N,01131.000,E,022.4,084.4,230394,003.1,W,A*07\r\n"

/-- The same sentence between its `'$'` and its line end. -/
def newRmcBody : Text :=
  str "GPRMC,123519,A,4807.038,N,01131.000,E,022.4,084.4,230394,003.1,W,A*07"

/-- The same sentence with `'X'` at the place of the checksum marker. -/
def newRmcMarked : Text :=
  str "GPRMC,123519,A,4807.038,N,01131.000,E,022.4,084.4,230394,003.1,W,AX07"

/-- The four sub-field tokens a satellite-visibility sentence carries for a slot (counted
from 0): the texts of prn, elevation, azimuth and snr when the slot is present, four empty
tokens when it is not. -/
def gsvSlotTokens (src : Dataset) (slot : Nat) : List Text :=
  match src (SATELLITE_01 + slot) with
  | some v =>
    [tInt2.toString (Variant.int v.toSatellite.prn),
     tInt2.toString (Variant.int v.toSatellite.elevation),
     tInt3.toString (Variant.int v.toSatellite.azimuth),
     tInt2.toString (Variant.int v.toSatellite.snr)]
  | none => [[], [], [], []]

/-- The nineteen tokens of satellite-visibility sentence `k` of `mc` for a store whose
`SAT_IN_VIEW` is `n`: message count, message number, `n`, then four slots. -/
def gsvTokens (src : Dataset) (mc k : Nat) (n : Int) : List Text :=
  [tInt1.toString (Variant.int mc), tInt1.toString (Variant.int k),
   tInt2.toString (Variant.int n)] ++
  (List.range 4).flatMap (fun j => gsvSlotTokens src ((k - 1) * 4 + j))

/-- A sentence text between `'$'` and `"\r\n"`: header, a comma before each token, `'*'` and
the two upper-case hexadecimal digits of the exclusive or of all bytes before the `'*'`. -/
def sentenceText (head : Text) (tokens : List Text) : Text :=
  head ++ tokens.flatMap (fun t => 44 :: t) ++
    [42, hexUpper (xorBytes (head ++ tokens.flatMap (fun t => 44 :: t)) / 16),
     hexUpper (xorBytes (head ++ tokens.flatMap (fun t => 44 :: t)) % 16)]

/-- The offset of the first `"\r\n"` of a text, if there is one. -/
def crlfIndex : Text → Option Nat
  | [] => none
  | c :: r => if c = 13 ∧ r.head? = some 10 then some 0 else (crlfIndex r).map (fun j => j + 1)

/-- The offset just past the first complete frame of a text: past the first `"\r\n"` that
follows the first `'$'`; `none` when the text holds no complete frame. -/
def frameEnd (t : Text) : Option Nat :=
  if t.indexOf 36 < t.length then
    (crlfIndex (t.drop (t.indexOf 36 + 1))).map (fun j => t.indexOf 36 + 1 + j + 2)
  else none

/-- Repeated scanning, at most `fuel` frames: the offset just past the last complete frame. -/
def scanOffsetAux : Nat → Text → Nat
  | 0, _ => 0
  | fuel + 1, t =>
    match frameEnd t with
    | none => 0
    | some k => k + scanOffsetAux fuel (t.drop k)

/-- The offset just past the last complete frame found by repeated scanning; 0 when the text
holds no complete frame. -/
def scanOffset (t : Text) : Nat := scanOffsetAux t.length t

/-- The mask after the three `if`s at the top of `NMEA::parse`: the entry mask with the
private variant bits of the base types it holds. -/
def expandedMask (s : Nat) : Nat :=
  let s1 := if s &&& GSA ≠ 0 then s ||| GSA1 else s
  let s2 := if s1 &&& RMC ≠ 0 then s1 ||| RMC1 else s1
  if s2 &&& GSV ≠ 0 then s2 ||| (GSV1 ||| GSV2 ||| GSV3) else s2

/-- The sentence texts that repeated calls of `Sentence::find` yield, at most `fuel` of
them. -/
def Sentence.findAll : Nat → Text → List Text
  | 0, _ => []
  | fuel + 1, t =>
    match Sentence.find t with
    | none => []
    | some (x, rest) => x :: Sentence.findAll fuel rest

/-- The eighteen fields of the sentence of `test_parse_wrong_gsa`. -/
def wrongGsaTokens : List Text :=
  [str "A", str "3", str "01", str "02", str "03", str "04", str "05", str "06", str "07",
   str "08", str "09", str "10", str "11", str "12", str "99", str "3.5", str "1.5", str "2.5"]

/-- The sentence texts `GSVSentence::toString` writes for a store, in order. -/
def gsvTexts (src : Dataset) : List Text :=
  if (src.get SAT_IN_VIEW).toInt ≤ 0 then []
  else
    GSVSentence.bodies sGSV src
      (((min (src.get SAT_IN_VIEW).toInt 16).toNat + 3) / 4)
      (List.range' 1 (((min (src.get SAT_IN_VIEW).toInt 16).toNat + 3) / 4))

/-- The sentence texts `NMEA::generate` writes with the mask `ALL`, in order: GPGGA, GPGSA,
the GPGSV messages, GPRMC, GPGLL. -/
def generatedTexts (src : Dataset) : List Text :=
  [sGGA.body src, sGSA.body src] ++ gsvTexts src ++ [sRMC.body src, sGLL.body src]

/-- The field ids a format declares. -/
def Sentence.ids (self : Sentence) : List Nat := self.format.map Prod.fst

end NMEA

/-! # The streaming adapter: GPSProtocol.h, GPSProtocol.cpp, NMEAProtocol.cpp -/

namespace GPSProtocol

/-- The enumeration `GPSProtocol::State`. -/
inductive State where
  | UNKNOWN | OK | FAILURE | HARDWARE_FAILURE
deriving DecidableEq, Repr

def MAX_BUF_SIZE : Nat := 1024

/-- The members of `GPSProtocol` that `parse` reads and writes: `_state`, `_parseBuffer`, and
the members `sub` of the derived class that its `tryParse` works on. -/
structure Adapter (σ : Type) where
  state : State
  parseBuffer : List Nat
  sub : σ

/-- The constructor `GPSProtocol::GPSProtocol()`. -/
def Adapter.new {σ : Type} (sub : σ) : Adapter σ := ⟨State.UNKNOWN, [], sub⟩

/-- Method `GPSProtocol::parse(data, size)`: the returned flag and the adapter after the
call. The pure virtual `tryParse` is the parameter `tryParse`: it returns the number of bytes
consumed and the members of the derived class after the call. -/
def parse {σ : Type} (tryParse : σ → List Nat → Nat × σ) (self : Adapter σ) (data : List Nat) :
    Bool × Adapter σ :=
  let buf := self.parseBuffer ++ data
  let r := tryParse self.sub buf
  let after : Adapter σ :=
    if r.1 > 0 then ⟨State.OK, buf.drop r.1, r.2⟩
    else if buf.length ≥ MAX_BUF_SIZE then ⟨State.FAILURE, [], r.2⟩
    else ⟨self.state, buf, r.2⟩
  (decide (after.state ≠ State.FAILURE), after)

/-- The constant `NMEAProtocol::GSV_TIMEOUT`, in milliseconds. -/
def GSV_TIMEOUT : Nat := 5000

/-- Method `NMEAProtocol::tryParse(data, size)`, as far as the byte count and the store
`_info` go: `NMEA::parse` with the mask `ALL` on the C string of the buffer; when bytes were
consumed and no GPGSV was recognised, the satellites in view are cleared once the timer
`_gsvTimer` has run for more than `GSV_TIMEOUT`. The clock is outside the program:
`elapsed` is what `_gsvTimer.elapsed()` returns in this call. The record `_data` that
`updateGPSData` fills from `_info` is left out. -/
def nmeaTryParse (u : Int) (elapsed : Nat) (info : NMEA.Dataset) (data : List Nat) :
    Nat × NMEA.Dataset :=
  let r := NMEA.parse u data info NMEA.ALL
  if r.1 > 0 then
    if r.2.2 &&& NMEA.GSV ≠ 0 then (r.1, r.2.1)
    else if elapsed > GSV_TIMEOUT then (r.1, NMEA.Info.clearSatsInView r.2.1)
    else (r.1, r.2.1)
  else (r.1, r.2.1)

end GPSProtocol

/-! # Terms in which the properties of the binary decoder are stated -/

namespace Sirf

/-- A candidate frame: the bytes `A0 A2`, the length of the payload as two bytes, most
significant first, the payload, the checksum field `c` and the trailer `f`, two bytes each. -/
def frame (payload : List Nat) (c f : Nat) : List Nat :=
  [0xA0, 0xA2, payload.length / 256, payload.length % 256] ++ payload ++
    [c / 256, c % 256, f / 256, f % 256]

end Sirf

/-! # The binary decoder: payload stream and messages of SirfProtocol.cpp, GPSData.h -/

namespace Sirf

/-- The class `SirfInputStream`: the bytes `_origin[0 .. _size)` and the offset
`_p - _origin`. -/
structure SirfInputStream where
  bytes : List Nat
  offset : Nat
deriving DecidableEq, Repr

/-- Method `SirfInputStream::size`. -/
def SirfInputStream.size (s : SirfInputStream) : Nat := s.bytes.length

/-- Method `SirfInputStream::avail`. -/
def SirfInputStream.avail (s : SirfInputStream) : Nat := s.size - s.offset

/-- Method `SirfInputStream::skip(n)`: the stream after the call, or `none` when
`assertAvail(n)` fails. -/
def SirfInputStream.skip (s : SirfInputStream) (n : Nat) : Option SirfInputStream :=
  if n ≤ s.avail then some ⟨s.bytes, s.offset + n⟩ else none

/-- The unsigned value of the `n` bytes at the offset, most significant first. -/
def SirfInputStream.peek (s : SirfInputStream) (n : Nat) : Nat :=
  ((s.bytes.drop s.offset).take n).foldl (fun a b => a * 256 + b) 0

/-- Method `SirfInputStream::read8`: the value and the stream after the call, or `none` when
`assertAvail` fails. -/
def SirfInputStream.read8 (s : SirfInputStream) : Option (Nat × SirfInputStream) :=
  (s.skip 1).map (fun t => (s.peek 1, t))

/-- Method `SirfInputStream::read16`. -/
def SirfInputStream.read16 (s : SirfInputStream) : Option (Nat × SirfInputStream) :=
  (s.skip 2).map (fun t => (s.peek 2, t))

/-- Method `SirfInputStream::read32`. -/
def SirfInputStream.read32 (s : SirfInputStream) : Option (Nat × SirfInputStream) :=
  (s.skip 4).map (fun t => (s.peek 4, t))

/-- The two's complement reading of an unsigned 32-bit value (the cast to `int32_t`). -/
def signed32 (v : Nat) : Int := if v < 2 ^ 31 then (v : Int) else (v : Int) - 2 ^ 32

/-- Method `SirfInputStream::read32s`: the two's complement reading of the four bytes. -/
def SirfInputStream.read32s (s : SirfInputStream) : Option (Int × SirfInputStream) :=
  (s.skip 4).map (fun t => (signed32 (s.peek 4), t))

def GPS_TIME_OFFSET : Nat := 315964800

/-- The function `fromGPSTime(week, timeOfWeek)`, in seconds (the overflow of the `int`
product for weeks beyond 3550 is not modelled). -/
def fromGPSTime (week timeOfWeek : Nat) : Nat :=
  GPS_TIME_OFFSET + week * 7 * 24 * 3600 + timeOfWeek

/-- The structure `GPSData::Fix`, as far as `parseFix` fills it: `gpsTime` is `timetag`
seconds, `localTime` (the time of construction) is left out, and the quotients are exact
decimals. -/
structure Fix where
  quality : Nat
  timetag : Nat
  svInFix : Nat
  prn : List Nat
  latitude : NMEA.Dbl
  longitude : NMEA.Dbl
  height : NMEA.Dbl
  altitude : NMEA.Dbl
  speed : NMEA.Dbl
  bearing : NMEA.Dbl
  hpe : NMEA.Dbl
  hdop : NMEA.Dbl
deriving DecidableEq, Repr

/-- The structure `GPSData::Satellite`. -/
structure Satellite where
  satelliteId : Nat
  azimuth : Nat
  elevation : Nat
  snr : Nat
  timetag : Nat
deriving DecidableEq, Repr

/-- The record `GPSData` of the adapter: `fix` (an `auto_ptr`, possibly null) and
`satellites`. -/
structure GPSData where
  fix : Option Fix
  satellites : List Satellite
deriving DecidableEq, Repr

/-- The exact decimal `v / 10 ^ scale` of a signed integer. -/
def scaled (v : Int) (scale : Nat) : NMEA.Dbl := NMEA.Dbl.ofDecimal (decide (v < 0)) v.natAbs scale

/-- The loop over the 32 bits of `satsMap` in `parseFix`: the PRNs of the first twelve set
bits. -/
def satsInMap (satsMap : Nat) : List Nat :=
  (((List.range 32).filter (fun i => (satsMap >>> i) &&& 1 = 1)).map (fun i => i + 1)).take 12

/-- The constant `MAX_SAT_IN_USE` of `GPSData.h`: the number of elements of `Fix::prn`. -/
def MAX_SAT_IN_USE : Nat := 12

/-- The `for` loop of `parseFix` over the bits `i` of `satsMap` that remain: the array
`fix->prn` and the counter `satsInUse` after it, or `none` when a write falls outside the
array. -/
def prnLoop (satsMap : Nat) : List Nat → List Nat → Nat → Option (List Nat × Nat)
  | [], prn, satsInUse => some (prn, satsInUse)
  | i :: rest, prn, satsInUse =>
    if (satsMap >>> i) &&& 1 ≠ 0 then
      if satsInUse < prn.length then
        if satsInUse + 1 = MAX_SAT_IN_USE then some (prn.set satsInUse (i + 1), satsInUse + 1)
        else prnLoop satsMap rest (prn.set satsInUse (i + 1)) (satsInUse + 1)
      else none
    else if satsInUse = MAX_SAT_IN_USE then some (prn, satsInUse)
    else prnLoop satsMap rest prn satsInUse

/-- The array `fix->prn` and `satsInUse` in `parseFix` after the loop over the 32 bits, run
on the array of zeros that the constructor `Fix::Fix()` leaves. -/
def fixPrn (satsMap : Nat) : Option (List Nat × Nat) :=
  prnLoop satsMap (List.range 32) (List.replicate MAX_SAT_IN_USE 0) 0

/-- Consecutive reads (`read8`, `read16`, `read32`, and `read32s` before its cast) of the
given widths in bytes: the unsigned values in order and the stream after them, or `none` when an `assertAvail` fails. -/
def SirfInputStream.readMany : List Nat → SirfInputStream → Option (List Nat × SirfInputStream)
  | [], s => some ([], s)
  | w :: ws, s =>
    (s.skip w).bind fun t => (t.readMany ws).map fun r => (s.peek w :: r.1, r.2)

/-- The widths of the reads of `parseFix` after the navigation type, in order: week (0),
time of week (1), year, month, day, hour, minute, second (2..7), satellite map (8),
latitude, longitude, height, altitude (9..12), map datum (13), speed (14), bearing (15),
magnetic variation, climb rate, heading rate (16..18), hpe (19), vpe, time error, velocity
error, clock bias, clock bias error, clock drift, clock drift error, distance, distance
error, bearing error, satellites in fix (20..30), hdop (31), additional mode info (32). -/
def fixWidths : List Nat :=
  [2, 4, 2, 1, 1, 1, 1, 2, 4, 4, 4, 4, 4, 1, 2, 2, 2, 2, 2, 4, 4, 4, 2, 4, 4, 4, 4, 4, 2, 2,
   1, 1, 1]

/-- The `Fix` that `parseFix` builds from the values it read. -/
def fixOf (v : List Nat) : Fix :=
  { quality := 1
    timetag := fromGPSTime (v.getD 0 0) (v.getD 1 0 / 1000)
    svInFix := (satsInMap (v.getD 8 0)).length
    prn := satsInMap (v.getD 8 0) ++ List.replicate (12 - (satsInMap (v.getD 8 0)).length) 0
    latitude := scaled (signed32 (v.getD 9 0)) 7
    longitude := scaled (signed32 (v.getD 10 0)) 7
    height := scaled (signed32 (v.getD 11 0)) 2
    altitude := scaled (signed32 (v.getD 12 0)) 2
    speed := scaled (v.getD 14 0) 2
    bearing := scaled (v.getD 15 0) 2
    hpe := if 800 ≤ v.getD 19 0 then scaled (v.getD 19 0) 2 else ⟨false, 0, 0⟩
    hdop := scaled (v.getD 31 0 * 2) 1 }

/-- The function `parseFix(payload)`, called with the stream just past the message id:
`none` when an assertion of the stream fails, `some none` for `NULL`, else the new `Fix`. -/
def parseFix (payload : SirfInputStream) : Option (Option Fix) :=
  if payload.size ≠ 91 then some none
  else
    (payload.skip 2).bind fun s =>
    s.read16.bind fun r =>
    if r.1 &&& 0x07 = 0 then some none
    else
      (r.2.readMany fixWidths).bind fun q =>
      if q.2.avail ≠ 0 then none else some (some (fixOf q.1))

/-- The `for` loop of `parseSatellites`: `n` channels of 15 bytes each. -/
def parseChannels (timetag : Nat) :
    Nat → SirfInputStream → List Satellite → Option (List Satellite × SirfInputStream)
  | 0, s, sats => some (sats, s)
  | n + 1, s, sats =>
    s.read8.bind fun satelliteId =>
    satelliteId.2.read8.bind fun azimuth =>
    azimuth.2.read8.bind fun elevation =>
    (elevation.2.skip 2).bind fun s1 =>
    (s1.skip 9).bind fun s2 =>
    s2.read8.bind fun snr =>
    parseChannels timetag n snr.2
      (if satelliteId.1 ≠ 0 then
        sats ++ [⟨satelliteId.1, azimuth.1 * 3 / 2, elevation.1 / 2, snr.1, timetag⟩]
      else sats)

/-- The function `parseSatellites(payload)`, called with the stream just past the message
id: `none` when an assertion of the stream fails, else the vector returned. -/
def parseSatellites (payload : SirfInputStream) : Option (List Satellite) :=
  payload.read16.bind fun week =>
  week.2.read32.bind fun tow =>
  tow.2.read8.bind fun nsat =>
  if nsat.2.avail ≠ nsat.1 * 15 then some []
  else
    (parseChannels (fromGPSTime week.1 (tow.1 / 100)) nsat.1 nsat.2 []).bind fun r =>
    if r.2.avail ≠ 0 then none else some r.1

/-- The decoding of one validated payload in `SirfProtocol::tryParse`: the record after it,
or `none` when an assertion of the payload stream fails. -/
def decodeMessage (data : GPSData) (payload : List Nat) : Option GPSData :=
  (SirfInputStream.read8 ⟨payload, 0⟩).bind fun id =>
    if id.1 = 41 then (parseFix id.2).map (fun fix => { data with fix := fix })
    else if id.1 = 4 then
      (parseSatellites id.2).map (fun sats => { data with satellites := sats })
    else some data

/-- The decoding of the validated payloads in the order `SirfProtocol::tryParse` meets
them. -/
def decodeMessages : List (List Nat) → GPSData → Option GPSData
  | [], data => some data
  | payload :: rest, data => (decodeMessage data payload).bind (decodeMessages rest)

/-- Method `SirfProtocol::tryParse` with its record `_data`: the returned `parsedBytes` and
the record after the call, or `none` when an assertion of a payload stream fails. -/
def tryParseData (data : List Nat) (record : GPSData) : Option (Nat × GPSData) :=
  (decodeMessages (tryParse data).2 record).map (fun r => ((tryParse data).1, r))

/-- A validated frame of message id 4 whose payload is two bytes long. -/
def shortTrackerFrame : List Nat := frame [4, 0] 4 0xB0B3

/-- A candidate at offset 0 whose declared length does not fit, with a valid frame at
offset 2. -/
def resyncLength : List Nat := [0xA0, 0xA2] ++ frame [0, 1] 1 0xB0B3

/-- A candidate at offset 0 with a wrong checksum whose payload holds a valid frame, at
offset 4. -/
def resyncChecksum : List Nat := frame (frame [0, 1] 1 0xB0B3 ++ [0, 0]) 0 0xB0B3

/-- A payload of 91 bytes for message id 41 with the given navigation type. -/
def fixPayload (navType : Nat) : List Nat :=
  [41, 0, 0, navType / 256, navType % 256] ++ List.replicate 86 0

end Sirf

/-! # Theorems -/

namespace NMEA

theorem findChar_eq_none {p : Text} {c : Nat} : findChar p c = none ↔ c ∉ p := by
  induction p with
  | nil => simp [findChar]
  | cons x xs ih =>
    by_cases h : x = c
    · simp [findChar, h]
    · simp [findChar, h, ih, Ne.symm h]

theorem findChar_some {p : Text} {c i : Nat} (h : findChar p c = some i) :
    i < p.length ∧ p.getD i 0 = c ∧ c ∉ p.take i := by
  induction p generalizing i with
  | nil => simp [findChar] at h
  | cons x xs ih =>
    by_cases hx : x = c
    · simp [findChar, hx] at h
      subst h
      simp [hx]
    · simp only [findChar, hx, if_false, Option.map_eq_some'] at h
      obtain ⟨j, hj, rfl⟩ := h
      obtain ⟨h1, h2, h3⟩ := ih hj
      refine ⟨by simpa using h1, by simpa using h2, ?_⟩
      simp [List.take_succ_cons, h3, Ne.symm hx]

theorem tokenLength_cons_comma (r : Text) : tokenLength (44 :: r) = 0 := by
  simp [tokenLength, findChar]

theorem tokenLength_cons_ne {c : Nat} (r : Text) (h : c ≠ 44) :
    tokenLength (c :: r) = tokenLength r + 1 := by
  simp only [tokenLength, findChar, h, if_false]
  cases findChar r 44 <;> simp

theorem splitTokens_ne_nil (p : Text) : splitTokens p ≠ [] := by
  induction p with
  | nil => simp [splitTokens]
  | cons c r ih =>
    by_cases h : c = 44
    · simp [splitTokens, h]
    · simp only [splitTokens, h, if_false]
      split <;> simp

theorem splitTokens_cons_ne {c : Nat} (r : Text) (h : c ≠ 44) :
    splitTokens (c :: r) = (c :: (splitTokens r).headD []) :: (splitTokens r).tail := by
  simp only [splitTokens, h, if_false]
  have := splitTokens_ne_nil r
  cases hs : splitTokens r with
  | nil => exact absurd hs this
  | cons t ts => simp

theorem splitTokens_length (p : Text) : (splitTokens p).length = p.count 44 + 1 := by
  induction p with
  | nil => simp [splitTokens]
  | cons c r ih =>
    by_cases h : c = 44
    · subst h; simp [splitTokens, ih]
    · rw [splitTokens_cons_ne r h]
      have := splitTokens_ne_nil r
      cases hs : splitTokens r with
      | nil => exact absurd hs this
      | cons t ts =>
        rw [hs] at ih
        simp [List.count_cons, h, Ne.symm h] at ih ⊢
        omega

theorem splitTokens_head (p : Text) : (splitTokens p).headD [] = p.take (tokenLength p) := by
  induction p with
  | nil => simp [splitTokens, tokenLength, findChar]
  | cons c r ih =>
    by_cases h : c = 44
    · subst h; simp [splitTokens, tokenLength_cons_comma]
    · rw [splitTokens_cons_ne r h, tokenLength_cons_ne r h]
      simp only [List.headD_cons, List.take_succ_cons, ih]

theorem splitTokens_tail (p : Text) (h : 44 ∈ p) :
    (splitTokens p).tail = splitTokens (p.drop (tokenLength p + 1)) := by
  induction p with
  | nil => simp at h
  | cons c r ih =>
    by_cases hc : c = 44
    · subst hc; simp [splitTokens, tokenLength_cons_comma]
    · rw [splitTokens_cons_ne r hc, tokenLength_cons_ne r hc]
      have : 44 ∈ r := by
        rcases List.mem_cons.1 h with h | h
        · exact absurd h.symm hc
        · exact h
      simpa using ih this

theorem splitTokens_tail_of_not_mem (p : Text) (h : 44 ∉ p) : (splitTokens p).tail = [] := by
  have := splitTokens_length p
  rw [List.count_eq_zero_of_not_mem h] at this
  cases hs : splitTokens p with
  | nil => rfl
  | cons t ts =>
    rw [hs] at this
    simp at this
    simp [this]

theorem calcTokensLoop_eq (fuel : Nat) (p : Text) (n : Nat) (h : p.length < fuel) :
    calcTokensLoop fuel p n = n + p.count 44 := by
  induction fuel generalizing p n with
  | zero => omega
  | succ fuel ih =>
    cases p with
    | nil => simp [calcTokensLoop]
    | cons c r =>
      simp only [calcTokensLoop, List.length_cons, Nat.zero_lt_succ, if_true]
      cases hf : findChar (c :: r) 44 with
      | none =>
        rw [findChar_eq_none] at hf
        simp [List.count_eq_zero_of_not_mem hf]
      | some i =>
        obtain ⟨h1, h2, h3⟩ := findChar_some hf
        simp only
        rw [ih _ _ (by simp at h ⊢; omega)]
        have hsplit : (c :: r) = (c :: r).take i ++ 44 :: (c :: r).drop (i + 1) := by
          conv_lhs => rw [← List.take_append_drop i (c :: r)]
          congr 1
          rw [List.drop_eq_getElem_cons h1]
          congr 1
          rw [List.getD_eq_getElem _ _ h1] at h2
          exact h2
        conv_rhs => rw [hsplit]
        rw [List.count_append, List.count_eq_zero_of_not_mem h3]
        simp
        omega

theorem calcTokens_eq (p : Text) : calcTokens p = p.count 44 + 1 := by
  unfold calcTokens
  rw [calcTokensLoop_eq _ _ _ (Nat.lt_succ_self _)]
  omega

end NMEA

namespace NMEA

theorem tokenLength_le (p : Text) : tokenLength p ≤ p.length := by
  unfold tokenLength
  cases h : findChar p 44 with
  | none => simp
  | some i => exact le_of_lt (findChar_some h).1

theorem Dataset.set_same (d : Dataset) (f : Nat) (v : Variant) : d.set f v f = some v := by
  simp [Dataset.set]

theorem Dataset.set_other (d : Dataset) {f k : Nat} (v : Variant) (h : k ≠ f) :
    d.set f v k = d k := by
  simp [Dataset.set, h]

theorem Dataset.remove_same (d : Dataset) (f : Nat) : d.remove f f = none := by
  simp [Dataset.remove]

theorem Dataset.remove_other (d : Dataset) {f k : Nat} (h : k ≠ f) : d.remove f k = d k := by
  simp [Dataset.remove, h]

theorem parseFields_not_mem (u : Int) (fmt : List Field) (p : Text) (dst : Dataset) (id : Nat)
    (h : id ∉ fmt.map Prod.fst) : Sentence.parseFields u fmt p dst id = dst id := by
  induction fmt generalizing p dst with
  | nil => rfl
  | cons f rest ih =>
    obtain ⟨fid, tok⟩ := f
    simp only [List.map_cons, List.mem_cons, not_or] at h
    simp only [Sentence.parseFields]
    rw [ih _ _ h.2]
    split
    · split
      · exact Dataset.set_other _ _ h.1
      · exact Dataset.remove_other _ h.1
    · exact Dataset.remove_other _ h.1

theorem parseFields_get (u : Int) (fmt : List Field) (p : Text) (dst : Dataset)
    (hnd : (fmt.map Prod.fst).Nodup) (hlen : (splitTokens p).length = fmt.length)
    (i : Nat) (hi : i < fmt.length) :
    Sentence.parseFields u fmt p dst (fmt.get ⟨i, hi⟩).1
      = fieldValue u (fmt.get ⟨i, hi⟩).2 ((splitTokens p).getD i []) := by
  induction fmt generalizing p dst i with
  | nil => simp at hi
  | cons f rest ih =>
    obtain ⟨fid, tok⟩ := f
    simp only [List.map_cons, List.nodup_cons] at hnd
    have hne := splitTokens_ne_nil p
    cases i with
    | zero =>
      simp only [Sentence.parseFields, List.get_eq_getElem, List.getElem_cons_zero]
      rw [parseFields_not_mem _ _ _ _ _ hnd.1]
      have hhead : (splitTokens p).getD 0 [] = p.take (tokenLength p) := by
        rw [← splitTokens_head]
        cases hs : splitTokens p <;> simp
      rw [hhead]
      unfold fieldValue
      by_cases hn : 0 < tokenLength p
      · have : p.take (tokenLength p) ≠ [] := by
          intro h0
          have := congrArg List.length h0
          simp [List.length_take, Nat.min_eq_left (tokenLength_le p)] at this
          omega
        simp only [hn, if_true, this, if_false]
        cases token_parse : tok.parse u (p.take (tokenLength p)) with
        | none => simp [Dataset.remove_same]
        | some v => simp [Dataset.set_same]
      · have h0 : tokenLength p = 0 := by omega
        simp [h0, Dataset.remove_same]
    | succ k =>
      simp only [Sentence.parseFields, List.get_cons_succ]
      have hk : k < rest.length := by simpa using hi
      by_cases hc : 44 ∈ p
      · have htail := splitTokens_tail p hc
        have hlen2 : (splitTokens (p.drop (tokenLength p + 1))).length = rest.length := by
          rw [← htail]; simp [hlen]
        rw [ih (p.drop (tokenLength p + 1)) _ hnd.2 hlen2 k hk, ← htail]
        cases hs : splitTokens p with
        | nil => exact absurd hs hne
        | cons t ts => simp
      · have htail := splitTokens_tail_of_not_mem p hc
        have : (splitTokens p).length = 1 := by
          cases hs : splitTokens p with
          | nil => exact absurd hs hne
          | cons t ts => rw [hs] at htail; simp at htail; simp [htail]
        rw [this] at hlen
        simp only [List.length_cons] at hlen
        omega

theorem cstr_take_eq_iff (text head : Text) (h0 : 0 ∉ head) :
    (cstr text).take head.length = head ↔ text.take head.length = head := by
  constructor
  · intro h
    have hle : head.length ≤ (cstr text).length := by
      have := congrArg List.length h
      simp [List.length_take] at this
      omega
    have hpre : cstr text <+: text := List.takeWhile_prefix _
    obtain ⟨r, hr⟩ := hpre
    rw [← hr, List.take_append_of_le_length hle, h]
  · intro h
    have htext : text = head ++ text.drop head.length := by
      conv_lhs => rw [← List.take_append_drop head.length text, h]
    have : cstr text = head ++ cstr (text.drop head.length) := by
      conv_lhs => rw [htext]
      unfold cstr
      rw [List.takeWhile_append_of_pos]
      intro a ha
      simp
      intro h; subst h; exact h0 ha
    rw [this, List.take_left']
    rfl

end NMEA

namespace NMEA

theorem foldl_xor_eq (l : Text) (a : Nat) :
    l.foldl (fun checksum c => checksum ^^^ c) a = a ^^^ xorBytes l := by
  induction l generalizing a with
  | nil => simp [xorBytes]
  | cons c r ih =>
    simp only [List.foldl_cons, ih, xorBytes, List.foldr_cons]
    rw [Nat.xor_assoc]

theorem foldl_xor_bits (l : Text) (a : Nat) :
    l.foldl (fun checksum c => checksum ^^^ charBits c) a
      = a ^^^ xorBytes (l.map charBits) := by
  induction l generalizing a with
  | nil => simp [xorBytes]
  | cons c r ih =>
    simp only [List.foldl_cons, ih, xorBytes, List.map_cons, List.foldr_cons]
    rw [Nat.xor_assoc]

/-- The checksum is the exclusive or of the sign-extended bytes. -/
theorem calcChecksum_eq_bits (l : Text) : calcChecksum l = xorBytes (l.map charBits) := by
  unfold calcChecksum
  rw [foldl_xor_bits]
  simp

theorem charBits_ascii (c : Nat) (h : c < 128) : charBits c = c := by
  unfold charBits
  rw [if_pos h]

theorem charBits_injective (a b : Nat) (h : charBits a = charBits b) : a = b := by
  unfold charBits at h
  split_ifs at h <;> omega

theorem int32_injective (a b : Nat) (h : int32 a = int32 b) : a = b := by
  unfold int32 at h
  have e : (2 : Int) ^ 32 = 4294967296 := by norm_num
  have e1 : (2 : Nat) ^ 32 = 4294967296 := by norm_num
  have e2 : (2 : Nat) ^ 31 = 2147483648 := by norm_num
  rw [e, e1, e2] at h
  split_ifs at h <;> omega

theorem int32_small (n : Nat) (h : n < 2 ^ 31) : int32 n = (n : Int) := by
  unfold int32
  rw [if_neg (by omega)]

theorem xorBytes_lt_pow (k : Nat) (l : Text) (h : ∀ b ∈ l, b < 2 ^ k) : xorBytes l < 2 ^ k := by
  induction l with
  | nil => simp [xorBytes]
  | cons c r ih =>
    simp only [xorBytes, List.foldr_cons]
    exact Nat.xor_lt_two_pow (h c (List.mem_cons_self _ _))
      (ih (fun b hb => h b (List.mem_cons_of_mem _ hb)))

/-- On 7-bit text the checksum is the exclusive or of the bytes. -/
theorem calcChecksum_eq_xorBytes (l : Text) (h : ∀ b ∈ l, b < 128) :
    calcChecksum l = xorBytes l := by
  rw [calcChecksum_eq_bits]
  congr 1
  conv_rhs => rw [← List.map_id l]
  apply List.map_congr_left
  intro b hb
  exact charBits_ascii b (h b hb)

theorem checksum_int_ascii (l : Text) (h : ∀ b ∈ l, b < 128) :
    int32 (calcChecksum l) = (xorBytes l : Int) := by
  rw [calcChecksum_eq_xorBytes l h]
  apply int32_small
  have := xorBytes_lt_pow 7 l (by simpa using h)
  have e : (2 : Nat) ^ 7 = 128 := by norm_num
  have e2 : (2 : Nat) ^ 31 = 2147483648 := by norm_num
  omega

theorem Sentence.parse_fst_iff (self : Sentence) (u : Int) (text : Text) (dst : Dataset) :
    (self.parse u text dst).1 = true ↔
      self.head.length + 4 ≤ text.length ∧ (cstr text).take self.head.length = self.head ∧
      int32 (calcChecksum (text.take (text.length - 3)))
        = extractChecksum (text.drop (text.length - 3 + 1)) ∧
      calcTokens (payloadOf self text) = self.format.length := by
  unfold Sentence.parse Sentence.parsePayload payloadOf
  by_cases h1 : text.length < self.head.length + 4
  · simp [h1]
  · by_cases h2 : (cstr text).take self.head.length = self.head
    · by_cases h3 : int32 (calcChecksum (text.take (text.length - 3)))
          = extractChecksum (text.drop (text.length - 3 + 1))
      · by_cases h4 : calcTokens ((text.drop (self.head.length + 1)).take
            (text.length - 3 - self.head.length - 1)) = self.format.length
        · simp [h1, h2, h3, h4]; omega
        · simp [h1, h2, h3, h4]
      · simp [h1, h2, h3]
    · simp [h1, h2]

theorem Sentence.parse_snd (self : Sentence) (u : Int) (text : Text) (dst : Dataset) :
    (self.parse u text dst).2 =
      if (self.parse u text dst).1 = true then
        Sentence.parseFields u self.format (payloadOf self text) dst
      else dst := by
  unfold Sentence.parse Sentence.parsePayload payloadOf
  by_cases h1 : text.length < self.head.length + 4
  · simp [h1]
  · by_cases h2 : (cstr text).take self.head.length = self.head
    · by_cases h3 : int32 (calcChecksum (text.take (text.length - 3)))
          = extractChecksum (text.drop (text.length - 3 + 1))
      · by_cases h4 : calcTokens ((text.drop (self.head.length + 1)).take
            (text.length - 3 - self.head.length - 1)) = self.format.length
        · simp [h1, h2, h3, h4]
        · simp [h1, h2, h3, h4]
      · simp [h1, h2, h3]
    · simp [h1, h2]

theorem Sentence.parse_fst_indep (self : Sentence) (u : Int) (text : Text) (d1 d2 : Dataset) :
    (self.parse u text d1).1 = (self.parse u text d2).1 := by
  have h1 := Sentence.parse_fst_iff self u text d1
  have h2 := Sentence.parse_fst_iff self u text d2
  cases h : (self.parse u text d1).1 <;> cases h' : (self.parse u text d2).1 <;> simp_all

end NMEA

namespace NMEA

theorem sentence_parse_get (self : Sentence) (u : Int) (text : Text) (dst : Dataset)
    (hnd : self.ids.Nodup) (hacc : (self.parse u text dst).1 = true)
    (i : Nat) (hi : i < self.format.length) :
    (self.parse u text dst).2 (self.format.get ⟨i, hi⟩).1
      = fieldValue u (self.format.get ⟨i, hi⟩).2
          ((splitTokens (payloadOf self text)).getD i []) := by
  rw [Sentence.parse_snd, if_pos hacc]
  apply parseFields_get _ _ _ _ hnd
  rw [splitTokens_length]
  have := (Sentence.parse_fst_iff self u text dst).1 hacc
  rw [← this.2.2.2, calcTokens_eq]

theorem sentence_parse_other (self : Sentence) (u : Int) (text : Text) (dst : Dataset)
    (id : Nat) (hid : id ∉ self.ids) : (self.parse u text dst).2 id = dst id := by
  rw [Sentence.parse_snd]
  split
  · exact parseFields_not_mem _ _ _ _ _ hid
  · rfl

end NMEA

namespace NMEA

/-- Claim C3 on the code. For a text whose bytes before the checksum marker are 7-bit (below
128), `Sentence::parse` returns success exactly when the text has at least `|header| + 4`
bytes, starts with the header, the exclusive or of the bytes at indices `[0, length - 3)`
equals the value `extractChecksum` reads from the last two bytes, and the payload region
holds as many comma-separated tokens (commas plus one) as the format declares fields. The
header is a C string literal, so it holds no NUL byte. With a byte from 128 on the
equivalence fails: the GPGLL text whose second field is the byte `0xC8` and whose hex
digits are `98` meets the four conditions, yet `Sentence::parse` rejects it, since the byte
enters the checksum sign-extended and the checksum is negative. -/
theorem Sentence.parse_accepts_iff (self : Sentence) (u : Int) (text : Text) (dst : Dataset)
    (h0 : 0 ∉ self.head) (h7 : ∀ b ∈ text.take (text.length - 3), b < 128) :
    ((self.parse u text dst).1 = true ↔
      self.head.length + 4 ≤ text.length ∧
      text.take self.head.length = self.head ∧
      (xorBytes (text.take (text.length - 3)) : Int)
        = extractChecksum (text.drop (text.length - 2)) ∧
      (payloadOf self text).count 44 + 1 = self.format.length) ∧
    (sGLL.head.length + 4 ≤ highByteText.length ∧
      highByteText.take sGLL.head.length = sGLL.head ∧
      (xorBytes (highByteText.take (highByteText.length - 3)) : Int)
        = extractChecksum (highByteText.drop (highByteText.length - 2)) ∧
      (payloadOf sGLL highByteText).count 44 + 1 = sGLL.format.length ∧
      (sGLL.parse u highByteText dst).1 = false) := by
  refine ⟨?_, by decide, by decide, by decide, by decide, rfl⟩
  rw [Sentence.parse_fst_iff, cstr_take_eq_iff _ _ h0, checksum_int_ascii _ h7, calcTokens_eq]
  constructor
  · rintro ⟨h1, h2, h3, h4⟩
    refine ⟨h1, h2, ?_, h4⟩
    rw [h3]
    congr 2
    omega
  · rintro ⟨h1, h2, h3, h4⟩
    refine ⟨h1, h2, ?_, h4⟩
    rw [h3]
    congr 2
    omega

/-- Claim C3 on the empty fix sentence of `test_generate_empty`, a 7-bit text. -/
theorem Sentence.parse_accepts_iff_witness :
    0 ∉ sGGA.head ∧
    (∀ b ∈ (str "GPGGA,,,,,,0,,,,,,,,*66").take ((str "GPGGA,,,,,,0,,,,,,,,*66").length - 3),
      b < 128) ∧
    ((sGGA.parse 0 (str "GPGGA,,,,,,0,,,,,,,,*66") Info.new).1 = true ↔
      sGGA.head.length + 4 ≤ (str "GPGGA,,,,,,0,,,,,,,,*66").length ∧
      (str "GPGGA,,,,,,0,,,,,,,,*66").take sGGA.head.length = sGGA.head ∧
      (xorBytes ((str "GPGGA,,,,,,0,,,,,,,,*66").take
          ((str "GPGGA,,,,,,0,,,,,,,,*66").length - 3)) : Int)
        = extractChecksum ((str "GPGGA,,,,,,0,,,,,,,,*66").drop
          ((str "GPGGA,,,,,,0,,,,,,,,*66").length - 2)) ∧
      (payloadOf sGGA (str "GPGGA,,,,,,0,,,,,,,,*66")).count 44 + 1 = sGGA.format.length) :=
  ⟨by decide, by decide,
    (Sentence.parse_accepts_iff sGGA 0 _ Info.new (by decide) (by decide)).1⟩

theorem sentence_parse_rejected_snd (self : Sentence) (u : Int) (text : Text) (dst : Dataset)
    (h : (self.parse u text dst).1 = false) : (self.parse u text dst).2 = dst := by
  rw [Sentence.parse_snd]
  simp [h]

theorem gsv_parse_rejected_snd (self : Sentence) (u : Int) (text : Text)
    (dst : Dataset) (h : (GSVSentence.parse self u text dst).1 = false) :
    (GSVSentence.parse self u text dst).2 = dst := by
  unfold GSVSentence.parse at h ⊢
  simp only at h ⊢
  split_ifs at h ⊢ <;> simp_all

/-- C4: rejection is atomic.  When the generic `Sentence::parse`, the overriding
`GSVSentence::parse`, or the virtual call on any catalog object returns failure, the store
is what it was before the call; and a GPGSV text that passes the generic checks but whose
message count is outside `1..4` or whose message number is outside `1..count` is rejected
with the store unchanged. -/
theorem rejection_is_atomic (self : Sentence) (p : SentencePtr) (u : Int) (text : Text)
    (dst : Dataset) :
    ((self.parse u text dst).1 = false → (self.parse u text dst).2 = dst) ∧
    ((GSVSentence.parse self u text dst).1 = false →
      (GSVSentence.parse self u text dst).2 = dst) ∧
    ((p.parse u text dst).1 = false → (p.parse u text dst).2 = dst) ∧
    ((self.parse u text Dataset.empty).1 = true →
      (((self.parse u text Dataset.empty).2.get GSV_MESSAGE_COUNT).toInt < 1 ∨
       4 < ((self.parse u text Dataset.empty).2.get GSV_MESSAGE_COUNT).toInt ∨
       ((self.parse u text Dataset.empty).2.get GSV_MESSAGE_NUMBER).toInt < 1 ∨
       ((self.parse u text Dataset.empty).2.get GSV_MESSAGE_COUNT).toInt <
         ((self.parse u text Dataset.empty).2.get GSV_MESSAGE_NUMBER).toInt) →
      GSVSentence.parse self u text dst = (false, dst)) := by
  refine ⟨sentence_parse_rejected_snd self u text dst,
    gsv_parse_rejected_snd self u text dst, ?_, ?_⟩
  · unfold SentencePtr.parse
    split
    · exact gsv_parse_rejected_snd _ u text dst
    · exact sentence_parse_rejected_snd _ u text dst
  · intro hacc hbad
    unfold GSVSentence.parse
    simp only [hacc, MAX_GSV_MESSAGES, MAX_SAT_IN_VIEW, SAT_IN_MESSAGE]
    norm_num
    intro h1 h2 h3
    omega

/-- Witness of C4: a GPGSV text with a valid checksum announcing message 1 of 5 is rejected
by the satellite-visibility decoder and leaves a fresh `Info` as it was. -/
theorem rejection_is_atomic_witness :
    (sGSV.parse 0 (str "GPGSV,5,1,04,01,50,090,99,02,50,090,99,03,50,090,99,04,50,090,99*7D")
      Dataset.empty).1 = true ∧
    4 < ((sGSV.parse 0
      (str "GPGSV,5,1,04,01,50,090,99,02,50,090,99,03,50,090,99,04,50,090,99*7D")
      Dataset.empty).2.get GSV_MESSAGE_COUNT).toInt ∧
    GSVSentence.parse sGSV 0
      (str "GPGSV,5,1,04,01,50,090,99,02,50,090,99,03,50,090,99,04,50,090,99*7D") Info.new
      = (false, Info.new) :=
  ⟨by decide, by decide,
    (rejection_is_atomic sGSV SentencePtr.GSV 0 _ Info.new).2.2.2 (by decide)
      (Or.inr (Or.inl (by decide)))⟩

end NMEA

namespace NMEA

/-- C5: after an accepted `Sentence::parse`, every field the format declares is present
with the value its codec parsed when its token is not empty and the codec accepts it, and
is absent otherwise, whatever the store held before; fields the format does not declare
are unchanged.  In particular `"GPRMC,,,,,,,,nan,,12.3,W*4F"` is accepted, leaves DIRECTION
absent and sets DECLINATION to 12.3 and DECLINATION_EW to `'W'`.  (A format declares each
field id once.) -/
theorem accepted_parse_sets_fields (self : Sentence) (u : Int) (text : Text) (dst : Dataset)
    (hnd : self.ids.Nodup) (hacc : (self.parse u text dst).1 = true) :
    (∀ (i : Nat) (hi : i < self.format.length),
      (self.parse u text dst).2 (self.format.get ⟨i, hi⟩).1
        = fieldValue u (self.format.get ⟨i, hi⟩).2
            ((splitTokens (payloadOf self text)).getD i [])) ∧
    (∀ id, id ∉ self.ids → (self.parse u text dst).2 id = dst id) ∧
    ((sRMC.parse u (str "GPRMC,,,,,,,,nan,,12.3,W*4F") dst).1 = true ∧
      (sRMC.parse u (str "GPRMC,,,,,,,,nan,,12.3,W*4F") dst).2 DIRECTION = none ∧
      (sRMC.parse u (str "GPRMC,,,,,,,,nan,,12.3,W*4F") dst).2 DECLINATION
        = some (Variant.double ⟨false, 123, 1⟩) ∧
      (sRMC.parse u (str "GPRMC,,,,,,,,nan,,12.3,W*4F") dst).2 DECLINATION_EW
        = some (Variant.char 87)) := by
  refine ⟨sentence_parse_get self u text dst hnd hacc,
    fun id hid => sentence_parse_other self u text dst id hid, ?_⟩
  have hacc2 : (sRMC.parse u (str "GPRMC,,,,,,,,nan,,12.3,W*4F") dst).1 = true := by
    rw [Sentence.parse_fst_iff]
    decide
  have hnd2 : sRMC.ids.Nodup := by decide
  refine ⟨hacc2, ?_, ?_, ?_⟩
  · exact sentence_parse_get sRMC u _ dst hnd2 hacc2 7 (by decide)
  · exact sentence_parse_get sRMC u _ dst hnd2 hacc2 9 (by decide)
  · exact sentence_parse_get sRMC u _ dst hnd2 hacc2 10 (by decide)

/-- Witness of C5 on the sentence of `test_parse_nan`, decoded into a fresh `Info`. -/
theorem accepted_parse_sets_fields_witness :
    sRMC.ids.Nodup ∧
    (sRMC.parse 0 (str "GPRMC,,,,,,,,nan,,12.3,W*4F") Info.new).1 = true ∧
    (sRMC.parse 0 (str "GPRMC,,,,,,,,nan,,12.3,W*4F") Info.new).2 DIRECTION = none ∧
    (sRMC.parse 0 (str "GPRMC,,,,,,,,nan,,12.3,W*4F") Info.new).2 DECLINATION
      = some (Variant.double ⟨false, 123, 1⟩) ∧
    (sRMC.parse 0 (str "GPRMC,,,,,,,,nan,,12.3,W*4F") Info.new).2 FIX_TYPE = Info.new FIX_TYPE :=
  ⟨by decide, by decide,
    (accepted_parse_sets_fields sRMC 0 (str "GPRMC,,,,,,,,nan,,12.3,W*4F") Info.new
      (by decide) (by decide)).2.2.2.1,
    (accepted_parse_sets_fields sRMC 0 (str "GPRMC,,,,,,,,nan,,12.3,W*4F") Info.new
      (by decide) (by decide)).2.2.2.2.1,
    (accepted_parse_sets_fields sRMC 0 (str "GPRMC,,,,,,,,nan,,12.3,W*4F") Info.new
      (by decide) (by decide)).2.1 FIX_TYPE
      (by decide)⟩

end NMEA

namespace NMEA

/-! ### Decimal digits -/

theorem natDigitsAux_eq (n : Nat) : ∀ (fuel : Nat) (acc : Text), n < fuel →
    natDigitsAux fuel n acc = natDigits n ++ acc := by
  induction n using Nat.strong_induction_on with
  | _ n ih =>
    intro fuel acc hf
    cases fuel with
    | zero => omega
    | succ f =>
      unfold natDigits
      simp only [natDigitsAux]
      by_cases h : n < 10
      · simp [h]
      · simp only [h, if_false]
        have hlt : n / 10 < n := Nat.div_lt_self (by omega) (by omega)
        rw [ih (n / 10) hlt f _ (by omega), ih (n / 10) hlt n _ hlt]
        simp

theorem natDigits_lt (n : Nat) (h : n < 10) : natDigits n = [48 + n] := by
  unfold natDigits
  simp [natDigitsAux, h]

theorem natDigits_ge (n : Nat) (h : 10 ≤ n) :
    natDigits n = natDigits (n / 10) ++ [48 + n % 10] := by
  have hlt : n / 10 < n := Nat.div_lt_self (by omega) (by omega)
  conv_lhs => unfold natDigits
  simp only [natDigitsAux, show ¬ n < 10 by omega, if_false]
  rw [natDigitsAux_eq _ _ _ hlt]

theorem natDigits_isDigit (n : Nat) : ∀ b ∈ natDigits n, 48 ≤ b ∧ b ≤ 57 := by
  induction n using Nat.strong_induction_on with
  | _ n ih =>
    by_cases h : n < 10
    · rw [natDigits_lt n h]
      intro b hb
      simp at hb
      omega
    · rw [natDigits_ge n (by omega)]
      intro b hb
      rcases List.mem_append.1 hb with hb | hb
      · exact ih (n / 10) (Nat.div_lt_self (by omega) (by omega)) b hb
      · simp at hb
        omega

theorem natDigits_ne_nil (n : Nat) : natDigits n ≠ [] := by
  by_cases h : n < 10
  · rw [natDigits_lt n h]; simp
  · rw [natDigits_ge n (by omega)]; simp

theorem digitsVal_append_single (s : Text) (c : Nat) :
    digitsVal (s ++ [c]) = 10 * digitsVal s + (c - 48) := by
  simp [digitsVal, List.foldl_append]

theorem digitsVal_natDigits (n : Nat) : digitsVal (natDigits n) = n := by
  induction n using Nat.strong_induction_on with
  | _ n ih =>
    by_cases h : n < 10
    · rw [natDigits_lt n h]
      simp [digitsVal]
    · rw [natDigits_ge n (by omega), digitsVal_append_single,
        ih (n / 10) (Nat.div_lt_self (by omega) (by omega))]
      omega

theorem natDigits_length_le (n k : Nat) (hk : 0 < k) :
    (natDigits n).length ≤ k ↔ n < 10 ^ k := by
  induction n using Nat.strong_induction_on generalizing k with
  | _ n ih =>
    by_cases h : n < 10
    · rw [natDigits_lt n h]
      simp only [List.length_singleton]
      constructor
      · intro _
        calc n < 10 := h
          _ = 10 ^ 1 := by norm_num
          _ ≤ 10 ^ k := Nat.pow_le_pow_right (by norm_num) hk
      · intro _; omega
    · rw [natDigits_ge n (by omega)]
      simp only [List.length_append, List.length_singleton]
      cases k with
      | zero => omega
      | succ k =>
        by_cases hk0 : k = 0
        · subst hk0
          have := natDigits_ne_nil (n / 10)
          have hpos : 0 < (natDigits (n / 10)).length := List.length_pos.2 this
          constructor
          · intro hh; omega
          · intro hh; norm_num at hh; omega
        · have := ih (n / 10) (Nat.div_lt_self (by omega) (by omega)) k (by omega)
          rw [Nat.add_le_add_iff_right, this, pow_succ]
          constructor
          · intro hh
            exact (Nat.div_lt_iff_lt_mul (by norm_num)).1 hh
          · intro hh
            exact (Nat.div_lt_iff_lt_mul (by norm_num)).2 hh

theorem natDigits_head_ne_zero (n : Nat) (h : 0 < n) : (natDigits n).headD 0 ≠ 48 := by
  induction n using Nat.strong_induction_on with
  | _ n ih =>
    by_cases h10 : n < 10
    · rw [natDigits_lt n h10]
      simp
      omega
    · rw [natDigits_ge n (by omega)]
      have hne := natDigits_ne_nil (n / 10)
      have := ih (n / 10) (Nat.div_lt_self (by omega) (by omega))
        (Nat.div_pos (by omega) (by norm_num))
      cases hd : natDigits (n / 10) with
      | nil => exact absurd hd hne
      | cons a l =>
        rw [hd] at this
        simpa using this

end NMEA

namespace NMEA

/-- Bytes of numeric text: a minus sign, a decimal point or a digit. -/
theorem zeroPad_numeric (w : Nat) (s : Text)
    (h : ∀ b ∈ s, b = 45 ∨ b = 46 ∨ (48 ≤ b ∧ b ≤ 57)) :
    ∀ b ∈ zeroPad w s, b = 45 ∨ b = 46 ∨ (48 ≤ b ∧ b ≤ 57) := by
  intro b hb
  unfold zeroPad at hb
  rcases List.mem_append.1 hb with hb | hb
  · have := List.eq_of_mem_replicate hb
    omega
  · exact h b hb

theorem natDigits_numeric (n : Nat) :
    ∀ b ∈ natDigits n, b = 45 ∨ b = 46 ∨ (48 ≤ b ∧ b ≤ 57) :=
  fun b hb => Or.inr (Or.inr (natDigits_isDigit n b hb))

theorem fmtInt_numeric (w : Nat) (v : Int) :
    ∀ b ∈ fmtInt w v, b = 45 ∨ b = 46 ∨ (48 ≤ b ∧ b ≤ 57) := by
  intro b hb
  unfold fmtInt at hb
  split at hb
  · rcases List.mem_cons.1 hb with hb | hb
    · exact Or.inl hb
    · exact zeroPad_numeric _ _ (natDigits_numeric _) b hb
  · exact zeroPad_numeric _ _ (natDigits_numeric _) b hb

theorem fmtFloat_numeric (w d : Nat) (x : Dbl) :
    ∀ b ∈ fmtFloat w d x, b = 45 ∨ b = 46 ∨ (48 ≤ b ∧ b ≤ 57) := by
  have hbody : ∀ r : Nat, ∀ b ∈ natDigits (r / 10 ^ d) ++
      (if d = 0 then [] else 46 :: zeroPad d (natDigits (r % 10 ^ d))),
      b = 45 ∨ b = 46 ∨ (48 ≤ b ∧ b ≤ 57) := by
    intro r b hb
    rcases List.mem_append.1 hb with hb | hb
    · exact natDigits_numeric _ b hb
    · split at hb
      · simp at hb
      · rcases List.mem_cons.1 hb with hb | hb
        · exact Or.inr (Or.inl hb)
        · exact zeroPad_numeric _ _ (natDigits_numeric _) b hb
  intro b hb
  unfold fmtFloat at hb
  simp only at hb
  split at hb
  · rcases List.mem_cons.1 hb with hb | hb
    · exact Or.inl hb
    · exact zeroPad_numeric _ _ (hbody _) b hb
  · exact zeroPad_numeric _ _ (hbody _) b hb

theorem mem_of_mem_take_list {l : Text} {n b : Nat} (h : b ∈ l.take n) : b ∈ l :=
  List.mem_of_mem_take h

theorem token_toString_byte (token : Token) (v : Variant) :
    ∀ b ∈ token.toString v, b < 256 := by
  intro b hb
  cases token with
  | int digits =>
    have := fmtInt_numeric _ _ b (List.mem_of_mem_take hb)
    omega
  | float t d =>
    have := fmtFloat_numeric _ _ _ b (List.mem_of_mem_take hb)
    omega
  | char =>
    simp only [Token.toString, List.mem_singleton] at hb
    subst hb
    cases v <;> simp [Variant.toChar]
    exact Nat.mod_lt _ (by norm_num)
  | string =>
    simp only [Token.toString] at hb
    cases v <;> simp [Variant.toStr] at hb
    rename_i s
    have h1 := (List.takeWhile_prefix _).subset hb
    simp only [List.mem_map] at h1
    obtain ⟨a, _, rfl⟩ := h1
    exact Nat.mod_lt _ (by norm_num)
  | time =>
    simp only [Token.toString] at hb
    have hb := List.mem_of_mem_take hb
    simp only [List.mem_append, List.mem_cons] at hb
    rcases hb with ((hb | hb) | hb) | hb | hb
    · have := fmtInt_numeric _ _ b hb; omega
    · have := fmtInt_numeric _ _ b hb; omega
    · have := fmtInt_numeric _ _ b hb; omega
    · omega
    · have := fmtInt_numeric _ _ b hb; omega
  | date =>
    simp only [Token.toString] at hb
    have hb := List.mem_of_mem_take hb
    simp only [List.mem_append] at hb
    rcases hb with (hb | hb) | hb
    · have := fmtInt_numeric _ _ b hb; omega
    · have := fmtInt_numeric _ _ b hb; omega
    · have := fmtInt_numeric _ _ b hb; omega

/-- The codecs other than the character and string codecs write 7-bit text; the character
codec writes the character. -/
theorem token_toString_ascii (token : Token) (v : Variant)
    (hc : token = Token.char → v.toChar < 128) (hs : token ≠ Token.string) :
    ∀ b ∈ token.toString v, b < 128 := by
  intro b hb
  cases token with
  | int digits =>
    have := fmtInt_numeric _ _ b (List.mem_of_mem_take hb)
    omega
  | float t d =>
    have := fmtFloat_numeric _ _ _ b (List.mem_of_mem_take hb)
    omega
  | char =>
    simp only [Token.toString, List.mem_singleton] at hb
    subst hb
    exact hc rfl
  | string => exact absurd rfl hs
  | time =>
    simp only [Token.toString] at hb
    have hb := List.mem_of_mem_take hb
    simp only [List.mem_append, List.mem_cons] at hb
    rcases hb with ((hb | hb) | hb) | hb | hb
    · have := fmtInt_numeric _ _ b hb; omega
    · have := fmtInt_numeric _ _ b hb; omega
    · have := fmtInt_numeric _ _ b hb; omega
    · omega
    · have := fmtInt_numeric _ _ b hb; omega
  | date =>
    simp only [Token.toString] at hb
    have hb := List.mem_of_mem_take hb
    simp only [List.mem_append] at hb
    rcases hb with (hb | hb) | hb
    · have := fmtInt_numeric _ _ b hb; omega
    · have := fmtInt_numeric _ _ b hb; omega
    · have := fmtInt_numeric _ _ b hb; omega

theorem renderFields_eq_flatMap (src : Dataset) (fmt : List Field) :
    Sentence.renderFields src fmt
      = fmt.flatMap (fun f => 44 :: (match src f.1 with
          | some v => f.2.toString v
          | none => [])) := by
  induction fmt with
  | nil => rfl
  | cons f rest ih =>
    obtain ⟨id, token⟩ := f
    simp only [Sentence.renderFields, List.flatMap_cons, ih, List.cons_append, List.cons.injEq,
      true_and]
    congr 1
    cases h : src id <;> simp [Dataset.isPresent, Dataset.get, h]

theorem renderFields_byte (src : Dataset) (fmt : List Field) :
    ∀ b ∈ Sentence.renderFields src fmt, b < 256 := by
  induction fmt with
  | nil => simp [Sentence.renderFields]
  | cons f rest ih =>
    obtain ⟨id, token⟩ := f
    intro b hb
    simp only [Sentence.renderFields, List.mem_cons, List.mem_append] at hb
    rcases hb with hb | hb | hb
    · omega
    · split at hb
      · exact token_toString_byte _ _ b hb
      · simp at hb
    · exact ih b hb

theorem xorBytes_lt (l : Text) (h : ∀ b ∈ l, b < 256) : xorBytes l < 256 := by
  induction l with
  | nil => simp [xorBytes]
  | cons c r ih =>
    simp only [xorBytes, List.foldr_cons]
    have h1 : c < 2 ^ 8 := h c (List.mem_cons_self _ _)
    have h2 : xorBytes r < 2 ^ 8 := ih (fun b hb => h b (List.mem_cons_of_mem _ hb))
    exact Nat.xor_lt_two_pow h1 h2

set_option maxRecDepth 100000 in
theorem fmtHex2_take (cs : Nat) (h : cs < 256) :
    (fmtHex2 cs).take 2 = [hexUpper (cs / 16), hexUpper (cs % 16)] := by
  revert cs
  decide

theorem renderFields_ascii (src : Dataset) (fmt : List Field)
    (h : ∀ f ∈ fmt, ∀ b ∈ renderOf src f, b < 128) :
    ∀ b ∈ Sentence.renderFields src fmt, b < 128 := by
  rw [renderFields_eq_flatMap]
  intro b hb
  obtain ⟨f, hf, hbf⟩ := List.mem_flatMap.1 hb
  rcases List.mem_cons.1 hbf with hb44 | hbr
  · omega
  · exact h f hf b hbr

/-- Claim C6 on the code. For every format and store whose header and field renderings are
7-bit (bytes below 128), `Sentence::toString` appends to the output exactly `'$'`, the
header, for each declared field in declared order a `','` followed by the codec rendering of
the value when the field is present (nothing when absent), then `'*'`, the exclusive or of
all bytes between `'$'` and `'*'` as two upper-case hexadecimal digits, and `"\r\n"`; the
text already in the output is kept as a prefix. With a byte from 128 on the two digits are
not those of the exclusive or: for the store whose latitude hemisphere is the character
`0xC8` the exclusive or of the bytes of the GPGLL sentence is `0x98`, but the byte enters
the checksum sign-extended, `"%02X"` of the negative `int` is cut to two characters, and the
text ends in `"*FF"`. -/
theorem toString_wire_format (self : Sentence) (src : Dataset) (dst : Text)
    (hhead : ∀ b ∈ self.head, b < 128)
    (hfields : ∀ f ∈ self.format, ∀ b ∈ renderOf src f, b < 128) :
    self.toString src dst =
      dst ++ [36] ++ self.head ++
        self.format.flatMap (fun f => 44 :: (match src f.1 with
          | some v => f.2.toString v
          | none => [])) ++
        [42] ++
        [hexUpper (xorBytes (self.head ++ self.format.flatMap (fun f => 44 :: (match src f.1 with
            | some v => f.2.toString v
            | none => []))) / 16),
         hexUpper (xorBytes (self.head ++ self.format.flatMap (fun f => 44 :: (match src f.1 with
            | some v => f.2.toString v
            | none => []))) % 16)] ++
        [13, 10] ∧
    (sGLL.toString highByteStore [] = str "$GPGLL,," ++ [0xC8] ++ str ",,,,*FF\r\n" ∧
      xorBytes (str "GPGLL,," ++ [0xC8] ++ str ",,,,") = 0x98) := by
  refine ⟨?_, by decide, by decide⟩
  have h7 : ∀ b ∈ self.head ++ Sentence.renderFields src self.format, b < 128 := by
    intro b hb
    rcases List.mem_append.1 hb with hb | hb
    · exact hhead b hb
    · exact renderFields_ascii src self.format hfields b hb
  unfold Sentence.toString
  simp only
  rw [calcChecksum_eq_xorBytes _ h7, fmtHex2_take]
  · rw [renderFields_eq_flatMap]
    simp
  · apply xorBytes_lt
    intro b hb
    have := h7 b hb
    omega

set_option maxRecDepth 100000 in
/-- Claim C6 at the fix sentence a fresh `Info` generates (`test_generate_empty`), a 7-bit
text. -/
theorem toString_wire_format_witness :
    (∀ b ∈ sGGA.head, b < 128) ∧
    (∀ f ∈ sGGA.format, ∀ b ∈ renderOf Info.new f, b < 128) ∧
    sGGA.toString Info.new [] = str "$GPGGA,,,,,,0,,,,,,,,*66\r\n" :=
  ⟨by decide, by decide,
    (toString_wire_format sGGA Info.new [] (by decide) (by decide)).1.trans (by decide)⟩

end NMEA

namespace NMEA

theorem xorBytes_append (a b : Text) : xorBytes (a ++ b) = xorBytes a ^^^ xorBytes b := by
  induction a with
  | nil => simp [xorBytes]
  | cons c r ih =>
    simp only [xorBytes, List.cons_append, List.foldr_cons] at ih ⊢
    rw [ih, Nat.xor_assoc]

theorem xorBytes_set_ne (l : Text) (i b : Nat) (hi : i < l.length) (hb : b ≠ l.getD i 0) :
    xorBytes (l.set i b) ≠ xorBytes l := by
  have h1 : l.set i b = l.take i ++ b :: l.drop (i + 1) := by
    rw [List.set_eq_take_append_cons_drop, if_pos hi]
  have h2 : l = l.take i ++ l.getD i 0 :: l.drop (i + 1) := by
    conv_lhs => rw [← List.take_append_drop i l, List.drop_eq_getElem_cons hi]
    rw [List.getD_eq_getElem _ _ hi]
  rw [h1]
  conv_rhs => rw [h2]
  rw [xorBytes_append, xorBytes_append]
  intro h
  have h3 := Nat.xor_right_injective h
  simp only [xorBytes, List.foldr_cons] at h3
  exact hb (Nat.xor_left_injective h3)

theorem sentence_parse_byte_changed (self : Sentence) (u : Int) (text : Text) (dst : Dataset)
    (i b : Nat) (hacc : (self.parse u text dst).1 = true) (hi : i < text.length - 3)
    (hb : b ≠ text.getD i 0) : (self.parse u (text.set i b) dst).1 = false := by
  have h := (Sentence.parse_fst_iff self u text dst).1 hacc
  by_contra hne
  have hacc2 : (self.parse u (text.set i b) dst).1 = true := by
    cases hh : (self.parse u (text.set i b) dst).1
    · exact absurd hh hne
    · rfl
  have h2 := (Sentence.parse_fst_iff self u (text.set i b) dst).1 hacc2
  have e1 := h.2.2.1
  have e2 := h2.2.2.1
  simp only [List.length_set] at e2
  rw [List.drop_set_of_lt _ _ (by omega), ← e1] at e2
  have e3 : calcChecksum ((text.set i b).take (text.length - 3))
      = calcChecksum (text.take (text.length - 3)) := int32_injective _ _ e2
  rw [calcChecksum_eq_bits, calcChecksum_eq_bits] at e3
  have e4 : ((text.set i b).take (text.length - 3)).map charBits
      = ((text.take (text.length - 3)).map charBits).set i (charBits b) := by
    rw [List.set_take, List.map_set]
  rw [e4] at e3
  refine xorBytes_set_ne _ i (charBits b) (by simp; omega) ?_ e3
  rw [List.getD_eq_getElem _ _ (by simp; omega), List.getElem_map, List.getElem_take]
  rw [List.getD_eq_getElem _ _ (by omega)] at hb
  exact fun h => hb (charBits_injective _ _ h)

end NMEA

namespace Sirf

theorem foldl_sum16 (l : List Nat) (a : Nat) :
    l.foldl (fun checksum b => (checksum + b) % 65536) a % 65536 = (a + l.sum) % 65536 := by
  induction l generalizing a with
  | nil => simp
  | cons c r ih =>
    simp only [List.foldl_cons, List.sum_cons, ih]
    omega

theorem sirfChecksum_eq (l : List Nat) : sirfChecksum l = l.sum % 32768 := by
  unfold sirfChecksum
  have h := foldl_sum16 l 0
  have h2 : (0x7FFF : Nat) = 2 ^ 15 - 1 := by norm_num
  rw [h2, Nat.and_pow_two_sub_one_eq_mod]
  have h3 : l.foldl (fun checksum b => (checksum + b) % 65536) 0
      = l.foldl (fun checksum b => (checksum + b) % 65536) 0 % 65536 := by
    cases l using List.reverseRecOn with
    | nil => simp
    | append_singleton r c =>
      simp only [List.foldl_append, List.foldl_cons, List.foldl_nil]
      omega
  rw [h3, h]
  norm_num

theorem sum_set (l : List Nat) (j b : Nat) (hj : j < l.length) :
    (l.set j b).sum + l.getD j 0 = l.sum + b := by
  induction l generalizing j with
  | nil => simp at hj
  | cons c r ih =>
    cases j with
    | zero => simp; omega
    | succ k =>
      simp only [List.set_cons_succ, List.sum_cons, List.getD_cons_succ]
      have := ih k (by simpa using hj)
      omega

theorem sirfChecksum_set_ne (l : List Nat) (j b : Nat) (hj : j < l.length)
    (hold : l.getD j 0 < 256) (hnew : b < 256) (hb : b ≠ l.getD j 0) :
    sirfChecksum (l.set j b) ≠ sirfChecksum l := by
  rw [sirfChecksum_eq, sirfChecksum_eq]
  have := sum_set l j b hj
  omega

theorem read16_set (data : List Nat) (k b off : Nat) (h1 : k ≠ off) (h2 : k ≠ off + 1) :
    read16 (data.set k b) off = read16 data off := by
  unfold read16
  simp only [List.getD_eq_getElem?_getD]
  rw [List.getElem?_set_ne h1, List.getElem?_set_ne h2]

end Sirf

namespace Sirf

theorem tryParseStep_accepted (data : List Nat) (off n : Nat) (payload : List Nat)
    (hacc : tryParseStep data off = (n, some payload)) :
    read16 data off = SIRF_HEADER ∧
    ¬ (read16 data (off + 2) + 4 > data.length - (off + 4) ∨ read16 data (off + 2) ≤ 0) ∧
    read16 data (off + 6 + read16 data (off + 2)) = SIRF_FOOTER ∧
    read16 data (off + 4 + read16 data (off + 2)) = sirfChecksum payload ∧
    payload = (data.drop (off + 4)).take (read16 data (off + 2)) := by
  unfold tryParseStep at hacc
  simp only at hacc
  split_ifs at hacc with a1 a2 a3 a4
  · simp at hacc
  · simp at hacc
  · simp at hacc
  · simp only [Prod.mk.injEq, Option.some.injEq] at hacc
    refine ⟨a1, a2, not_not.1 a3, ?_, hacc.2.symm⟩
    rw [← hacc.2]
    exact not_not.1 a4
  · simp at hacc

theorem tryParseStep_byte_changed (data : List Nat) (off n j b : Nat) (payload : List Nat)
    (hbytes : ∀ x ∈ data, x < 256) (hacc : tryParseStep data off = (n, some payload))
    (hj : j < payload.length) (hb256 : b < 256) (hb : b ≠ data.getD (off + 4 + j) 0) :
    (tryParseStep (data.set (off + 4 + j) b) off).2 = none := by
  obtain ⟨h1, h2, h3, h4, h5⟩ := tryParseStep_accepted data off n payload hacc
  have hlen : payload.length = read16 data (off + 2) := by
    rw [h5, List.length_take, List.length_drop]
    omega
  have hk : off + 4 + j < data.length := by omega
  have r1 : read16 (data.set (off + 4 + j) b) off = read16 data off :=
    read16_set _ _ _ _ (by omega) (by omega)
  have r2 : read16 (data.set (off + 4 + j) b) (off + 2) = read16 data (off + 2) :=
    read16_set _ _ _ _ (by omega) (by omega)
  have r3 : read16 (data.set (off + 4 + j) b) (off + 4 + read16 data (off + 2))
      = read16 data (off + 4 + read16 data (off + 2)) :=
    read16_set _ _ _ _ (by omega) (by omega)
  have r4 : read16 (data.set (off + 4 + j) b) (off + 6 + read16 data (off + 2))
      = read16 data (off + 6 + read16 data (off + 2)) :=
    read16_set _ _ _ _ (by omega) (by omega)
  have hp : ((data.set (off + 4 + j) b).drop (off + 4)).take (read16 data (off + 2))
      = payload.set j b := by
    rw [List.drop_set, if_neg (by omega), List.set_take, h5]
    congr 1
    omega
  have hget : payload.getD j 0 = data.getD (off + 4 + j) 0 := by
    rw [h5, List.getD_eq_getElem _ _ (by rw [← h5]; exact hj), List.getElem_take,
      List.getElem_drop, List.getD_eq_getElem _ _ hk]
  have hne : sirfChecksum (payload.set j b) ≠ sirfChecksum payload := by
    apply sirfChecksum_set_ne _ _ _ hj _ hb256 (by rw [hget]; exact hb)
    rw [hget, List.getD_eq_getElem _ _ hk]
    exact hbytes _ (List.getElem_mem _)
  unfold tryParseStep
  simp only [r1, r2, h1, if_true, List.length_set, h2, if_false, r3, r4, h3, ne_eq,
    not_true_eq_false, hp, h4]
  rw [if_pos (fun h => hne h.symm)]

end Sirf

namespace NMEA

/-- C2: checksum sensitivity.  Text: in a text that `Sentence::parse` accepts, replacing
any single byte before the checksum marker (index below `length - 3`) by a different byte
makes `Sentence::parse` reject the text.  Binary: two payloads of equal length that differ
in exactly one byte have different `sirfChecksum` values, so a candidate frame that an
iteration of `SirfProtocol::tryParse` validates at an offset is no longer validated there
once one payload byte is changed. -/
theorem checksum_sensitivity (self : Sentence) (u : Int) (text : Text) (dst : Dataset)
    (i b : Nat) (payload data : List Nat) (j c off n k d : Nat) (frame : List Nat)
    (hacc : (self.parse u text dst).1 = true) (hi : i < text.length - 3)
    (hb : b ≠ text.getD i 0)
    (hbytes : ∀ x ∈ payload, x < 256) (hj : j < payload.length) (hc : c < 256)
    (hcne : c ≠ payload.getD j 0)
    (hdata : ∀ x ∈ data, x < 256) (hframe : Sirf.tryParseStep data off = (n, some frame))
    (hk : k < frame.length) (hd : d < 256) (hdne : d ≠ data.getD (off + 4 + k) 0) :
    (self.parse u (text.set i b) dst).1 = false ∧
    Sirf.sirfChecksum (payload.set j c) ≠ Sirf.sirfChecksum payload ∧
    (Sirf.tryParseStep (data.set (off + 4 + k) d) off).2 = none := by
  refine ⟨sentence_parse_byte_changed self u text dst i b hacc hi hb, ?_, ?_⟩
  · apply Sirf.sirfChecksum_set_ne _ _ _ hj _ hc hcne
    rw [List.getD_eq_getElem _ _ hj]
    exact hbytes _ (List.getElem_mem _)
  · exact Sirf.tryParseStep_byte_changed data off n k d frame hdata hframe hk hd hdne

/-- Witness of C2: the empty fix sentence with its first payload comma replaced by a
semicolon, and a two-byte SiRF frame with its first payload byte changed from 5 to 7. -/
theorem checksum_sensitivity_witness :
    (sGGA.parse 0 (str "GPGGA,,,,,,0,,,,,,,,*66") Info.new).1 = true ∧
    (sGGA.parse 0 ((str "GPGGA,,,,,,0,,,,,,,,*66").set 6 59) Info.new).1 = false ∧
    Sirf.sirfChecksum ([5, 6].set 0 7) ≠ Sirf.sirfChecksum [5, 6] ∧
    Sirf.tryParseStep [0xA0, 0xA2, 0, 2, 5, 6, 0, 11, 0xB0, 0xB3] 0 = (10, some [5, 6]) ∧
    (Sirf.tryParseStep ([0xA0, 0xA2, 0, 2, 5, 6, 0, 11, 0xB0, 0xB3].set (0 + 4 + 0) 7) 0).2
      = none :=
  ⟨by decide,
   (checksum_sensitivity sGGA 0 (str "GPGGA,,,,,,0,,,,,,,,*66") Info.new 6 59 [5, 6]
      [0xA0, 0xA2, 0, 2, 5, 6, 0, 11, 0xB0, 0xB3] 0 7 0 10 0 7 [5, 6]
      (by decide) (by decide) (by decide) (by decide) (by decide) (by decide) (by decide)
      (by decide) (by decide) (by decide) (by decide) (by decide)).1,
   by decide, by decide, by decide⟩

end NMEA

namespace NMEA

theorem parseSlot_eq (gsv : Dataset) (msgNo : Nat) (dst : Dataset) (satNo : Nat) :
    GSVSentence.parseSlot gsv msgNo dst satNo =
      fun key => if key = SATELLITE_01 + (msgNo - 1) * SAT_IN_MESSAGE + satNo
        then GSVSentence.slotValue gsv satNo else dst key := by
  funext key
  unfold GSVSentence.parseSlot GSVSentence.slotValue
  split <;> simp [Dataset.set, Dataset.remove]

theorem parseSlots_get (gsv : Dataset) (msgNo : Nat) (dst : Dataset) (key : Nat) :
    (List.range SAT_IN_MESSAGE).foldl (GSVSentence.parseSlot gsv msgNo) dst key =
      if SATELLITE_01 + (msgNo - 1) * 4 ≤ key ∧ key < SATELLITE_01 + (msgNo - 1) * 4 + 4 then
        GSVSentence.slotValue gsv (key - (SATELLITE_01 + (msgNo - 1) * 4))
      else dst key := by
  have hr : List.range SAT_IN_MESSAGE = [0, 1, 2, 3] := by decide
  rw [hr]
  simp only [List.foldl_cons, List.foldl_nil, parseSlot_eq, SAT_IN_MESSAGE]
  by_cases h3 : key = SATELLITE_01 + (msgNo - 1) * 4 + 3
  · simp [h3]
  · by_cases h2 : key = SATELLITE_01 + (msgNo - 1) * 4 + 2
    · simp [h2]
    · by_cases h1 : key = SATELLITE_01 + (msgNo - 1) * 4 + 1
      · simp [h1]
      · by_cases h0 : key = SATELLITE_01 + (msgNo - 1) * 4 + 0
        · simp at h0; simp [h0]
        · simp only [h3, h2, h1, h0, if_false]
          rw [if_neg]
          intro h
          simp at h0
          omega

theorem removeRange_get (n first : Nat) (dst : Dataset) (key : Nat) :
    (List.range' first n).foldl (fun d i => d.remove (SATELLITE_01 + i)) dst key =
      if SATELLITE_01 + first ≤ key ∧ key < SATELLITE_01 + first + n then none else dst key := by
  induction n generalizing first dst with
  | zero =>
    simp only [List.range'_zero, List.foldl_nil]
    rw [if_neg]
    omega
  | succ n ih =>
    simp only [List.range'_succ, List.foldl_cons]
    rw [ih (first + 1) _]
    by_cases hk : key = SATELLITE_01 + first
    · subst hk
      simp [Dataset.remove]
    · rw [Dataset.remove_other _ hk]
      by_cases hc : SATELLITE_01 + first ≤ key ∧ key < SATELLITE_01 + first + (n + 1)
      · rw [if_pos hc, if_pos (by omega)]
      · rw [if_neg hc, if_neg (by omega)]

theorem clearFrom_get (first : Nat) (dst : Dataset) (key : Nat) :
    GSVSentence.clearFrom first dst key =
      if SATELLITE_01 + first ≤ key ∧ key < SATELLITE_01 + 16 then none else dst key := by
  unfold GSVSentence.clearFrom
  have hM : MAX_GSV_MESSAGES * SAT_IN_MESSAGE = 16 := by decide
  rw [hM, removeRange_get]
  by_cases hc : SATELLITE_01 + first ≤ key ∧ key < SATELLITE_01 + 16
  · rw [if_pos hc, if_pos (by omega)]
  · rw [if_neg hc, if_neg (by omega)]

theorem copy_get (src dst : Dataset) (field key : Nat) :
    src.copy field dst key = if key = field then src field else dst key := by
  unfold Dataset.copy Dataset.isPresent Dataset.get
  by_cases hk : key = field
  · subst hk
    cases h : src key <;> simp [Dataset.set, Dataset.remove]
  · cases h : src field <;> simp [Dataset.set, Dataset.remove, hk]

/-- The store after an accepted `GSVSentence::parse`, field by field. -/
theorem gsv_parse_accepted (self : Sentence) (u : Int) (text : Text) (dst : Dataset)
    (hacc : (GSVSentence.parse self u text dst).1 = true) :
    (self.parse u text Dataset.empty).1 = true ∧
    1 ≤ ((self.parse u text Dataset.empty).2.get GSV_MESSAGE_COUNT).toInt ∧
    ((self.parse u text Dataset.empty).2.get GSV_MESSAGE_COUNT).toInt ≤ 4 ∧
    1 ≤ ((self.parse u text Dataset.empty).2.get GSV_MESSAGE_NUMBER).toInt ∧
    ((self.parse u text Dataset.empty).2.get GSV_MESSAGE_NUMBER).toInt
      ≤ ((self.parse u text Dataset.empty).2.get GSV_MESSAGE_COUNT).toInt ∧
    ∀ key, (GSVSentence.parse self u text dst).2 key =
      if SATELLITE_01 +
            (((self.parse u text Dataset.empty).2.get GSV_MESSAGE_NUMBER).toInt.toNat - 1) * 4
            ≤ key ∧
          key < SATELLITE_01 +
            (((self.parse u text Dataset.empty).2.get GSV_MESSAGE_NUMBER).toInt.toNat - 1) * 4
            + 4 then
        GSVSentence.slotValue (self.parse u text Dataset.empty).2
          (key - (SATELLITE_01 +
            (((self.parse u text Dataset.empty).2.get GSV_MESSAGE_NUMBER).toInt.toNat - 1) * 4))
      else if key = SAT_IN_VIEW then (self.parse u text Dataset.empty).2 SAT_IN_VIEW
      else if ((self.parse u text Dataset.empty).2.get GSV_MESSAGE_NUMBER).toInt = 1 ∧
          SATELLITE_01 +
            ((self.parse u text Dataset.empty).2.get GSV_MESSAGE_COUNT).toInt.toNat * 4 ≤ key ∧
          key < SATELLITE_01 + 16 then none
      else dst key := by
  unfold GSVSentence.parse at hacc ⊢
  simp only at hacc ⊢
  generalize (self.parse u text Dataset.empty) = r at hacc ⊢
  obtain ⟨ok, gsv⟩ := r
  simp only at hacc ⊢
  have hM : (MAX_GSV_MESSAGES : Int) = 4 := by decide
  rw [hM] at hacc ⊢
  by_cases a1 : ok = false
  · rw [if_pos a1] at hacc; simp at hacc
  by_cases a2 : (gsv.get GSV_MESSAGE_COUNT).toInt ≤ 0 ∨ (gsv.get GSV_MESSAGE_COUNT).toInt > 4
  · rw [if_neg a1, if_pos a2] at hacc; simp at hacc
  by_cases a3 : (gsv.get GSV_MESSAGE_NUMBER).toInt ≤ 0 ∨
      (gsv.get GSV_MESSAGE_NUMBER).toInt > (gsv.get GSV_MESSAGE_COUNT).toInt
  · rw [if_neg a1, if_neg a2, if_pos a3] at hacc; simp at hacc
  · rw [if_neg a1, if_neg a2, if_neg a3]
    simp only [not_or, not_le, not_lt] at a2 a3
    refine ⟨by simpa using a1, by omega, by omega, by omega, by omega, ?_⟩
    intro key
    simp only [parseSlots_get, copy_get]
    split
    · rfl
    · split
      · rfl
      · split
        · rename_i hcl
          rw [clearFrom_get]
          simp only [SAT_IN_MESSAGE]
          by_cases hc : (gsv.get GSV_MESSAGE_NUMBER).toInt = 1 ∧
              SATELLITE_01 + (gsv.get GSV_MESSAGE_COUNT).toInt.toNat * 4 ≤ key ∧
              key < SATELLITE_01 + 16
          · rw [if_pos hc, if_pos hc.2]
          · rw [if_neg hc, if_neg]
            intro h
            exact hc ⟨hcl.1, h⟩
        · rename_i hcl
          by_cases hc : (gsv.get GSV_MESSAGE_NUMBER).toInt = 1 ∧
              SATELLITE_01 + (gsv.get GSV_MESSAGE_COUNT).toInt.toNat * 4 ≤ key ∧
              key < SATELLITE_01 + 16
          · exfalso
            apply hcl
            refine ⟨hc.1, ?_⟩
            have h1 := hc.2.1
            have h2 := hc.2.2
            have : (gsv.get GSV_MESSAGE_COUNT).toInt.toNat * 4 < 16 := by omega
            omega
          · rw [if_neg hc]

end NMEA

namespace NMEA

theorem fieldValue_int (u : Int) (digits : Nat) (t : Text) :
    fieldValue u (Token.int digits) t = if t = [] then none else some (Variant.int (atoi t)) := by
  unfold fieldValue
  rfl

theorem atoi_nil : atoi [] = 0 := by decide

/-- Decoding with a format that is an initial part of `full` into an empty store: every
field of `full` takes the value of its token, fields past the end of the format and tokens
past the end of the payload being absent and empty. -/
theorem parse_get_of_take (self : Sentence) (full : List Field) (n : Nat)
    (hfull : (full.map Prod.fst).Nodup) (hpre : self.format = full.take n)
    (u : Int) (text : Text) (hacc : (self.parse u text Dataset.empty).1 = true)
    (idx : Nat) (hidx : idx < full.length) :
    (self.parse u text Dataset.empty).2 (full.get ⟨idx, hidx⟩).1
      = fieldValue u (full.get ⟨idx, hidx⟩).2
          ((splitTokens (payloadOf self text)).getD idx []) := by
  have hnd : self.ids.Nodup := by
    unfold Sentence.ids
    rw [hpre, List.map_take]
    exact hfull.sublist (List.take_sublist _ _)
  have hlen : (splitTokens (payloadOf self text)).length = self.format.length := by
    rw [splitTokens_length]
    have := (Sentence.parse_fst_iff self u text Dataset.empty).1 hacc
    rw [← this.2.2.2, calcTokens_eq]
  by_cases hlt : idx < self.format.length
  · have h := sentence_parse_get self u text Dataset.empty hnd hacc idx hlt
    have heq : self.format.get ⟨idx, hlt⟩ = full.get ⟨idx, hidx⟩ := by
      simp only [List.get_eq_getElem]
      simp only [hpre, List.getElem_take]
    rw [heq] at h
    exact h
  · have hnot : (full.get ⟨idx, hidx⟩).1 ∉ self.ids := by
      unfold Sentence.ids
      rw [hpre, List.map_take]
      intro hmem
      obtain ⟨i, hi, hi2⟩ := List.getElem_of_mem hmem
      have hil : i < n ∧ i < (full.map Prod.fst).length := by
        simpa [List.length_take] using hi
      rw [List.getElem_take] at hi2
      have hidx2 : idx < (full.map Prod.fst).length := by simpa using hidx
      have : (full.map Prod.fst)[i] = (full.map Prod.fst)[idx] := by
        rw [hi2]; simp
      have := (List.Nodup.getElem_inj_iff hfull).1 this
      have hn : self.format.length = min n full.length := by rw [hpre, List.length_take]
      omega
    rw [sentence_parse_other self u text Dataset.empty _ hnot]
    rw [List.getD_eq_default _ _ (by omega)]
    simp [fieldValue, Dataset.empty]

theorem gsv_format_take (p : SentencePtr) (hp : p.isGSV = true) :
    ∃ n, p.sentence.format = fGSV.take n := by
  cases p <;> simp [SentencePtr.isGSV] at hp
  · exact ⟨19, by decide⟩
  · exact ⟨7, by decide⟩
  · exact ⟨11, by decide⟩
  · exact ⟨15, by decide⟩

theorem gsv_token_field (p : SentencePtr) (hp : p.isGSV = true) (u : Int) (text : Text)
    (hacc : (p.sentence.parse u text Dataset.empty).1 = true) (idx : Nat) (hidx : idx < 19) :
    (p.sentence.parse u text Dataset.empty).2 ((fGSV.getD idx (0, tInt1)).1)
      = if (splitTokens (payloadOf p.sentence text)).getD idx [] = [] then none
        else some (Variant.int (atoi ((splitTokens (payloadOf p.sentence text)).getD idx []))) := by
  obtain ⟨n, hn⟩ := gsv_format_take p hp
  have hl : fGSV.length = 19 := by decide
  have h := parse_get_of_take p.sentence fGSV n (by decide) hn u text hacc idx (by omega)
  have hg : fGSV.getD idx (0, tInt1) = fGSV.get ⟨idx, by omega⟩ := by
    rw [List.getD_eq_getElem _ _ (by omega)]; rfl
  rw [hg, h]
  have : ∃ d, (fGSV.get ⟨idx, by omega⟩).2 = Token.int d := by
    interval_cases idx <;> exact ⟨_, rfl⟩
  obtain ⟨d, hd⟩ := this
  rw [hd, fieldValue_int]

end NMEA

namespace NMEA

theorem gsv_get_toInt (p : SentencePtr) (hp : p.isGSV = true) (u : Int) (text : Text)
    (hacc : (p.sentence.parse u text Dataset.empty).1 = true) (idx : Nat) (hidx : idx < 19) :
    ((p.sentence.parse u text Dataset.empty).2.get ((fGSV.getD idx (0, tInt1)).1)).toInt
      = atoi ((splitTokens (payloadOf p.sentence text)).getD idx []) := by
  unfold Dataset.get
  rw [gsv_token_field p hp u text hacc idx hidx]
  split
  · rename_i h; rw [h]; rfl
  · rfl

theorem gsv_isPresent (p : SentencePtr) (hp : p.isGSV = true) (u : Int) (text : Text)
    (hacc : (p.sentence.parse u text Dataset.empty).1 = true) (idx : Nat) (hidx : idx < 19) :
    (p.sentence.parse u text Dataset.empty).2.isPresent ((fGSV.getD idx (0, tInt1)).1)
      = decide ((splitTokens (payloadOf p.sentence text)).getD idx [] ≠ []) := by
  unfold Dataset.isPresent
  rw [gsv_token_field p hp u text hacc idx hidx]
  split <;> simp_all

theorem gsv_slotValue_tokens (p : SentencePtr) (hp : p.isGSV = true) (u : Int) (text : Text)
    (hacc : (p.sentence.parse u text Dataset.empty).1 = true) (j : Nat) (hj : j < 4) :
    GSVSentence.slotValue (p.sentence.parse u text Dataset.empty).2 j =
      if gsvToken p.sentence text j 0 ≠ [] ∧ gsvToken p.sentence text j 1 ≠ [] ∧
          gsvToken p.sentence text j 2 ≠ [] ∧ gsvToken p.sentence text j 3 ≠ [] then
        some (Variant.satellite
          ⟨atoi (gsvToken p.sentence text j 0), atoi (gsvToken p.sentence text j 1),
           atoi (gsvToken p.sentence text j 2), atoi (gsvToken p.sentence text j 3)⟩)
      else none := by
  have e0 : GSV_SATELLITE_01_PRN + j * 4 = (fGSV.getD (3 + 4 * j + 0) (0, tInt1)).1 := by
    interval_cases j <;> rfl
  have e1 : GSV_SATELLITE_01_ELV + j * 4 = (fGSV.getD (3 + 4 * j + 1) (0, tInt1)).1 := by
    interval_cases j <;> rfl
  have e2 : GSV_SATELLITE_01_AZM + j * 4 = (fGSV.getD (3 + 4 * j + 2) (0, tInt1)).1 := by
    interval_cases j <;> rfl
  have e3 : GSV_SATELLITE_01_SNR + j * 4 = (fGSV.getD (3 + 4 * j + 3) (0, tInt1)).1 := by
    interval_cases j <;> rfl
  unfold GSVSentence.slotValue gsvToken
  rw [e0, e1, e2, e3]
  simp only [gsv_isPresent p hp u text hacc _ (show 3 + 4 * j + 0 < 19 by omega),
    gsv_isPresent p hp u text hacc _ (show 3 + 4 * j + 1 < 19 by omega),
    gsv_isPresent p hp u text hacc _ (show 3 + 4 * j + 2 < 19 by omega),
    gsv_isPresent p hp u text hacc _ (show 3 + 4 * j + 3 < 19 by omega),
    gsv_get_toInt p hp u text hacc _ (show 3 + 4 * j + 0 < 19 by omega),
    gsv_get_toInt p hp u text hacc _ (show 3 + 4 * j + 1 < 19 by omega),
    gsv_get_toInt p hp u text hacc _ (show 3 + 4 * j + 2 < 19 by omega),
    gsv_get_toInt p hp u text hacc _ (show 3 + 4 * j + 3 < 19 by omega)]
  simp only [Bool.and_eq_true, decide_eq_true_eq, and_assoc]

theorem gsv_ptr_parse (p : SentencePtr) (hp : p.isGSV = true) (u : Int) (text : Text)
    (dst : Dataset) : p.parse u text dst = GSVSentence.parse p.sentence u text dst := by
  unfold SentencePtr.parse
  rw [if_pos hp]

theorem gsv_number_eq (p : SentencePtr) (hp : p.isGSV = true) (u : Int) (text : Text)
    (hacc : (p.sentence.parse u text Dataset.empty).1 = true) :
    ((p.sentence.parse u text Dataset.empty).2.get GSV_MESSAGE_NUMBER).toInt.toNat
      = gsvMessageNumber p.sentence text ∧
    ((p.sentence.parse u text Dataset.empty).2.get GSV_MESSAGE_COUNT).toInt.toNat
      = gsvMessageCount p.sentence text := by
  have h1 := gsv_get_toInt p hp u text hacc 1 (by omega)
  have h0 := gsv_get_toInt p hp u text hacc 0 (by omega)
  have e1 : (fGSV.getD 1 (0, tInt1)).1 = GSV_MESSAGE_NUMBER := rfl
  have e0 : (fGSV.getD 0 (0, tInt1)).1 = GSV_MESSAGE_COUNT := rfl
  rw [e1] at h1
  rw [e0] at h0
  unfold gsvMessageNumber gsvMessageCount
  rw [h1, h0]
  exact ⟨rfl, rfl⟩

/-- The store after an accepted satellite-visibility decode, in terms of the tokens. -/
theorem gsv_parse_tokens (p : SentencePtr) (hp : p.isGSV = true) (u : Int) (text : Text)
    (dst : Dataset) (hacc : (p.parse u text dst).1 = true) :
    1 ≤ gsvMessageCount p.sentence text ∧ gsvMessageCount p.sentence text ≤ 4 ∧
    1 ≤ gsvMessageNumber p.sentence text ∧
    gsvMessageNumber p.sentence text ≤ gsvMessageCount p.sentence text ∧
    (∀ j, j < 4 →
      (p.parse u text dst).2 (SATELLITE_01 + 4 * (gsvMessageNumber p.sentence text - 1) + j) =
        if gsvToken p.sentence text j 0 ≠ [] ∧ gsvToken p.sentence text j 1 ≠ [] ∧
            gsvToken p.sentence text j 2 ≠ [] ∧ gsvToken p.sentence text j 3 ≠ [] then
          some (Variant.satellite
            ⟨atoi (gsvToken p.sentence text j 0), atoi (gsvToken p.sentence text j 1),
             atoi (gsvToken p.sentence text j 2), atoi (gsvToken p.sentence text j 3)⟩)
        else none) ∧
    (∀ i, i < 16 →
      (i < 4 * (gsvMessageNumber p.sentence text - 1) ∨
        4 * (gsvMessageNumber p.sentence text - 1) + 4 ≤ i) →
      (p.parse u text dst).2 (SATELLITE_01 + i) =
        if gsvMessageNumber p.sentence text = 1 ∧ 4 * gsvMessageCount p.sentence text ≤ i
        then none else dst (SATELLITE_01 + i)) := by
  rw [gsv_ptr_parse p hp] at hacc ⊢
  obtain ⟨h0, h1, h2, h3, h4, h5⟩ := gsv_parse_accepted p.sentence u text dst hacc
  obtain ⟨hn, hc⟩ := gsv_number_eq p hp u text h0
  have hnum : ((p.sentence.parse u text Dataset.empty).2.get GSV_MESSAGE_NUMBER).toInt
      = (gsvMessageNumber p.sentence text : Int) := by
    rw [← hn]; omega
  have hcnt : ((p.sentence.parse u text Dataset.empty).2.get GSV_MESSAGE_COUNT).toInt
      = (gsvMessageCount p.sentence text : Int) := by
    rw [← hc]; omega
  refine ⟨by omega, by omega, by omega, by omega, ?_, ?_⟩
  · intro j hj
    rw [h5, hn, if_pos (by omega)]
    have : SATELLITE_01 + 4 * (gsvMessageNumber p.sentence text - 1) + j
        - (SATELLITE_01 + (gsvMessageNumber p.sentence text - 1) * 4) = j := by omega
    rw [this, gsv_slotValue_tokens p hp u text h0 j hj]
  · intro i hi hout
    have hS : SATELLITE_01 = 38 := rfl
    have hV : SAT_IN_VIEW = 24 := rfl
    rw [h5, hn, hc, hnum, if_neg (by omega), if_neg (by omega)]
    by_cases hcl : gsvMessageNumber p.sentence text = 1 ∧ 4 * gsvMessageCount p.sentence text ≤ i
    · rw [if_pos hcl, if_pos]
      refine ⟨by omega, by omega, by omega⟩
    · rw [if_neg hcl, if_neg]
      intro h
      apply hcl
      refine ⟨by omega, by omega⟩

end NMEA

namespace NMEA

/-- C8: partial-gap tolerance.  After any of the four GPGSV formats accepts a frame with
message number `k`, slot `SATELLITE_01 + 4 (k - 1) + j` of the store (`j` in `0..3`) is
present exactly when the four sub-field tokens (prn, elevation, azimuth, snr) of slot `j`
are all non-empty, and then holds exactly those four parsed integers; when `k` is not 1,
the satellite slots outside `4 (k - 1) .. 4 (k - 1) + 3` are untouched. -/
theorem gsv_partial_gap_tolerance (p : SentencePtr) (u : Int) (text : Text) (dst : Dataset)
    (hp : p.isGSV = true) (hacc : (p.parse u text dst).1 = true) :
    (∀ j, j < 4 →
      ((p.parse u text dst).2.isPresent
          (SATELLITE_01 + 4 * (gsvMessageNumber p.sentence text - 1) + j) = true ↔
        (gsvToken p.sentence text j 0 ≠ [] ∧ gsvToken p.sentence text j 1 ≠ [] ∧
          gsvToken p.sentence text j 2 ≠ [] ∧ gsvToken p.sentence text j 3 ≠ [])) ∧
      ((gsvToken p.sentence text j 0 ≠ [] ∧ gsvToken p.sentence text j 1 ≠ [] ∧
          gsvToken p.sentence text j 2 ≠ [] ∧ gsvToken p.sentence text j 3 ≠ []) →
        (p.parse u text dst).2 (SATELLITE_01 + 4 * (gsvMessageNumber p.sentence text - 1) + j)
          = some (Variant.satellite
              ⟨atoi (gsvToken p.sentence text j 0), atoi (gsvToken p.sentence text j 1),
               atoi (gsvToken p.sentence text j 2), atoi (gsvToken p.sentence text j 3)⟩))) ∧
    (gsvMessageNumber p.sentence text ≠ 1 →
      ∀ i, i < 16 →
        (i < 4 * (gsvMessageNumber p.sentence text - 1) ∨
          4 * (gsvMessageNumber p.sentence text - 1) + 4 ≤ i) →
        (p.parse u text dst).2 (SATELLITE_01 + i) = dst (SATELLITE_01 + i)) := by
  obtain ⟨_, _, _, _, h5, h6⟩ := gsv_parse_tokens p hp u text dst hacc
  refine ⟨?_, ?_⟩
  · intro j hj
    have := h5 j hj
    refine ⟨?_, ?_⟩
    · unfold Dataset.isPresent
      rw [this]
      split <;> simp_all
    · intro hall
      rw [this, if_pos hall]
  · intro hk i hi hout
    rw [h6 i hi hout, if_neg]
    intro h
    exact hk h.1

/-- Witness of C8: the first sentence of `test_parse_gobi_gsv`; its first slot is complete
and is stored, its second slot lacks the elevation and is absent. -/
theorem gsv_partial_gap_tolerance_witness :
    SentencePtr.GSV.isGSV = true ∧
    (SentencePtr.GSV.parse 0 gobiFrame1 Info.new).1 = true ∧
    (SentencePtr.GSV.parse 0 gobiFrame1 Info.new).2
        (SATELLITE_01 + 4 * (gsvMessageNumber SentencePtr.GSV.sentence gobiFrame1 - 1) + 0)
      = some (Variant.satellite ⟨1, 11, 51, 91⟩) ∧
    ((SentencePtr.GSV.parse 0 gobiFrame1 Info.new).2.isPresent
        (SATELLITE_01 + 4 * (gsvMessageNumber SentencePtr.GSV.sentence gobiFrame1 - 1) + 1)
      = true ↔
      (gsvToken SentencePtr.GSV.sentence gobiFrame1 1 0 ≠ [] ∧
        gsvToken SentencePtr.GSV.sentence gobiFrame1 1 1 ≠ [] ∧
        gsvToken SentencePtr.GSV.sentence gobiFrame1 1 2 ≠ [] ∧
        gsvToken SentencePtr.GSV.sentence gobiFrame1 1 3 ≠ [])) :=
  ⟨by decide, by decide,
    ((gsv_partial_gap_tolerance SentencePtr.GSV 0 gobiFrame1 Info.new (by decide)
      (by decide)).1 0 (by decide)).2 (by decide),
    ((gsv_partial_gap_tolerance SentencePtr.GSV 0 gobiFrame1 Info.new (by decide)
      (by decide)).1 1 (by decide)).1⟩

theorem gsv_parse_fst_indep (p : SentencePtr) (u : Int) (text : Text) (d1 d2 : Dataset) :
    (p.parse u text d1).1 = (p.parse u text d2).1 := by
  unfold SentencePtr.parse
  split
  · unfold GSVSentence.parse
    simp only
    split_ifs <;> rfl
  · exact Sentence.parse_fst_indep _ u text d1 d2

/-- Decoding the frames numbered `k + 1, k + 2, ...` of an `m`-message update of complete
slots keeps: the slots below `4 k` present and the slots from `4 m` on absent. -/
theorem decodeFrames_invariant (u : Int) (m : Nat) (frames : List Text) :
    ∀ (k : Nat) (dst : Dataset),
      (∀ i (hi : i < frames.length), GSVSentence.fullFrame u m (k + i + 1) (frames.get ⟨i, hi⟩)) →
      (1 ≤ k → (∀ i, i < 4 * k → (dst (SATELLITE_01 + i)).isSome = true) ∧
        (∀ i, 4 * m ≤ i → i < 16 → dst (SATELLITE_01 + i) = none)) →
      k + frames.length ≤ m → 1 ≤ k + frames.length →
      (∀ i, i < 4 * (k + frames.length) →
        ((decodeFrames SentencePtr.GSV u frames dst) (SATELLITE_01 + i)).isSome = true) ∧
      (∀ i, 4 * m ≤ i → i < 16 →
        (decodeFrames SentencePtr.GSV u frames dst) (SATELLITE_01 + i) = none) := by
  induction frames with
  | nil =>
    intro k dst _ hinv _ hk
    simpa [decodeFrames] using hinv (by simpa using hk)
  | cons t rest ih =>
    intro k dst hfr hinv hkm _
    have hfull := hfr 0 (by simp)
    simp only [List.get_eq_getElem, List.getElem_cons_zero, Nat.add_zero] at hfull
    obtain ⟨hacc0, hcount, hnum, htok⟩ := hfull
    have hacc : (SentencePtr.GSV.parse u t dst).1 = true := by
      rw [gsv_parse_fst_indep _ u t dst Dataset.empty]; exact hacc0
    obtain ⟨_, hc4, _, _, h5, h6⟩ := gsv_parse_tokens SentencePtr.GSV (by decide) u t dst hacc
    have hs : SentencePtr.GSV.sentence = sGSV := rfl
    rw [hs, hnum] at h5 h6
    rw [hcount] at h6
    rw [hs, hcount] at hc4
    simp only [List.length_cons] at hkm
    have hstep : decodeFrames SentencePtr.GSV u (t :: rest) dst
        = decodeFrames SentencePtr.GSV u rest (SentencePtr.GSV.parse u t dst).2 := by
      simp [decodeFrames]
    rw [hstep]
    have hlen : k + (t :: rest).length = (k + 1) + rest.length := by
      simp only [List.length_cons]; omega
    rw [hlen]
    apply ih (k + 1)
    · intro i hi
      have := hfr (i + 1) (by simpa using hi)
      simp only [List.get_eq_getElem, List.getElem_cons_succ] at this
      have e : k + (i + 1) + 1 = k + 1 + i + 1 := by omega
      rw [e] at this
      exact this
    · intro _
      refine ⟨?_, ?_⟩
      · intro i hi
        by_cases hin : 4 * k ≤ i
        · have := h5 (i - 4 * k) (by omega)
          have e : SATELLITE_01 + 4 * (k + 1 - 1) + (i - 4 * k) = SATELLITE_01 + i := by
            simp only [Nat.add_sub_cancel]; omega
          rw [e] at this
          rw [this, if_pos]
          · rfl
          · exact ⟨htok _ (by omega) 0 (by omega), htok _ (by omega) 1 (by omega),
              htok _ (by omega) 2 (by omega), htok _ (by omega) 3 (by omega)⟩
        · have hk1 : 1 ≤ k := by omega
          rw [h6 i (by omega) (Or.inl (by simp only [Nat.add_sub_cancel]; omega)), if_neg]
          · exact (hinv hk1).1 i (by omega)
          · intro h; omega
      · intro i hi hi16
        rw [h6 i hi16 (Or.inr (by simp only [Nat.add_sub_cancel]; omega))]
        by_cases hk0 : k = 0
        · rw [if_pos ⟨by omega, hi⟩]
        · rw [if_neg (by intro h; omega)]
          exact (hinv (by omega)).2 i hi hi16
    · omega
    · omega

/-- C9: satellite-visibility shrink.  Whatever the store held, after decoding in order the
`m` frames numbered `1..m` of an `m`-message GPGSV update whose four slots per frame are all
complete (`m` from 1 to 3, and also 4), exactly the satellite slots `1..4 m` are present and
the slots `4 m + 1 .. 16` are absent. -/
theorem gsv_shrink (u : Int) (m : Nat) (frames : List Text) (dst : Dataset)
    (hm : 1 ≤ m ∧ m ≤ 4) (hlen : frames.length = m)
    (hframes : ∀ i (hi : i < frames.length),
      GSVSentence.fullFrame u m (i + 1) (frames.get ⟨i, hi⟩)) :
    ∀ i, i < 16 →
      ((decodeFrames SentencePtr.GSV u frames dst).isPresent (SATELLITE_01 + i) = true
        ↔ i < 4 * m) := by
  have h := decodeFrames_invariant u m frames 0 dst
    (by intro i hi; simpa using hframes i hi) (by intro h; omega) (by omega) (by omega)
  intro i hi
  unfold Dataset.isPresent
  constructor
  · intro hp
    by_contra hge
    rw [h.2 i (by omega) hi] at hp
    simp at hp
  · intro hlt
    exact h.1 i (by omega)

/-- Witness of C9: the twelve-satellite update of `test_parse_sat_decrease`, decoded into a
store that holds the sixteen satellites of `test_parse_sat`. -/
theorem gsv_shrink_witness :
    (1 ≤ 3 ∧ 3 ≤ 4) ∧ decreaseFrames.length = 3 ∧
    (∀ i, i < 16 →
      (decodeFrames SentencePtr.GSV 0 sixteenFrames Info.new).isPresent (SATELLITE_01 + i)
        = true) ∧
    (∀ i, i < 16 →
      ((decodeFrames SentencePtr.GSV 0 decreaseFrames
          (decodeFrames SentencePtr.GSV 0 sixteenFrames Info.new)).isPresent (SATELLITE_01 + i)
        = true ↔ i < 4 * 3)) :=
  ⟨by decide, by decide, by decide,
    gsv_shrink 0 3 decreaseFrames (decodeFrames SentencePtr.GSV 0 sixteenFrames Info.new)
      (by decide) (by decide) (by decide)⟩

end NMEA

namespace NMEA

theorem toString_eq_body (self : Sentence) (src : Dataset) (dst : Text) :
    self.toString src dst = dst ++ 36 :: self.body src ++ [13, 10] := by
  unfold Sentence.toString Sentence.body
  simp

theorem splitTokens_no_comma (r : Text) (h : 44 ∉ r) : splitTokens r = [r] := by
  induction r with
  | nil => rfl
  | cons c r ih =>
    simp only [List.mem_cons, not_or] at h
    rw [splitTokens_cons_ne r (Ne.symm h.1), ih h.2]
    rfl

theorem splitTokens_append_comma (r q : Text) (h : 44 ∉ r) :
    splitTokens (r ++ 44 :: q) = r :: splitTokens q := by
  induction r with
  | nil => simp [splitTokens]
  | cons c r ih =>
    simp only [List.mem_cons, not_or] at h
    rw [List.cons_append, splitTokens_cons_ne _ (Ne.symm h.1), ih h.2]
    rfl

theorem renderFields_cons (src : Dataset) (f : Field) (rest : List Field) :
    Sentence.renderFields src (f :: rest) = 44 :: (renderOf src f ++ Sentence.renderFields src rest) := by
  obtain ⟨id, token⟩ := f
  simp only [Sentence.renderFields, renderOf, Dataset.isPresent, Dataset.get]
  cases src id <;> rfl

theorem splitTokens_rendered (src : Dataset) (r : Text) (rest : List Field) (hr : 44 ∉ r)
    (h : ∀ f ∈ rest, 44 ∉ renderOf src f) :
    splitTokens (r ++ Sentence.renderFields src rest) = r :: rest.map (renderOf src) := by
  induction rest generalizing r with
  | nil => simp [Sentence.renderFields, splitTokens_no_comma r hr]
  | cons f rest ih =>
    rw [renderFields_cons, splitTokens_append_comma _ _ hr,
      ih _ (h f (List.mem_cons_self _ _)) (fun g hg => h g (List.mem_cons_of_mem _ hg))]
    rfl

theorem fmtHex2_length (n : Nat) : 2 ≤ (fmtHex2 n).length := by
  unfold fmtHex2 zeroPad
  simp only [List.length_append, List.length_replicate]
  omega

set_option maxRecDepth 100000 in
theorem extractChecksum_fmtHex2 (cs : Nat) (h : cs < 256) :
    extractChecksum ((fmtHex2 cs).take 2) = (cs : Int) := by
  revert cs
  decide

theorem cstr_append_of_no_nul (a b : Text) (h : 0 ∉ a) : cstr (a ++ b) = a ++ cstr b := by
  unfold cstr
  rw [List.takeWhile_append_of_pos]
  intro x hx
  simp
  intro hx0; subst hx0; exact h hx

/-- Decoding the text that `Sentence::toString` wrote: it is accepted, every declared field
takes the value its codec parses from its own rendering, other fields are unchanged. -/
theorem parse_body (self : Sentence) (u : Int) (src dst : Dataset)
    (hnd : self.ids.Nodup) (hne : self.format ≠ [])
    (hhead : ∀ b ∈ self.head, b ≠ 0 ∧ b < 128)
    (hcomma : ∀ f ∈ self.format, 44 ∉ renderOf src f)
    (hascii : ∀ f ∈ self.format, ∀ b ∈ renderOf src f, b < 128) :
    (self.parse u (self.body src) dst).1 = true ∧
    (∀ (i : Nat) (hi : i < self.format.length),
      (self.parse u (self.body src) dst).2 (self.format.get ⟨i, hi⟩).1
        = fieldValue u (self.format.get ⟨i, hi⟩).2 (renderOf src (self.format.get ⟨i, hi⟩))) ∧
    (∀ id, id ∉ self.ids → (self.parse u (self.body src) dst).2 id = dst id) := by
  obtain ⟨head, fmt⟩ := self
  simp only at hne hhead hcomma hascii ⊢
  cases fmt with
  | nil => exact absurd rfl hne
  | cons f rest =>
    have hrf := renderFields_cons src f rest
    have hlen2 : ((fmtHex2 (calcChecksum (head ++ Sentence.renderFields src (f :: rest)))).take 2).length
        = 2 := by
      rw [List.length_take]
      have := fmtHex2_length (calcChecksum (head ++ Sentence.renderFields src (f :: rest)))
      omega
    have hbody : (Sentence.mk head (f :: rest)).body src = head ++
        Sentence.renderFields src (f :: rest) ++
        42 :: (fmtHex2 (calcChecksum (head ++ Sentence.renderFields src (f :: rest)))).take 2 := rfl
    have hblen : ((Sentence.mk head (f :: rest)).body src).length
        = head.length + (Sentence.renderFields src (f :: rest)).length + 3 := by
      rw [hbody]
      simp only [List.length_append, List.length_cons, hlen2]
    have hrflen : 1 ≤ (Sentence.renderFields src (f :: rest)).length := by
      rw [hrf]; simp
    have htake : ((Sentence.mk head (f :: rest)).body src).take
        (((Sentence.mk head (f :: rest)).body src).length - 3)
        = head ++ Sentence.renderFields src (f :: rest) := by
      rw [hblen, hbody]
      have : head.length + (Sentence.renderFields src (f :: rest)).length + 3 - 3
          = (head ++ Sentence.renderFields src (f :: rest)).length := by
        simp only [List.length_append]; omega
      rw [this, List.take_left']
      rfl
    have hdrop : ((Sentence.mk head (f :: rest)).body src).drop
        (((Sentence.mk head (f :: rest)).body src).length - 3 + 1)
        = (fmtHex2 (calcChecksum (head ++ Sentence.renderFields src (f :: rest)))).take 2 := by
      rw [hblen, hbody]
      have : head.length + (Sentence.renderFields src (f :: rest)).length + 3 - 3 + 1
          = (head ++ Sentence.renderFields src (f :: rest) ++ [42]).length := by
        simp only [List.length_append, List.length_singleton]; omega
      rw [this]
      have e : head ++ Sentence.renderFields src (f :: rest) ++
          42 :: (fmtHex2 (calcChecksum (head ++ Sentence.renderFields src (f :: rest)))).take 2
          = (head ++ Sentence.renderFields src (f :: rest) ++ [42]) ++
            (fmtHex2 (calcChecksum (head ++ Sentence.renderFields src (f :: rest)))).take 2 := by
        simp
      rw [e, List.drop_left']
      rfl
    have hpay : payloadOf (Sentence.mk head (f :: rest)) ((Sentence.mk head (f :: rest)).body src)
        = renderOf src f ++ Sentence.renderFields src rest := by
      unfold payloadOf
      simp only
      rw [hblen, hbody, hrf]
      have e : head ++ 44 :: (renderOf src f ++ Sentence.renderFields src rest) ++
          42 :: (fmtHex2 (calcChecksum (head ++ 44 :: (renderOf src f ++
            Sentence.renderFields src rest)))).take 2
          = (head ++ [44]) ++ ((renderOf src f ++ Sentence.renderFields src rest) ++
            42 :: (fmtHex2 (calcChecksum (head ++ 44 :: (renderOf src f ++
              Sentence.renderFields src rest)))).take 2) := by
        simp
      rw [e, List.drop_left' (by simp)]
      have : head.length + (44 :: (renderOf src f ++ Sentence.renderFields src rest)).length
          + 3 - 3 - head.length - 1
          = (renderOf src f ++ Sentence.renderFields src rest).length := by
        simp only [List.length_cons, List.length_append]; omega
      rw [this, List.take_left']
      rfl
    have hsplit : splitTokens (renderOf src f ++ Sentence.renderFields src rest)
        = renderOf src f :: rest.map (renderOf src) :=
      splitTokens_rendered src _ rest (hcomma f (List.mem_cons_self _ _))
        (fun g hg => hcomma g (List.mem_cons_of_mem _ hg))
    have hacc : ((Sentence.mk head (f :: rest)).parse u
        ((Sentence.mk head (f :: rest)).body src) dst).1 = true := by
      rw [Sentence.parse_fst_iff]
      refine ⟨by rw [hblen]; simp only; omega, ?_, ?_, ?_⟩
      · simp only
        rw [hbody, List.append_assoc, cstr_append_of_no_nul _ _
          (fun h => (hhead 0 h).1 rfl), List.take_left']
        rfl
      · have h7 : ∀ b ∈ head ++ Sentence.renderFields src (f :: rest), b < 128 := by
          intro b hb
          rcases List.mem_append.1 hb with hb | hb
          · exact (hhead b hb).2
          · exact renderFields_ascii src _ hascii b hb
        have hlt := xorBytes_lt_pow 7 (head ++ Sentence.renderFields src (f :: rest))
          (fun b hb => by
            have := h7 b hb
            norm_num
            exact this)
        have e7 : (2 : Nat) ^ 7 = 128 := by norm_num
        have e31 : (2 : Nat) ^ 31 = 2147483648 := by norm_num
        rw [htake, hdrop, calcChecksum_eq_xorBytes _ h7, extractChecksum_fmtHex2 _ (by omega),
          int32_small _ (by omega)]
      · rw [hpay, calcTokens_eq, ← splitTokens_length, hsplit]
        simp
    refine ⟨hacc, ?_, fun id hid => sentence_parse_other _ u _ dst id hid⟩
    intro i hi
    rw [sentence_parse_get _ u _ dst hnd hacc i hi, hpay, hsplit]
    congr 1
    have : (renderOf src f :: rest.map (renderOf src)) = (f :: rest).map (renderOf src) := rfl
    rw [this, List.getD_eq_getElem _ _ (by simpa using hi)]
    simp only [List.getElem_map, List.get_eq_getElem]

end NMEA

namespace NMEA

theorem digitsVal_append (a b : Text) :
    digitsVal (a ++ b) = digitsVal a * 10 ^ b.length + digitsVal b := by
  induction b using List.reverseRecOn with
  | nil => simp [digitsVal]
  | append_singleton r c ih =>
    rw [← List.append_assoc, digitsVal_append_single, ih, digitsVal_append_single]
    simp only [List.length_append, List.length_singleton, pow_succ]
    ring

theorem digitsVal_replicate_zero (k : Nat) : digitsVal (List.replicate k 48) = 0 := by
  induction k with
  | zero => rfl
  | succ k ih =>
    rw [List.replicate_succ']
    rw [digitsVal_append_single, ih]

theorem digitsVal_zeroPad (w : Nat) (s : Text) : digitsVal (zeroPad w s) = digitsVal s := by
  unfold zeroPad
  rw [digitsVal_append, digitsVal_replicate_zero]
  simp

theorem zeroPad_length (w : Nat) (s : Text) : (zeroPad w s).length = max w s.length := by
  unfold zeroPad
  simp only [List.length_append, List.length_replicate]
  omega

theorem zeroPad_isDigit (w : Nat) (s : Text) (h : ∀ b ∈ s, isDigit b = true) :
    ∀ b ∈ zeroPad w s, isDigit b = true := by
  intro b hb
  unfold zeroPad at hb
  rcases List.mem_append.1 hb with hb | hb
  · rw [List.eq_of_mem_replicate hb]; rfl
  · exact h b hb

theorem natDigits_isDigit_bool (n : Nat) : ∀ b ∈ natDigits n, isDigit b = true := by
  intro b hb
  have := natDigits_isDigit n b hb
  simp [isDigit, this.1, this.2]

theorem takeWhile_isDigit_all (s : Text) (h : ∀ b ∈ s, isDigit b = true) :
    s.takeWhile isDigit = s := by
  rw [List.takeWhile_eq_self_iff]
  exact h

theorem takeWhile_isDigit_append (s r : Text) (c : Nat) (h : ∀ b ∈ s, isDigit b = true)
    (hc : isDigit c = false) : (s ++ c :: r).takeWhile isDigit = s := by
  induction s with
  | nil => simp [List.takeWhile, hc]
  | cons a s ih =>
    rw [List.cons_append, List.takeWhile_cons_of_pos (h a (List.mem_cons_self _ _)),
      ih (fun b hb => h b (List.mem_cons_of_mem _ hb))]

theorem dropWhile_isDigit_append (s r : Text) (c : Nat) (h : ∀ b ∈ s, isDigit b = true)
    (hc : isDigit c = false) : (s ++ c :: r).dropWhile isDigit = c :: r := by
  induction s with
  | nil => simp [List.dropWhile, hc]
  | cons a s ih =>
    rw [List.cons_append, List.dropWhile_cons_of_pos (h a (List.mem_cons_self _ _)),
      ih (fun b hb => h b (List.mem_cons_of_mem _ hb))]

theorem dropWhile_isDigit_all (s : Text) (h : ∀ b ∈ s, isDigit b = true) :
    s.dropWhile isDigit = [] := by
  rw [List.dropWhile_eq_nil_iff]
  exact h

theorem isDigit_not_space (c : Nat) (h : isDigit c = true) : isSpace c = false := by
  simp only [isDigit, Bool.and_eq_true, decide_eq_true_eq] at h
  simp [isSpace]
  omega

theorem atoi_of_digits (s : Text) (h : ∀ b ∈ s, isDigit b = true) : atoi s = digitsVal s := by
  cases s with
  | nil => rfl
  | cons c r =>
    have hc := h c (List.mem_cons_self _ _)
    have hsp := isDigit_not_space c hc
    have h45 : c ≠ 45 := by
      intro h'; subst h'; simp [isDigit] at hc
    have h43 : c ≠ 43 := by
      intro h'; subst h'; simp [isDigit] at hc
    unfold atoi
    simp only [List.dropWhile, hsp]
    split
    · rename_i heq; simp at heq; exact absurd heq.1 h45
    · rename_i heq; simp at heq; exact absurd heq.1 h43
    · rw [takeWhile_isDigit_all _ h]

theorem atoi_minus_digits (s : Text) (h : ∀ b ∈ s, isDigit b = true) :
    atoi (45 :: s) = -(digitsVal s : Int) := by
  unfold atoi
  have : isSpace 45 = false := by decide
  simp only [List.dropWhile, this]
  rw [takeWhile_isDigit_all _ h]

/-- The integer codec reads back what it wrote when the text is not cut by the buffer. -/
theorem int_codec_roundtrip (u : Int) (digits : Nat) (v : Int)
    (h : (0 ≤ v ∧ v < 10 ^ (digits + 1)) ∨ (v < 0 ∧ -(10 ^ digits : Int) < v)) :
    (Token.int digits).toString (Variant.int v) ≠ [] ∧
    (∀ b ∈ (Token.int digits).toString (Variant.int v), b = 45 ∨ (48 ≤ b ∧ b ≤ 57)) ∧
    (Token.int digits).parse u ((Token.int digits).toString (Variant.int v))
      = some (Variant.int v) := by
  have hnum : ∀ b ∈ (Token.int digits).toString (Variant.int v), b = 45 ∨ (48 ≤ b ∧ b ≤ 57) := by
    intro b hb
    have := fmtInt_numeric digits v b (List.mem_of_mem_take hb)
    rcases this with h | h | h
    · exact Or.inl h
    · exfalso
      simp only [Token.toString, Variant.toInt] at hb
      have hb := List.mem_of_mem_take hb
      unfold fmtInt at hb
      split at hb
      · rcases List.mem_cons.1 hb with hb | hb
        · omega
        · have := zeroPad_isDigit _ _ (natDigits_isDigit_bool _) b hb
          subst h; simp [isDigit] at this
      · have := zeroPad_isDigit _ _ (natDigits_isDigit_bool _) b hb
        subst h; simp [isDigit] at this
    · exact Or.inr h
  simp only [Token.toString, Token.parse, Variant.toInt] at hnum ⊢
  rcases h with ⟨h0, hlt⟩ | ⟨hneg, hgt⟩
  · have hf : fmtInt digits v = zeroPad digits (natDigits v.toNat) := by
      unfold fmtInt; rw [if_neg (by omega)]
    have hl : (natDigits v.toNat).length ≤ digits + 1 := by
      rw [natDigits_length_le _ _ (by omega)]
      have : (v.toNat : Int) < 10 ^ (digits + 1) := by rw [Int.toNat_of_nonneg h0]; exact hlt
      exact_mod_cast this
    have hlen : (fmtInt digits v).length ≤ digits + 1 := by
      rw [hf, zeroPad_length]; omega
    rw [List.take_of_length_le hlen] at hnum ⊢
    refine ⟨?_, hnum, ?_⟩
    · rw [hf]; unfold zeroPad
      intro h
      have := natDigits_ne_nil v.toNat
      simp at h
      exact this h.2
    · rw [hf, atoi_of_digits _ (zeroPad_isDigit _ _ (natDigits_isDigit_bool _)),
        digitsVal_zeroPad, digitsVal_natDigits, Int.toNat_of_nonneg h0]
  · have hf : fmtInt digits v = 45 :: zeroPad (digits - 1) (natDigits v.natAbs) := by
      unfold fmtInt; rw [if_pos hneg]
    have hd : 1 ≤ digits := by
      by_contra hd
      have : digits = 0 := by omega
      subst this
      norm_num at hgt
      omega
    have hl : (natDigits v.natAbs).length ≤ digits := by
      rw [natDigits_length_le _ _ hd]
      have : (v.natAbs : Int) < 10 ^ digits := by omega
      exact_mod_cast this
    have hlen : (fmtInt digits v).length ≤ digits + 1 := by
      rw [hf, List.length_cons, zeroPad_length]; omega
    rw [List.take_of_length_le hlen] at hnum ⊢
    refine ⟨by rw [hf]; simp, hnum, ?_⟩
    rw [hf, atoi_minus_digits _ (zeroPad_isDigit _ _ (natDigits_isDigit_bool _)),
      digitsVal_zeroPad, digitsVal_natDigits]
    have : -(v.natAbs : Int) = v := by omega
    rw [this]

end NMEA

namespace NMEA

theorem normalizeAux_of_normalized (neg : Bool) (s m : Nat) (h : s = 0 ∨ m % 10 ≠ 0) :
    Dbl.normalizeAux neg s m = ⟨neg, m, s⟩ := by
  cases s with
  | zero => rfl
  | succ k =>
    have : m % 10 ≠ 0 := by
      rcases h with h | h
      · omega
      · exact h
    simp [Dbl.normalizeAux, this]

theorem normalizeAux_scaled (neg : Bool) (s m j : Nat) :
    Dbl.normalizeAux neg (s + j) (m * 10 ^ j) = Dbl.normalizeAux neg s m := by
  induction j with
  | zero => simp
  | succ j ih =>
    have h1 : (m * 10 ^ (j + 1)) % 10 = 0 := by
      rw [pow_succ, ← Nat.mul_assoc]; exact Nat.mul_mod_left _ _
    have h2 : (m * 10 ^ (j + 1)) / 10 = m * 10 ^ j := by
      rw [pow_succ, ← Nat.mul_assoc]; exact Nat.mul_div_cancel _ (by norm_num)
    rw [← Nat.add_assoc]
    simp only [Dbl.normalizeAux, h1, if_true, h2]
    exact ih

theorem atof_of_digit_head (c : Nat) (r : Text) (hc : isDigit c = true) :
    atof (c :: r) = atofUnsigned false (c :: r) := by
  have hsp := isDigit_not_space c hc
  have h45 : c ≠ 45 := by
    intro h'; subst h'; simp [isDigit] at hc
  have h43 : c ≠ 43 := by
    intro h'; subst h'; simp [isDigit] at hc
  unfold atof
  simp only [List.dropWhile, hsp]
  split
  · rename_i heq; simp at heq; exact absurd heq.1 h45
  · rename_i heq; simp at heq; exact absurd heq.1 h43
  · rfl

theorem atof_minus (r : Text) : atof (45 :: r) = atofUnsigned true r := by
  unfold atof
  have : isSpace 45 = false := by decide
  simp only [List.dropWhile, this]

theorem atofUnsigned_fraction (neg : Bool) (ds fs : Text) (hd : ∀ b ∈ ds, isDigit b = true)
    (hf : ∀ b ∈ fs, isDigit b = true) :
    atofUnsigned neg (ds ++ 46 :: fs)
      = Dbl.ofDecimal neg (digitsVal ds * 10 ^ fs.length + digitsVal fs) fs.length := by
  unfold atofUnsigned
  have h46 : isDigit 46 = false := by decide
  simp only [takeWhile_isDigit_append ds fs 46 hd h46, dropWhile_isDigit_append ds fs 46 hd h46,
    takeWhile_isDigit_all fs hf]

theorem atofUnsigned_integer (neg : Bool) (ds : Text) (hd : ∀ b ∈ ds, isDigit b = true) :
    atofUnsigned neg ds = Dbl.ofDecimal neg (digitsVal ds) 0 := by
  unfold atofUnsigned
  simp only [takeWhile_isDigit_all ds hd, dropWhile_isDigit_all ds hd]

theorem zeroPad_head_isDigit (w : Nat) (s : Text) (hh : isDigit (s.headD 0) = true)
    (c : Nat) (rest : Text) (h : zeroPad w s = c :: rest) : isDigit c = true := by
  unfold zeroPad at h
  cases hrep : List.replicate (w - s.length) 48 with
  | nil =>
    rw [hrep] at h
    simp only [List.nil_append] at h
    rw [h] at hh
    exact hh
  | cons a l =>
    rw [hrep] at h
    simp only [List.cons_append, List.cons.injEq] at h
    rw [← h.1]
    have : a ∈ List.replicate (w - s.length) 48 := by rw [hrep]; exact List.mem_cons_self _ _
    rw [List.eq_of_mem_replicate this]; rfl

/-- What `atof` reads from the text of `printf("%0W.Df")` for the scaled integer `r`. -/
theorem atof_fmt_body (neg : Bool) (w d r : Nat) :
    atof (if neg then 45 :: zeroPad (w - 1) (natDigits (r / 10 ^ d) ++
        (if d = 0 then [] else 46 :: zeroPad d (natDigits (r % 10 ^ d))))
      else zeroPad w (natDigits (r / 10 ^ d) ++
        (if d = 0 then [] else 46 :: zeroPad d (natDigits (r % 10 ^ d)))))
      = Dbl.ofDecimal neg r d := by
  have key : ∀ k : Nat, atofUnsigned neg (zeroPad k (natDigits (r / 10 ^ d) ++
        (if d = 0 then [] else 46 :: zeroPad d (natDigits (r % 10 ^ d)))))
      = Dbl.ofDecimal neg r d := by
    intro k
    by_cases hd0 : d = 0
    · subst hd0
      simp only [if_true, List.append_nil, pow_zero, Nat.div_one]
      rw [atofUnsigned_integer _ _ (zeroPad_isDigit _ _ (natDigits_isDigit_bool _)),
        digitsVal_zeroPad, digitsVal_natDigits]
    · simp only [hd0, if_false]
      have hfl : (zeroPad d (natDigits (r % 10 ^ d))).length = d := by
        rw [zeroPad_length]
        have : (natDigits (r % 10 ^ d)).length ≤ d := by
          rw [natDigits_length_le _ _ (by omega)]
          exact Nat.mod_lt _ (by positivity)
        omega
      have e : zeroPad k (natDigits (r / 10 ^ d) ++ 46 :: zeroPad d (natDigits (r % 10 ^ d)))
          = (List.replicate (k - (natDigits (r / 10 ^ d) ++
              46 :: zeroPad d (natDigits (r % 10 ^ d))).length) 48 ++ natDigits (r / 10 ^ d))
            ++ 46 :: zeroPad d (natDigits (r % 10 ^ d)) := by
        unfold zeroPad
        simp
      rw [e, atofUnsigned_fraction]
      · rw [hfl, digitsVal_append, digitsVal_replicate_zero, digitsVal_zeroPad,
          digitsVal_natDigits, digitsVal_natDigits]
        congr 1
        simp only [Nat.zero_mul, Nat.zero_add]
        exact Nat.div_add_mod' r (10 ^ d)
      · intro b hb
        rcases List.mem_append.1 hb with hb | hb
        · rw [List.eq_of_mem_replicate hb]; rfl
        · exact natDigits_isDigit_bool _ b hb
      · exact zeroPad_isDigit _ _ (natDigits_isDigit_bool _)
  cases neg with
  | true => simp only [if_true]; rw [atof_minus]; exact key _
  | false =>
    simp only [Bool.false_eq_true, if_false]
    rw [← key w]
    have hne : zeroPad w (natDigits (r / 10 ^ d) ++
        (if d = 0 then [] else 46 :: zeroPad d (natDigits (r % 10 ^ d)))) ≠ [] := by
      unfold zeroPad
      have := natDigits_ne_nil (r / 10 ^ d)
      simp [this]
    have hhead : ∀ c rest, zeroPad w (natDigits (r / 10 ^ d) ++
        (if d = 0 then [] else 46 :: zeroPad d (natDigits (r % 10 ^ d)))) = c :: rest →
        isDigit c = true := by
      intro c rest hcr
      apply zeroPad_head_isDigit w _ _ c rest hcr
      have hnd := natDigits_ne_nil (r / 10 ^ d)
      cases hnat : natDigits (r / 10 ^ d) with
      | nil => exact absurd hnat hnd
      | cons a l =>
        simp only [List.cons_append, List.headD_cons]
        exact natDigits_isDigit_bool _ a (by rw [hnat]; exact List.mem_cons_self _ _)
    cases hz : zeroPad w (natDigits (r / 10 ^ d) ++
        (if d = 0 then [] else 46 :: zeroPad d (natDigits (r % 10 ^ d)))) with
    | nil => exact absurd hz hne
    | cons c rest => exact atof_of_digit_head c rest (hhead c rest hz)

/-- The float codec reads back a decimal of at most `d` fraction digits that the buffer
does not cut. -/
theorem float_codec_roundtrip (u : Int) (w d : Nat) (x : Dbl) (hn : x.normalized)
    (hs : x.scale ≤ d) (hfit : (fmtFloat w d x).length ≤ w + 2) :
    (Token.float w d).toString (Variant.double x) ≠ [] ∧
    (∀ b ∈ (Token.float w d).toString (Variant.double x),
      b = 45 ∨ b = 46 ∨ (48 ≤ b ∧ b ≤ 57)) ∧
    (Token.float w d).parse u ((Token.float w d).toString (Variant.double x))
      = some (Variant.double x) := by
  have hnum := fmtFloat_numeric w d x
  simp only [Token.toString, Token.parse, Variant.toDouble]
  rw [List.take_of_length_le hfit]
  have hval : atof (fmtFloat w d x) = x := by
    unfold fmtFloat
    simp only
    rw [atof_fmt_body]
    unfold roundDecimal
    rw [if_pos hs]
    unfold Dbl.ofDecimal
    have : d = x.scale + (d - x.scale) := by omega
    conv_lhs => rw [this]
    rw [Nat.add_sub_cancel_left, normalizeAux_scaled, normalizeAux_of_normalized _ _ _ hn]
  have hne : fmtFloat w d x ≠ [] := by
    unfold fmtFloat
    simp only
    split
    · simp
    · unfold zeroPad
      have := natDigits_ne_nil (roundDecimal x.mant x.scale d / 10 ^ d)
      simp [this]
  refine ⟨hne, hnum, ?_⟩
  rw [if_neg, hval]
  intro h
  have := hnum 110 (by rw [h]; simp)
  omega

end NMEA

namespace NMEA

set_option maxRecDepth 100000 in
theorem fmtInt_two_digits (n : Nat) (h : n < 100) :
    fmtInt 2 (n : Int) = [48 + n / 10, 48 + n % 10] := by
  revert n
  decide

set_option maxRecDepth 100000 in
theorem atoi_two_digits (n : Nat) (h : n < 100) :
    atoi [48 + n / 10, 48 + n % 10] = (n : Int) := by
  revert n
  decide

theorem time_codec_roundtrip (u : Int) (t : Time) (h : Token.time.representable (Variant.time t))
    (hc : (Variant.time t).centisecondTime) :
    Token.time.toString (Variant.time t) ≠ [] ∧
    (∀ b ∈ Token.time.toString (Variant.time t), b = 46 ∨ (48 ≤ b ∧ b ≤ 57)) ∧
    Token.time.parse u (Token.time.toString (Variant.time t)) = some (Variant.time t) := by
  obtain ⟨hour, minute, second, hsecond⟩ := t
  simp only [Token.representable, Variant.centisecondTime] at h hc
  obtain ⟨a, rfl⟩ : ∃ a : Nat, hour = a := ⟨hour.toNat, by omega⟩
  obtain ⟨b, rfl⟩ : ∃ b : Nat, minute = b := ⟨minute.toNat, by omega⟩
  obtain ⟨c, rfl⟩ : ∃ c : Nat, second = c := ⟨second.toNat, by omega⟩
  obtain ⟨d, rfl⟩ : ∃ d : Nat, hsecond = d := ⟨hsecond.toNat, by omega⟩
  have ha : a < 100 := by omega
  have hb : b < 100 := by omega
  have hcc : c < 100 := by omega
  have hd : d < 100 := by omega
  have hout : TimeToken.hsecondOut (d : Int) = (d : Int) := by
    unfold TimeToken.hsecondOut
    rw [if_neg (by omega), if_neg (by omega)]
  have hs : Token.time.toString (Variant.time ⟨a, b, c, d⟩)
      = [48 + a / 10, 48 + a % 10, 48 + b / 10, 48 + b % 10, 48 + c / 10, 48 + c % 10, 46,
         48 + d / 10, 48 + d % 10] := by
    simp only [Token.toString, Variant.toTime, hout, fmtInt_two_digits a ha,
      fmtInt_two_digits b hb, fmtInt_two_digits c hcc, fmtInt_two_digits d hd]
    rfl
  rw [hs]
  refine ⟨by simp, ?_, ?_⟩
  · intro x hx
    simp only [List.mem_cons, List.mem_singleton, List.not_mem_nil, or_false] at hx
    omega
  · simp only [Token.parse, TimeToken.parse, List.length_cons, List.length_nil]
    simp only [List.take, List.drop, atoi_two_digits a ha, atoi_two_digits b hb,
      atoi_two_digits c hcc]
    norm_num
    simp only [TimeToken.hsecondIn, atoi_two_digits d hd]

theorem date_codec_roundtrip (u : Int) (t : Date) (h : Token.date.representable (Variant.date t)) :
    Token.date.toString (Variant.date t) ≠ [] ∧
    (∀ b ∈ Token.date.toString (Variant.date t), 48 ≤ b ∧ b ≤ 57) ∧
    Token.date.parse u (Token.date.toString (Variant.date t)) = some (Variant.date t) := by
  obtain ⟨day, month, year⟩ := t
  simp only [Token.representable] at h
  obtain ⟨a, rfl⟩ : ∃ a : Nat, day = a := ⟨day.toNat, by omega⟩
  obtain ⟨b, rfl⟩ : ∃ b : Nat, month = b := ⟨month.toNat, by omega⟩
  obtain ⟨c, rfl⟩ : ∃ c : Nat, year = c := ⟨year.toNat, by omega⟩
  have ha : a < 100 := by omega
  have hb : b < 100 := by omega
  have hcc : c < 100 := by omega
  have hs : Token.date.toString (Variant.date ⟨a, b, c⟩)
      = [48 + a / 10, 48 + a % 10, 48 + b / 10, 48 + b % 10, 48 + c / 10, 48 + c % 10] := by
    simp only [Token.toString, Variant.toDate, fmtInt_two_digits a ha,
      fmtInt_two_digits b hb, fmtInt_two_digits c hcc]
    rfl
  rw [hs]
  refine ⟨by simp, ?_, ?_⟩
  · intro x hx
    simp only [List.mem_cons, List.mem_singleton, List.not_mem_nil, or_false] at hx
    omega
  · simp only [Token.parse, List.length_cons, List.length_nil]
    simp only [List.take, List.drop, atoi_two_digits a ha, atoi_two_digits b hb,
      atoi_two_digits c hcc]
    norm_num

/-- Every codec reads back the representable value it wrote; the text it writes is not
empty and holds no comma. -/
theorem codec_roundtrip (u : Int) (token : Token) (v : Variant) (h : token.representable v)
    (hc : v.centisecondTime) :
    token.toString v ≠ [] ∧ 44 ∉ token.toString v ∧
    token.parse u (token.toString v) = some v := by
  cases token <;> cases v <;> simp only [Token.representable] at h
  case int.int digits n =>
    obtain ⟨h1, h2, h3⟩ := int_codec_roundtrip u digits n
      (Or.inl ⟨h.1, lt_of_lt_of_le h.2 (pow_le_pow_right₀ (by norm_num) (by omega))⟩)
    refine ⟨h1, ?_, h3⟩
    intro hm; have := h2 44 hm; omega
  case float.double w d x =>
    obtain ⟨h1, h2, h3⟩ := float_codec_roundtrip u w d x h.1 h.2.1 h.2.2
    refine ⟨h1, ?_, h3⟩
    intro hm; have := h2 44 hm; omega
  case char.char c =>
    simp only [Token.toString, Token.parse, Variant.toChar,
      Nat.mod_eq_of_lt (show c < 256 by omega)]
    refine ⟨by simp, by simp; exact Ne.symm h.2, by simp⟩
  case time.time t =>
    obtain ⟨h1, h2, h3⟩ := time_codec_roundtrip u t (by simpa only [Token.representable] using h) hc
    refine ⟨h1, ?_, h3⟩
    intro hm; have := h2 44 hm; omega
  case date.date t =>
    obtain ⟨h1, h2, h3⟩ := date_codec_roundtrip u t (by simpa only [Token.representable] using h)
    refine ⟨h1, ?_, h3⟩
    intro hm; have := h2 44 hm; omega

/-- A representable value is written as 7-bit text. -/
theorem codec_ascii (token : Token) (v : Variant) (h : token.representable v) :
    ∀ b ∈ token.toString v, b < 128 := by
  apply token_toString_ascii
  · intro ht
    subst ht
    cases v <;> simp only [Token.representable] at h
    rename_i c
    simp only [Variant.toChar]
    have := Nat.mod_le c 256
    omega
  · intro ht
    subst ht
    cases v <;> simp only [Token.representable] at h

end NMEA

namespace NMEA

theorem stripFrame_toString (self : Sentence) (src : Dataset) :
    stripFrame (self.toString src []) = self.body src := by
  rw [toString_eq_body]
  unfold stripFrame
  simp only [List.nil_append, List.cons_append, List.drop_succ_cons, List.drop_zero,
    List.length_cons, List.length_append, List.length_nil]
  have : (self.body src).length + (0 + 1 + 1) + 1 - 3 = (self.body src).length := by omega
  rw [this, List.take_left']
  rfl

/-- Decoding what a format encoded from a store of values that the codecs read back. -/
theorem parse_body_exact (self : Sentence) (u : Int) (src dst : Dataset)
    (hnd : self.ids.Nodup) (hne : self.format ≠ [])
    (hhead : ∀ b ∈ self.head, b ≠ 0 ∧ b < 128)
    (hback : ∀ f ∈ self.format, ∀ v, src f.1 = some v →
      f.2.toString v ≠ [] ∧ 44 ∉ f.2.toString v ∧ f.2.parse u (f.2.toString v) = some v)
    (hascii : ∀ f ∈ self.format, ∀ v, src f.1 = some v → ∀ b ∈ f.2.toString v, b < 128) :
    (self.parse u (self.body src) dst).1 = true ∧
    ∀ id, (self.parse u (self.body src) dst).2 id = if id ∈ self.ids then src id else dst id := by
  have hcomma : ∀ f ∈ self.format, 44 ∉ renderOf src f := by
    intro f hf
    unfold renderOf
    cases hv : src f.1 with
    | none => simp
    | some v => exact (hback f hf v hv).2.1
  have h7 : ∀ f ∈ self.format, ∀ b ∈ renderOf src f, b < 128 := by
    intro f hf
    unfold renderOf
    cases hv : src f.1 with
    | none => simp
    | some v => exact hascii f hf v hv
  obtain ⟨h1, h2, h3⟩ := parse_body self u src dst hnd hne hhead hcomma h7
  refine ⟨h1, ?_⟩
  intro id
  by_cases hid : id ∈ self.ids
  · rw [if_pos hid]
    unfold Sentence.ids at hid
    obtain ⟨f, hf, rfl⟩ := List.mem_map.1 hid
    obtain ⟨i, hi, rfl⟩ := List.getElem_of_mem hf
    have := h2 i hi
    simp only [List.get_eq_getElem] at this
    rw [this]
    unfold fieldValue renderOf
    cases hv : src self.format[i].1 with
    | none => simp
    | some v =>
      obtain ⟨b1, _, b3⟩ := hback _ hf v hv
      simp only [b1, if_false, b3]
  · rw [if_neg hid]
    exact h3 id hid

theorem plain_sentence_wellformed (p : SentencePtr) :
    p.sentence.ids.Nodup ∧ p.sentence.format ≠ [] ∧ ∀ b ∈ p.sentence.head, b ≠ 0 ∧ b < 128 := by
  cases p <;> decide

/-- C1 (as amended): round trip of the generic sentence codec.  For every sentence format
of the catalog (the plain ones, and the satellite-visibility tables when used with the
generic codec) and every store whose present fields of the format hold values the
codecs can render (integers `0 <= v < 10 ^ digits`, decimals that fit the width and
precision, 7-bit characters (below 128) other than `','`, dates and times within their
ranges) and whose times of day have `hsecond` equal to 0 or within `10..99`, applying
`Sentence::parse` to the text that `Sentence::toString` produced (between `'$'` and `"\r\n"`) into an empty store
succeeds and yields exactly the present format fields of the store with equal values. -/
theorem sentence_roundtrip (p : SentencePtr) (u : Int) (src : Dataset)
    (hrep : src.representable p.sentence.format)
    (hcs : src.centisecondTimes p.sentence.format) :
    (p.sentence.parse u (stripFrame (p.sentence.toString src [])) Dataset.empty).1 = true ∧
    ∀ id, (p.sentence.parse u (stripFrame (p.sentence.toString src [])) Dataset.empty).2 id
      = if id ∈ p.sentence.ids then src id else none := by
  rw [stripFrame_toString]
  obtain ⟨hnd, hne, hhead⟩ := plain_sentence_wellformed p
  apply parse_body_exact p.sentence u src Dataset.empty hnd hne hhead
  · intro f hf v hv
    have h1 := hrep f hf
    have h2 := hcs f hf
    unfold Dataset.representableAt at h1
    unfold Dataset.centisecondTimeAt at h2
    rw [hv] at h1 h2
    exact codec_roundtrip u f.2 v h1 h2
  · intro f hf v hv
    have h1 := hrep f hf
    unfold Dataset.representableAt at h1
    rw [hv] at h1
    exact codec_ascii f.2 v h1

/-- Witness of C1 (as amended): a fix sentence with time, latitude, hemisphere and fix
quality. -/
theorem sentence_roundtrip_witness :
    ((((Dataset.empty.set TIME (Variant.time ⟨17, 27, 24, 50⟩)).set LATITUDE
        (Variant.double ⟨false, 123456, 3⟩)).set LATITUDE_NS (Variant.char 78)).set
        FIX_QUALITY (Variant.int 1)).representable SentencePtr.GGA.sentence.format ∧
    (SentencePtr.GGA.sentence.parse 0 (stripFrame (SentencePtr.GGA.sentence.toString
      ((((Dataset.empty.set TIME (Variant.time ⟨17, 27, 24, 50⟩)).set LATITUDE
        (Variant.double ⟨false, 123456, 3⟩)).set LATITUDE_NS (Variant.char 78)).set
        FIX_QUALITY (Variant.int 1)) [])) Dataset.empty).1 = true ∧
    (SentencePtr.GGA.sentence.parse 0 (stripFrame (SentencePtr.GGA.sentence.toString
      ((((Dataset.empty.set TIME (Variant.time ⟨17, 27, 24, 50⟩)).set LATITUDE
        (Variant.double ⟨false, 123456, 3⟩)).set LATITUDE_NS (Variant.char 78)).set
        FIX_QUALITY (Variant.int 1)) [])) Dataset.empty).2 TIME
      = some (Variant.time ⟨17, 27, 24, 50⟩) :=
  ⟨by decide,
    (sentence_roundtrip SentencePtr.GGA 0
      ((((Dataset.empty.set TIME (Variant.time ⟨17, 27, 24, 50⟩)).set LATITUDE
        (Variant.double ⟨false, 123456, 3⟩)).set LATITUDE_NS (Variant.char 78)).set
        FIX_QUALITY (Variant.int 1)) (by decide) (by decide)).1,
    ((sentence_roundtrip SentencePtr.GGA 0
      ((((Dataset.empty.set TIME (Variant.time ⟨17, 27, 24, 50⟩)).set LATITUDE
        (Variant.double ⟨false, 123456, 3⟩)).set LATITUDE_NS (Variant.char 78)).set
        FIX_QUALITY (Variant.int 1)) (by decide) (by decide)).2 TIME).trans
      (by decide)⟩

/-- Counterexample to C1 as stated: a time of day with `hsecond = 9` lies within the stated
range `0..999`, yet the fix sentence encodes it as `.90` and decodes it as `hsecond = 90`. -/
theorem sentence_roundtrip_counterexample :
    hsecondStore.representable sGGA.format ∧
    sGGA.toString hsecondStore [] = str "$GPGGA,000000.90,,,,,,,,,,,,,*71\r\n" ∧
    (sGGA.parse 0 (stripFrame (sGGA.toString hsecondStore [])) Dataset.empty).1 = true ∧
    (sGGA.parse 0 (stripFrame (sGGA.toString hsecondStore [])) Dataset.empty).2 TIME
      = some (Variant.time ⟨0, 0, 0, 90⟩) ∧
    (sGGA.parse 0 (stripFrame (sGGA.toString hsecondStore [])) Dataset.empty).2 TIME
      ≠ hsecondStore TIME := by
  decide

end NMEA

namespace NMEA

theorem findEnd_cons (c : Nat) (r : Text) :
    Sentence.findEnd (c :: r) =
      if c = 0 then none
      else if c = 13 ∧ r.head? = some 10 then some ([], r.tail)
      else (Sentence.findEnd r).map (fun x => (c :: x.1, x.2)) := rfl

theorem findEnd_frame (body rest : Text) (h : frameSafe body) :
    Sentence.findEnd (body ++ 13 :: 10 :: rest) = some (body, rest) := by
  induction body with
  | nil => simp [Sentence.findEnd]
  | cons c r ih =>
    obtain ⟨h0, h1, h2⟩ := h
    have hcond : ¬ (c = 13 ∧ (r ++ 13 :: 10 :: rest).head? = some 10) := by
      intro hc
      cases r with
      | nil => simp at hc
      | cons d r' =>
        apply h1
        simpa using hc
    rw [List.cons_append, findEnd_cons, if_neg h0, if_neg hcond, ih h2]
    rfl

theorem find_frame (body rest : Text) (h : frameSafe body) :
    Sentence.find (36 :: body ++ 13 :: 10 :: rest) = some (body, rest) := by
  unfold Sentence.find
  simp only [List.cons_append, Sentence.findBegin]
  norm_num
  exact findEnd_frame body rest h

theorem find_nil : Sentence.find [] = none := rfl

theorem parseLoop_frames (u : Int) (chain : List SentencePtr) (bodies : List Text) :
    ∀ (fuel : Nat) (dst : Dataset) (s : Nat), (∀ b ∈ bodies, frameSafe b) →
      bodies.length < fuel →
      parseLoop u chain fuel (joinFrames bodies) dst s
        = ([], (parseFrames u chain bodies dst s).1, (parseFrames u chain bodies dst s).2) := by
  induction bodies with
  | nil =>
    intro fuel dst s _ hf
    cases fuel with
    | zero => omega
    | succ f => simp [parseLoop, joinFrames, find_nil, parseFrames]
  | cons b rest ih =>
    intro fuel dst s hsafe hf
    cases fuel with
    | zero => omega
    | succ f =>
      have hb := hsafe b (List.mem_cons_self _ _)
      simp only [parseLoop, joinFrames]
      rw [find_frame b (joinFrames rest) hb]
      simp only
      rw [ih f _ _ (fun x hx => hsafe x (List.mem_cons_of_mem _ hx)) (by simpa using hf)]
      rfl

theorem joinFrames_length (bodies : List Text) : bodies.length ≤ (joinFrames bodies).length := by
  induction bodies with
  | nil => simp
  | cons b rest ih =>
    simp only [joinFrames, List.length_cons, List.length_append]
    omega

theorem chain_all :
    getSentences (if (if (if ALL &&& GSA ≠ 0 then ALL ||| GSA1 else ALL) &&& RMC ≠ 0
        then (if ALL &&& GSA ≠ 0 then ALL ||| GSA1 else ALL) ||| RMC1
        else (if ALL &&& GSA ≠ 0 then ALL ||| GSA1 else ALL)) &&& GSV ≠ 0
      then (if (if ALL &&& GSA ≠ 0 then ALL ||| GSA1 else ALL) &&& RMC ≠ 0
        then (if ALL &&& GSA ≠ 0 then ALL ||| GSA1 else ALL) ||| RMC1
        else (if ALL &&& GSA ≠ 0 then ALL ||| GSA1 else ALL)) ||| (GSV1 ||| GSV2 ||| GSV3)
      else (if (if ALL &&& GSA ≠ 0 then ALL ||| GSA1 else ALL) &&& RMC ≠ 0
        then (if ALL &&& GSA ≠ 0 then ALL ||| GSA1 else ALL) ||| RMC1
        else (if ALL &&& GSA ≠ 0 then ALL ||| GSA1 else ALL)))
      = [SentencePtr.GGA, SentencePtr.GSA, SentencePtr.GSA1, SentencePtr.GSV, SentencePtr.GSV1,
         SentencePtr.GSV2, SentencePtr.GSV3, SentencePtr.RMC, SentencePtr.RMC1,
         SentencePtr.GLL] := by
  decide

/-- The function `NMEA::parse` with the mask `ALL` on a buffer made of sentence texts. -/
theorem parse_joinFrames (u : Int) (bodies : List Text) (dst : Dataset)
    (hsafe : ∀ b ∈ bodies, frameSafe b) :
    parse u (joinFrames bodies) dst ALL =
      ((joinFrames bodies).length,
       (parseFrames u [SentencePtr.GGA, SentencePtr.GSA, SentencePtr.GSA1, SentencePtr.GSV,
         SentencePtr.GSV1, SentencePtr.GSV2, SentencePtr.GSV3, SentencePtr.RMC,
         SentencePtr.RMC1, SentencePtr.GLL] bodies dst 0).1,
       (parseFrames u [SentencePtr.GGA, SentencePtr.GSA, SentencePtr.GSA1, SentencePtr.GSV,
         SentencePtr.GSV1, SentencePtr.GSV2, SentencePtr.GSV3, SentencePtr.RMC,
         SentencePtr.RMC1, SentencePtr.GLL] bodies dst 0).2) := by
  unfold parse
  simp only [chain_all]
  rw [parseLoop_frames u _ bodies _ dst 0 hsafe
    (Nat.lt_succ_of_le (joinFrames_length bodies))]
  simp

theorem generic_header_reject (self : Sentence) (u : Int) (text : Text) (dst : Dataset)
    (h : (cstr text).take self.head.length ≠ self.head) :
    self.parse u text dst = (false, dst) := by
  have h1 : (self.parse u text dst).1 = false := by
    cases hh : (self.parse u text dst).1
    · rfl
    · exact absurd ((Sentence.parse_fst_iff self u text dst).1 hh).2.1 h
  have h2 := Sentence.parse_snd self u text dst
  rw [h1] at h2
  simp at h2
  exact Prod.ext h1 h2

theorem ptr_header_reject (p : SentencePtr) (u : Int) (text : Text) (dst : Dataset)
    (h : (cstr text).take p.sentence.head.length ≠ p.sentence.head) :
    p.parse u text dst = (false, dst) := by
  unfold SentencePtr.parse
  split
  · unfold GSVSentence.parse
    simp only [generic_header_reject p.sentence u text Dataset.empty h, if_true]
  · exact generic_header_reject p.sentence u text dst h

theorem body_head (self : Sentence) (src : Dataset) (h0 : 0 ∉ self.head) (n : Nat)
    (hn : n = self.head.length) : (cstr (self.body src)).take n = self.head := by
  unfold Sentence.body
  rw [List.append_assoc, cstr_append_of_no_nul _ _ h0, hn, List.take_left']
  rfl

end NMEA

namespace NMEA

theorem gsv_frames_eq (self : Sentence) (src : Dataset) (mc : Nat) (ks : List Nat) (dst : Text) :
    GSVSentence.frames self src mc ks dst
      = dst ++ joinFrames (GSVSentence.bodies self src mc ks) := by
  induction ks generalizing dst with
  | nil => simp [GSVSentence.frames, GSVSentence.bodies, joinFrames]
  | cons k rest ih =>
    simp only [GSVSentence.frames, ih, toString_eq_body, GSVSentence.bodies, List.map_cons,
      joinFrames]
    simp [GSVSentence.bodies]

theorem frameSats_get (src : Dataset) (m : Nat) (l : List Nat) (hl : ∀ j ∈ l, j < 4) :
    ∀ (gsv : Dataset) (key : Nat),
    GSVSentence.frameSats src m l gsv key =
      if 102 ≤ key ∧ key < 118 ∧ (key - 102) / 4 ∈ l ∧
          src.isPresent (SATELLITE_01 + (m - 1) * 4 + (key - 102) / 4) = true then
        some (Variant.int ((src.get (SATELLITE_01 + (m - 1) * 4 + (key - 102) / 4)).toSatellite.component
          ((key - 102) % 4)))
      else gsv key := by
  induction l with
  | nil => intro gsv key; simp [GSVSentence.frameSats]
  | cons j rest ih =>
    intro gsv key
    have hj4 : j < 4 := hl j (List.mem_cons_self _ _)
    have ih := ih (fun x hx => hl x (List.mem_cons_of_mem _ hx))
    simp only [GSVSentence.frameSats, ih, SAT_IN_MESSAGE, GSV_SATELLITE_01_PRN,
      GSV_SATELLITE_01_ELV, GSV_SATELLITE_01_AZM, GSV_SATELLITE_01_SNR]
    by_cases hr : 102 ≤ key ∧ key < 118 ∧ (key - 102) / 4 ∈ rest ∧
        src.isPresent (SATELLITE_01 + (m - 1) * 4 + (key - 102) / 4) = true
    · rw [if_pos hr, if_pos ⟨hr.1, hr.2.1, List.mem_cons_of_mem _ hr.2.2.1, hr.2.2.2⟩]
    · rw [if_neg hr]
      by_cases hp : src.isPresent (SATELLITE_01 + (m - 1) * 4 + j) = true
      · rw [if_pos hp]
        by_cases hk : 102 ≤ key ∧ key < 118 ∧ (key - 102) / 4 = j
        · obtain ⟨hk1, hk2, hk3⟩ := hk
          subst hk3
          rw [if_pos ⟨hk1, hk2, List.mem_cons_self _ _, hp⟩]
          have hc : (key - 102) % 4 < 4 := Nat.mod_lt _ (by norm_num)
          have hkey : key = 102 + (key - 102) / 4 * 4 + (key - 102) % 4 := by omega
          generalize hcdef : (key - 102) % 4 = c at hc hkey ⊢
          generalize hjdef : (key - 102) / 4 = j at hp hkey ⊢
          interval_cases c
          · simp [Dataset.set, Satellite.component, hkey]
          · simp only [Dataset.set, Satellite.component, hkey]
            rw [if_neg (by omega), if_neg (by omega), if_pos (by omega)]
          · simp only [Dataset.set, Satellite.component, hkey]
            rw [if_neg (by omega), if_pos (by omega)]
          · simp only [Dataset.set, Satellite.component, hkey]
            rw [if_pos (by omega)]
        · rw [if_neg]
          · simp only [Dataset.set]
            rw [if_neg (by omega), if_neg (by omega), if_neg (by omega), if_neg (by omega)]
          · intro h
            rcases List.mem_cons.1 h.2.2.1 with h3 | h3
            · exact hk ⟨h.1, h.2.1, h3⟩
            · exact hr ⟨h.1, h.2.1, h3, h.2.2.2⟩
      · rw [if_neg hp, if_neg]
        intro h
        rcases List.mem_cons.1 h.2.2.1 with h3 | h3
        · rw [h3] at h; exact hp h.2.2.2
        · exact hr ⟨h.1, h.2.1, h3, h.2.2.2⟩

/-- The store `gsv` of message `k`, field by field. -/
theorem frame_get (src : Dataset) (mc k : Nat) (key : Nat) :
    GSVSentence.frame src mc k key =
      if 102 ≤ key ∧ key < 118 ∧
          src.isPresent (SATELLITE_01 + (k - 1) * 4 + (key - 102) / 4) = true then
        some (Variant.int ((src.get (SATELLITE_01 + (k - 1) * 4 + (key - 102) / 4)).toSatellite.component
          ((key - 102) % 4)))
      else if key = GSV_MESSAGE_NUMBER then some (Variant.int k)
      else if key = GSV_MESSAGE_COUNT then some (Variant.int mc)
      else if key = SAT_IN_VIEW then src SAT_IN_VIEW
      else none := by
  unfold GSVSentence.frame
  have hr : List.range SAT_IN_MESSAGE = [0, 1, 2, 3] := by decide
  rw [frameSats_get _ _ _ (by rw [hr]; decide)]
  by_cases h : 102 ≤ key ∧ key < 118 ∧
      src.isPresent (SATELLITE_01 + (k - 1) * 4 + (key - 102) / 4) = true
  · rw [if_pos h, if_pos]
    refine ⟨h.1, h.2.1, ?_, h.2.2⟩
    rw [hr]
    have : (key - 102) / 4 < 4 := by omega
    interval_cases hq : (key - 102) / 4 <;> simp
  · rw [if_neg h, if_neg (fun hh => h ⟨hh.1, hh.2.1, hh.2.2.2⟩)]
    simp only [Dataset.set, copy_get, Dataset.empty]

end NMEA

namespace NMEA

theorem fmtInt_ne_nil (w : Nat) (v : Int) : fmtInt w v ≠ [] := by
  unfold fmtInt
  split
  · simp
  · unfold zeroPad
    have := natDigits_ne_nil v.toNat
    simp [this]

theorem int_toString_ne_nil (d : Nat) (v : Variant) : (Token.int d).toString v ≠ [] := by
  simp only [Token.toString]
  intro h
  have := fmtInt_ne_nil d v.toInt
  cases hf : fmtInt d v.toInt with
  | nil => exact this hf
  | cons a l => rw [hf] at h; simp at h

theorem int_toString_no_comma (d : Nat) (v : Variant) : 44 ∉ (Token.int d).toString v := by
  intro h
  have := fmtInt_numeric d v.toInt 44 (List.mem_of_mem_take h)
  omega

theorem fieldValue_int_render (u : Int) (d : Nat) (v : Int) :
    fieldValue u (Token.int d) ((Token.int d).toString (Variant.int v))
      = some (Variant.int (intReadBack d v)) := by
  unfold fieldValue
  rw [if_neg (int_toString_ne_nil d _)]
  rfl

theorem intReadBack_exact (d : Nat) (v : Int)
    (h : (0 ≤ v ∧ v < 10 ^ (d + 1)) ∨ (v < 0 ∧ -(10 ^ d : Int) < v)) : intReadBack d v = v := by
  have := (int_codec_roundtrip 0 d v h).2.2
  simp only [Token.toString, Token.parse, Variant.toInt, Option.some.injEq,
    Variant.int.injEq] at this
  exact this

theorem gsv_format_ints : ∀ f ∈ fGSV, f.2 = tInt1 ∨ f.2 = tInt2 ∨ f.2 = tInt3 := by decide

theorem gsv_render_no_comma (src : Dataset) : ∀ f ∈ sGSV.format, 44 ∉ renderOf src f := by
  intro f hf
  unfold renderOf
  cases src f.1 with
  | none => simp
  | some v =>
    rcases gsv_format_ints f hf with h | h | h <;> rw [h] <;> exact int_toString_no_comma _ _

theorem gsv_render_ascii (src : Dataset) :
    ∀ f ∈ sGSV.format, ∀ b ∈ renderOf src f, b < 128 := by
  intro f hf
  unfold renderOf
  cases src f.1 with
  | none => simp
  | some v =>
    apply token_toString_ascii
    · intro hc
      rcases gsv_format_ints f hf with h | h | h <;> rw [h] at hc <;> exact absurd hc (by decide)
    · intro hc
      rcases gsv_format_ints f hf with h | h | h <;> rw [h] at hc <;> exact absurd hc (by decide)

/-- The store that the generic codec decodes from the text of message `k`. -/
theorem gsv_generic_decode (u : Int) (src : Dataset) (mc k : Nat)
    (hk : 1 ≤ k) (hkm : k ≤ mc) (hm : mc ≤ 4) :
    (sGSV.parse u (sGSV.body (GSVSentence.frame src mc k)) Dataset.empty).1 = true ∧
    ∀ key, (sGSV.parse u (sGSV.body (GSVSentence.frame src mc k)) Dataset.empty).2 key =
      if 102 ≤ key ∧ key < 118 ∧
          src.isPresent (SATELLITE_01 + (k - 1) * 4 + (key - 102) / 4) = true then
        some (Variant.int
          ((src.get (SATELLITE_01 + (k - 1) * 4 + (key - 102) / 4)).toSatellite.readBack.component
            ((key - 102) % 4)))
      else if key = GSV_MESSAGE_NUMBER then some (Variant.int k)
      else if key = GSV_MESSAGE_COUNT then some (Variant.int mc)
      else if key = SAT_IN_VIEW then fieldValue u tInt2 (renderOf src (SAT_IN_VIEW, tInt2))
      else none := by
  obtain ⟨h1, h2, h3⟩ := parse_body sGSV u (GSVSentence.frame src mc k) Dataset.empty
    (by decide) (by decide) (by decide) (gsv_render_no_comma _) (gsv_render_ascii _)
  refine ⟨h1, ?_⟩
  intro key
  by_cases hid : key ∈ sGSV.ids
  · have hids : sGSV.ids = [100, 101, 24, 102, 103, 104, 105, 106, 107, 108, 109, 110, 111, 112,
        113, 114, 115, 116, 117] := by decide
    obtain ⟨i, hi, hikey⟩ := List.getElem_of_mem hid
    have hi19 : i < 19 := by simpa [hids] using hi
    have hfmt : sGSV.format.length = 19 := by decide
    have h2i := h2 i (by omega)
    have hkeyi : (sGSV.format.get ⟨i, by omega⟩).1 = key := by
      rw [← hikey]; simp [Sentence.ids]
    rw [hkeyi] at h2i
    rw [h2i]
    have hfr : ∀ f : Field, renderOf (GSVSentence.frame src mc k) f
        = match GSVSentence.frame src mc k f.1 with
          | some v => f.2.toString v
          | none => [] := fun f => rfl
    rw [hfr, hkeyi, frame_get]
    interval_cases i
    · have hkey : key = 100 := by rw [← hkeyi]; rfl
      have htok : (sGSV.format.get ⟨0, by omega⟩).2 = Token.int 1 := rfl
      subst hkey
      rw [htok]
      simp only [GSV_MESSAGE_NUMBER, GSV_MESSAGE_COUNT]
      norm_num
      rw [fieldValue_int_render, intReadBack_exact 1 (mc : Int) (Or.inl ⟨by omega, by norm_num; omega⟩)]
    · have hkey : key = 101 := by rw [← hkeyi]; rfl
      have htok : (sGSV.format.get ⟨1, by omega⟩).2 = Token.int 1 := rfl
      subst hkey
      rw [htok]
      simp only [GSV_MESSAGE_NUMBER, GSV_MESSAGE_COUNT]
      norm_num
      rw [fieldValue_int_render, intReadBack_exact 1 (k : Int) (Or.inl ⟨by omega, by norm_num; omega⟩)]
    · have hkey : key = 24 := by rw [← hkeyi]; rfl
      have htok : (sGSV.format.get ⟨2, by omega⟩).2 = tInt2 := rfl
      subst hkey
      rw [htok]
      simp only [GSV_MESSAGE_NUMBER, GSV_MESSAGE_COUNT, SAT_IN_VIEW]
      norm_num
      rfl
    · have hkey : key = 102 := by rw [← hkeyi]; rfl
      have htok : (sGSV.format.get ⟨3, by omega⟩).2 = Token.int 2 := rfl
      subst hkey
      rw [htok]
      simp only [GSV_MESSAGE_NUMBER, GSV_MESSAGE_COUNT, SAT_IN_VIEW]
      norm_num
      split_ifs with hp
      · simp only [fieldValue_int_render]
        rfl
      · rfl
    · have hkey : key = 103 := by rw [← hkeyi]; rfl
      have htok : (sGSV.format.get ⟨4, by omega⟩).2 = Token.int 2 := rfl
      subst hkey
      rw [htok]
      simp only [GSV_MESSAGE_NUMBER, GSV_MESSAGE_COUNT, SAT_IN_VIEW]
      norm_num
      split_ifs with hp
      · simp only [fieldValue_int_render]
        rfl
      · rfl
    · have hkey : key = 104 := by rw [← hkeyi]; rfl
      have htok : (sGSV.format.get ⟨5, by omega⟩).2 = Token.int 3 := rfl
      subst hkey
      rw [htok]
      simp only [GSV_MESSAGE_NUMBER, GSV_MESSAGE_COUNT, SAT_IN_VIEW]
      norm_num
      split_ifs with hp
      · simp only [fieldValue_int_render]
        rfl
      · rfl
    · have hkey : key = 105 := by rw [← hkeyi]; rfl
      have htok : (sGSV.format.get ⟨6, by omega⟩).2 = Token.int 2 := rfl
      subst hkey
      rw [htok]
      simp only [GSV_MESSAGE_NUMBER, GSV_MESSAGE_COUNT, SAT_IN_VIEW]
      norm_num
      split_ifs with hp
      · simp only [fieldValue_int_render]
        rfl
      · rfl
    · have hkey : key = 106 := by rw [← hkeyi]; rfl
      have htok : (sGSV.format.get ⟨7, by omega⟩).2 = Token.int 2 := rfl
      subst hkey
      rw [htok]
      simp only [GSV_MESSAGE_NUMBER, GSV_MESSAGE_COUNT, SAT_IN_VIEW]
      norm_num
      split_ifs with hp
      · simp only [fieldValue_int_render]
        rfl
      · rfl
    · have hkey : key = 107 := by rw [← hkeyi]; rfl
      have htok : (sGSV.format.get ⟨8, by omega⟩).2 = Token.int 2 := rfl
      subst hkey
      rw [htok]
      simp only [GSV_MESSAGE_NUMBER, GSV_MESSAGE_COUNT, SAT_IN_VIEW]
      norm_num
      split_ifs with hp
      · simp only [fieldValue_int_render]
        rfl
      · rfl
    · have hkey : key = 108 := by rw [← hkeyi]; rfl
      have htok : (sGSV.format.get ⟨9, by omega⟩).2 = Token.int 3 := rfl
      subst hkey
      rw [htok]
      simp only [GSV_MESSAGE_NUMBER, GSV_MESSAGE_COUNT, SAT_IN_VIEW]
      norm_num
      split_ifs with hp
      · simp only [fieldValue_int_render]
        rfl
      · rfl
    · have hkey : key = 109 := by rw [← hkeyi]; rfl
      have htok : (sGSV.format.get ⟨10, by omega⟩).2 = Token.int 2 := rfl
      subst hkey
      rw [htok]
      simp only [GSV_MESSAGE_NUMBER, GSV_MESSAGE_COUNT, SAT_IN_VIEW]
      norm_num
      split_ifs with hp
      · simp only [fieldValue_int_render]
        rfl
      · rfl
    · have hkey : key = 110 := by rw [← hkeyi]; rfl
      have htok : (sGSV.format.get ⟨11, by omega⟩).2 = Token.int 2 := rfl
      subst hkey
      rw [htok]
      simp only [GSV_MESSAGE_NUMBER, GSV_MESSAGE_COUNT, SAT_IN_VIEW]
      norm_num
      split_ifs with hp
      · simp only [fieldValue_int_render]
        rfl
      · rfl
    · have hkey : key = 111 := by rw [← hkeyi]; rfl
      have htok : (sGSV.format.get ⟨12, by omega⟩).2 = Token.int 2 := rfl
      subst hkey
      rw [htok]
      simp only [GSV_MESSAGE_NUMBER, GSV_MESSAGE_COUNT, SAT_IN_VIEW]
      norm_num
      split_ifs with hp
      · simp only [fieldValue_int_render]
        rfl
      · rfl
    · have hkey : key = 112 := by rw [← hkeyi]; rfl
      have htok : (sGSV.format.get ⟨13, by omega⟩).2 = Token.int 3 := rfl
      subst hkey
      rw [htok]
      simp only [GSV_MESSAGE_NUMBER, GSV_MESSAGE_COUNT, SAT_IN_VIEW]
      norm_num
      split_ifs with hp
      · simp only [fieldValue_int_render]
        rfl
      · rfl
    · have hkey : key = 113 := by rw [← hkeyi]; rfl
      have htok : (sGSV.format.get ⟨14, by omega⟩).2 = Token.int 2 := rfl
      subst hkey
      rw [htok]
      simp only [GSV_MESSAGE_NUMBER, GSV_MESSAGE_COUNT, SAT_IN_VIEW]
      norm_num
      split_ifs with hp
      · simp only [fieldValue_int_render]
        rfl
      · rfl
    · have hkey : key = 114 := by rw [← hkeyi]; rfl
      have htok : (sGSV.format.get ⟨15, by omega⟩).2 = Token.int 2 := rfl
      subst hkey
      rw [htok]
      simp only [GSV_MESSAGE_NUMBER, GSV_MESSAGE_COUNT, SAT_IN_VIEW]
      norm_num
      split_ifs with hp
      · simp only [fieldValue_int_render]
        rfl
      · rfl
    · have hkey : key = 115 := by rw [← hkeyi]; rfl
      have htok : (sGSV.format.get ⟨16, by omega⟩).2 = Token.int 2 := rfl
      subst hkey
      rw [htok]
      simp only [GSV_MESSAGE_NUMBER, GSV_MESSAGE_COUNT, SAT_IN_VIEW]
      norm_num
      split_ifs with hp
      · simp only [fieldValue_int_render]
        rfl
      · rfl
    · have hkey : key = 116 := by rw [← hkeyi]; rfl
      have htok : (sGSV.format.get ⟨17, by omega⟩).2 = Token.int 3 := rfl
      subst hkey
      rw [htok]
      simp only [GSV_MESSAGE_NUMBER, GSV_MESSAGE_COUNT, SAT_IN_VIEW]
      norm_num
      split_ifs with hp
      · simp only [fieldValue_int_render]
        rfl
      · rfl
    · have hkey : key = 117 := by rw [← hkeyi]; rfl
      have htok : (sGSV.format.get ⟨18, by omega⟩).2 = Token.int 2 := rfl
      subst hkey
      rw [htok]
      simp only [GSV_MESSAGE_NUMBER, GSV_MESSAGE_COUNT, SAT_IN_VIEW]
      norm_num
      split_ifs with hp
      · simp only [fieldValue_int_render]
        rfl
      · rfl
  · rw [h3 key hid]
    have hids : sGSV.ids = [100, 101, 24, 102, 103, 104, 105, 106, 107, 108, 109, 110, 111, 112,
        113, 114, 115, 116, 117] := by decide
    rw [hids] at hid
    simp only [List.mem_cons, List.mem_singleton, List.not_mem_nil, or_false, not_or] at hid
    rw [if_neg (by omega), if_neg (by unfold GSV_MESSAGE_NUMBER; omega),
      if_neg (by unfold GSV_MESSAGE_COUNT; omega), if_neg (by unfold SAT_IN_VIEW; omega)]
    rfl

end NMEA

namespace NMEA

theorem gsv_ptr_parse_GSV (u : Int) (text : Text) (dst : Dataset) :
    SentencePtr.GSV.parse u text dst = GSVSentence.parse sGSV u text dst := rfl

theorem slotValue_decoded (u : Int) (src : Dataset) (mc k : Nat)
    (hk : 1 ≤ k) (hkm : k ≤ mc) (hm : mc ≤ 4) (j : Nat) (hj : j < 4) :
    GSVSentence.slotValue
        (sGSV.parse u (sGSV.body (GSVSentence.frame src mc k)) Dataset.empty).2 j =
      if src.isPresent (SATELLITE_01 + (k - 1) * 4 + j) = true then
        some (Variant.satellite (src.get (SATELLITE_01 + (k - 1) * 4 + j)).toSatellite.readBack)
      else none := by
  obtain ⟨_, g2⟩ := gsv_generic_decode u src mc k hk hkm hm
  generalize (sGSV.parse u (sGSV.body (GSVSentence.frame src mc k)) Dataset.empty).2 = g at g2 ⊢
  have hip : ∀ key, g.isPresent key = (g key).isSome := fun _ => rfl
  have hget : ∀ key, g.get key = (g key).getD Variant.uninitialized := fun _ => rfl
  unfold GSVSentence.slotValue
  simp only [hip, hget, g2, GSV_SATELLITE_01_PRN, GSV_SATELLITE_01_ELV, GSV_SATELLITE_01_AZM,
    GSV_SATELLITE_01_SNR]
  have e0 : (102 + j * 4 - 102) / 4 = j := by omega
  have e1 : (103 + j * 4 - 102) / 4 = j := by omega
  have e2 : (104 + j * 4 - 102) / 4 = j := by omega
  have e3 : (105 + j * 4 - 102) / 4 = j := by omega
  have m0 : (102 + j * 4 - 102) % 4 = 0 := by omega
  have m1 : (103 + j * 4 - 102) % 4 = 1 := by omega
  have m2 : (104 + j * 4 - 102) % 4 = 2 := by omega
  have m3 : (105 + j * 4 - 102) % 4 = 3 := by omega
  have c0 : (102 ≤ 102 + j * 4 ∧ 102 + j * 4 < 118) := by omega
  have c1 : (102 ≤ 103 + j * 4 ∧ 103 + j * 4 < 118) := by omega
  have c2 : (102 ≤ 104 + j * 4 ∧ 104 + j * 4 < 118) := by omega
  have c3 : (102 ≤ 105 + j * 4 ∧ 105 + j * 4 < 118) := by omega
  simp only [e0, e1, e2, e3, m0, m1, m2, m3, c0, c1, c2, c3, true_and]
  by_cases hp : src.isPresent (SATELLITE_01 + (k - 1) * 4 + j) = true
  · simp only [hp, if_true]
    simp [Variant.toInt, Satellite.component, Satellite.readBack]
  · have n0 : ¬ (102 + j * 4 = GSV_MESSAGE_NUMBER) := by unfold GSV_MESSAGE_NUMBER; omega
    have n1 : ¬ (102 + j * 4 = GSV_MESSAGE_COUNT) := by unfold GSV_MESSAGE_COUNT; omega
    have n2 : ¬ (102 + j * 4 = SAT_IN_VIEW) := by unfold SAT_IN_VIEW; omega
    simp only [hp, n0, n1, n2]
    simp

theorem gsv_frame_decode (u : Int) (src dst : Dataset) (mc k : Nat)
    (hk : 1 ≤ k) (hkm : k ≤ mc) (hm : mc ≤ 4) :
    (SentencePtr.GSV.parse u (sGSV.body (GSVSentence.frame src mc k)) dst).1 = true ∧
    ∀ key, (SentencePtr.GSV.parse u (sGSV.body (GSVSentence.frame src mc k)) dst).2 key =
      if SATELLITE_01 + (k - 1) * 4 ≤ key ∧ key < SATELLITE_01 + (k - 1) * 4 + 4 then
        (if src.isPresent key = true then
          some (Variant.satellite (src.get key).toSatellite.readBack) else none)
      else if key = SAT_IN_VIEW then fieldValue u tInt2 (renderOf src (SAT_IN_VIEW, tInt2))
      else if k = 1 ∧ SATELLITE_01 + mc * 4 ≤ key ∧ key < SATELLITE_01 + 16 then none
      else dst key := by
  obtain ⟨g1, g2⟩ := gsv_generic_decode u src mc k hk hkm hm
  have hcount : ((sGSV.parse u (sGSV.body (GSVSentence.frame src mc k)) Dataset.empty).2.get
      GSV_MESSAGE_COUNT).toInt = mc := by
    unfold Dataset.get
    rw [g2]
    simp [GSV_MESSAGE_COUNT, GSV_MESSAGE_NUMBER, Variant.toInt]
  have hnum : ((sGSV.parse u (sGSV.body (GSVSentence.frame src mc k)) Dataset.empty).2.get
      GSV_MESSAGE_NUMBER).toInt = k := by
    unfold Dataset.get
    rw [g2]
    simp [GSV_MESSAGE_NUMBER, Variant.toInt]
  have hview : (sGSV.parse u (sGSV.body (GSVSentence.frame src mc k)) Dataset.empty).2 SAT_IN_VIEW
      = fieldValue u tInt2 (renderOf src (SAT_IN_VIEW, tInt2)) := by
    rw [g2]
    simp [GSV_MESSAGE_COUNT, GSV_MESSAGE_NUMBER, SAT_IN_VIEW]
  rw [gsv_ptr_parse_GSV]
  have hacc : (GSVSentence.parse sGSV u (sGSV.body (GSVSentence.frame src mc k)) dst).1 = true := by
    unfold GSVSentence.parse
    simp only [g1, hcount, hnum]
    have hM : (MAX_GSV_MESSAGES : Int) = 4 := by decide
    rw [hM]
    rw [if_neg (by simp), if_neg (by omega), if_neg (by omega)]
  refine ⟨hacc, ?_⟩
  obtain ⟨_, _, _, _, _, h5⟩ := gsv_parse_accepted sGSV u _ dst hacc
  intro key
  rw [h5, hcount, hnum, hview]
  simp only [Int.toNat_ofNat]
  by_cases hin : SATELLITE_01 + (k - 1) * 4 ≤ key ∧ key < SATELLITE_01 + (k - 1) * 4 + 4
  · rw [if_pos hin, if_pos hin, slotValue_decoded u src mc k hk hkm hm _ (by omega)]
    have : SATELLITE_01 + (k - 1) * 4 + (key - (SATELLITE_01 + (k - 1) * 4)) = key := by omega
    rw [this]
  · rw [if_neg hin, if_neg hin]
    by_cases hv : key = SAT_IN_VIEW
    · rw [if_pos hv, if_pos hv]
    · rw [if_neg hv, if_neg hv]
      have : ((k : Int) = 1) ↔ k = 1 := by omega
      simp only [this]

end NMEA

namespace NMEA

theorem frameSafe_of_bytes (r : Text) (h : ∀ b ∈ r, b ≠ 0 ∧ b ≠ 13) : frameSafe r := by
  induction r with
  | nil => trivial
  | cons c r ih =>
    have hc := h c (List.mem_cons_self _ _)
    exact ⟨hc.1, fun hh => hc.2 hh.1, ih (fun b hb => h b (List.mem_cons_of_mem _ hb))⟩

theorem frameSafe_append (r q : Text) (hr : frameSafe r) (hq : frameSafe q)
    (hhead : q.head? ≠ some 10) : frameSafe (r ++ q) := by
  induction r with
  | nil => exact hq
  | cons c r ih =>
    obtain ⟨h0, h1, h2⟩ := hr
    refine ⟨h0, ?_, ih h2⟩
    intro hh
    cases r with
    | nil => exact hhead (by simpa using hh.2)
    | cons d r' => exact h1 ⟨hh.1, by simpa using hh.2⟩

theorem renderFields_frameSafe (src : Dataset) (fmt : List Field) (tail : Text)
    (hf : ∀ f ∈ fmt, frameSafe (renderOf src f)) (ht : frameSafe tail)
    (hth : tail.head? ≠ some 10) :
    frameSafe (Sentence.renderFields src fmt ++ tail) ∧
      (Sentence.renderFields src fmt ++ tail).head? ≠ some 10 := by
  induction fmt with
  | nil => exact ⟨ht, hth⟩
  | cons f rest ih =>
    obtain ⟨i1, i2⟩ := ih (fun g hg => hf g (List.mem_cons_of_mem _ hg))
    rw [renderFields_cons]
    refine ⟨?_, by simp⟩
    simp only [List.cons_append, List.append_assoc]
    refine ⟨by norm_num, fun hh => by omega, ?_⟩
    exact frameSafe_append _ _ (hf f (List.mem_cons_self _ _)) i1 i2

set_option maxRecDepth 100000 in
theorem hex2_bytes (n : Nat) (h : n < 256) :
    ∀ b ∈ (fmtHex2 n).take 2, b ≠ 0 ∧ b ≠ 13 ∧ b ≠ 10 := by
  revert n
  decide

/-- The text of a generated sentence holds no NUL and no line end. -/
theorem body_frameSafe (self : Sentence) (src : Dataset)
    (hhead : ∀ b ∈ self.head, b ≠ 0 ∧ b ≠ 13 ∧ b < 128)
    (hf : ∀ f ∈ self.format, frameSafe (renderOf src f))
    (hascii : ∀ f ∈ self.format, ∀ b ∈ renderOf src f, b < 128) :
    frameSafe (self.body src) := by
  unfold Sentence.body
  rw [List.append_assoc]
  have h7 : ∀ b ∈ self.head ++ Sentence.renderFields src self.format, b < 128 := by
    intro b hb
    rcases List.mem_append.1 hb with hb | hb
    · exact (hhead b hb).2.2
    · exact renderFields_ascii src _ hascii b hb
  have hcs : calcChecksum (self.head ++ Sentence.renderFields src self.format) < 256 := by
    rw [calcChecksum_eq_xorBytes _ h7]
    apply xorBytes_lt
    intro b hb
    have := h7 b hb
    omega
  have htail : frameSafe (42 :: (fmtHex2 (calcChecksum
      (self.head ++ Sentence.renderFields src self.format))).take 2) := by
    apply frameSafe_of_bytes
    intro b hb
    rcases List.mem_cons.1 hb with hb | hb
    · omega
    · have := hex2_bytes _ hcs b hb
      exact ⟨this.1, this.2.1⟩
  obtain ⟨i1, i2⟩ := renderFields_frameSafe src self.format _ hf htail (by simp)
  exact frameSafe_append _ _
    (frameSafe_of_bytes _ (fun b hb => ⟨(hhead b hb).1, (hhead b hb).2.1⟩)) i1 i2

theorem int_render_frameSafe (d : Nat) (v : Variant) : frameSafe ((Token.int d).toString v) := by
  apply frameSafe_of_bytes
  intro b hb
  have := fmtInt_numeric d v.toInt b (List.mem_of_mem_take hb)
  omega

theorem gsv_body_frameSafe (src : Dataset) : frameSafe (sGSV.body src) := by
  apply body_frameSafe _ _ (by decide) _ (gsv_render_ascii src)
  intro f hf
  unfold renderOf
  cases src f.1 with
  | none => trivial
  | some v =>
    rcases gsv_format_ints f hf with h | h | h <;> rw [h] <;> exact int_render_frameSafe _ _

/-- A catalog object rejects the text generated with a different header. -/
theorem ptr_reject_other_head (p : SentencePtr) (self : Sentence) (u : Int) (src dst : Dataset)
    (h0 : 0 ∉ self.head) (hlen : p.sentence.head.length = self.head.length)
    (hne : p.sentence.head ≠ self.head) : p.parse u (self.body src) dst = (false, dst) := by
  apply ptr_header_reject
  rw [body_head self src h0 _ hlen]
  exact Ne.symm hne

theorem parseChain_gsv_body (u : Int) (src dst : Dataset) (s : Nat)
    (hacc : (SentencePtr.GSV.parse u (sGSV.body src) dst).1 = true) :
    parseChain u (sGSV.body src)
      [SentencePtr.GGA, SentencePtr.GSA, SentencePtr.GSA1, SentencePtr.GSV, SentencePtr.GSV1,
       SentencePtr.GSV2, SentencePtr.GSV3, SentencePtr.RMC, SentencePtr.RMC1, SentencePtr.GLL]
      dst s = ((SentencePtr.GSV.parse u (sGSV.body src) dst).2, s ||| GSV) := by
  have r1 := ptr_reject_other_head SentencePtr.GGA sGSV u src dst (by decide) (by decide)
    (by decide)
  have r2 := ptr_reject_other_head SentencePtr.GSA sGSV u src dst (by decide) (by decide)
    (by decide)
  have r3 := ptr_reject_other_head SentencePtr.GSA1 sGSV u src dst (by decide) (by decide)
    (by decide)
  simp only [parseChain, r1, r2, r3, hacc, if_true, toSentenceId]
  simp

end NMEA

namespace NMEA

/-- The store after `NMEA::parse` has decoded the generated GPGSV messages `a .. a + n - 1`. -/
theorem parseFrames_gsv (u : Int) (src : Dataset) (mc : Nat) (hm : mc ≤ 4) :
    ∀ (n a : Nat) (dst : Dataset) (s : Nat), 1 ≤ a → a + n ≤ mc + 1 → ∀ key,
      (parseFrames u
        [SentencePtr.GGA, SentencePtr.GSA, SentencePtr.GSA1, SentencePtr.GSV, SentencePtr.GSV1,
         SentencePtr.GSV2, SentencePtr.GSV3, SentencePtr.RMC, SentencePtr.RMC1, SentencePtr.GLL]
        (GSVSentence.bodies sGSV src mc (List.range' a n)) dst s).1 key =
      if SATELLITE_01 + (a - 1) * 4 ≤ key ∧ key < SATELLITE_01 + (a + n - 1) * 4 then
        (if src.isPresent key = true then
          some (Variant.satellite (src.get key).toSatellite.readBack) else none)
      else if key = SAT_IN_VIEW ∧ 1 ≤ n then fieldValue u tInt2 (renderOf src (SAT_IN_VIEW, tInt2))
      else if a = 1 ∧ 1 ≤ n ∧ SATELLITE_01 + mc * 4 ≤ key ∧ key < SATELLITE_01 + 16 then none
      else dst key := by
  have hS : SATELLITE_01 = 38 := rfl
  have hV : SAT_IN_VIEW = 24 := rfl
  intro n
  induction n with
  | zero =>
    intro a dst s ha _ key
    simp only [List.range'_zero, GSVSentence.bodies, List.map_nil, parseFrames]
    rw [if_neg (by omega), if_neg (by omega), if_neg (by omega)]
  | succ n ih =>
    intro a dst s ha han key
    obtain ⟨d1, d2⟩ := gsv_frame_decode u src dst mc a ha (by omega) hm
    have hb : GSVSentence.bodies sGSV src mc (List.range' a (n + 1))
        = sGSV.body (GSVSentence.frame src mc a)
          :: GSVSentence.bodies sGSV src mc (List.range' (a + 1) n) := by
      simp [GSVSentence.bodies, List.range'_succ]
    rw [hb]
    simp only [parseFrames]
    rw [parseChain_gsv_body u _ dst s d1]
    simp only
    rw [ih (a + 1) _ _ (by omega) (by omega) key, d2 key]
    simp only [Nat.add_sub_cancel]
    have e : a + (n + 1) - 1 = a + n := by omega
    rw [e]
    split_ifs <;> first | rfl | omega

/-- The GPGSV encoder writes the messages `1 .. ⌈n / 4⌉` when `SAT_IN_VIEW` holds `n`. -/
theorem gsv_toString_frames (src : Dataset) (n : Nat) (hn : 1 ≤ n) (hn16 : n ≤ 16)
    (hview : src SAT_IN_VIEW = some (Variant.int n)) :
    SentencePtr.GSV.toString src [] =
      joinFrames (GSVSentence.bodies sGSV src (n / 4 + (if n % 4 ≠ 0 then 1 else 0))
        (List.range' 1 (n / 4 + (if n % 4 ≠ 0 then 1 else 0)))) := by
  have h1 : (src.get SAT_IN_VIEW).toInt = (n : Int) := by
    simp [Dataset.get, hview, Variant.toInt]
  have e : SentencePtr.GSV.toString src [] = GSVSentence.toString sGSV src [] := rfl
  rw [e]
  unfold GSVSentence.toString
  simp only [h1, MAX_SAT_IN_VIEW, SAT_IN_MESSAGE]
  rw [if_neg (by omega), if_neg (by push_cast; omega)]
  simp only [Int.toNat_ofNat]
  rw [gsv_frames_eq]
  rfl

/-- Within the ranges `Info::setSatsInView` asserts a satellite record is read back as written. -/
theorem readBack_exact (sat : Satellite)
    (h : 1 ≤ sat.prn ∧ sat.prn ≤ 51 ∧ -90 ≤ sat.elevation ∧ sat.elevation ≤ 90 ∧
      0 ≤ sat.azimuth ∧ sat.azimuth ≤ 359 ∧ 0 ≤ sat.snr ∧ sat.snr ≤ 99) :
    sat.readBack = sat := by
  obtain ⟨a, b, c, d, e, f, g, i⟩ := h
  unfold Satellite.readBack
  rw [intReadBack_exact 2 sat.prn (Or.inl ⟨by omega, by norm_num; omega⟩),
    intReadBack_exact 3 sat.azimuth (Or.inl ⟨by omega, by norm_num; omega⟩),
    intReadBack_exact 2 sat.snr (Or.inl ⟨by omega, by norm_num; omega⟩)]
  have he : intReadBack 2 sat.elevation = sat.elevation := by
    by_cases h0 : 0 ≤ sat.elevation
    · exact intReadBack_exact 2 _ (Or.inl ⟨h0, by norm_num; omega⟩)
    · exact intReadBack_exact 2 _ (Or.inr ⟨by omega, by norm_num; omega⟩)
  rw [he]

end NMEA

namespace NMEA

/-- Claim C10, amended. Multi-frame satellite round trip: for every `n` in 1..16 and
satellites `s_1 .. s_n` with prn 1..51, elevation -90..90, azimuth 0..359 and snr 0..99, let
the store `src` hold `SAT_IN_VIEW = n`, `s_i` in slot `i` and no satellite in the slots after
`n` that the last sentence written carries (the slots `n+1 .. 4 * ceil(n / 4)`). The text the
GPGSV encoder writes for `src`, decoded by `NMEA::parse` with the mask `ALL` into any store
`dst`, is consumed to its end and yields a store whose satellite slots 1..n equal
`s_1 .. s_n`, whose slots n+1..16 are absent and whose `SAT_IN_VIEW` is `n`. -/
theorem gsv_multiframe_roundtrip (u : Int) (n : Nat) (sats : List Satellite)
    (src dst : Dataset) (hn : 1 ≤ n) (hn16 : n ≤ 16) (hlen : sats.length = n)
    (hrange : ∀ sat ∈ sats, 1 ≤ sat.prn ∧ sat.prn ≤ 51 ∧ -90 ≤ sat.elevation ∧
      sat.elevation ≤ 90 ∧ 0 ≤ sat.azimuth ∧ sat.azimuth ≤ 359 ∧ 0 ≤ sat.snr ∧ sat.snr ≤ 99)
    (hview : src SAT_IN_VIEW = some (Variant.int n))
    (hslots : ∀ i, ∀ hi : i < sats.length,
      src (SATELLITE_01 + i) = some (Variant.satellite (sats.get ⟨i, hi⟩)))
    (habsent : ∀ i, i < (n / 4 + (if n % 4 ≠ 0 then 1 else 0)) * 4 → n ≤ i →
      src (SATELLITE_01 + i) = none) :
    (parse u (SentencePtr.GSV.toString src []) dst ALL).1
        = (SentencePtr.GSV.toString src []).length ∧
      (∀ i, ∀ hi : i < sats.length,
        (parse u (SentencePtr.GSV.toString src []) dst ALL).2.1 (SATELLITE_01 + i)
          = some (Variant.satellite (sats.get ⟨i, hi⟩))) ∧
      (∀ i, i < 16 → n ≤ i →
        (parse u (SentencePtr.GSV.toString src []) dst ALL).2.1 (SATELLITE_01 + i) = none) ∧
      (parse u (SentencePtr.GSV.toString src []) dst ALL).2.1 SAT_IN_VIEW
        = some (Variant.int n) := by
  have hS : SATELLITE_01 = 38 := rfl
  have hV : SAT_IN_VIEW = 24 := rfl
  rw [gsv_toString_frames src n hn hn16 hview]
  generalize hmc : n / 4 + (if n % 4 ≠ 0 then 1 else 0) = mc
  have hm1 : 1 ≤ mc := by subst hmc; split_ifs <;> omega
  have hm4 : mc ≤ 4 := by subst hmc; split_ifs <;> omega
  have hmn : n ≤ mc * 4 := by subst hmc; split_ifs <;> omega
  rw [hmc] at habsent
  clear hmc
  have hsafe : ∀ b ∈ GSVSentence.bodies sGSV src mc (List.range' 1 mc), frameSafe b := by
    intro b hb
    simp only [GSVSentence.bodies, List.mem_map] at hb
    obtain ⟨k, _, rfl⟩ := hb
    exact gsv_body_frameSafe _
  rw [parse_joinFrames u _ dst hsafe]
  have key := parseFrames_gsv u src mc hm4 mc 1 dst 0 (le_refl 1) (by omega)
  simp only [Nat.add_sub_cancel_left, Nat.sub_self, Nat.zero_mul, Nat.add_zero] at key
  simp only
  refine ⟨trivial, ?_, ?_, ?_⟩
  · intro i hi
    rw [key (SATELLITE_01 + i), if_pos (by omega)]
    have hp : src.isPresent (SATELLITE_01 + i) = true := by
      simp [Dataset.isPresent, hslots i hi]
    rw [if_pos hp]
    have hg : (src.get (SATELLITE_01 + i)).toSatellite = sats.get ⟨i, hi⟩ := by
      simp [Dataset.get, hslots i hi, Variant.toSatellite]
    rw [hg, readBack_exact _ (hrange _ (List.get_mem _ _ _))]
  · intro i hi hni
    rw [key (SATELLITE_01 + i)]
    by_cases hr : SATELLITE_01 ≤ SATELLITE_01 + i ∧ SATELLITE_01 + i < SATELLITE_01 + mc * 4
    · have hp : src.isPresent (SATELLITE_01 + i) = false := by
        simp [Dataset.isPresent, habsent i (by omega) hni]
      rw [if_pos hr, hp]
      rfl
    · rw [if_neg hr, if_neg (by omega), if_pos ⟨trivial, hm1, by omega, by omega⟩]
  · rw [key SAT_IN_VIEW, if_neg (by omega), if_pos ⟨rfl, hm1⟩]
    have hr : renderOf src (SAT_IN_VIEW, tInt2) = (Token.int 2).toString (Variant.int n) := by
      simp [renderOf, hview, tInt2]
    rw [hr]
    have e2 : tInt2 = Token.int 2 := rfl
    rw [e2, fieldValue_int_render,
      intReadBack_exact 2 n (Or.inl ⟨by omega, by norm_num; omega⟩)]

set_option maxRecDepth 100000 in
/-- Five satellites in two GPGSV messages, decoded into a store that already holds the
sixteen-satellite update of `test_parse_sat`. -/
theorem gsv_multiframe_roundtrip_witness :
    (parse 0 (SentencePtr.GSV.toString (Info.setSatsInView Info.new fiveSats) [])
        (parseFrames 0 [SentencePtr.GSV] sixteenFrames Info.new 0).1 ALL).1
        = (SentencePtr.GSV.toString (Info.setSatsInView Info.new fiveSats) []).length ∧
      (∀ i, ∀ hi : i < fiveSats.length,
        (parse 0 (SentencePtr.GSV.toString (Info.setSatsInView Info.new fiveSats) [])
          (parseFrames 0 [SentencePtr.GSV] sixteenFrames Info.new 0).1 ALL).2.1
            (SATELLITE_01 + i) = some (Variant.satellite (fiveSats.get ⟨i, hi⟩))) ∧
      (∀ i, i < 16 → 5 ≤ i →
        (parse 0 (SentencePtr.GSV.toString (Info.setSatsInView Info.new fiveSats) [])
          (parseFrames 0 [SentencePtr.GSV] sixteenFrames Info.new 0).1 ALL).2.1
            (SATELLITE_01 + i) = none) ∧
      (parse 0 (SentencePtr.GSV.toString (Info.setSatsInView Info.new fiveSats) [])
          (parseFrames 0 [SentencePtr.GSV] sixteenFrames Info.new 0).1 ALL).2.1 SAT_IN_VIEW
        = some (Variant.int (5 : Nat)) :=
  gsv_multiframe_roundtrip 0 5 fiveSats (Info.setSatsInView Info.new fiveSats)
    (parseFrames 0 [SentencePtr.GSV] sixteenFrames Info.new 0).1
    (by decide) (by decide) (by decide) (by decide) (by decide) (by decide) (by decide)

set_option maxRecDepth 100000 in
/-- Claim C10 fails as stated. The store of `setSatsInView` with eight satellites and then
with five holds `SAT_IN_VIEW = 5` and the five satellites in slots 1..5, all within the
ranges; the encoder writes two sentences, the second with the slots 5..8, and the decode into
a fresh `Info` has the satellite of the first call in slot 6. -/
theorem gsv_multiframe_roundtrip_counterexample :
    staleSatsStore SAT_IN_VIEW = some (Variant.int 5) ∧
    (∀ i, ∀ hi : i < fiveSats.length,
      staleSatsStore (SATELLITE_01 + i) = some (Variant.satellite (fiveSats.get ⟨i, hi⟩))) ∧
    (∀ sat ∈ fiveSats, 1 ≤ sat.prn ∧ sat.prn ≤ 51 ∧ -90 ≤ sat.elevation ∧
      sat.elevation ≤ 90 ∧ 0 ≤ sat.azimuth ∧ sat.azimuth ≤ 359 ∧ 0 ≤ sat.snr ∧ sat.snr ≤ 99) ∧
    SentencePtr.GSV.toString staleSatsStore [] =
      str ("$GPGSV,2,1,05,01,50,090,99,02,-5,359,00,33,90,000,07,51,-90,180,42*46\r\n" ++
        "$GPGSV,2,2,05,17,08,045,30,06,50,090,99,07,50,090,99,08,50,090,99*75\r\n") ∧
    (parse 0 (SentencePtr.GSV.toString staleSatsStore []) Info.new ALL).2.1 SAT_IN_VIEW
      = some (Variant.int 5) ∧
    (parse 0 (SentencePtr.GSV.toString staleSatsStore []) Info.new ALL).2.1 (SATELLITE_01 + 5)
      = some (Variant.satellite ⟨6, 50, 90, 99⟩) := by
  decide

end NMEA

namespace NMEA

theorem headD_take (l : Text) (k : Nat) (hk : 1 ≤ k) : (l.take k).headD 0 = l.headD 0 := by
  cases l with
  | nil => simp
  | cons c r =>
    cases k with
    | zero => omega
    | succ k => simp

theorem zeroPad_of_le (w : Nat) (s : Text) (h : w ≤ s.length) : zeroPad w s = s := by
  unfold zeroPad
  rw [Nat.sub_eq_zero_of_le h]
  rfl

theorem digitsVal_cons (c : Nat) (r : Text) :
    digitsVal (c :: r) = (c - 48) * 10 ^ r.length + digitsVal r := by
  have := digitsVal_append [c] r
  simpa [digitsVal] using this

theorem digitsVal_pos (l : Text) (hne : l ≠ []) (hd : ∀ b ∈ l, isDigit b = true)
    (hh : l.headD 0 ≠ 48) : 0 < digitsVal l := by
  cases l with
  | nil => exact absurd rfl hne
  | cons c r =>
    rw [digitsVal_cons]
    have hc := hd c (List.mem_cons_self _ _)
    simp only [isDigit, Bool.and_eq_true, decide_eq_true_eq] at hc
    simp only [List.headD_cons] at hh
    have : 0 < (c - 48) * 10 ^ r.length := Nat.mul_pos (by omega) (by positivity)
    omega

/-- A run of digits that does not start with `'0'` is the decimal text of its value. -/
theorem natDigits_digitsVal (l : Text) (hne : l ≠ []) (hd : ∀ b ∈ l, isDigit b = true)
    (hh : l.headD 0 ≠ 48) : natDigits (digitsVal l) = l := by
  induction l using List.reverseRecOn with
  | nil => exact absurd rfl hne
  | append_singleton s c ih =>
    have hc := hd c (by simp)
    simp only [isDigit, Bool.and_eq_true, decide_eq_true_eq] at hc
    rw [digitsVal_append_single]
    by_cases hs : s = []
    · subst hs
      have h0 : digitsVal [] = 0 := rfl
      rw [h0, natDigits_lt _ (by omega)]
      simp only [List.nil_append, List.cons.injEq, and_true]
      omega
    · have hds : ∀ b ∈ s, isDigit b = true := fun b hb => hd b (by simp [hb])
      have hhs : s.headD 0 ≠ 48 := by
        cases s with
        | nil => exact absurd rfl hs
        | cons a t => simpa using hh
      have hp := digitsVal_pos s hs hds hhs
      rw [natDigits_ge _ (by omega)]
      have e1 : (10 * digitsVal s + (c - 48)) / 10 = digitsVal s := by omega
      have e2 : (10 * digitsVal s + (c - 48)) % 10 = c - 48 := by omega
      rw [e1, e2, ih hs hds hhs]
      congr 2
      omega

/-- The leading digits of a positive number: a run of digits that is its own decimal text. -/
theorem natDigits_take (n k : Nat) (hn : 0 < n) (hk : 1 ≤ k) :
    (natDigits n).take k ≠ [] ∧ (∀ b ∈ (natDigits n).take k, isDigit b = true) ∧
    0 < digitsVal ((natDigits n).take k) ∧
    natDigits (digitsVal ((natDigits n).take k)) = (natDigits n).take k := by
  have hne : (natDigits n).take k ≠ [] := by
    have := natDigits_ne_nil n
    cases hd : natDigits n with
    | nil => exact absurd hd this
    | cons a t =>
      cases k with
      | zero => omega
      | succ k => simp
  have hd : ∀ b ∈ (natDigits n).take k, isDigit b = true :=
    fun b hb => natDigits_isDigit_bool n b (List.mem_of_mem_take hb)
  have hh : ((natDigits n).take k).headD 0 ≠ 48 := by
    rw [headD_take _ _ hk]
    exact natDigits_head_ne_zero n hn
  exact ⟨hne, hd, digitsVal_pos _ hne hd hh, natDigits_digitsVal _ hne hd hh⟩

/-- The integer codec writes again the text it wrote, whether or not the buffer cut it. -/
theorem intReadBack_render (d : Nat) (hd : 1 ≤ d) (v : Int) :
    (fmtInt d (intReadBack d v)).take (d + 1) = (fmtInt d v).take (d + 1) := by
  by_cases h : (0 ≤ v ∧ v < 10 ^ (d + 1)) ∨ (v < 0 ∧ -(10 ^ d : Int) < v)
  · rw [intReadBack_exact d v h]
  · by_cases h0 : 0 ≤ v
    · have hbig : ¬ v < 10 ^ (d + 1) := fun hlt => h (Or.inl ⟨h0, hlt⟩)
      have hf : fmtInt d v = zeroPad d (natDigits v.toNat) := by
        unfold fmtInt; rw [if_neg (by omega)]
      have hl : ¬ (natDigits v.toNat).length ≤ d + 1 := by
        rw [natDigits_length_le _ _ (by omega)]
        intro hlt
        apply hbig
        have : ((v.toNat : Nat) : Int) < ((10 ^ (d + 1) : Nat) : Int) := by exact_mod_cast hlt
        rw [Int.toNat_of_nonneg h0] at this
        exact_mod_cast this
      have hpos : 0 < v.toNat := by
        have : (10 : Int) ^ (d + 1) > 0 := by positivity
        omega
      obtain ⟨hne, hdig, hp, hnat⟩ := natDigits_take v.toNat (d + 1) hpos (by omega)
      have hr : intReadBack d v = (digitsVal ((natDigits v.toNat).take (d + 1)) : Int) := by
        unfold intReadBack
        rw [hf, zeroPad_of_le _ _ (by omega), atoi_of_digits _ hdig]
      rw [hr, hf, zeroPad_of_le d (natDigits v.toNat) (by omega)]
      unfold fmtInt
      rw [if_neg (by omega), Int.toNat_ofNat, hnat,
        zeroPad_of_le _ _ (by rw [List.length_take]; omega), List.take_take]
      simp
    · have hbig : ¬ -(10 ^ d : Int) < v := fun hlt => h (Or.inr ⟨by omega, hlt⟩)
      have hf : fmtInt d v = 45 :: zeroPad (d - 1) (natDigits v.natAbs) := by
        unfold fmtInt; rw [if_pos (by omega)]
      have hl : ¬ (natDigits v.natAbs).length ≤ d := by
        rw [natDigits_length_le _ _ hd]
        intro hlt
        apply hbig
        have h1 : ((v.natAbs : Nat) : Int) < ((10 ^ d : Nat) : Int) := by exact_mod_cast hlt
        have h2 : ((10 ^ d : Nat) : Int) = (10 : Int) ^ d := by norm_cast
        rw [h2] at h1
        omega
      have hpos : 0 < v.natAbs := by omega
      obtain ⟨hne, hdig, hp, hnat⟩ := natDigits_take v.natAbs d hpos hd
      have hr : intReadBack d v = -(digitsVal ((natDigits v.natAbs).take d) : Int) := by
        unfold intReadBack
        rw [hf, zeroPad_of_le _ _ (by omega), List.take_succ_cons, atoi_minus_digits _ hdig]
      rw [hr, hf, zeroPad_of_le (d - 1) (natDigits v.natAbs) (by omega)]
      unfold fmtInt
      rw [if_pos (by omega)]
      have ea : (-(digitsVal ((natDigits v.natAbs).take d) : Int)).natAbs
          = digitsVal ((natDigits v.natAbs).take d) := by omega
      rw [ea, hnat, zeroPad_of_le _ _ (by rw [List.length_take]; omega),
        List.take_succ_cons, List.take_succ_cons, List.take_take]
      simp

/-- The same for a stored value: the text of the value read back is the text read. -/
theorem int_toString_readBack (d : Nat) (hd : 1 ≤ d) (v : Int) :
    (Token.int d).toString (Variant.int (intReadBack d v))
      = (Token.int d).toString (Variant.int v) :=
  intReadBack_render d hd v

end NMEA

namespace NMEA

theorem normalizeAux_spec (neg : Bool) : ∀ (s m : Nat),
    (Dbl.normalizeAux neg s m).neg = neg ∧ (Dbl.normalizeAux neg s m).scale ≤ s ∧
    (Dbl.normalizeAux neg s m).mant * 10 ^ (s - (Dbl.normalizeAux neg s m).scale) = m := by
  intro s
  induction s with
  | zero => intro m; simp [Dbl.normalizeAux]
  | succ k ih =>
    intro m
    unfold Dbl.normalizeAux
    split_ifs with h
    · obtain ⟨h1, h2, h3⟩ := ih (m / 10)
      refine ⟨h1, by omega, ?_⟩
      have e : k + 1 - (Dbl.normalizeAux neg k (m / 10)).scale
          = (k - (Dbl.normalizeAux neg k (m / 10)).scale) + 1 := by omega
      rw [e, pow_succ, ← Nat.mul_assoc, h3]
      omega
    · simp

theorem roundDecimal_ofDecimal (neg : Bool) (m j d : Nat) (h : j ≤ d) :
    roundDecimal (Dbl.ofDecimal neg m j).mant (Dbl.ofDecimal neg m j).scale d
      = m * 10 ^ (d - j) := by
  obtain ⟨_, h2, h3⟩ := normalizeAux_spec neg j m
  unfold Dbl.ofDecimal roundDecimal
  rw [if_pos (by omega)]
  have e : d - (Dbl.normalizeAux neg j m).scale
      = (j - (Dbl.normalizeAux neg j m).scale) + (d - j) := by omega
  rw [e, pow_add, ← Nat.mul_assoc, h3]

theorem fmtFloat_congr (w d : Nat) (x y : Dbl) (hn : x.neg = y.neg)
    (hr : roundDecimal x.mant x.scale d = roundDecimal y.mant y.scale d) :
    fmtFloat w d x = fmtFloat w d y := by
  unfold fmtFloat
  simp only [hn, hr]

theorem roundDecimal_self (r d : Nat) : roundDecimal r d d = r := by
  unfold roundDecimal
  simp

/-- The text of a decimal read by `atof` is that of its scaled integer. -/
theorem fmtFloat_ofDecimal (w d : Nat) (neg : Bool) (m j : Nat) (h : j ≤ d) :
    fmtFloat w d (Dbl.ofDecimal neg m j) = fmtFloat w d ⟨neg, m * 10 ^ (d - j), d⟩ := by
  apply fmtFloat_congr
  · exact (normalizeAux_spec neg j m).1
  · rw [roundDecimal_ofDecimal neg m j d h, roundDecimal_self]

theorem fmtFloat_rounded (w d : Nat) (x : Dbl) :
    fmtFloat w d x = fmtFloat w d ⟨x.neg, roundDecimal x.mant x.scale d, d⟩ := by
  apply fmtFloat_congr
  · rfl
  · rw [roundDecimal_self]

theorem digitsVal_lt (l : Text) (hd : ∀ b ∈ l, isDigit b = true) :
    digitsVal l < 10 ^ l.length := by
  induction l with
  | nil => simp [digitsVal]
  | cons c r ih =>
    rw [digitsVal_cons]
    have hc := hd c (List.mem_cons_self _ _)
    simp only [isDigit, Bool.and_eq_true, decide_eq_true_eq] at hc
    have := ih (fun b hb => hd b (List.mem_cons_of_mem _ hb))
    have h9 : (c - 48) * 10 ^ r.length ≤ 9 * 10 ^ r.length :=
      Nat.mul_le_mul_right _ (by omega)
    rw [List.length_cons, pow_succ]
    omega

theorem digitsVal_cons_zero (r : Text) : digitsVal (48 :: r) = digitsVal r := by
  rw [digitsVal_cons]
  simp

/-- A run of digits is the zero-padded decimal text of its value. -/
theorem zeroPad_digitsVal (l : Text) (hd : ∀ b ∈ l, isDigit b = true) (hne : l ≠ []) :
    zeroPad l.length (natDigits (digitsVal l)) = l := by
  induction l with
  | nil => exact absurd rfl hne
  | cons c r ih =>
    by_cases hc : c = 48
    · subst hc
      rw [digitsVal_cons_zero]
      by_cases hr : r = []
      · subst hr
        rfl
      · have hdr : ∀ b ∈ r, isDigit b = true := fun b hb => hd b (List.mem_cons_of_mem _ hb)
        have h := ih hdr hr
        have hl : (natDigits (digitsVal r)).length ≤ r.length := by
          have := congrArg List.length h
          rw [zeroPad_length] at this
          omega
        unfold zeroPad at h ⊢
        have e : (48 :: r).length - (natDigits (digitsVal r)).length
            = (r.length - (natDigits (digitsVal r)).length) + 1 := by
          simp only [List.length_cons]; omega
        rw [e, List.replicate_succ, List.cons_append, h]
    · rw [natDigits_digitsVal _ hne hd (by simpa using hc)]
      exact zeroPad_of_le _ _ (le_refl _)

end NMEA

namespace NMEA

theorem fmtFloat_mk (w d : Nat) (hd : 1 ≤ d) (neg : Bool) (r : Nat) :
    fmtFloat w d ⟨neg, r, d⟩ =
      if neg then 45 :: zeroPad (w - 1)
        (natDigits (r / 10 ^ d) ++ 46 :: zeroPad d (natDigits (r % 10 ^ d)))
      else zeroPad w (natDigits (r / 10 ^ d) ++ 46 :: zeroPad d (natDigits (r % 10 ^ d))) := by
  unfold fmtFloat
  have hd0 : ¬ d = 0 := by omega
  simp only [roundDecimal_self, hd0, if_false]

theorem fraction_length (d n : Nat) (hd : 1 ≤ d) :
    (zeroPad d (natDigits (n % 10 ^ d))).length = d := by
  rw [zeroPad_length]
  have : (natDigits (n % 10 ^ d)).length ≤ d := by
    rw [natDigits_length_le _ _ hd]
    exact Nat.mod_lt _ (by positivity)
  omega

theorem fraction_isDigit (d n : Nat) : ∀ b ∈ zeroPad d (natDigits n), isDigit b = true :=
  zeroPad_isDigit _ _ (natDigits_isDigit_bool _)

/-- The text cut inside the integer digits is read as an integer whose text starts with
the same digits. -/
theorem float_cut_integer (neg : Bool) (w d r k : Nat) (hd : 1 ≤ d) (hk : 2 ≤ k)
    (hkI : k ≤ (natDigits (r / 10 ^ d)).length) :
    ∃ r', fmtFloat w d (atofUnsigned neg
        ((natDigits (r / 10 ^ d) ++ 46 :: zeroPad d (natDigits (r % 10 ^ d))).take k))
        = fmtFloat w d ⟨neg, r', d⟩ ∧
      (natDigits (r' / 10 ^ d) ++ 46 :: zeroPad d (natDigits (r' % 10 ^ d))).take k
        = (natDigits (r / 10 ^ d) ++ 46 :: zeroPad d (natDigits (r % 10 ^ d))).take k ∧
      k < (natDigits (r' / 10 ^ d) ++ 46 :: zeroPad d (natDigits (r' % 10 ^ d))).length := by
  have hq : 0 < r / 10 ^ d := by
    apply Nat.pos_of_ne_zero
    intro h0
    rw [h0, natDigits_lt 0 (by omega)] at hkI
    simp at hkI
    omega
  obtain ⟨hne, hdig, hp, hnat⟩ := natDigits_take (r / 10 ^ d) k hq (by omega)
  rw [List.take_append_of_le_length hkI]
  refine ⟨digitsVal ((natDigits (r / 10 ^ d)).take k) * 10 ^ d, ?_, ?_, ?_⟩
  · rw [atofUnsigned_integer _ _ hdig, fmtFloat_ofDecimal w d neg _ 0 (by omega)]
    rfl
  · have e1 : digitsVal ((natDigits (r / 10 ^ d)).take k) * 10 ^ d / 10 ^ d
        = digitsVal ((natDigits (r / 10 ^ d)).take k) :=
      Nat.mul_div_cancel _ (by positivity)
    rw [e1, hnat, List.take_append_of_le_length (by rw [List.length_take]; omega),
      List.take_take]
    simp
  · have e1 : digitsVal ((natDigits (r / 10 ^ d)).take k) * 10 ^ d / 10 ^ d
        = digitsVal ((natDigits (r / 10 ^ d)).take k) :=
      Nat.mul_div_cancel _ (by positivity)
    rw [e1, hnat]
    simp only [List.length_append, List.length_take, List.length_cons]
    omega

/-- The text cut at or after the decimal point is read as a decimal whose text starts with
the same characters. -/
theorem float_cut_fraction (neg : Bool) (w d r k : Nat) (hd : 1 ≤ d)
    (hkI : (natDigits (r / 10 ^ d)).length < k)
    (hkB : k < (natDigits (r / 10 ^ d) ++ 46 :: zeroPad d (natDigits (r % 10 ^ d))).length) :
    ∃ r', fmtFloat w d (atofUnsigned neg
        ((natDigits (r / 10 ^ d) ++ 46 :: zeroPad d (natDigits (r % 10 ^ d))).take k))
        = fmtFloat w d ⟨neg, r', d⟩ ∧
      (natDigits (r' / 10 ^ d) ++ 46 :: zeroPad d (natDigits (r' % 10 ^ d))).take k
        = (natDigits (r / 10 ^ d) ++ 46 :: zeroPad d (natDigits (r % 10 ^ d))).take k ∧
      k < (natDigits (r' / 10 ^ d) ++ 46 :: zeroPad d (natDigits (r' % 10 ^ d))).length := by
  have hFl := fraction_length d r hd
  simp only [List.length_append, List.length_cons, hFl] at hkB
  obtain ⟨j, hj⟩ : ∃ j, k = (natDigits (r / 10 ^ d)).length + (j + 1) :=
    ⟨k - (natDigits (r / 10 ^ d)).length - 1, by omega⟩
  have hjd : j < d := by omega
  have hcut : (natDigits (r / 10 ^ d) ++ 46 :: zeroPad d (natDigits (r % 10 ^ d))).take k
      = natDigits (r / 10 ^ d) ++ 46 :: (zeroPad d (natDigits (r % 10 ^ d))).take j := by
    rw [List.take_append_eq_append_take, List.take_of_length_le (by omega)]
    have : k - (natDigits (r / 10 ^ d)).length = j + 1 := by omega
    rw [this, List.take_succ_cons]
  have hFd : ∀ b ∈ (zeroPad d (natDigits (r % 10 ^ d))).take j, isDigit b = true :=
    fun b hb => fraction_isDigit d _ b (List.mem_of_mem_take hb)
  have hFlen : ((zeroPad d (natDigits (r % 10 ^ d))).take j).length = j := by
    rw [List.length_take, hFl]; omega
  have hlt := digitsVal_lt _ hFd
  rw [hFlen] at hlt
  generalize hF : (zeroPad d (natDigits (r % 10 ^ d))).take j = F at hcut hFd hFlen hlt
  have hpow : 10 ^ d = 10 ^ j * 10 ^ (d - j) := by
    rw [← pow_add]; congr 1; omega
  have hsmall : digitsVal F * 10 ^ (d - j) < 10 ^ d := by
    rw [hpow]
    exact Nat.mul_lt_mul_of_pos_right hlt (by positivity)
  have hr' : (r / 10 ^ d * 10 ^ j + digitsVal F) * 10 ^ (d - j)
      = digitsVal F * 10 ^ (d - j) + r / 10 ^ d * 10 ^ d := by
    rw [Nat.add_mul, Nat.mul_assoc, ← hpow, Nat.add_comm]
  have e1 : (r / 10 ^ d * 10 ^ j + digitsVal F) * 10 ^ (d - j) / 10 ^ d = r / 10 ^ d := by
    rw [hr', Nat.add_mul_div_right _ _ (by positivity), Nat.div_eq_of_lt hsmall, Nat.zero_add]
  have e2 : (r / 10 ^ d * 10 ^ j + digitsVal F) * 10 ^ (d - j) % 10 ^ d
      = digitsVal F * 10 ^ (d - j) := by
    rw [hr', Nat.add_mul_mod_self_right, Nat.mod_eq_of_lt hsmall]
  have hpad : zeroPad d (natDigits (digitsVal F * 10 ^ (d - j)))
      = F ++ List.replicate (d - j) 48 := by
    have hne : F ++ List.replicate (d - j) 48 ≠ [] := by
      have : 0 < d - j := by omega
      cases hrep : List.replicate (d - j) 48 with
      | nil =>
        have := congrArg List.length hrep
        simp at this
        omega
      | cons a t => simp
    have hdg : ∀ b ∈ F ++ List.replicate (d - j) 48, isDigit b = true := by
      intro b hb
      rcases List.mem_append.1 hb with hb | hb
      · exact hFd b hb
      · rw [List.eq_of_mem_replicate hb]; rfl
    have := zeroPad_digitsVal _ hdg hne
    rw [digitsVal_append, digitsVal_replicate_zero, List.length_append, List.length_replicate,
      hFlen, Nat.add_zero] at this
    have e : j + (d - j) = d := by omega
    rw [e] at this
    exact this
  rw [hcut]
  refine ⟨(r / 10 ^ d * 10 ^ j + digitsVal F) * 10 ^ (d - j), ?_, ?_, ?_⟩
  · rw [atofUnsigned_fraction _ _ _ (natDigits_isDigit_bool _) hFd, digitsVal_natDigits, hFlen,
      fmtFloat_ofDecimal w d neg _ j (by omega)]
  · rw [e1, e2, hpad, List.take_append_eq_append_take, List.take_of_length_le (by omega)]
    have : k - (natDigits (r / 10 ^ d)).length = j + 1 := by omega
    rw [this, List.take_succ_cons, List.take_append_of_le_length (by omega),
      List.take_of_length_le (by omega)]
  · rw [e1, e2, hpad]
    simp only [List.length_append, List.length_cons, List.length_replicate, hFlen]
    omega

theorem float_cut (neg : Bool) (w d r k : Nat) (hd : 1 ≤ d) (hk : 2 ≤ k)
    (hkB : k < (natDigits (r / 10 ^ d) ++ 46 :: zeroPad d (natDigits (r % 10 ^ d))).length) :
    ∃ r', fmtFloat w d (atofUnsigned neg
        ((natDigits (r / 10 ^ d) ++ 46 :: zeroPad d (natDigits (r % 10 ^ d))).take k))
        = fmtFloat w d ⟨neg, r', d⟩ ∧
      (natDigits (r' / 10 ^ d) ++ 46 :: zeroPad d (natDigits (r' % 10 ^ d))).take k
        = (natDigits (r / 10 ^ d) ++ 46 :: zeroPad d (natDigits (r % 10 ^ d))).take k ∧
      k < (natDigits (r' / 10 ^ d) ++ 46 :: zeroPad d (natDigits (r' % 10 ^ d))).length := by
  by_cases hkI : k ≤ (natDigits (r / 10 ^ d)).length
  · exact float_cut_integer neg w d r k hd hk hkI
  · exact float_cut_fraction neg w d r k hd (by omega) hkB

end NMEA

namespace NMEA

theorem renderFields_eq_tokens (src : Dataset) (fmt : List Field) :
    Sentence.renderFields src fmt = (fmt.map (renderOf src)).flatMap (fun t => 44 :: t) := by
  induction fmt with
  | nil => rfl
  | cons f rest ih =>
    rw [renderFields_cons, ih]
    simp [List.flatMap_cons]

/-- The text `Sentence::toString` writes is the header, the comma-led texts of the fields in
format order, `'*'` and the two checksum digits. -/
theorem body_eq_sentenceText (self : Sentence) (src : Dataset)
    (hhead : ∀ b ∈ self.head, b < 128)
    (hascii : ∀ f ∈ self.format, ∀ b ∈ renderOf src f, b < 128) :
    self.body src = sentenceText self.head (self.format.map (renderOf src)) := by
  unfold Sentence.body sentenceText
  have h7 : ∀ b ∈ self.head ++ Sentence.renderFields src self.format, b < 128 := by
    intro b hb
    rcases List.mem_append.1 hb with hb | hb
    · exact hhead b hb
    · exact renderFields_ascii src _ hascii b hb
  have hlt : xorBytes (self.head ++ Sentence.renderFields src self.format) < 256 := by
    apply xorBytes_lt
    intro b hb
    have := h7 b hb
    omega
  rw [calcChecksum_eq_xorBytes _ h7, fmtHex2_take _ hlt, renderFields_eq_tokens]

theorem header_chain_skip {α : Type} (key : Nat) (a b c d : α) (h : 102 ≤ key) :
    (if key = 101 then a else if key = 100 then b else if key = 24 then c else d) = d := by
  have h1 : key ≠ 101 := by omega
  have h2 : key ≠ 100 := by omega
  have h3 : key ≠ 24 := by omega
  simp only [h1, h2, h3, if_false]

theorem frame_slot_render (src : Dataset) (mc k j : Nat) (hj : j < 4) :
    [renderOf (GSVSentence.frame src mc k) (GSV_SATELLITE_01_PRN + j * 4, tInt2),
     renderOf (GSVSentence.frame src mc k) (GSV_SATELLITE_01_ELV + j * 4, tInt2),
     renderOf (GSVSentence.frame src mc k) (GSV_SATELLITE_01_AZM + j * 4, tInt3),
     renderOf (GSVSentence.frame src mc k) (GSV_SATELLITE_01_SNR + j * 4, tInt2)]
      = gsvSlotTokens src ((k - 1) * 4 + j) := by
  have hfr : ∀ f : Field, renderOf (GSVSentence.frame src mc k) f
      = match GSVSentence.frame src mc k f.1 with
        | some v => f.2.toString v
        | none => [] := fun f => rfl
  simp only [hfr, frame_get, GSV_SATELLITE_01_PRN, GSV_SATELLITE_01_ELV, GSV_SATELLITE_01_AZM,
    GSV_SATELLITE_01_SNR, GSV_MESSAGE_NUMBER, GSV_MESSAGE_COUNT, SAT_IN_VIEW]
  have e0 : (102 + j * 4 - 102) / 4 = j := by omega
  have e1 : (103 + j * 4 - 102) / 4 = j := by omega
  have e2 : (104 + j * 4 - 102) / 4 = j := by omega
  have e3 : (105 + j * 4 - 102) / 4 = j := by omega
  have m0 : (102 + j * 4 - 102) % 4 = 0 := by omega
  have m1 : (103 + j * 4 - 102) % 4 = 1 := by omega
  have m2 : (104 + j * 4 - 102) % 4 = 2 := by omega
  have m3 : (105 + j * 4 - 102) % 4 = 3 := by omega
  rw [e0, e1, e2, e3, m0, m1, m2, m3]
  unfold gsvSlotTokens Dataset.isPresent Dataset.get
  rw [Nat.add_assoc]
  cases src (SATELLITE_01 + ((k - 1) * 4 + j)) with
  | none =>
    simp only [Option.isSome_none, Bool.false_eq_true, and_false, if_false]
    rw [header_chain_skip (102 + j * 4) _ _ _ _ (by omega),
      header_chain_skip (103 + j * 4) _ _ _ _ (by omega),
      header_chain_skip (104 + j * 4) _ _ _ _ (by omega),
      header_chain_skip (105 + j * 4) _ _ _ _ (by omega)]
  | some v =>
    simp only [Option.isSome_some, and_true, Option.getD_some]
    rw [if_pos (by omega), if_pos (by omega), if_pos (by omega), if_pos (by omega)]
    rfl

/-- The tokens of message `k` as `GSVSentence::toString` renders them. -/
theorem gsv_frame_tokens (src : Dataset) (mc k : Nat) (n : Int)
    (hview : src SAT_IN_VIEW = some (Variant.int n)) :
    sGSV.format.map (renderOf (GSVSentence.frame src mc k)) = gsvTokens src mc k n := by
  have h0 := frame_slot_render src mc k 0 (by omega)
  have h1 := frame_slot_render src mc k 1 (by omega)
  have h2 := frame_slot_render src mc k 2 (by omega)
  have h3 := frame_slot_render src mc k 3 (by omega)
  have hfr : ∀ f : Field, renderOf (GSVSentence.frame src mc k) f
      = match GSVSentence.frame src mc k f.1 with
        | some v => f.2.toString v
        | none => [] := fun f => rfl
  have a0 : renderOf (GSVSentence.frame src mc k) (GSV_MESSAGE_COUNT, tInt1)
      = tInt1.toString (Variant.int mc) := by
    rw [hfr, frame_get]; simp [GSV_MESSAGE_COUNT, GSV_MESSAGE_NUMBER]
  have a1 : renderOf (GSVSentence.frame src mc k) (GSV_MESSAGE_NUMBER, tInt1)
      = tInt1.toString (Variant.int k) := by
    rw [hfr, frame_get]; simp [GSV_MESSAGE_COUNT, GSV_MESSAGE_NUMBER]
  have a2 : renderOf (GSVSentence.frame src mc k) (SAT_IN_VIEW, tInt2)
      = tInt2.toString (Variant.int n) := by
    have hv : src 24 = some (Variant.int n) := hview
    rw [hfr, frame_get]; simp [GSV_MESSAGE_COUNT, GSV_MESSAGE_NUMBER, SAT_IN_VIEW, hv]
  have hr : List.range 4 = [0, 1, 2, 3] := by decide
  unfold gsvTokens
  rw [hr]
  simp only [List.flatMap_cons, List.flatMap_nil, List.append_nil, ← h0, ← h1, ← h2, ← h3]
  simp only [sGSV, fGSV, GSV_FORMAT_HEADER, GSV_FORMAT_SAT, field, List.map_cons, List.map_nil,
    List.cons_append, List.nil_append, a0, a1, a2, Nat.zero_mul, Nat.add_zero, Nat.one_mul]

end NMEA

namespace NMEA

/-- Claim C11. Satellite-visibility encode: for a store whose `SAT_IN_VIEW` is absent, or is
the integer `n`, `GSVSentence::toString` appends nothing when `SAT_IN_VIEW` is absent or
`n <= 0`, and otherwise appends exactly `ceil(min(n, 16) / 4)` sentences, each between `'$'`
and `"\r\n"`, the `k`-th of which carries that message count, the message number `k`, the
value `n` and, for `j` in 0..3, the four sub-fields of satellite slot `4 (k - 1) + j + 1` if
that slot is present and four empty fields if it is not. -/
theorem gsv_encode (src : Dataset) (dst : Text) (view : Option Int)
    (hview : src SAT_IN_VIEW = view.map Variant.int) :
    SentencePtr.GSV.toString src dst =
      match view with
      | none => dst
      | some n =>
        if n ≤ 0 then dst
        else dst ++ joinFrames ((List.range' 1 (((min n 16).toNat + 3) / 4)).map
          (fun k => sentenceText (str "GPGSV")
            (gsvTokens src (((min n 16).toNat + 3) / 4) k n))) := by
  have e : SentencePtr.GSV.toString src dst = GSVSentence.toString sGSV src dst := rfl
  rw [e]
  unfold GSVSentence.toString
  cases view with
  | none =>
    have h1 : (src.get SAT_IN_VIEW).toInt = 0 := by
      simp only [Option.map_none'] at hview
      simp [Dataset.get, hview, Variant.toInt]
    simp only [h1]
    rfl
  | some n =>
    have hv : src SAT_IN_VIEW = some (Variant.int n) := hview
    have h1 : (src.get SAT_IN_VIEW).toInt = n := by
      simp [Dataset.get, hv, Variant.toInt]
    simp only [h1, MAX_SAT_IN_VIEW, SAT_IN_MESSAGE]
    by_cases hn : n ≤ 0
    · rw [if_pos hn, if_pos hn]
    · rw [if_neg hn, if_neg hn]
      have hmc : ((if n > ((16 : Nat) : Int) then 16 else n.toNat) / 4 +
          (if (if n > ((16 : Nat) : Int) then 16 else n.toNat) % 4 ≠ 0 then 1 else 0))
          = ((min n 16).toNat + 3) / 4 := by
        by_cases h16 : n > ((16 : Nat) : Int)
        · rw [if_pos h16]
          have : min n 16 = 16 := by omega
          rw [this]
          rfl
        · rw [if_neg h16]
          have : min n 16 = n := by omega
          rw [this]
          split_ifs <;> omega
      rw [hmc, gsv_frames_eq]
      congr 2
      unfold GSVSentence.bodies
      apply List.map_congr_left
      intro k _
      rw [body_eq_sentenceText sGSV _ (by decide) (gsv_render_ascii _), gsv_frame_tokens src _ k n hv]
      rfl

/-- Five satellites make two sentences; the second carries one satellite and three empty
slots. -/
theorem gsv_encode_witness :
    Info.setSatsInView Info.new fiveSats SAT_IN_VIEW = (some (5 : Int)).map Variant.int ∧
    SentencePtr.GSV.toString (Info.setSatsInView Info.new fiveSats) [] =
      joinFrames ((List.range' 1 2).map (fun k => sentenceText (str "GPGSV")
        (gsvTokens (Info.setSatsInView Info.new fiveSats) 2 k 5))) :=
  ⟨by decide, gsv_encode (Info.setSatsInView Info.new fiveSats) [] (some 5) (by decide)⟩

end NMEA

namespace NMEA

theorem findBegin_eq : ∀ t : Text, 0 ∉ t →
    Sentence.findBegin t =
      if t.indexOf 36 < t.length then some (t.drop (t.indexOf 36 + 1)) else none := by
  intro t
  induction t with
  | nil => intro _; rfl
  | cons c r ih =>
    intro h0
    have hc : c ≠ 0 := fun h => h0 (by simp [h])
    have hr : 0 ∉ r := fun h => h0 (List.mem_cons_of_mem _ h)
    unfold Sentence.findBegin
    rw [if_neg hc, List.indexOf_cons]
    by_cases h36 : c = 36
    · subst h36
      simp
    · rw [if_neg h36, ih hr]
      have : (c == 36) = false := by simpa using h36
      simp only [this, cond_false, List.length_cons, Nat.add_lt_add_iff_right, List.drop_succ_cons]

theorem findEnd_eq : ∀ r : Text, 0 ∉ r →
    Sentence.findEnd r = (crlfIndex r).map (fun j => (r.take j, r.drop (j + 2))) := by
  intro r
  induction r with
  | nil => intro _; rfl
  | cons c r ih =>
    intro h0
    have hc : c ≠ 0 := fun h => h0 (by simp [h])
    have hr : 0 ∉ r := fun h => h0 (List.mem_cons_of_mem _ h)
    rw [findEnd_cons, if_neg hc]
    unfold crlfIndex
    by_cases h : c = 13 ∧ r.head? = some 10
    · rw [if_pos h, if_pos h]
      cases r with
      | nil => simp at h
      | cons a q => simp
    · rw [if_neg h, if_neg h, ih hr]
      cases crlfIndex r with
      | none => rfl
      | some j => simp

theorem crlfIndex_bound : ∀ (r : Text) (j : Nat), crlfIndex r = some j → j + 2 ≤ r.length := by
  intro r
  induction r with
  | nil => intro j h; simp [crlfIndex] at h
  | cons c r ih =>
    intro j h
    unfold crlfIndex at h
    split_ifs at h with hc
    · cases r with
      | nil => simp at hc
      | cons a q =>
        simp only [Option.some.injEq] at h
        subst h
        simp
    · cases hj : crlfIndex r with
      | none => rw [hj] at h; simp at h
      | some i =>
        rw [hj] at h
        simp only [Option.map_some', Option.some.injEq] at h
        have := ih i hj
        simp only [List.length_cons]
        omega

/-- A complete frame takes at least three bytes and lies within the text. -/
theorem frameEnd_bound (t : Text) (k : Nat) (h : frameEnd t = some k) : 3 ≤ k ∧ k ≤ t.length := by
  unfold frameEnd at h
  split_ifs at h with hi
  cases hj : crlfIndex (t.drop (t.indexOf 36 + 1)) with
  | none => rw [hj] at h; simp at h
  | some j =>
    rw [hj] at h
    simp only [Option.map_some', Option.some.injEq] at h
    have := crlfIndex_bound _ j hj
    rw [List.length_drop] at this
    omega

/-- Method `Sentence::find` on a text without NUL: the text at `next` is the text from the
offset just past the first complete frame. -/
theorem find_eq (t : Text) (h0 : 0 ∉ t) :
    (Sentence.find t).map Prod.snd = (frameEnd t).map (fun k => t.drop k) := by
  unfold Sentence.find frameEnd
  rw [findBegin_eq t h0]
  by_cases hi : t.indexOf 36 < t.length
  · rw [if_pos hi, if_pos hi]
    simp only
    rw [findEnd_eq _ (fun h => h0 (List.mem_of_mem_drop h))]
    cases crlfIndex (t.drop (t.indexOf 36 + 1)) with
    | none => rfl
    | some j =>
      simp only [Option.map_some', List.drop_drop]
      congr 2
  · rw [if_neg hi, if_neg hi]
    rfl

theorem parseLoop_fst (u : Int) (chain : List SentencePtr) :
    ∀ (fuel : Nat) (t : Text) (dst : Dataset) (s : Nat), 0 ∉ t →
      (parseLoop u chain fuel t dst s).1 = t.drop (scanOffsetAux fuel t) := by
  intro fuel
  induction fuel with
  | zero => intro t dst s _; rfl
  | succ fuel ih =>
    intro t dst s h0
    have hf := find_eq t h0
    unfold parseLoop scanOffsetAux
    cases hfind : Sentence.find t with
    | none =>
      rw [hfind] at hf
      cases hk : frameEnd t with
      | none => rfl
      | some k => rw [hk] at hf; simp at hf
    | some x =>
      rw [hfind] at hf
      cases hk : frameEnd t with
      | none => rw [hk] at hf; simp at hf
      | some k =>
        rw [hk] at hf
        simp only [Option.map_some', Option.some.injEq] at hf
        simp only
        rw [ih _ _ _ (by rw [hf]; exact fun h => h0 (List.mem_of_mem_drop h)), hf,
          List.drop_drop]

theorem frameEnd_nil : frameEnd [] = none := rfl

theorem scanOffsetAux_le : ∀ (fuel : Nat) (t : Text), scanOffsetAux fuel t ≤ t.length := by
  intro fuel
  induction fuel with
  | zero => intro t; simp [scanOffsetAux]
  | succ fuel ih =>
    intro t
    unfold scanOffsetAux
    cases hk : frameEnd t with
    | none => simp
    | some k =>
      simp only
      have := frameEnd_bound t k hk
      have := ih (t.drop k)
      rw [List.length_drop] at this
      omega

theorem scanOffsetAux_fuel : ∀ (f g : Nat) (t : Text), t.length ≤ f → t.length ≤ g →
    scanOffsetAux f t = scanOffsetAux g t := by
  intro f
  induction f with
  | zero =>
    intro g t hf _
    have : t = [] := List.length_eq_zero.1 (by omega)
    subst this
    cases g with
    | zero => rfl
    | succ g => simp [scanOffsetAux, frameEnd_nil]
  | succ f ih =>
    intro g t hf hg
    cases g with
    | zero =>
      have : t = [] := List.length_eq_zero.1 (by omega)
      subst this
      simp [scanOffsetAux, frameEnd_nil]
    | succ g =>
      unfold scanOffsetAux
      cases hk : frameEnd t with
      | none => rfl
      | some k =>
        simp only
        have := frameEnd_bound t k hk
        rw [ih g (t.drop k) (by rw [List.length_drop]; omega) (by rw [List.length_drop]; omega)]

theorem scanOffsetAux_rest : ∀ (f : Nat) (t : Text), t.length ≤ f →
    frameEnd (t.drop (scanOffsetAux f t)) = none := by
  intro f
  induction f with
  | zero =>
    intro t hf
    have : t = [] := List.length_eq_zero.1 (by omega)
    subst this
    rfl
  | succ f ih =>
    intro t hf
    unfold scanOffsetAux
    cases hk : frameEnd t with
    | none => simpa using hk
    | some k =>
      simp only
      have := frameEnd_bound t k hk
      rw [← List.drop_drop]
      exact ih (t.drop k) (by rw [List.length_drop]; omega)

/-- Claim C12. Consumed-byte count of the text engine: for every text without NUL (a
NUL-terminated buffer), `NMEA::parse` returns the offset just past the `"\r\n"` of the last
complete frame found by repeated scanning, whatever the store, the entry mask and the
acceptance of the frames; it returns 0 when the text holds no complete frame, the result
never exceeds the length of the text, and no complete frame remains after it. -/
theorem parse_consumed (u : Int) (t : Text) (dst : Dataset) (s : Nat) (h0 : 0 ∉ t) :
    (parse u t dst s).1 = scanOffset t ∧
    (frameEnd t = none → (parse u t dst s).1 = 0) ∧
    (parse u t dst s).1 ≤ t.length ∧
    frameEnd (t.drop (parse u t dst s).1) = none := by
  have hle := scanOffsetAux_le (t.length + 1) t
  have h1 : (parse u t dst s).1 = scanOffset t := by
    unfold parse scanOffset
    simp only
    rw [parseLoop_fst u _ _ t dst 0 h0, List.length_drop,
      scanOffsetAux_fuel (t.length + 1) t.length t (by omega) (le_refl _)]
    have := scanOffsetAux_le t.length t
    omega
  rw [h1]
  refine ⟨rfl, ?_, scanOffsetAux_le _ t, scanOffsetAux_rest _ t (le_refl _)⟩
  intro hnone
  unfold scanOffset
  cases hl : t.length with
  | zero => rfl
  | succ n => simp [scanOffsetAux, hnone]

/-- The last case of `test_parse_incomplete`: ten bytes of garbage and an unrecognised frame
are counted. -/
theorem parse_consumed_witness :
    0 ∉ str "0123456789$GPGGA,\r\n" ∧
    ((parse 0 (str "0123456789$GPGGA,\r\n") Info.new ALL).1
        = scanOffset (str "0123456789$GPGGA,\r\n") ∧
      (frameEnd (str "0123456789$GPGGA,\r\n") = none →
        (parse 0 (str "0123456789$GPGGA,\r\n") Info.new ALL).1 = 0) ∧
      (parse 0 (str "0123456789$GPGGA,\r\n") Info.new ALL).1
        ≤ (str "0123456789$GPGGA,\r\n").length ∧
      frameEnd ((str "0123456789$GPGGA,\r\n").drop
        (parse 0 (str "0123456789$GPGGA,\r\n") Info.new ALL).1) = none) ∧
    scanOffset (str "0123456789$GPGGA,\r\n") = 19 :=
  ⟨by decide, parse_consumed 0 (str "0123456789$GPGGA,\r\n") Info.new ALL (by decide),
    by decide⟩

end NMEA

namespace NMEA

theorem findBegin_append : ∀ (a b r : Text), Sentence.findBegin a = some r →
    Sentence.findBegin (a ++ b) = some (r ++ b) := by
  intro a
  induction a with
  | nil => intro b r h; simp [Sentence.findBegin] at h
  | cons c q ih =>
    intro b r h
    rw [List.cons_append]
    unfold Sentence.findBegin at h ⊢
    split_ifs at h ⊢ with h0 h36
    · simp only [Option.some.injEq] at h
      rw [h]
    · exact ih b r h

theorem findEnd_append : ∀ (a b x rest : Text), Sentence.findEnd a = some (x, rest) →
    Sentence.findEnd (a ++ b) = some (x, rest ++ b) := by
  intro a
  induction a with
  | nil => intro b x rest h; simp [Sentence.findEnd] at h
  | cons c q ih =>
    intro b x rest h
    rw [List.cons_append, findEnd_cons]
    rw [findEnd_cons] at h
    by_cases h0 : c = 0
    · rw [if_pos h0] at h; simp at h
    · rw [if_neg h0] at h ⊢
      by_cases hc : c = 13 ∧ q.head? = some 10
      · rw [if_pos hc] at h
        have hc2 : c = 13 ∧ (q ++ b).head? = some 10 := by
          refine ⟨hc.1, ?_⟩
          cases q with
          | nil => simp at hc
          | cons d q2 => simpa using hc.2
        rw [if_pos hc2]
        simp only [Option.some.injEq, Prod.mk.injEq] at h
        cases q with
        | nil => simp at hc
        | cons d q2 =>
          simp only [List.tail_cons] at h
          simp [h.1.symm, h.2.symm]
      · rw [if_neg hc] at h
        cases hq : Sentence.findEnd q with
        | none => rw [hq] at h; simp at h
        | some y =>
          rw [hq] at h
          simp only [Option.map_some', Option.some.injEq, Prod.mk.injEq] at h
          have hc2 : ¬ (c = 13 ∧ (q ++ b).head? = some 10) := by
            intro hh
            apply hc
            refine ⟨hh.1, ?_⟩
            cases q with
            | nil => simp [Sentence.findEnd] at hq
            | cons d q2 => simpa using hh.2
          rw [if_neg hc2, ih b y.1 y.2 (by rw [hq])]
          simp [h.1.symm, h.2.symm]

/-- A frame found in a text is found, the same, when more text follows. -/
theorem find_append (a b x rest : Text) (h : Sentence.find a = some (x, rest)) :
    Sentence.find (a ++ b) = some (x, rest ++ b) := by
  unfold Sentence.find at h ⊢
  cases hb : Sentence.findBegin a with
  | none => rw [hb] at h; simp at h
  | some r =>
    rw [hb] at h
    simp only at h
    rw [findBegin_append a b r hb]
    exact findEnd_append r b x rest h

theorem findBegin_length : ∀ (a r : Text), Sentence.findBegin a = some r →
    r.length < a.length := by
  intro a
  induction a with
  | nil => intro r h; simp [Sentence.findBegin] at h
  | cons c q ih =>
    intro r h
    unfold Sentence.findBegin at h
    split_ifs at h with h0 h36
    · simp only [Option.some.injEq] at h
      rw [← h]; simp
    · have := ih r h
      simp only [List.length_cons]
      omega

theorem findEnd_length : ∀ (a x rest : Text), Sentence.findEnd a = some (x, rest) →
    rest.length < a.length := by
  intro a
  induction a with
  | nil => intro x rest h; simp [Sentence.findEnd] at h
  | cons c q ih =>
    intro x rest h
    rw [findEnd_cons] at h
    split_ifs at h with h0 hc
    · simp only [Option.some.injEq, Prod.mk.injEq] at h
      rw [← h.2]
      cases q with
      | nil => simp
      | cons d q2 => simp only [List.tail_cons, List.length_cons]; omega
    · cases hq : Sentence.findEnd q with
      | none => rw [hq] at h; simp at h
      | some y =>
        rw [hq] at h
        simp only [Option.map_some', Option.some.injEq, Prod.mk.injEq] at h
        have := ih y.1 y.2 (by rw [hq])
        rw [← h.2]
        simp only [List.length_cons]
        omega

theorem find_length (a x rest : Text) (h : Sentence.find a = some (x, rest)) :
    rest.length < a.length := by
  unfold Sentence.find at h
  cases hb : Sentence.findBegin a with
  | none => rw [hb] at h; simp at h
  | some r =>
    rw [hb] at h
    have h1 := findBegin_length a r hb
    have h2 := findEnd_length r x rest h
    omega

/-- With more fuel than bytes the outer loop of `NMEA::parse` does not run out of fuel. -/
theorem parseLoop_fuel (u : Int) (chain : List SentencePtr) :
    ∀ (f g : Nat) (t : Text) (dst : Dataset) (s : Nat), t.length < f → t.length < g →
      parseLoop u chain f t dst s = parseLoop u chain g t dst s := by
  intro f
  induction f with
  | zero => intro g t dst s hf _; omega
  | succ f ih =>
    intro g t dst s hf hg
    cases g with
    | zero => omega
    | succ g =>
      unfold parseLoop
      cases hfind : Sentence.find t with
      | none => rfl
      | some x =>
        simp only
        have := find_length t x.1 x.2 (by rw [hfind])
        exact ih g _ _ _ (by omega) (by omega)

theorem parseLoop_length (u : Int) (chain : List SentencePtr) :
    ∀ (f : Nat) (t : Text) (dst : Dataset) (s : Nat),
      (parseLoop u chain f t dst s).1.length ≤ t.length := by
  intro f
  induction f with
  | zero => intro t dst s; exact le_refl _
  | succ f ih =>
    intro t dst s
    unfold parseLoop
    cases hfind : Sentence.find t with
    | none => exact le_refl _
    | some x =>
      simp only
      have := find_length t x.1 x.2 (by rw [hfind])
      have := ih x.2 (parseChain u x.1 chain dst s).1 (parseChain u x.1 chain dst s).2
      omega

theorem parseChain_store_indep (u : Int) (text : Text) :
    ∀ (chain : List SentencePtr) (dst : Dataset) (s s' : Nat),
      (parseChain u text chain dst s).1 = (parseChain u text chain dst s').1 := by
  intro chain
  induction chain with
  | nil => intro dst s s'; rfl
  | cons p rest ih =>
    intro dst s s'
    unfold parseChain
    simp only
    split_ifs
    · rfl
    · exact ih _ _ _

/-- The text left and the store after the outer loop do not depend on the mask it starts
with. -/
theorem parseLoop_mask_indep (u : Int) (chain : List SentencePtr) :
    ∀ (f : Nat) (t : Text) (dst : Dataset) (s s' : Nat),
      (parseLoop u chain f t dst s).1 = (parseLoop u chain f t dst s').1 ∧
      (parseLoop u chain f t dst s).2.1 = (parseLoop u chain f t dst s').2.1 := by
  intro f
  induction f with
  | zero => intro t dst s s'; exact ⟨rfl, rfl⟩
  | succ f ih =>
    intro t dst s s'
    unfold parseLoop
    cases hfind : Sentence.find t with
    | none => exact ⟨rfl, rfl⟩
    | some x =>
      simp only
      rw [parseChain_store_indep u x.1 chain dst s s']
      exact ih _ _ _ _

/-- Running the outer loop on `a` first and then on what it left of `a` followed by `b` is
running it on `a` followed by `b`. -/
theorem parseLoop_split (u : Int) (chain : List SentencePtr) (b : Text) :
    ∀ (f : Nat) (a : Text) (dst : Dataset) (s : Nat), a.length < f →
      parseLoop u chain (f + b.length) (a ++ b) dst s =
        parseLoop u chain (f + b.length) ((parseLoop u chain f a dst s).1 ++ b)
          (parseLoop u chain f a dst s).2.1 (parseLoop u chain f a dst s).2.2 := by
  intro f
  induction f with
  | zero => intro a dst s hf; omega
  | succ f ih =>
    intro a dst s hf
    cases hfind : Sentence.find a with
    | none =>
      have e : parseLoop u chain (f + 1) a dst s = (a, dst, s) := by
        unfold parseLoop; rw [hfind]
      rw [e]
    | some x =>
      have hlen := find_length a x.1 x.2 (by rw [hfind])
      have e : parseLoop u chain (f + 1) a dst s
          = parseLoop u chain f x.2 (parseChain u x.1 chain dst s).1
              (parseChain u x.1 chain dst s).2 := by
        conv_lhs => unfold parseLoop
        rw [hfind]
      have e2 : parseLoop u chain (f + 1 + b.length) (a ++ b) dst s
          = parseLoop u chain (f + b.length) (x.2 ++ b) (parseChain u x.1 chain dst s).1
              (parseChain u x.1 chain dst s).2 := by
        have : f + 1 + b.length = (f + b.length) + 1 := by omega
        rw [this]
        conv_lhs => unfold parseLoop
        rw [find_append a b x.1 x.2 (by rw [hfind])]
      rw [e, e2, ih x.2 _ _ (by omega)]
      have hsuf : (parseLoop u chain f x.2 (parseChain u x.1 chain dst s).1
          (parseChain u x.1 chain dst s).2).1.length ≤ x.2.length := parseLoop_length _ _ _ _ _ _
      exact parseLoop_fuel u chain _ _ _ _ _ (by rw [List.length_append]; omega)
        (by rw [List.length_append]; omega)

end NMEA

namespace NMEA

/-- Split reads of the text engine when the three calls read one and the same value `u`
of the uninitialised field: parsing `a`, discarding the bytes consumed and parsing the
remainder of `a` followed by `b` gives the store and the total byte count of one call on
`a` followed by `b`. -/
theorem split_read_one_value (u : Int) (a b : Text) (dst : Dataset) (s : Nat)
    (ha : 0 ∉ a) :
    (parse u (a.drop (parse u a dst s).1 ++ b) (parse u a dst s).2.1 s).2.1
      = (parse u (a ++ b) dst s).2.1 ∧
    (parse u a dst s).1 + (parse u (a.drop (parse u a dst s).1 ++ b) (parse u a dst s).2.1 s).1
      = (parse u (a ++ b) dst s).1 := by
  unfold parse
  simp only
  generalize getSentences _ = chain
  have hfst := parseLoop_fst u chain (a.length + 1) a dst 0 ha
  have hk := scanOffsetAux_le (a.length + 1) a
  have hdrop : a.drop (a.length - (parseLoop u chain (a.length + 1) a dst 0).1.length)
      = (parseLoop u chain (a.length + 1) a dst 0).1 := by
    rw [hfst, List.length_drop]
    congr 1
    omega
  rw [hdrop]
  have hsplit := parseLoop_split u chain b (a.length + 1) a dst 0 (by omega)
  have hla := parseLoop_length u chain (a.length + 1) a dst 0
  have e1 : (a ++ b).length + 1 = a.length + 1 + b.length := by
    rw [List.length_append]; omega
  rw [e1, hsplit]
  generalize parseLoop u chain (a.length + 1) a dst 0 = r at hla ⊢
  obtain ⟨a', d', s'⟩ := r
  simp only at hla ⊢
  have hfuel := parseLoop_fuel u chain ((a' ++ b).length + 1) (a.length + 1 + b.length)
    (a' ++ b) d' 0 (by omega) (by rw [List.length_append]; omega)
  rw [hfuel]
  obtain ⟨m1, m2⟩ := parseLoop_mask_indep u chain (a.length + 1 + b.length) (a' ++ b) d' 0 s'
  rw [m1, m2]
  refine ⟨rfl, ?_⟩
  have hlf := parseLoop_length u chain (a.length + 1 + b.length) (a' ++ b) d' s'
  simp only [List.length_append] at hlf ⊢
  omega

end NMEA

namespace NMEA

theorem sentenceId_pow (p : SentencePtr) : ∃ j, j < 5 ∧ toSentenceId p = 2 ^ j := by
  cases p
  · exact ⟨0, by omega, rfl⟩
  · exact ⟨1, by omega, rfl⟩
  · exact ⟨1, by omega, rfl⟩
  · exact ⟨2, by omega, rfl⟩
  · exact ⟨2, by omega, rfl⟩
  · exact ⟨2, by omega, rfl⟩
  · exact ⟨2, by omega, rfl⟩
  · exact ⟨3, by omega, rfl⟩
  · exact ⟨3, by omega, rfl⟩
  · exact ⟨4, by omega, rfl⟩

theorem same_head_same_id (p q : SentencePtr) (h : p.sentence.head = q.sentence.head) :
    toSentenceId p = toSentenceId q := by
  cases p <;> cases q <;> first | rfl | exact absurd h (by decide)

theorem head_length_five (p : SentencePtr) : p.sentence.head.length = 5 := by
  cases p <;> rfl

/-- A format accepts only a text that starts with its header. -/
theorem accept_head (p : SentencePtr) (u : Int) (x : Text) (dst : Dataset)
    (h : (p.parse u x dst).1 = true) : (cstr x).take 5 = p.sentence.head := by
  by_contra hne
  have := ptr_header_reject p u x dst (by rw [head_length_five]; exact hne)
  rw [this] at h
  simp at h

/-- The formats that accept one text all report the same logical type. -/
theorem acceptors_same_id (p q : SentencePtr) (u : Int) (x : Text) (d1 d2 : Dataset)
    (hp : (p.parse u x d1).1 = true) (hq : (q.parse u x d2).1 = true) :
    toSentenceId p = toSentenceId q :=
  same_head_same_id p q ((accept_head p u x d1 hp).symm.trans (accept_head q u x d2 hq))

theorem parseChain_mask (u : Int) (x : Text) :
    ∀ (chain : List SentencePtr) (dst : Dataset) (s : Nat),
      ((∀ p ∈ chain, (p.parse u x Dataset.empty).1 = false) ∧
          (parseChain u x chain dst s).2 = s) ∨
      ∃ p ∈ chain, (p.parse u x Dataset.empty).1 = true ∧
        (parseChain u x chain dst s).2 = s ||| toSentenceId p := by
  intro chain
  induction chain with
  | nil => intro dst s; left; exact ⟨by simp, rfl⟩
  | cons p rest ih =>
    intro dst s
    unfold parseChain
    simp only
    by_cases hacc : (p.parse u x dst).1 = true
    · right
      refine ⟨p, List.mem_cons_self _ _, ?_, ?_⟩
      · rw [gsv_parse_fst_indep p u x Dataset.empty dst]; exact hacc
      · rw [if_pos hacc]
    · rw [if_neg hacc]
      rcases ih (p.parse u x dst).2 s with ⟨h1, h2⟩ | ⟨q, hq, h1, h2⟩
      · left
        refine ⟨?_, h2⟩
        intro q hq
        rcases List.mem_cons.1 hq with rfl | hq
        · rw [gsv_parse_fst_indep q u x Dataset.empty dst]
          simpa using hacc
        · exact h1 q hq
      · right
        exact ⟨q, List.mem_cons_of_mem _ hq, h1, h2⟩

/-- Bit `i` of the mask after the inner loop: it was set before, or a format of the chain
whose logical type is bit `i` accepts the text. -/
theorem parseChain_testBit (u : Int) (x : Text) (chain : List SentencePtr) (dst : Dataset)
    (s i : Nat) :
    (parseChain u x chain dst s).2.testBit i = true ↔
      s.testBit i = true ∨
      ∃ p ∈ chain, toSentenceId p = 2 ^ i ∧ (p.parse u x Dataset.empty).1 = true := by
  rcases parseChain_mask u x chain dst s with ⟨h1, h2⟩ | ⟨q, hq, h1, h2⟩
  · rw [h2]
    constructor
    · exact Or.inl
    · rintro (h | ⟨p, hp, _, hacc⟩)
      · exact h
      · rw [h1 p hp] at hacc; simp at hacc
  · rw [h2, Nat.testBit_or, Bool.or_eq_true]
    obtain ⟨j, _, hj⟩ := sentenceId_pow q
    constructor
    · rintro (h | h)
      · exact Or.inl h
      · right
        rw [hj, Nat.testBit_two_pow] at h
        have hji : j = i := by simpa using h
        exact ⟨q, hq, by rw [hj, hji], h1⟩
    · rintro (h | ⟨p, hp, hid, hacc⟩)
      · exact Or.inl h
      · right
        have := acceptors_same_id q p u x _ _ h1 hacc
        rw [this, hid, Nat.testBit_two_pow]
        simp

theorem parseLoop_testBit (u : Int) (chain : List SentencePtr) (i : Nat) :
    ∀ (f : Nat) (t : Text) (dst : Dataset) (s : Nat),
      (parseLoop u chain f t dst s).2.2.testBit i = true ↔
        s.testBit i = true ∨
        ∃ x ∈ Sentence.findAll f t, ∃ p ∈ chain,
          toSentenceId p = 2 ^ i ∧ (p.parse u x Dataset.empty).1 = true := by
  intro f
  induction f with
  | zero => intro t dst s; simp [parseLoop, Sentence.findAll]
  | succ f ih =>
    intro t dst s
    unfold parseLoop Sentence.findAll
    cases hfind : Sentence.find t with
    | none => simp
    | some y =>
      obtain ⟨x, rest⟩ := y
      simp only
      rw [ih, parseChain_testBit]
      simp only [List.mem_cons, exists_eq_or_imp]
      exact or_assoc

theorem chain_base_bit : ∀ s < 32, ∀ p ∈ getSentences (expandedMask s), ∀ i < 5,
    toSentenceId p = 2 ^ i → s.testBit i = true := by decide

/-- Claim C14. Recognized-type mask: when `NMEA::parse` is called with an entry mask `s`
that is a subset of `GGA | GSA | GSV | RMC | GLL`, bit `i` of the mask on return is set
exactly when a format of the chain whose logical type is bit `i` (the variants reporting
their base type) accepts one of the frames of the buffer; the mask is 0 when no frame is
accepted, it is a subset of the entry mask and it holds no private variant bit. -/
theorem parse_returned_mask (u : Int) (t : Text) (dst : Dataset) (s : Nat) (hs : s < 32) :
    (∀ i, (parse u t dst s).2.2.testBit i = true ↔
      ∃ x ∈ Sentence.findAll (t.length + 1) t, ∃ p ∈ getSentences (expandedMask s),
        toSentenceId p = 2 ^ i ∧ (p.parse u x Dataset.empty).1 = true) ∧
    ((∀ x ∈ Sentence.findAll (t.length + 1) t, ∀ p ∈ getSentences (expandedMask s),
        (p.parse u x Dataset.empty).1 = false) → (parse u t dst s).2.2 = 0) ∧
    (parse u t dst s).2.2 &&& s = (parse u t dst s).2.2 ∧
    (parse u t dst s).2.2 < 32 := by
  have hm : (parse u t dst s).2.2
      = (parseLoop u (getSentences (expandedMask s)) (t.length + 1) t dst 0).2.2 := rfl
  have hbit : ∀ i, (parse u t dst s).2.2.testBit i = true ↔
      ∃ x ∈ Sentence.findAll (t.length + 1) t, ∃ p ∈ getSentences (expandedMask s),
        toSentenceId p = 2 ^ i ∧ (p.parse u x Dataset.empty).1 = true := by
    intro i
    rw [hm, parseLoop_testBit]
    simp
  have hsub : ∀ i, (parse u t dst s).2.2.testBit i = true → i < 5 ∧ s.testBit i = true := by
    intro i h
    obtain ⟨x, _, p, hp, hid, _⟩ := (hbit i).1 h
    obtain ⟨j, hj5, hj⟩ := sentenceId_pow p
    have hji : j = i := Nat.pow_right_injective (le_refl 2) (hj.symm.trans hid)
    subst hji
    exact ⟨hj5, chain_base_bit s hs p hp j hj5 hid⟩
  refine ⟨hbit, ?_, ?_, ?_⟩
  · intro hno
    apply Nat.eq_of_testBit_eq
    intro i
    rw [Nat.zero_testBit]
    by_contra h
    have h' : (parse u t dst s).2.2.testBit i = true := by simpa using h
    obtain ⟨x, hx, p, hp, _, hacc⟩ := (hbit i).1 h'
    rw [hno x hx p hp] at hacc
    simp at hacc
  · apply Nat.eq_of_testBit_eq
    intro i
    rw [Nat.testBit_and]
    cases h : (parse u t dst s).2.2.testBit i with
    | false => rfl
    | true => simp [(hsub i h).2]
  · have h32 : (32 : Nat) = 2 ^ 5 := by norm_num
    rw [h32]
    apply Nat.lt_pow_two_of_testBit
    intro i hi
    by_contra h
    have h' : (parse u t dst s).2.2.testBit i = true := by simpa using h
    have := (hsub i h').1
    omega

set_option maxRecDepth 100000 in
/-- The last case of `test_parse_returned_mask`: five sentences, five logical types. -/
theorem parse_returned_mask_witness :
    (31 : Nat) < 32 ∧
    (parse 0 (str ("$GPGGA,,,,,,0,,,,,,,,*66\r\n$GPGSA,A,1,,,,,,,,,,,,,,,*1E\r\n" ++
      "$GPGSV,1,1,0,,,,,,,,,,,,,,,,*49\r\n$GPRMC,,V,,,,,,,,,*31\r\n$GPGLL,,,,,,V*06\r\n"))
      Info.new 31).2.2 &&& 31
      = (parse 0 (str ("$GPGGA,,,,,,0,,,,,,,,*66\r\n$GPGSA,A,1,,,,,,,,,,,,,,,*1E\r\n" ++
      "$GPGSV,1,1,0,,,,,,,,,,,,,,,,*49\r\n$GPRMC,,V,,,,,,,,,*31\r\n$GPGLL,,,,,,V*06\r\n"))
      Info.new 31).2.2 ∧
    (parse 0 (str ("$GPGGA,,,,,,0,,,,,,,,*66\r\n$GPGSA,A,1,,,,,,,,,,,,,,,*1E\r\n" ++
      "$GPGSV,1,1,0,,,,,,,,,,,,,,,,*49\r\n$GPRMC,,V,,,,,,,,,*31\r\n$GPGLL,,,,,,V*06\r\n"))
      Info.new 31).2.2 = GGA ||| GSA ||| GSV ||| RMC ||| GLL :=
  ⟨by decide,
    (parse_returned_mask 0 (str ("$GPGGA,,,,,,0,,,,,,,,*66\r\n$GPGSA,A,1,,,,,,,,,,,,,,,*1E\r\n" ++
      "$GPGSV,1,1,0,,,,,,,,,,,,,,,,*49\r\n$GPRMC,,V,,,,,,,,,*31\r\n$GPGLL,,,,,,V*06\r\n"))
      Info.new 31 (by decide)).2.2.1, by decide⟩

end NMEA

namespace NMEA

theorem splitTokens_joined (tok : Text) (rest : List Text) (h0 : 44 ∉ tok)
    (h : ∀ t ∈ rest, 44 ∉ t) :
    splitTokens (tok ++ rest.flatMap (fun t => 44 :: t)) = tok :: rest := by
  induction rest generalizing tok with
  | nil => simpa using splitTokens_no_comma tok h0
  | cons t ts ih =>
    rw [List.flatMap_cons, List.cons_append, splitTokens_append_comma _ _ h0,
      ih t (h t (List.mem_cons_self _ _)) (fun x hx => h x (List.mem_cons_of_mem _ hx))]

theorem hexUpper_byte : ∀ d < 16, hexUpper d ≠ 0 ∧ hexUpper d ≠ 13 ∧ hexUpper d ≠ 10 := by
  decide

theorem flatMap_tokens_byte (toks : List Text) (P : Nat → Prop) (hc : P 44)
    (h : ∀ t ∈ toks, ∀ b ∈ t, P b) : ∀ b ∈ toks.flatMap (fun t => 44 :: t), P b := by
  intro b hb
  rw [List.mem_flatMap] at hb
  obtain ⟨t, ht, hbt⟩ := hb
  rcases List.mem_cons.1 hbt with rfl | hbt
  · exact hc
  · exact h t ht b hbt

/-- The parts `Sentence::parse` looks at in a sentence text built from a header and tokens:
long enough, the header in front, a matching checksum, and the tokens as payload. -/
theorem sentenceText_parts (self : Sentence) (toks : List Text) (hne : toks ≠ [])
    (hhead : ∀ b ∈ self.head, b ≠ 0 ∧ b < 128)
    (htok : ∀ t ∈ toks, ∀ b ∈ t, b ≠ 44 ∧ b < 128) :
    self.head.length + 4 ≤ (sentenceText self.head toks).length ∧
    (cstr (sentenceText self.head toks)).take self.head.length = self.head ∧
    int32 (calcChecksum
        ((sentenceText self.head toks).take ((sentenceText self.head toks).length - 3)))
      = extractChecksum ((sentenceText self.head toks).drop
          ((sentenceText self.head toks).length - 3 + 1)) ∧
    splitTokens (payloadOf self (sentenceText self.head toks)) = toks := by
  obtain ⟨head, fmt⟩ := self
  simp only at hhead ⊢
  cases toks with
  | nil => exact absurd rfl hne
  | cons tok rest =>
    have hR : (tok :: rest).flatMap (fun t => 44 :: t)
        = 44 :: (tok ++ rest.flatMap (fun t => 44 :: t)) := by
      simp [List.flatMap_cons]
    generalize hRdef : (tok :: rest).flatMap (fun t => 44 :: t) = R at hR
    have h7 : ∀ b ∈ head ++ R, b < 128 := by
      intro b hb
      rcases List.mem_append.1 hb with hb | hb
      · exact (hhead b hb).2
      · rw [← hRdef] at hb
        exact flatMap_tokens_byte _ (fun b => b < 128) (by norm_num)
          (fun t ht b hb => (htok t ht b hb).2) b hb
    have hlt : xorBytes (head ++ R) < 256 := by
      apply xorBytes_lt
      intro b hb
      have := h7 b hb
      omega
    have hT : sentenceText head (tok :: rest)
        = head ++ R ++ [42, hexUpper (xorBytes (head ++ R) / 16),
            hexUpper (xorBytes (head ++ R) % 16)] := by
      unfold sentenceText; rw [hRdef]
    have hlen : (sentenceText head (tok :: rest)).length = head.length + R.length + 3 := by
      rw [hT]; simp only [List.length_append, List.length_cons, List.length_nil]
    have hRlen : 1 ≤ R.length := by rw [hR]; simp
    have htake : (sentenceText head (tok :: rest)).take
        ((sentenceText head (tok :: rest)).length - 3) = head ++ R := by
      rw [hlen, hT]
      have : head.length + R.length + 3 - 3 = (head ++ R).length := by
        simp only [List.length_append]; omega
      rw [this, List.take_left']
      rfl
    have hdrop : (sentenceText head (tok :: rest)).drop
        ((sentenceText head (tok :: rest)).length - 3 + 1)
        = [hexUpper (xorBytes (head ++ R) / 16), hexUpper (xorBytes (head ++ R) % 16)] := by
      rw [hlen, hT]
      have : head.length + R.length + 3 - 3 + 1 = (head ++ R ++ [42]).length := by
        simp only [List.length_append, List.length_singleton]; omega
      rw [this]
      have e : head ++ R ++ [42, hexUpper (xorBytes (head ++ R) / 16),
            hexUpper (xorBytes (head ++ R) % 16)]
          = (head ++ R ++ [42]) ++ [hexUpper (xorBytes (head ++ R) / 16),
            hexUpper (xorBytes (head ++ R) % 16)] := by simp
      rw [e, List.drop_left']
      rfl
    have hpay : payloadOf (Sentence.mk head fmt) (sentenceText head (tok :: rest))
        = tok ++ rest.flatMap (fun t => 44 :: t) := by
      unfold payloadOf
      simp only
      rw [hlen, hT, hR]
      have e : head ++ 44 :: (tok ++ rest.flatMap (fun t => 44 :: t)) ++
          [42, hexUpper (xorBytes (head ++ 44 :: (tok ++ rest.flatMap (fun t => 44 :: t))) / 16),
            hexUpper (xorBytes (head ++ 44 :: (tok ++ rest.flatMap (fun t => 44 :: t))) % 16)]
          = (head ++ [44]) ++ ((tok ++ rest.flatMap (fun t => 44 :: t)) ++
            [42, hexUpper (xorBytes (head ++ 44 :: (tok ++ rest.flatMap (fun t => 44 :: t))) / 16),
            hexUpper (xorBytes (head ++ 44 :: (tok ++ rest.flatMap (fun t => 44 :: t))) % 16)]) := by
        simp
      rw [e, List.drop_left' (by simp)]
      have : head.length + (44 :: (tok ++ rest.flatMap (fun t => 44 :: t))).length
          + 3 - 3 - head.length - 1
          = (tok ++ rest.flatMap (fun t => 44 :: t)).length := by
        simp only [List.length_cons, List.length_append]; omega
      rw [this, List.take_left']
      rfl
    refine ⟨by rw [hlen]; omega, ?_, ?_, ?_⟩
    · rw [hT, List.append_assoc, cstr_append_of_no_nul _ _ (fun h => (hhead 0 h).1 rfl),
        List.take_left']
      rfl
    · rw [htake, hdrop, ← fmtHex2_take _ hlt, extractChecksum_fmtHex2 _ hlt,
        checksum_int_ascii _ h7]
    · rw [hpay]
      exact splitTokens_joined tok rest
        (fun h => (htok tok (List.mem_cons_self _ _) 44 h).1 rfl)
        (fun t ht h => (htok t (List.mem_cons_of_mem _ ht) 44 h).1 rfl)

/-- A format accepts a sentence text built from its header and as many tokens as it has
fields. -/
theorem sentenceText_accept (self : Sentence) (u : Int) (toks : List Text) (dst : Dataset)
    (hne : toks ≠ []) (hhead : ∀ b ∈ self.head, b ≠ 0 ∧ b < 128)
    (htok : ∀ t ∈ toks, ∀ b ∈ t, b ≠ 44 ∧ b < 128) :
    (self.parse u (sentenceText self.head toks) dst).1 = true ↔
      toks.length = self.format.length := by
  obtain ⟨h1, h2, h3, h4⟩ := sentenceText_parts self toks hne hhead htok
  rw [Sentence.parse_fst_iff, calcTokens_eq, ← splitTokens_length, h4]
  constructor
  · exact fun h => h.2.2.2
  · exact fun h => ⟨h1, h2, h3, h⟩

theorem sentenceText_frameSafe (head : Text) (toks : List Text)
    (hhead : ∀ b ∈ head, b ≠ 0 ∧ b ≠ 13 ∧ b < 256)
    (htok : ∀ t ∈ toks, ∀ b ∈ t, b ≠ 0 ∧ b ≠ 13 ∧ b < 256) :
    frameSafe (sentenceText head toks) := by
  apply frameSafe_of_bytes
  have hlt : xorBytes (head ++ toks.flatMap (fun t => 44 :: t)) < 256 := by
    apply xorBytes_lt
    intro b hb
    rcases List.mem_append.1 hb with hb | hb
    · exact (hhead b hb).2.2
    · exact flatMap_tokens_byte _ (fun b => b < 256) (by norm_num)
        (fun t ht b hb => (htok t ht b hb).2.2) b hb
  intro b hb
  unfold sentenceText at hb
  rcases List.mem_append.1 hb with hb | hb
  · rcases List.mem_append.1 hb with hb | hb
    · exact ⟨(hhead b hb).1, (hhead b hb).2.1⟩
    · exact flatMap_tokens_byte _ (fun b => b ≠ 0 ∧ b ≠ 13) (by norm_num)
        (fun t ht b hb => ⟨(htok t ht b hb).1, (htok t ht b hb).2.1⟩) b hb
  · simp only [List.mem_cons, List.mem_singleton, List.not_mem_nil, or_false] at hb
    rcases hb with rfl | rfl | rfl
    · norm_num
    · have := hexUpper_byte _ (show xorBytes (head ++ toks.flatMap (fun t => 44 :: t)) / 16 < 16
        by omega)
      exact ⟨this.1, this.2.1⟩
    · have := hexUpper_byte _ (show xorBytes (head ++ toks.flatMap (fun t => 44 :: t)) % 16 < 16
        by omega)
      exact ⟨this.1, this.2.1⟩

end NMEA

namespace NMEA

theorem list_eighteen (l : List Text) (h : l.length = 18) :
    ∃ a0 a1 a2 a3 a4 a5 a6 a7 a8 a9 a10 a11 a12 a13 a14 a15 a16 a17,
      l = [a0, a1, a2, a3, a4, a5, a6, a7, a8, a9, a10, a11, a12, a13, a14, a15, a16, a17] := by
  rcases l with _ | ⟨a0, l⟩
  · simp at h
  rcases l with _ | ⟨a1, l⟩
  · simp at h
  rcases l with _ | ⟨a2, l⟩
  · simp at h
  rcases l with _ | ⟨a3, l⟩
  · simp at h
  rcases l with _ | ⟨a4, l⟩
  · simp at h
  rcases l with _ | ⟨a5, l⟩
  · simp at h
  rcases l with _ | ⟨a6, l⟩
  · simp at h
  rcases l with _ | ⟨a7, l⟩
  · simp at h
  rcases l with _ | ⟨a8, l⟩
  · simp at h
  rcases l with _ | ⟨a9, l⟩
  · simp at h
  rcases l with _ | ⟨a10, l⟩
  · simp at h
  rcases l with _ | ⟨a11, l⟩
  · simp at h
  rcases l with _ | ⟨a12, l⟩
  · simp at h
  rcases l with _ | ⟨a13, l⟩
  · simp at h
  rcases l with _ | ⟨a14, l⟩
  · simp at h
  rcases l with _ | ⟨a15, l⟩
  · simp at h
  rcases l with _ | ⟨a16, l⟩
  · simp at h
  rcases l with _ | ⟨a17, l⟩
  · simp at h
  rcases l with _ | ⟨x, l⟩
  · exact ⟨a0, a1, a2, a3, a4, a5, a6, a7, a8, a9, a10, a11, a12, a13, a14, a15, a16, a17, rfl⟩
  · simp at h

/-- What the chain of `NMEA::parse` does with a GPGSA sentence text of eighteen fields: the
18-field shape of `GSA1.h` decodes it. -/
theorem parseChain_gsa18 (u : Int) (toks : List Text) (dst : Dataset) (s : Nat)
    (hlen : toks.length = 18) (htok : ∀ t ∈ toks, ∀ b ∈ t, b ≠ 44 ∧ b < 128) :
    parseChain u (sentenceText (str "GPGSA") toks)
      [SentencePtr.GGA, SentencePtr.GSA, SentencePtr.GSA1, SentencePtr.GSV, SentencePtr.GSV1,
       SentencePtr.GSV2, SentencePtr.GSV3, SentencePtr.RMC, SentencePtr.RMC1, SentencePtr.GLL]
      dst s = ((sGSA1.parse u (sentenceText (str "GPGSA") toks) dst).2, s ||| GSA) := by
  have hne : toks ≠ [] := by intro h; rw [h] at hlen; simp at hlen
  have hparts := sentenceText_parts sGSA toks hne (by decide) htok
  have hgga : SentencePtr.GGA.parse u (sentenceText (str "GPGSA") toks) dst = (false, dst) := by
    apply ptr_header_reject
    have h2 : (cstr (sentenceText (str "GPGSA") toks)).take 5 = str "GPGSA" := hparts.2.1
    have e : SentencePtr.GGA.sentence.head.length = 5 := rfl
    rw [e, h2]
    decide
  have h0 : (sGSA.parse u (sentenceText (str "GPGSA") toks) dst).1 = false := by
    have := sentenceText_accept sGSA u toks dst hne (by decide) htok
    have hl : ¬ toks.length = sGSA.format.length := by
      rw [hlen]; decide
    cases h : (sGSA.parse u (sentenceText sGSA.head toks) dst).1 with
    | false => exact h
    | true => exact absurd (this.1 h) hl
  have hgsa : SentencePtr.GSA.parse u (sentenceText (str "GPGSA") toks) dst = (false, dst) := by
    have e : SentencePtr.GSA.parse u (sentenceText (str "GPGSA") toks) dst
        = sGSA.parse u (sentenceText (str "GPGSA") toks) dst := rfl
    rw [e]
    exact Prod.ext h0 (sentence_parse_rejected_snd _ _ _ _ h0)
  have h1 : (sGSA1.parse u (sentenceText (str "GPGSA") toks) dst).1 = true :=
    (sentenceText_accept sGSA1 u toks dst hne (by decide) htok).2 (by rw [hlen]; rfl)
  have e1 : SentencePtr.GSA1.parse u (sentenceText (str "GPGSA") toks) dst
      = sGSA1.parse u (sentenceText (str "GPGSA") toks) dst := rfl
  simp only [parseChain, hgga, hgsa, e1, h1, if_true, Bool.false_eq_true, if_false]
  rfl

/-- What the chain of `NMEA::parse` does with a GPGSA sentence text of seventeen fields: the
17-field shape of `GSA.h` decodes it. -/
theorem parseChain_gsa17 (u : Int) (toks : List Text) (dst : Dataset) (s : Nat)
    (hlen : toks.length = 17) (htok : ∀ t ∈ toks, ∀ b ∈ t, b ≠ 44 ∧ b < 128) :
    parseChain u (sentenceText (str "GPGSA") toks)
      [SentencePtr.GGA, SentencePtr.GSA, SentencePtr.GSA1, SentencePtr.GSV, SentencePtr.GSV1,
       SentencePtr.GSV2, SentencePtr.GSV3, SentencePtr.RMC, SentencePtr.RMC1, SentencePtr.GLL]
      dst s = ((sGSA.parse u (sentenceText (str "GPGSA") toks) dst).2, s ||| GSA) := by
  have hne : toks ≠ [] := by intro h; rw [h] at hlen; simp at hlen
  have hparts := sentenceText_parts sGSA toks hne (by decide) htok
  have hgga : SentencePtr.GGA.parse u (sentenceText (str "GPGSA") toks) dst = (false, dst) := by
    apply ptr_header_reject
    have h2 : (cstr (sentenceText (str "GPGSA") toks)).take 5 = str "GPGSA" := hparts.2.1
    have e : SentencePtr.GGA.sentence.head.length = 5 := rfl
    rw [e, h2]
    decide
  have h1 : (sGSA.parse u (sentenceText (str "GPGSA") toks) dst).1 = true :=
    (sentenceText_accept sGSA u toks dst hne (by decide) htok).2 (by rw [hlen]; rfl)
  have e1 : SentencePtr.GSA.parse u (sentenceText (str "GPGSA") toks) dst
      = sGSA.parse u (sentenceText (str "GPGSA") toks) dst := rfl
  simp only [parseChain, hgga, e1, h1, if_true, Bool.false_eq_true, if_false]
  rfl

end NMEA

namespace NMEA

/-- The stores the two GPGSA shapes decode from the same fields agree everywhere but at the
private field `GSA_UNKNOWN_1`, which only the 18-field shape writes. -/
theorem gsa_store_agree (u : Int) (toks : List Text) (dst : Dataset)
    (hlen : toks.length = 18) (htok : ∀ t ∈ toks, ∀ b ∈ t, b ≠ 44 ∧ b < 128) :
    (∀ key, key ≠ GSA_UNKNOWN_1 →
      (sGSA1.parse u (sentenceText (str "GPGSA") toks) dst).2 key
        = (sGSA.parse u (sentenceText (str "GPGSA") (toks.eraseIdx 14)) dst).2 key) ∧
    (sGSA1.parse u (sentenceText (str "GPGSA") toks) dst).2 GSA_UNKNOWN_1
      = fieldValue u tInt2 (toks.getD 14 []) ∧
    (sGSA.parse u (sentenceText (str "GPGSA") (toks.eraseIdx 14)) dst).2 GSA_UNKNOWN_1
      = dst GSA_UNKNOWN_1 := by
  have hne : toks ≠ [] := by intro h; rw [h] at hlen; simp at hlen
  have hlen17 : (toks.eraseIdx 14).length = 17 := by
    rw [List.length_eraseIdx]; simp [hlen]
  have hne17 : toks.eraseIdx 14 ≠ [] := by intro h; rw [h] at hlen17; simp at hlen17
  have htok17 : ∀ t ∈ toks.eraseIdx 14, ∀ b ∈ t, b ≠ 44 ∧ b < 128 :=
    fun t ht => htok t (List.mem_of_mem_eraseIdx ht)
  have hacc18 : (sGSA1.parse u (sentenceText (str "GPGSA") toks) dst).1 = true :=
    (sentenceText_accept sGSA1 u toks dst hne (by decide) htok).2 (by rw [hlen]; rfl)
  have hacc17 : (sGSA.parse u (sentenceText (str "GPGSA") (toks.eraseIdx 14)) dst).1 = true :=
    (sentenceText_accept sGSA u _ dst hne17 (by decide) htok17).2 (by rw [hlen17]; rfl)
  have hp18 : splitTokens (payloadOf sGSA1 (sentenceText (str "GPGSA") toks)) = toks :=
    (sentenceText_parts sGSA1 toks hne (by decide) htok).2.2.2
  have hp17 : splitTokens (payloadOf sGSA (sentenceText (str "GPGSA") (toks.eraseIdx 14)))
      = toks.eraseIdx 14 :=
    (sentenceText_parts sGSA _ hne17 (by decide) htok17).2.2.2
  have H18 : ∀ (i : Nat) (hi : i < sGSA1.format.length),
      (sGSA1.parse u (sentenceText (str "GPGSA") toks) dst).2 (sGSA1.format.get ⟨i, hi⟩).1
        = fieldValue u (sGSA1.format.get ⟨i, hi⟩).2 (toks.getD i []) := by
    intro i hi
    rw [sentence_parse_get sGSA1 u _ dst (by decide) hacc18 i hi, hp18]
  have H17 : ∀ (i : Nat) (hi : i < sGSA.format.length),
      (sGSA.parse u (sentenceText (str "GPGSA") (toks.eraseIdx 14)) dst).2
          (sGSA.format.get ⟨i, hi⟩).1
        = fieldValue u (sGSA.format.get ⟨i, hi⟩).2 ((toks.eraseIdx 14).getD i []) := by
    intro i hi
    rw [sentence_parse_get sGSA u _ dst (by decide) hacc17 i hi, hp17]
  have hids17 : sGSA.ids = [2, 0, 26, 27, 28, 29, 30, 31, 32, 33, 34, 35, 36, 37, 17, 18, 19] := by
    decide
  have hids18 : sGSA1.ids
      = [2, 0, 26, 27, 28, 29, 30, 31, 32, 33, 34, 35, 36, 37, 1000, 17, 18, 19] := by
    decide
  obtain ⟨a0, a1, a2, a3, a4, a5, a6, a7, a8, a9, a10, a11, a12, a13, a14, a15, a16, a17, rfl⟩ :=
    list_eighteen toks hlen
  refine ⟨?_, H18 14 (by decide), ?_⟩
  · intro key hkey
    by_cases hid : key ∈ sGSA.ids
    · obtain ⟨i, hi, hikey⟩ := List.getElem_of_mem hid
      have hi17 : i < 17 := by simpa [hids17] using hi
      interval_cases i
      · subst hikey
        exact (H18 0 (by decide)).trans (H17 0 (by decide)).symm
      · subst hikey
        exact (H18 1 (by decide)).trans (H17 1 (by decide)).symm
      · subst hikey
        exact (H18 2 (by decide)).trans (H17 2 (by decide)).symm
      · subst hikey
        exact (H18 3 (by decide)).trans (H17 3 (by decide)).symm
      · subst hikey
        exact (H18 4 (by decide)).trans (H17 4 (by decide)).symm
      · subst hikey
        exact (H18 5 (by decide)).trans (H17 5 (by decide)).symm
      · subst hikey
        exact (H18 6 (by decide)).trans (H17 6 (by decide)).symm
      · subst hikey
        exact (H18 7 (by decide)).trans (H17 7 (by decide)).symm
      · subst hikey
        exact (H18 8 (by decide)).trans (H17 8 (by decide)).symm
      · subst hikey
        exact (H18 9 (by decide)).trans (H17 9 (by decide)).symm
      · subst hikey
        exact (H18 10 (by decide)).trans (H17 10 (by decide)).symm
      · subst hikey
        exact (H18 11 (by decide)).trans (H17 11 (by decide)).symm
      · subst hikey
        exact (H18 12 (by decide)).trans (H17 12 (by decide)).symm
      · subst hikey
        exact (H18 13 (by decide)).trans (H17 13 (by decide)).symm
      · subst hikey
        exact (H18 15 (by decide)).trans (H17 14 (by decide)).symm
      · subst hikey
        exact (H18 16 (by decide)).trans (H17 15 (by decide)).symm
      · subst hikey
        exact (H18 17 (by decide)).trans (H17 16 (by decide)).symm
    · have hid18 : key ∉ sGSA1.ids := by
        rw [hids17] at hid
        rw [hids18]
        simp only [List.mem_cons, List.mem_singleton, List.not_mem_nil, or_false] at hid ⊢
        unfold GSA_UNKNOWN_1 at hkey
        omega
      rw [sentence_parse_other sGSA1 u _ dst key hid18, sentence_parse_other sGSA u _ dst key hid]
  · apply sentence_parse_other
    rw [hids17]
    decide

end NMEA

namespace NMEA

theorem parse_single_frame (u : Int) (t : Text) (dst : Dataset) (h : frameSafe t) :
    (parse u (36 :: t ++ [13, 10]) dst ALL).2 =
      parseChain u t [SentencePtr.GGA, SentencePtr.GSA, SentencePtr.GSA1, SentencePtr.GSV,
        SentencePtr.GSV1, SentencePtr.GSV2, SentencePtr.GSV3, SentencePtr.RMC,
        SentencePtr.RMC1, SentencePtr.GLL] dst 0 := by
  have e : (36 :: t ++ [13, 10] : Text) = joinFrames [t] := rfl
  rw [e, parse_joinFrames u [t] dst (by simpa using h)]
  rfl

/-- Claim C15, amended. Variant shapes of GPGSA: for every GPGSA sentence of eighteen fields
(fields of 7-bit bytes, below 128, free of NUL, CR and `','`) and the sentence of seventeen fields obtained from it by
deleting the 15th field and recomputing the checksum, `NMEA::parse` of either one into equal
stores returns the type mask `GSA` and yields stores that agree on every field other than
the private field `GSA_UNKNOWN_1`: the 18-field shape stores its 15th field there (or removes
the field when it is empty), the 17-field shape leaves it as it was. -/
theorem gsa_variants (u : Int) (toks : List Text) (dst : Dataset) (hlen : toks.length = 18)
    (hbytes : ∀ t ∈ toks, ∀ b ∈ t, b ≠ 0 ∧ b ≠ 13 ∧ b ≠ 44 ∧ b < 128) :
    (parse u (36 :: sentenceText (str "GPGSA") toks ++ [13, 10]) dst ALL).2.2 = GSA ∧
    (parse u (36 :: sentenceText (str "GPGSA") (toks.eraseIdx 14) ++ [13, 10]) dst ALL).2.2
      = GSA ∧
    (∀ key, key ≠ GSA_UNKNOWN_1 →
      (parse u (36 :: sentenceText (str "GPGSA") toks ++ [13, 10]) dst ALL).2.1 key
        = (parse u (36 :: sentenceText (str "GPGSA") (toks.eraseIdx 14) ++ [13, 10])
            dst ALL).2.1 key) ∧
    (parse u (36 :: sentenceText (str "GPGSA") toks ++ [13, 10]) dst ALL).2.1 GSA_UNKNOWN_1
      = fieldValue u tInt2 (toks.getD 14 []) ∧
    (parse u (36 :: sentenceText (str "GPGSA") (toks.eraseIdx 14) ++ [13, 10])
        dst ALL).2.1 GSA_UNKNOWN_1 = dst GSA_UNKNOWN_1 := by
  have htok : ∀ t ∈ toks, ∀ b ∈ t, b ≠ 44 ∧ b < 128 :=
    fun t ht b hb => ⟨(hbytes t ht b hb).2.2.1, (hbytes t ht b hb).2.2.2⟩
  have hsafe : ∀ t ∈ toks, ∀ b ∈ t, b ≠ 0 ∧ b ≠ 13 ∧ b < 256 :=
    fun t ht b hb => ⟨(hbytes t ht b hb).1, (hbytes t ht b hb).2.1,
      by have := (hbytes t ht b hb).2.2.2; omega⟩
  have hlen17 : (toks.eraseIdx 14).length = 17 := by
    rw [List.length_eraseIdx]; simp [hlen]
  have h18 := parse_single_frame u (sentenceText (str "GPGSA") toks) dst
    (sentenceText_frameSafe _ _ (by decide) hsafe)
  have h17 := parse_single_frame u (sentenceText (str "GPGSA") (toks.eraseIdx 14)) dst
    (sentenceText_frameSafe _ _ (by decide)
      (fun t ht => hsafe t (List.mem_of_mem_eraseIdx ht)))
  rw [parseChain_gsa18 u toks dst 0 hlen htok] at h18
  rw [parseChain_gsa17 u _ dst 0 hlen17
    (fun t ht => htok t (List.mem_of_mem_eraseIdx ht))] at h17
  rw [h18, h17]
  obtain ⟨g1, g2, g3⟩ := gsa_store_agree u toks dst hlen htok
  exact ⟨rfl, rfl, g1, g2, g3⟩

set_option maxRecDepth 100000 in
/-- The sentence of `test_parse_wrong_gsa` and its 17-field form. -/
theorem gsa_variants_witness :
    (wrongGsaTokens.length = 18 ∧
      ∀ t ∈ wrongGsaTokens, ∀ b ∈ t, b ≠ 0 ∧ b ≠ 13 ∧ b ≠ 44 ∧ b < 128) ∧
    ((parse 0 (36 :: sentenceText (str "GPGSA") wrongGsaTokens ++ [13, 10]) Info.new ALL).2.2
        = GSA ∧
      (parse 0 (36 :: sentenceText (str "GPGSA") (wrongGsaTokens.eraseIdx 14) ++ [13, 10])
        Info.new ALL).2.2 = GSA ∧
      (∀ key, key ≠ GSA_UNKNOWN_1 →
        (parse 0 (36 :: sentenceText (str "GPGSA") wrongGsaTokens ++ [13, 10])
          Info.new ALL).2.1 key
          = (parse 0 (36 :: sentenceText (str "GPGSA") (wrongGsaTokens.eraseIdx 14) ++ [13, 10])
              Info.new ALL).2.1 key) ∧
      (parse 0 (36 :: sentenceText (str "GPGSA") wrongGsaTokens ++ [13, 10])
        Info.new ALL).2.1 GSA_UNKNOWN_1 = fieldValue 0 tInt2 (wrongGsaTokens.getD 14 []) ∧
      (parse 0 (36 :: sentenceText (str "GPGSA") (wrongGsaTokens.eraseIdx 14) ++ [13, 10])
        Info.new ALL).2.1 GSA_UNKNOWN_1 = Info.new GSA_UNKNOWN_1) :=
  ⟨⟨by decide, by decide⟩, gsa_variants 0 wrongGsaTokens Info.new (by decide) (by decide)⟩

set_option maxRecDepth 100000 in
/-- The sentence of `test_parse_wrong_gsa` leaves the private field `GSA_UNKNOWN_1` at 99 in
the store; its 17-field form leaves the field absent: the two stores are not equal. -/
theorem gsa_variants_counterexample :
    36 :: sentenceText (str "GPGSA") wrongGsaTokens ++ [13, 10]
      = str "$GPGSA,A,3,01,02,03,04,05,06,07,08,09,10,11,12,99,3.5,1.5,2.5*18\r\n" ∧
    36 :: sentenceText (str "GPGSA") (wrongGsaTokens.eraseIdx 14) ++ [13, 10]
      = str "$GPGSA,A,3,01,02,03,04,05,06,07,08,09,10,11,12,3.5,1.5,2.5*34\r\n" ∧
    (parse 0 (str "$GPGSA,A,3,01,02,03,04,05,06,07,08,09,10,11,12,99,3.5,1.5,2.5*18\r\n")
      Info.new ALL).2.1 GSA_UNKNOWN_1 = some (Variant.int 99) ∧
    (parse 0 (str "$GPGSA,A,3,01,02,03,04,05,06,07,08,09,10,11,12,3.5,1.5,2.5*34\r\n")
      Info.new ALL).2.1 GSA_UNKNOWN_1 = none ∧
    (parse 0 (str "$GPGSA,A,3,01,02,03,04,05,06,07,08,09,10,11,12,99,3.5,1.5,2.5*18\r\n")
      Info.new ALL).2.1
      ≠ (parse 0 (str "$GPGSA,A,3,01,02,03,04,05,06,07,08,09,10,11,12,3.5,1.5,2.5*34\r\n")
      Info.new ALL).2.1 := by
  refine ⟨by decide, by decide, by decide, by decide, ?_⟩
  intro h
  have h1 := congrFun h GSA_UNKNOWN_1
  revert h1
  decide

end NMEA

namespace GPSProtocol

/-- Claim C20. Garbage overflow of the streaming adapter: for every adapter state, every
decoder `tryParse` and every input chunk, if after appending the chunk the decoder consumes
nothing and the buffer holds at least 1024 bytes, then `GPSProtocol::parse` sets the state to
`FAILURE`, empties the buffer and returns false; and in every case `GPSProtocol::parse`
returns false exactly when the state after the call is `FAILURE`. -/
theorem parse_garbage_overflow {σ : Type} (tryParse : σ → List Nat → Nat × σ)
    (self : Adapter σ) (data : List Nat) :
    ((tryParse self.sub (self.parseBuffer ++ data)).1 = 0 →
      MAX_BUF_SIZE ≤ (self.parseBuffer ++ data).length →
      (parse tryParse self data).2.state = State.FAILURE ∧
      (parse tryParse self data).2.parseBuffer = [] ∧
      (parse tryParse self data).1 = false) ∧
    ((parse tryParse self data).1 = false ↔
      (parse tryParse self data).2.state = State.FAILURE) := by
  constructor
  · intro h0 hlen
    unfold parse
    simp only [h0, lt_self_iff_false, if_false, ge_iff_le, hlen, if_true]
    simp
  · unfold parse
    simp

set_option maxRecDepth 1000000 in
/-- A fresh NMEA adapter fed 1024 bytes `'A'`, which hold no frame delimiter. -/
theorem parse_garbage_overflow_witness :
    ((nmeaTryParse 0 0 (Adapter.new NMEA.Info.new).sub
        ((Adapter.new NMEA.Info.new).parseBuffer ++ List.replicate 1024 65)).1 = 0 ∧
      MAX_BUF_SIZE ≤ ((Adapter.new NMEA.Info.new).parseBuffer ++ List.replicate 1024 65).length) ∧
    (parse (nmeaTryParse 0 0) (Adapter.new NMEA.Info.new) (List.replicate 1024 65)).2.state
      = State.FAILURE ∧
    (parse (nmeaTryParse 0 0) (Adapter.new NMEA.Info.new) (List.replicate 1024 65)).2.parseBuffer
      = [] ∧
    (parse (nmeaTryParse 0 0) (Adapter.new NMEA.Info.new) (List.replicate 1024 65)).1 = false :=
  ⟨⟨by decide, by decide⟩,
    (parse_garbage_overflow (nmeaTryParse 0 0) (Adapter.new NMEA.Info.new)
      (List.replicate 1024 65)).1 (by decide) (by decide)⟩

end GPSProtocol

namespace Sirf

theorem frame_length (payload : List Nat) (c f : Nat) :
    (frame payload c f).length = payload.length + 8 := by
  simp [frame]

theorem read16_frame_header (payload : List Nat) (c f : Nat) :
    read16 (frame payload c f) 0 = SIRF_HEADER := by
  unfold read16 frame
  simp only [List.cons_append, List.getD_cons_zero, List.getD_cons_succ]
  norm_num [SIRF_HEADER]

theorem read16_frame_length (payload : List Nat) (c f : Nat) :
    read16 (frame payload c f) 2 = payload.length := by
  simp [frame, read16]
  omega

theorem read16_frame_tail (payload : List Nat) (c f k : Nat) :
    read16 (frame payload c f) (4 + payload.length + k)
      = read16 [c / 256, c % 256, f / 256, f % 256] k := by
  unfold read16 frame
  have e : ([0xA0, 0xA2, payload.length / 256, payload.length % 256] ++ payload).length
      = 4 + payload.length := by simp; omega
  rw [List.getD_append_right _ _ _ _ (by rw [e]; omega),
    List.getD_append_right _ _ _ _ (by rw [e]; omega), e]
  congr 2 <;> congr 1 <;> omega

theorem frame_payload (payload : List Nat) (c f : Nat) :
    ((frame payload c f).drop 4).take payload.length = payload := by
  unfold frame
  have e : [0xA0, 0xA2, payload.length / 256, payload.length % 256] ++ payload ++
      [c / 256, c % 256, f / 256, f % 256]
      = [0xA0, 0xA2, payload.length / 256, payload.length % 256] ++ (payload ++
      [c / 256, c % 256, f / 256, f % 256]) := by simp
  rw [e, List.drop_left' (by rfl), List.take_left' rfl]

/-- One iteration of the loop of `SirfProtocol::tryParse` on a buffer that is one candidate
frame. -/
theorem tryParseStep_frame (payload : List Nat) (c f : Nat) (hL : 1 ≤ payload.length) :
    tryParseStep (frame payload c f) 0 =
      if c = payload.sum % 32768 ∧ f = SIRF_FOOTER then (payload.length + 8, some payload)
      else (payload.length + 8, none) := by
  have hcs : read16 (frame payload c f) (0 + 4 + payload.length) = c := by
    have := read16_frame_tail payload c f 0
    simp only [Nat.add_zero, read16] at this
    simp only [Nat.zero_add]
    rw [show read16 (frame payload c f) (4 + payload.length)
      = (frame payload c f).getD (4 + payload.length) 0 * 256
        + (frame payload c f).getD (4 + payload.length + 1) 0 from rfl, this]
    simp
    omega
  have hft : read16 (frame payload c f) (0 + 6 + payload.length) = f := by
    have := read16_frame_tail payload c f 2
    have e : 0 + 6 + payload.length = 4 + payload.length + 2 := by omega
    rw [e, this]
    simp [read16]
    omega
  unfold tryParseStep
  rw [read16_frame_header, if_pos rfl]
  simp only [Nat.zero_add] at hcs hft ⊢
  rw [read16_frame_length, frame_length, hcs, hft, frame_payload, sirfChecksum_eq]
  rw [if_neg (by omega)]
  have e8 : 8 + payload.length = payload.length + 8 := by omega
  rw [e8]
  by_cases h1 : f = SIRF_FOOTER
  · by_cases h2 : c = payload.sum % 32768
    · rw [if_neg (by simpa using h1), if_neg (by simpa using h2), if_pos ⟨h2, h1⟩]
    · rw [if_neg (by simpa using h1), if_pos h2, if_neg (fun h => h2 h.1)]
  · rw [if_pos h1, if_neg (fun h => h1 h.2)]

/-- Claim C16, amended. Binary frame acceptance: for every buffer that consists of exactly
one candidate frame, bytes `A0 A2`, a two-byte length `L >= 2`, `L` payload bytes, a two-byte
checksum field `c` and a two-byte trailer `f`, `SirfProtocol::tryParse` returns `8 + L` and
hands the payload to message decoding if and only if `c` equals the sum of the payload bytes
modulo `2 ^ 15` and `f` equals `B0 B3`; otherwise it returns 0 and no payload is handed to
message decoding, so the record is not modified. -/
theorem sirf_frame_acceptance (payload : List Nat) (c f : Nat) (hL : 2 ≤ payload.length) :
    tryParse (frame payload c f) =
      if c = payload.sum % 32768 ∧ f = 0xB0B3 then (8 + payload.length, [payload])
      else (0, []) := by
  unfold tryParse
  have hfuel : (frame payload c f).length + 1 = (payload.length + 7) + 1 + 1 := by
    rw [frame_length]
  have hstep := tryParseStep_frame payload c f (by omega)
  rw [show SIRF_FOOTER = 0xB0B3 from rfl] at hstep
  have hmin : SIRF_MIN_SIZE ≤ (frame payload c f).length - 0 := by
    rw [frame_length]; simp only [SIRF_MIN_SIZE, SIRF_AUX_SIZE]; omega
  have hend : ¬ SIRF_MIN_SIZE ≤ (frame payload c f).length - (payload.length + 8) := by
    rw [frame_length]; simp only [SIRF_MIN_SIZE, SIRF_AUX_SIZE]; omega
  rw [hfuel]
  rw [tryParseLoop, if_pos hmin, hstep]
  by_cases h : c = payload.sum % 32768 ∧ f = 0xB0B3
  · rw [if_pos h, if_pos h]
    simp only
    rw [tryParseLoop, if_neg hend]
    simp
    omega
  · rw [if_neg h, if_neg h]
    simp only
    rw [tryParseLoop, if_neg hend]

/-- A valid frame with a two-byte payload is accepted. -/
theorem sirf_frame_acceptance_witness :
    2 ≤ [0, 1].length ∧
    tryParse (frame [0, 1] 1 0xB0B3) =
      if 1 = [0, 1].sum % 32768 ∧ 0xB0B3 = 0xB0B3 then (8 + [0, 1].length, [[0, 1]])
      else (0, []) :=
  ⟨by decide, sirf_frame_acceptance [0, 1] 1 0xB0B3 (by decide)⟩

/-- A valid frame with a one-byte payload is nine bytes long, fewer than `SIRF_MIN_SIZE`:
the loop does not examine it and `tryParse` returns 0, not 9. -/
theorem sirf_frame_acceptance_counterexample :
    (41 = [41].sum % 32768 ∧ 0xB0B3 = 0xB0B3) ∧
    frame [41] 41 0xB0B3 = [0xA0, 0xA2, 0, 1, 41, 0, 41, 0xB0, 0xB3] ∧
    tryParse (frame [41] 41 0xB0B3) = (0, []) ∧
    (tryParse (frame [41] 41 0xB0B3)).1 ≠ 8 + [41].length := by
  decide

end Sirf

namespace Sirf

theorem skip_ok (s : SirfInputStream) (n : Nat) (h : s.offset + n ≤ s.bytes.length) :
    s.skip n = some ⟨s.bytes, s.offset + n⟩ := by
  unfold SirfInputStream.skip SirfInputStream.avail SirfInputStream.size
  rw [if_pos (by omega)]

/-- Consecutive reads succeed when the bytes they need are there. -/
theorem readMany_ok : ∀ (ws : List Nat) (s : SirfInputStream),
    s.offset + ws.sum ≤ s.bytes.length →
    ∃ vals, s.readMany ws = some (vals, ⟨s.bytes, s.offset + ws.sum⟩) := by
  intro ws
  induction ws with
  | nil => intro s _; exact ⟨[], by simp [SirfInputStream.readMany]⟩
  | cons w ws ih =>
    intro s h
    simp only [List.sum_cons] at h
    obtain ⟨vals, hv⟩ := ih ⟨s.bytes, s.offset + w⟩ (by simp only; omega)
    simp only at hv
    refine ⟨s.peek w :: vals, ?_⟩
    unfold SirfInputStream.readMany
    rw [skip_ok s w (by omega)]
    simp only [Option.some_bind, hv, Option.map_some', List.sum_cons, Nat.add_assoc]

/-- The function `parseFix` on a payload whose message id was read: a `Fix` of quality 1
when the payload is 91 bytes long and the navigation type has one of its three low bits set,
`NULL` otherwise; no assertion fails. -/
theorem parseFix_result (payload : List Nat) :
    ∃ r, parseFix ⟨payload, 1⟩ = some r ∧
      if payload.length = 91 ∧ SirfInputStream.peek ⟨payload, 3⟩ 2 &&& 7 ≠ 0 then
        ∃ fix, r = some fix ∧ fix.quality = 1
      else r = none := by
  unfold parseFix
  simp only [SirfInputStream.size]
  by_cases hlen : payload.length = 91
  · rw [if_neg (by simpa using hlen)]
    rw [skip_ok ⟨payload, 1⟩ 2 (by simp only; omega)]
    simp only [Option.some_bind, SirfInputStream.read16]
    rw [skip_ok ⟨payload, 1 + 2⟩ 2 (by simp only; omega)]
    simp only [Option.map_some', Option.some_bind]
    by_cases hty : SirfInputStream.peek ⟨payload, 3⟩ 2 &&& 7 = 0
    · rw [if_pos hty]
      refine ⟨none, rfl, ?_⟩
      rw [if_neg (fun h => h.2 hty)]
    · rw [if_neg hty]
      obtain ⟨vals, hv⟩ := readMany_ok fixWidths ⟨payload, 1 + 2 + 2⟩
        (by simp only [fixWidths]; norm_num; omega)
      rw [hv]
      simp only [Option.some_bind]
      have hav : SirfInputStream.avail ⟨payload, 1 + 2 + 2 + fixWidths.sum⟩ = 0 := by
        simp only [SirfInputStream.avail, SirfInputStream.size, fixWidths]
        norm_num
        omega
      rw [if_neg (by simpa using hav)]
      refine ⟨some (fixOf vals), rfl, ?_⟩
      rw [if_pos ⟨hlen, hty⟩]
      exact ⟨fixOf vals, rfl, rfl⟩
  · rw [if_pos hlen]
    refine ⟨none, rfl, ?_⟩
    rw [if_neg (fun h => hlen h.1)]

/-- Claim C19, amended. Full-fix message: for every buffer holding one valid binary frame
whose payload (of at least two bytes) starts with message id 41, `SirfProtocol::tryParse`
consumes the frame without failing an assertion of the payload stream and leaves the
satellites of the record as they were; if the payload is exactly 91 bytes long and the
navigation type (the two bytes at offsets 3 and 4 of the payload) has one of its three low
bits set, the record then has a `Fix` with quality 1, and otherwise it has no `Fix`. -/
theorem fix_message (payload : List Nat) (record : GPSData) (hL : 2 ≤ payload.length)
    (hid : payload.head? = some 41) :
    ∃ r, tryParseData (frame payload (payload.sum % 32768) 0xB0B3) record
        = some (8 + payload.length, r) ∧
      r.satellites = record.satellites ∧
      if payload.length = 91 ∧ SirfInputStream.peek ⟨payload, 3⟩ 2 &&& 7 ≠ 0 then
        ∃ fix, r.fix = some fix ∧ fix.quality = 1
      else r.fix = none := by
  obtain ⟨r, hr, hres⟩ := parseFix_result payload
  refine ⟨{ record with fix := r }, ?_, rfl, hres⟩
  unfold tryParseData
  rw [sirf_frame_acceptance payload _ _ hL, if_pos ⟨rfl, rfl⟩]
  simp only [decodeMessages, decodeMessage, SirfInputStream.read8]
  rw [skip_ok ⟨payload, 0⟩ 1 (by simp only; omega)]
  have hpeek : SirfInputStream.peek ⟨payload, 0⟩ 1 = 41 := by
    cases payload with
    | nil => simp at hid
    | cons a t =>
      simp only [List.head?_cons, Option.some.injEq] at hid
      subst hid
      simp [SirfInputStream.peek]
  simp only [Option.map_some', Option.some_bind, hpeek, if_true, Nat.zero_add, hr]

set_option maxRecDepth 1000000 in
/-- A 91-byte payload of message id 41 with navigation type 1 gives a `Fix` of quality 1. -/
theorem fix_message_witness :
    (2 ≤ (fixPayload 1).length ∧ (fixPayload 1).head? = some 41) ∧
    ∃ r, tryParseData (frame (fixPayload 1) ((fixPayload 1).sum % 32768) 0xB0B3) ⟨none, []⟩
        = some (8 + (fixPayload 1).length, r) ∧
      r.satellites = (⟨none, []⟩ : GPSData).satellites ∧
      if (fixPayload 1).length = 91 ∧ SirfInputStream.peek ⟨fixPayload 1, 3⟩ 2 &&& 7 ≠ 0 then
        ∃ fix, r.fix = some fix ∧ fix.quality = 1
      else r.fix = none :=
  ⟨⟨by decide, by decide⟩, fix_message (fixPayload 1) ⟨none, []⟩ (by decide) (by decide)⟩

set_option maxRecDepth 1000000 in
/-- A valid frame whose 91-byte payload of message id 41 has navigation type 0 (no
navigation solution): `tryParse` consumes its 99 bytes and the record has no `Fix`. -/
theorem fix_message_counterexample :
    (fixPayload 0).length = 91 ∧ (fixPayload 0).head? = some 41 ∧
    (fixPayload 0).sum % 32768 = 41 ∧
    tryParseData (frame (fixPayload 0) 41 0xB0B3) ⟨none, []⟩ = some (99, ⟨none, []⟩) := by
  decide

end Sirf

namespace Sirf

set_option maxRecDepth 1000000 in
/-- Claim C17 at two failing inputs. A candidate at offset 0 whose declared length does not
fit is left at offset 4, and one whose checksum does not match is left past its trailer, at
offset 20: in both buffers the scan never examines the header of the valid frame that
starts inside the failed candidate (at offset 2, at offset 4), and `tryParse` returns 0,
while it accepts that frame when the buffer starts there. -/
theorem resync_skips_candidate :
    (read16 resyncLength 0 = SIRF_HEADER ∧ tryParseStep resyncLength 0 = (4, none) ∧
      tryParse resyncLength = (0, []) ∧ tryParse (resyncLength.drop 2) = (10, [[0, 1]])) ∧
    (read16 resyncChecksum 0 = SIRF_HEADER ∧ tryParseStep resyncChecksum 0 = (20, none) ∧
      tryParse resyncChecksum = (0, []) ∧
      tryParse (resyncChecksum.drop 4) = (10, [[0, 1]])) := by
  decide

set_option maxRecDepth 1000000 in
/-- Claim C18 at a failing input. The frame `A0 A2 00 02 04 00 00 04 B0 B3` is validated and
its two-byte payload of message id 4 is handed to `parseSatellites`, whose first `read16`
finds one byte available: `assertAvail(2)` fails. -/
theorem short_tracker_assertion :
    shortTrackerFrame = [0xA0, 0xA2, 0, 2, 4, 0, 0, 4, 0xB0, 0xB3] ∧
    tryParse shortTrackerFrame = (10, [[4, 0]]) ∧
    SirfInputStream.read8 ⟨[4, 0], 0⟩ = some (4, ⟨[4, 0], 1⟩) ∧
    SirfInputStream.avail ⟨[4, 0], 1⟩ = 1 ∧
    SirfInputStream.read16 ⟨[4, 0], 1⟩ = none ∧
    parseSatellites ⟨[4, 0], 1⟩ = none ∧
    tryParseData shortTrackerFrame ⟨none, []⟩ = none := by
  decide

end Sirf

namespace NMEA

theorem atof_take_digits_head (q : Nat) (rest : Text) (k : Nat) (hk : 1 ≤ k) :
    atof ((natDigits q ++ rest).take k) = atofUnsigned false ((natDigits q ++ rest).take k) := by
  have hne := natDigits_ne_nil q
  cases hq : natDigits q with
  | nil => exact absurd hq hne
  | cons a l =>
    cases k with
    | zero => omega
    | succ k =>
      simp only [List.cons_append, List.take_succ_cons]
      exact atof_of_digit_head a _
        (natDigits_isDigit_bool q a (by rw [hq]; exact List.mem_cons_self _ _))

/-- The float codec writes again the text it wrote, whether or not the value needed rounding
or the buffer cut the text. -/
theorem float_render_idem (w d : Nat) (hw : 1 ≤ w) (hd : 1 ≤ d) (x : Dbl) :
    (fmtFloat w d (atof ((fmtFloat w d x).take (w + 2)))).take (w + 2)
      = (fmtFloat w d x).take (w + 2) := by
  rw [fmtFloat_rounded w d x]
  generalize roundDecimal x.mant x.scale d = r
  generalize x.neg = neg
  by_cases hfit : (fmtFloat w d ⟨neg, r, d⟩).length ≤ w + 2
  · rw [List.take_of_length_le hfit]
    have hval : atof (fmtFloat w d ⟨neg, r, d⟩) = Dbl.ofDecimal neg r d := by
      unfold fmtFloat
      simp only [roundDecimal_self]
      exact atof_fmt_body neg w d r
    rw [hval, fmtFloat_ofDecimal w d neg r d (le_refl d), Nat.sub_self, pow_zero, Nat.mul_one]
    exact List.take_of_length_le hfit
  · rw [fmtFloat_mk w d hd] at hfit ⊢
    cases neg with
    | false =>
      simp only [Bool.false_eq_true, if_false] at hfit ⊢
      rw [zeroPad_length] at hfit
      have hlen : w + 2 < (natDigits (r / 10 ^ d) ++
          46 :: zeroPad d (natDigits (r % 10 ^ d))).length := by omega
      rw [zeroPad_of_le w _ (by omega), atof_take_digits_head _ _ _ (by omega)]
      obtain ⟨r', h1, h2, h3⟩ := float_cut false w d r (w + 2) hd (by omega) hlen
      rw [h1, fmtFloat_mk w d hd]
      simp only [Bool.false_eq_true, if_false]
      rw [zeroPad_of_le w _ (by omega), h2]
    | true =>
      simp only [if_true] at hfit ⊢
      rw [List.length_cons, zeroPad_length] at hfit
      have hlen : w + 1 < (natDigits (r / 10 ^ d) ++
          46 :: zeroPad d (natDigits (r % 10 ^ d))).length := by omega
      rw [zeroPad_of_le (w - 1) _ (by omega), List.take_succ_cons, atof_minus]
      obtain ⟨r', h1, h2, h3⟩ := float_cut true w d r (w + 1) hd (by omega) hlen
      rw [h1, fmtFloat_mk w d hd]
      simp only [if_true]
      rw [zeroPad_of_le (w - 1) _ (by omega), List.take_succ_cons, h2]

theorem fmtFloat_ne_nil (w d : Nat) (x : Dbl) : fmtFloat w d x ≠ [] := by
  unfold fmtFloat
  simp only
  split
  · simp
  · unfold zeroPad
    have := natDigits_ne_nil (roundDecimal x.mant x.scale d / 10 ^ d)
    simp [this]

theorem float_toString_ne_nil (w d : Nat) (v : Variant) :
    (Token.float w d).toString v ≠ [] := by
  simp only [Token.toString]
  have := fmtFloat_ne_nil w d v.toDouble
  cases h : fmtFloat w d v.toDouble with
  | nil => exact absurd h this
  | cons a l => simp

theorem float_toString_numeric (w d : Nat) (v : Variant) :
    ∀ b ∈ (Token.float w d).toString v, b = 45 ∨ b = 46 ∨ (48 ≤ b ∧ b ≤ 57) := by
  intro b hb
  simp only [Token.toString] at hb
  exact fmtFloat_numeric w d _ b (List.mem_of_mem_take hb)

/-- The float codec reads the text it wrote and writes the same text for what it read. -/
theorem float_codec_idem (u : Int) (w d : Nat) (hw : 1 ≤ w) (hd : 1 ≤ d) (x : Dbl) :
    ∃ y, (Token.float w d).parse u ((Token.float w d).toString (Variant.double x))
        = some (Variant.double y) ∧
      (Token.float w d).toString (Variant.double y)
        = (Token.float w d).toString (Variant.double x) := by
  refine ⟨atof ((fmtFloat w d x).take (w + 2)), ?_, ?_⟩
  · simp only [Token.toString, Token.parse, Variant.toDouble]
    rw [if_neg]
    intro h
    have := float_toString_numeric w d (Variant.double x) 110
      (by simp only [Token.toString, Variant.toDouble]; rw [h]; simp)
    omega
  · simp only [Token.toString, Variant.toDouble]
    exact float_render_idem w d hw hd x

end NMEA

namespace NMEA

theorem hsecondOut_range (h : Int) (h0 : 0 ≤ h) (h9 : h ≤ 999) :
    TimeToken.hsecondOut h = 0 ∨ (10 ≤ TimeToken.hsecondOut h ∧ TimeToken.hsecondOut h ≤ 99) := by
  unfold TimeToken.hsecondOut
  have ht : h.tdiv 10 = h / 10 := Int.tdiv_eq_ediv h0 (by norm_num)
  split_ifs with a b
  · right; omega
  · right; rw [ht]; omega
  · by_cases hz : h = 0
    · left; exact hz
    · right; omega

theorem hsecondOut_fixed (h : Int)
    (hc : h = 0 ∨ (10 ≤ h ∧ h ≤ 99)) : TimeToken.hsecondOut h = h := by
  unfold TimeToken.hsecondOut
  rw [if_neg (by omega), if_neg (by omega)]

theorem numeric_frameSafe (t : Text) (h : ∀ b ∈ t, b = 45 ∨ b = 46 ∨ (48 ≤ b ∧ b ≤ 57)) :
    frameSafe t ∧ 44 ∉ t := by
  constructor
  · apply frameSafe_of_bytes
    intro b hb
    have := h b hb
    omega
  · intro h44
    have := h 44 h44
    omega

/-- Every codec reads the text it wrote for a well-typed value and writes the same text for
what it read; the text is not empty, holds no comma, and cannot end a frame. -/
theorem codec_idem (u : Int) (token : Token) (v : Variant) (hwt : token.wellTyped v)
    (hint : ∀ d, token = Token.int d → 1 ≤ d)
    (hfl : ∀ w d, token = Token.float w d → 1 ≤ w ∧ 1 ≤ d) :
    (∃ v', token.parse u (token.toString v) = some v' ∧ token.toString v' = token.toString v) ∧
    token.toString v ≠ [] ∧ 44 ∉ token.toString v ∧ frameSafe (token.toString v) := by
  cases token with
  | int d =>
    cases v with
    | int x =>
      have hd := hint d rfl
      refine ⟨⟨Variant.int (intReadBack d x), rfl, int_toString_readBack d hd x⟩,
        int_toString_ne_nil d _, int_toString_no_comma d _, int_render_frameSafe d _⟩
    | _ => exact absurd hwt (by simp [Token.wellTyped])
  | float w d =>
    cases v with
    | double x =>
      obtain ⟨hw, hd⟩ := hfl w d rfl
      have hnum := numeric_frameSafe _ (float_toString_numeric w d (Variant.double x))
      obtain ⟨y, hy1, hy2⟩ := float_codec_idem u w d hw hd x
      exact ⟨⟨Variant.double y, hy1, hy2⟩, float_toString_ne_nil w d _, hnum.2, hnum.1⟩
    | _ => exact absurd hwt (by simp [Token.wellTyped])
  | char =>
    cases v with
    | char c =>
      simp only [Token.wellTyped] at hwt
      refine ⟨⟨Variant.char (c % 256), ?_, ?_⟩, ?_, ?_, ?_⟩
      · simp [Token.toString, Token.parse, Variant.toChar]
      · simp [Token.toString, Variant.toChar]
      · simp [Token.toString]
      · simp only [Token.toString, Variant.toChar, List.mem_singleton]
        exact fun h => hwt.2.1 h.symm
      · simp only [Token.toString, Variant.toChar, frameSafe]
        exact ⟨hwt.1, by simp, trivial⟩
    | _ => exact absurd hwt (by simp [Token.wellTyped])
  | string => exact absurd hwt (by cases v <;> simp [Token.wellTyped])
  | time =>
    cases v with
    | time t =>
      simp only [Token.wellTyped] at hwt
      obtain ⟨a1, a2, a3, a4, a5, a6, a7, a8⟩ := hwt
      have hr := hsecondOut_range t.hsecond a7 a8
      have hsame : Token.time.toString
            (Variant.time ⟨t.hour, t.minute, t.second, TimeToken.hsecondOut t.hsecond⟩)
          = Token.time.toString (Variant.time t) := by
        simp only [Token.toString, Variant.toTime, hsecondOut_fixed _ hr]
      obtain ⟨hne, hbytes, hparse⟩ := time_codec_roundtrip u
        ⟨t.hour, t.minute, t.second, TimeToken.hsecondOut t.hsecond⟩
        (by simp only [Token.representable]; exact ⟨a1, a2, a3, a4, a5, a6, by omega, by omega⟩)
        (by simp only [Variant.centisecondTime]; exact hr)
      rw [hsame] at hne hbytes hparse
      have hnum := numeric_frameSafe (Token.time.toString (Variant.time t))
        (fun b hb => by have := hbytes b hb; omega)
      exact ⟨⟨_, hparse, hsame⟩, hne, hnum.2, hnum.1⟩
    | _ => exact absurd hwt (by simp [Token.wellTyped])
  | date =>
    cases v with
    | date t =>
      obtain ⟨hne, hbytes, hparse⟩ := date_codec_roundtrip u t
        (by simpa only [Token.wellTyped, Token.representable] using hwt)
      have hnum := numeric_frameSafe (Token.date.toString (Variant.date t))
        (fun b hb => by have := hbytes b hb; omega)
      exact ⟨⟨_, hparse, rfl⟩, hne, hnum.2, hnum.1⟩
    | _ => exact absurd hwt (by simp [Token.wellTyped])

/-- A well-typed value is written as 7-bit text. -/
theorem wellTyped_ascii (token : Token) (v : Variant) (hwt : token.wellTyped v) :
    ∀ b ∈ token.toString v, b < 128 := by
  apply token_toString_ascii
  · intro ht
    subst ht
    cases v <;> simp only [Token.wellTyped] at hwt
    simp only [Variant.toChar]
    exact hwt.2.2
  · intro ht
    subst ht
    cases v <;> simp only [Token.wellTyped] at hwt

end NMEA

namespace NMEA

theorem joinFrames_append (a b : List Text) :
    joinFrames (a ++ b) = joinFrames a ++ joinFrames b := by
  induction a with
  | nil => rfl
  | cons x rest ih =>
    have e : joinFrames (x :: rest ++ b) = 36 :: x ++ 13 :: 10 :: joinFrames (rest ++ b) := rfl
    rw [e, ih]
    simp [joinFrames]

theorem parseFrames_append (u : Int) (chain : List SentencePtr) :
    ∀ (a b : List Text) (dst : Dataset) (s : Nat),
      parseFrames u chain (a ++ b) dst s =
        parseFrames u chain b (parseFrames u chain a dst s).1 (parseFrames u chain a dst s).2 := by
  intro a
  induction a with
  | nil => intro b dst s; rfl
  | cons x rest ih =>
    intro b dst s
    simp only [List.cons_append, parseFrames]
    exact ih b _ _

/-- The text `GSVSentence::toString` appends is made of the texts of `gsvTexts`. -/
theorem gsv_toString_texts (src : Dataset) (dst : Text) :
    SentencePtr.GSV.toString src dst = dst ++ joinFrames (gsvTexts src) := by
  have e : SentencePtr.GSV.toString src dst = GSVSentence.toString sGSV src dst := rfl
  rw [e]
  unfold GSVSentence.toString gsvTexts
  simp only [MAX_SAT_IN_VIEW, SAT_IN_MESSAGE]
  generalize (src.get SAT_IN_VIEW).toInt = n
  by_cases hn : n ≤ 0
  · rw [if_pos hn, if_pos hn]
    simp [joinFrames]
  · rw [if_neg hn, if_neg hn]
    have hmc : ((if n > ((16 : Nat) : Int) then 16 else n.toNat) / 4 +
        (if (if n > ((16 : Nat) : Int) then 16 else n.toNat) % 4 ≠ 0 then 1 else 0))
        = ((min n 16).toNat + 3) / 4 := by
      by_cases h16 : n > ((16 : Nat) : Int)
      · rw [if_pos h16]
        have : min n 16 = 16 := by omega
        rw [this]
        rfl
      · rw [if_neg h16]
        have : min n 16 = n := by omega
        rw [this]
        split_ifs <;> omega
    rw [hmc, gsv_frames_eq]

/-- The text `NMEA::generate` writes with the mask `ALL` is made of the texts of
`generatedTexts`, each between `'$'` and `"\r\n"`. -/
theorem generate_eq_joinFrames (src : Dataset) :
    generate src [] ALL = joinFrames (generatedTexts src) := by
  have hs : getSentences ALL
      = [SentencePtr.GGA, SentencePtr.GSA, SentencePtr.GSV, SentencePtr.RMC, SentencePtr.GLL] := by
    decide
  unfold generate
  rw [hs]
  have hplain : ∀ (self : Sentence) (dst : Text),
      self.toString src dst = dst ++ joinFrames [self.body src] := by
    intro self dst
    rw [toString_eq_body]
    simp [joinFrames]
  have eGGA : ∀ dst, SentencePtr.GGA.toString src dst = sGGA.toString src dst := fun _ => rfl
  have eGSA : ∀ dst, SentencePtr.GSA.toString src dst = sGSA.toString src dst := fun _ => rfl
  have eRMC : ∀ dst, SentencePtr.RMC.toString src dst = sRMC.toString src dst := fun _ => rfl
  have eGLL : ∀ dst, SentencePtr.GLL.toString src dst = sGLL.toString src dst := fun _ => rfl
  simp only [generateLoop, eGGA, eGSA, eRMC, eGLL, hplain, gsv_toString_texts]
  unfold generatedTexts
  simp only [joinFrames_append, List.nil_append, List.append_assoc]
  simp [joinFrames]

end NMEA

namespace NMEA

theorem fields_functional :
    ∀ f ∈ sGGA.format ++ sGSA.format ++ sRMC.format ++ sGLL.format,
    ∀ g ∈ sGGA.format ++ sGSA.format ++ sRMC.format ++ sGLL.format, f.1 = g.1 → f = g := by
  decide

theorem fields_tokens :
    ∀ f ∈ sGGA.format ++ sGSA.format ++ sRMC.format ++ sGLL.format,
      f.2 ∈ [Token.char, Token.time, Token.date, Token.int 1, Token.int 2, Token.int 4,
        Token.float 3 1, Token.float 9 4, Token.float 10 4] := by
  decide

theorem fields_not_gsv :
    ∀ f ∈ sGGA.format ++ sGSA.format ++ sRMC.format ++ sGLL.format,
      f.1 ≠ 24 ∧ (f.1 < 38 ∨ 54 ≤ f.1) := by
  decide

theorem fields_sized (f : Field)
    (hf : f ∈ sGGA.format ++ sGSA.format ++ sRMC.format ++ sGLL.format) :
    (∀ d, f.2 = Token.int d → 1 ≤ d) ∧ (∀ w d, f.2 = Token.float w d → 1 ≤ w ∧ 1 ≤ d) := by
  have h := fields_tokens f hf
  simp only [List.mem_cons, List.mem_singleton, List.not_mem_nil, or_false] at h
  rcases h with h | h | h | h | h | h | h | h | h <;> rw [h] <;> constructor <;>
    intro a b <;> first
      | (intro c; cases c; omega)
      | (cases b; omega)
      | (intro c; cases c)
      | (cases b)

/-- What a well-typed field contributes to a sentence: a text without comma that cannot end
a frame, and that is written again from any store that holds what the codec read from it. -/
theorem render_back (u : Int) (src : Dataset) (f : Field) (hwt : src.wellTypedAt f)
    (hint : ∀ d, f.2 = Token.int d → 1 ≤ d)
    (hfl : ∀ w d, f.2 = Token.float w d → 1 ≤ w ∧ 1 ≤ d) :
    44 ∉ renderOf src f ∧ frameSafe (renderOf src f) ∧
    ∀ dst : Dataset, dst f.1 = fieldValue u f.2 (renderOf src f) →
      renderOf dst f = renderOf src f := by
  unfold Dataset.wellTypedAt at hwt
  unfold renderOf
  cases hs : src f.1 with
  | none =>
    refine ⟨by simp, trivial, ?_⟩
    intro dst hd
    simp only [fieldValue, if_true] at hd
    rw [hd]
  | some v =>
    rw [hs] at hwt
    obtain ⟨⟨v', hp, hts⟩, hne, hcomma, hsafe⟩ := codec_idem u f.2 v hwt hint hfl
    refine ⟨hcomma, hsafe, ?_⟩
    intro dst hd
    simp only [fieldValue, if_neg hne, hp] at hd
    rw [hd]
    exact hts

/-- The text written for a field of a well-typed store is 7-bit. -/
theorem render_ascii (src : Dataset) (f : Field) (hwt : src.wellTypedAt f) :
    ∀ b ∈ renderOf src f, b < 128 := by
  unfold Dataset.wellTypedAt at hwt
  unfold renderOf
  cases hs : src f.1 with
  | none => simp
  | some v =>
    rw [hs] at hwt
    exact wellTyped_ascii f.2 v hwt

theorem renderFields_congr (src dst : Dataset) (fmt : List Field)
    (h : ∀ f ∈ fmt, renderOf dst f = renderOf src f) :
    Sentence.renderFields dst fmt = Sentence.renderFields src fmt := by
  induction fmt with
  | nil => rfl
  | cons f rest ih =>
    rw [renderFields_cons, renderFields_cons, h f (List.mem_cons_self _ _),
      ih (fun g hg => h g (List.mem_cons_of_mem _ hg))]

/-- Two stores whose fields of the format are written alike give the same sentence text. -/
theorem body_congr (self : Sentence) (src dst : Dataset)
    (h : ∀ f ∈ self.format, renderOf dst f = renderOf src f) :
    self.body dst = self.body src := by
  unfold Sentence.body
  rw [renderFields_congr src dst self.format h]

end NMEA

namespace NMEA

theorem parseChain_gga_body (u : Int) (src dst : Dataset) (s : Nat)
    (hacc : (sGGA.parse u (sGGA.body src) dst).1 = true) :
    parseChain u (sGGA.body src)
      [SentencePtr.GGA, SentencePtr.GSA, SentencePtr.GSA1, SentencePtr.GSV, SentencePtr.GSV1,
       SentencePtr.GSV2, SentencePtr.GSV3, SentencePtr.RMC, SentencePtr.RMC1, SentencePtr.GLL]
      dst s = ((sGGA.parse u (sGGA.body src) dst).2, s ||| GGA) := by
  have e : SentencePtr.GGA.parse u (sGGA.body src) dst = sGGA.parse u (sGGA.body src) dst := rfl
  simp only [parseChain, e, hacc, if_true, toSentenceId, Bool.false_eq_true, if_false]

theorem parseChain_gsa_body (u : Int) (src dst : Dataset) (s : Nat)
    (hacc : (sGSA.parse u (sGSA.body src) dst).1 = true) :
    parseChain u (sGSA.body src)
      [SentencePtr.GGA, SentencePtr.GSA, SentencePtr.GSA1, SentencePtr.GSV, SentencePtr.GSV1,
       SentencePtr.GSV2, SentencePtr.GSV3, SentencePtr.RMC, SentencePtr.RMC1, SentencePtr.GLL]
      dst s = ((sGSA.parse u (sGSA.body src) dst).2, s ||| GSA) := by
  have r0 := ptr_reject_other_head SentencePtr.GGA sGSA u src dst (by decide) (by decide)
    (by decide)
  have e : SentencePtr.GSA.parse u (sGSA.body src) dst = sGSA.parse u (sGSA.body src) dst := rfl
  simp only [parseChain, r0, e, hacc, if_true, toSentenceId, Bool.false_eq_true, if_false]

theorem parseChain_rmc_body (u : Int) (src dst : Dataset) (s : Nat)
    (hacc : (sRMC.parse u (sRMC.body src) dst).1 = true) :
    parseChain u (sRMC.body src)
      [SentencePtr.GGA, SentencePtr.GSA, SentencePtr.GSA1, SentencePtr.GSV, SentencePtr.GSV1,
       SentencePtr.GSV2, SentencePtr.GSV3, SentencePtr.RMC, SentencePtr.RMC1, SentencePtr.GLL]
      dst s = ((sRMC.parse u (sRMC.body src) dst).2, s ||| RMC) := by
  have r0 := ptr_reject_other_head SentencePtr.GGA sRMC u src dst (by decide) (by decide)
    (by decide)
  have r1 := ptr_reject_other_head SentencePtr.GSA sRMC u src dst (by decide) (by decide)
    (by decide)
  have r2 := ptr_reject_other_head SentencePtr.GSA1 sRMC u src dst (by decide) (by decide)
    (by decide)
  have r3 := ptr_reject_other_head SentencePtr.GSV sRMC u src dst (by decide) (by decide)
    (by decide)
  have r4 := ptr_reject_other_head SentencePtr.GSV1 sRMC u src dst (by decide) (by decide)
    (by decide)
  have r5 := ptr_reject_other_head SentencePtr.GSV2 sRMC u src dst (by decide) (by decide)
    (by decide)
  have r6 := ptr_reject_other_head SentencePtr.GSV3 sRMC u src dst (by decide) (by decide)
    (by decide)
  have e : SentencePtr.RMC.parse u (sRMC.body src) dst = sRMC.parse u (sRMC.body src) dst := rfl
  simp only [parseChain, r0, r1, r2, r3, r4, r5, r6, e, hacc, if_true, toSentenceId, Bool.false_eq_true, if_false]

theorem parseChain_gll_body (u : Int) (src dst : Dataset) (s : Nat)
    (hacc : (sGLL.parse u (sGLL.body src) dst).1 = true) :
    parseChain u (sGLL.body src)
      [SentencePtr.GGA, SentencePtr.GSA, SentencePtr.GSA1, SentencePtr.GSV, SentencePtr.GSV1,
       SentencePtr.GSV2, SentencePtr.GSV3, SentencePtr.RMC, SentencePtr.RMC1, SentencePtr.GLL]
      dst s = ((sGLL.parse u (sGLL.body src) dst).2, s ||| GLL) := by
  have r0 := ptr_reject_other_head SentencePtr.GGA sGLL u src dst (by decide) (by decide)
    (by decide)
  have r1 := ptr_reject_other_head SentencePtr.GSA sGLL u src dst (by decide) (by decide)
    (by decide)
  have r2 := ptr_reject_other_head SentencePtr.GSA1 sGLL u src dst (by decide) (by decide)
    (by decide)
  have r3 := ptr_reject_other_head SentencePtr.GSV sGLL u src dst (by decide) (by decide)
    (by decide)
  have r4 := ptr_reject_other_head SentencePtr.GSV1 sGLL u src dst (by decide) (by decide)
    (by decide)
  have r5 := ptr_reject_other_head SentencePtr.GSV2 sGLL u src dst (by decide) (by decide)
    (by decide)
  have r6 := ptr_reject_other_head SentencePtr.GSV3 sGLL u src dst (by decide) (by decide)
    (by decide)
  have r7 := ptr_reject_other_head SentencePtr.RMC sGLL u src dst (by decide) (by decide)
    (by decide)
  have r8 := ptr_reject_other_head SentencePtr.RMC1 sGLL u src dst (by decide) (by decide)
    (by decide)
  have e : SentencePtr.GLL.parse u (sGLL.body src) dst = sGLL.parse u (sGLL.body src) dst := rfl
  simp only [parseChain, r0, r1, r2, r3, r4, r5, r6, r7, r8, e, hacc, if_true, toSentenceId, Bool.false_eq_true, if_false]

/-- The generic codec on the text written for a well-typed store: the sentence is accepted,
the fields of the format and those already read agree with what the codecs read from the
texts of the store, and the other fields keep their value. -/
theorem plain_parse_agree (u : Int) (self : Sentence) (src dst : Dataset) (l : List Field)
    (hnd : self.ids.Nodup) (hne : self.format ≠ [])
    (hhead : ∀ b ∈ self.head, b ≠ 0 ∧ b < 128)
    (hsub : ∀ f ∈ self.format, f ∈ sGGA.format ++ sGSA.format ++ sRMC.format ++ sGLL.format)
    (hl : ∀ f ∈ l, f ∈ sGGA.format ++ sGSA.format ++ sRMC.format ++ sGLL.format)
    (hwt : ∀ f ∈ sGGA.format ++ sGSA.format ++ sRMC.format ++ sGLL.format, src.wellTypedAt f)
    (hag : ∀ f ∈ l, dst f.1 = fieldValue u f.2 (renderOf src f)) :
    (self.parse u (self.body src) dst).1 = true ∧
    (∀ f ∈ l ++ self.format,
      (self.parse u (self.body src) dst).2 f.1 = fieldValue u f.2 (renderOf src f)) ∧
    (∀ key, key ∉ self.ids → (self.parse u (self.body src) dst).2 key = dst key) := by
  obtain ⟨h1, h2, h3⟩ := parse_body self u src dst hnd hne hhead
    (fun f hf => (render_back u src f (hwt f (hsub f hf)) (fields_sized f (hsub f hf)).1
      (fields_sized f (hsub f hf)).2).1)
    (fun f hf => render_ascii src f (hwt f (hsub f hf)))
  refine ⟨h1, ?_, h3⟩
  intro f hf
  by_cases hid : f.1 ∈ self.ids
  · obtain ⟨g, hg, hgf⟩ := List.mem_map.1 hid
    have hfF : f ∈ sGGA.format ++ sGSA.format ++ sRMC.format ++ sGLL.format := by
      rcases List.mem_append.1 hf with h | h
      · exact hl f h
      · exact hsub f h
    have hgf2 : g = f := fields_functional g (hsub g hg) f hfF hgf
    subst hgf2
    obtain ⟨i, hi, hget⟩ := List.getElem_of_mem hg
    have := h2 i hi
    rw [List.get_eq_getElem, hget] at this
    exact this
  · have hnf : f ∉ self.format := fun h => hid (List.mem_map.2 ⟨f, h, rfl⟩)
    rcases List.mem_append.1 hf with h | h
    · rw [h3 f.1 hid]
      exact hag f h
    · exact absurd h hnf

end NMEA

namespace NMEA

/-- A count above 999 is read back from its three leading digits: at least 100. -/
theorem intReadBack_two_big (n : Int) (h : 1000 ≤ n) : 100 ≤ intReadBack 2 n := by
  have hpos : 0 < n.toNat := by omega
  obtain ⟨hne, hdig, hp, hnat⟩ := natDigits_take n.toNat 3 hpos (by omega)
  have hl : ¬ (natDigits n.toNat).length ≤ 3 := by
    rw [natDigits_length_le _ _ (by omega)]
    omega
  have hf : fmtInt 2 n = zeroPad 2 (natDigits n.toNat) := by
    unfold fmtInt; rw [if_neg (by omega)]
  have hr : intReadBack 2 n = (digitsVal ((natDigits n.toNat).take 3) : Int) := by
    unfold intReadBack
    rw [hf, zeroPad_of_le _ _ (by omega), atoi_of_digits _ hdig]
  rw [hr]
  have h3 : ((natDigits n.toNat).take 3).length = 3 := by
    rw [List.length_take]; omega
  have hge : ¬ digitsVal ((natDigits n.toNat).take 3) < 10 ^ 2 := by
    rw [← natDigits_length_le _ 2 (by omega), hnat, h3]
    omega
  have : (100 : Nat) ≤ digitsVal ((natDigits n.toNat).take 3) := by
    norm_num at hge
    exact hge
  exact_mod_cast this

/-- The count read back from its text asks for the same number of messages. -/
theorem intReadBack_two_clamp (n : Int) (hn : 0 < n) :
    0 < intReadBack 2 n ∧ min (intReadBack 2 n) 16 = min n 16 := by
  by_cases h : n < 1000
  · rw [intReadBack_exact 2 n (Or.inl ⟨by omega, by norm_num; omega⟩)]
    exact ⟨hn, rfl⟩
  · have := intReadBack_two_big n (by omega)
    constructor
    · omega
    · omega

theorem satellite_tokens_readBack (sat : Satellite) :
    [tInt2.toString (Variant.int sat.readBack.prn),
     tInt2.toString (Variant.int sat.readBack.elevation),
     tInt3.toString (Variant.int sat.readBack.azimuth),
     tInt2.toString (Variant.int sat.readBack.snr)]
      = [tInt2.toString (Variant.int sat.prn), tInt2.toString (Variant.int sat.elevation),
         tInt3.toString (Variant.int sat.azimuth), tInt2.toString (Variant.int sat.snr)] := by
  have e2 : tInt2 = Token.int 2 := rfl
  have e3 : tInt3 = Token.int 3 := rfl
  simp only [Satellite.readBack, e2, e3, int_toString_readBack 2 (by omega),
    int_toString_readBack 3 (by omega)]

/-- The slot tokens of a store that holds the satellite read back from the slot. -/
theorem gsvSlotTokens_readBack (src dst : Dataset) (slot : Nat)
    (hsat : src.satelliteAt (SATELLITE_01 + slot))
    (hd : dst (SATELLITE_01 + slot) =
      if src.isPresent (SATELLITE_01 + slot) = true then
        some (Variant.satellite (src.get (SATELLITE_01 + slot)).toSatellite.readBack)
      else none) :
    gsvSlotTokens dst slot = gsvSlotTokens src slot := by
  unfold gsvSlotTokens
  unfold Dataset.satelliteAt at hsat
  unfold Dataset.isPresent Dataset.get at hd
  cases hs : src (SATELLITE_01 + slot) with
  | none =>
    rw [hs] at hd
    simp only [Option.isSome_none, Bool.false_eq_true, if_false] at hd
    rw [hd]
  | some v =>
    rw [hs] at hd hsat
    simp only [Option.isSome_some, if_true, Option.getD_some] at hd
    rw [hd]
    cases v with
    | satellite sat => exact satellite_tokens_readBack sat
    | _ => exact absurd hsat (by simp)

/-- The satellite-visibility texts written from a store that holds what was read from the
texts of `src` are the texts of `src`. -/
theorem gsvTexts_readBack (src dst : Dataset) (n : Int) (hn : 0 < n)
    (hview : src SAT_IN_VIEW = some (Variant.int n))
    (hsat : ∀ i < MAX_SAT_IN_VIEW, src.satelliteAt (SATELLITE_01 + i))
    (hd24 : dst SAT_IN_VIEW = some (Variant.int (intReadBack 2 n)))
    (hds : ∀ i, i < ((min n 16).toNat + 3) / 4 * 4 → dst (SATELLITE_01 + i) =
      if src.isPresent (SATELLITE_01 + i) = true then
        some (Variant.satellite (src.get (SATELLITE_01 + i)).toSatellite.readBack)
      else none) :
    gsvTexts dst = gsvTexts src := by
  obtain ⟨hpos, hmin⟩ := intReadBack_two_clamp n hn
  have g1 : (src.get SAT_IN_VIEW).toInt = n := by
    simp [Dataset.get, hview, Variant.toInt]
  have g2 : (dst.get SAT_IN_VIEW).toInt = intReadBack 2 n := by
    simp [Dataset.get, hd24, Variant.toInt]
  unfold gsvTexts
  rw [g1, g2, if_neg (by omega), if_neg (by omega), hmin]
  generalize hmc : ((min n 16).toNat + 3) / 4 = mc at hds
  have hmc4 : mc ≤ 4 := by omega
  unfold GSVSentence.bodies
  apply List.map_congr_left
  intro k hk
  have hk1 : 1 ≤ k ∧ k ≤ mc := by
    rw [List.mem_range'_1] at hk
    omega
  rw [body_eq_sentenceText sGSV _ (by decide) (gsv_render_ascii _), body_eq_sentenceText sGSV _ (by decide) (gsv_render_ascii _),
    gsv_frame_tokens dst mc k _ hd24, gsv_frame_tokens src mc k n hview]
  have hr : List.range 4 = [0, 1, 2, 3] := by decide
  have e2 : tInt2 = Token.int 2 := rfl
  have hslot : ∀ j, j < 4 → gsvSlotTokens dst ((k - 1) * 4 + j)
      = gsvSlotTokens src ((k - 1) * 4 + j) := by
    intro j hj
    apply gsvSlotTokens_readBack
    · apply hsat
      simp only [MAX_SAT_IN_VIEW]
      omega
    · apply hds
      omega
  unfold gsvTokens
  rw [hr]
  simp only [List.flatMap_cons, List.flatMap_nil, hslot 0 (by omega), hslot 1 (by omega),
    hslot 2 (by omega), hslot 3 (by omega), e2, int_toString_readBack 2 (by omega)]

end NMEA

namespace NMEA

theorem parseFrames_single (u : Int) (chain : List SentencePtr) (b : Text) (dst : Dataset)
    (s : Nat) : parseFrames u chain [b] dst s = parseChain u b chain dst s := rfl

/-- The store after `NMEA::parse` has decoded the satellite-visibility texts of `src`: the
other fields keep their value, and when there are texts the count and the slots they cover
hold what was read from them. -/
theorem gsv_stage (u : Int) (src dst : Dataset) (s : Nat) (hint : src.intAt SAT_IN_VIEW) :
    (∀ key, key ≠ SAT_IN_VIEW → (key < SATELLITE_01 ∨ SATELLITE_01 + 16 ≤ key) →
      (parseFrames u [SentencePtr.GGA, SentencePtr.GSA, SentencePtr.GSA1, SentencePtr.GSV,
        SentencePtr.GSV1, SentencePtr.GSV2, SentencePtr.GSV3, SentencePtr.RMC,
        SentencePtr.RMC1, SentencePtr.GLL] (gsvTexts src) dst s).1 key = dst key) ∧
    (((src.get SAT_IN_VIEW).toInt ≤ 0 ∧
        (parseFrames u [SentencePtr.GGA, SentencePtr.GSA, SentencePtr.GSA1, SentencePtr.GSV,
          SentencePtr.GSV1, SentencePtr.GSV2, SentencePtr.GSV3, SentencePtr.RMC,
          SentencePtr.RMC1, SentencePtr.GLL] (gsvTexts src) dst s).1 = dst) ∨
      ∃ n : Int, 0 < n ∧ src SAT_IN_VIEW = some (Variant.int n) ∧
        (parseFrames u [SentencePtr.GGA, SentencePtr.GSA, SentencePtr.GSA1, SentencePtr.GSV,
          SentencePtr.GSV1, SentencePtr.GSV2, SentencePtr.GSV3, SentencePtr.RMC,
          SentencePtr.RMC1, SentencePtr.GLL] (gsvTexts src) dst s).1 SAT_IN_VIEW
          = some (Variant.int (intReadBack 2 n)) ∧
        ∀ i, i < ((min n 16).toNat + 3) / 4 * 4 →
          (parseFrames u [SentencePtr.GGA, SentencePtr.GSA, SentencePtr.GSA1, SentencePtr.GSV,
            SentencePtr.GSV1, SentencePtr.GSV2, SentencePtr.GSV3, SentencePtr.RMC,
            SentencePtr.RMC1, SentencePtr.GLL] (gsvTexts src) dst s).1 (SATELLITE_01 + i) =
          if src.isPresent (SATELLITE_01 + i) = true then
            some (Variant.satellite (src.get (SATELLITE_01 + i)).toSatellite.readBack)
          else none) := by
  have hS : SATELLITE_01 = 38 := rfl
  have hV : SAT_IN_VIEW = 24 := rfl
  by_cases hn : (src.get SAT_IN_VIEW).toInt ≤ 0
  · have e : gsvTexts src = [] := by unfold gsvTexts; rw [if_pos hn]
    rw [e]
    exact ⟨fun _ _ _ => rfl, Or.inl ⟨hn, rfl⟩⟩
  · have hview : src SAT_IN_VIEW = some (Variant.int (src.get SAT_IN_VIEW).toInt) := by
      unfold Dataset.intAt at hint
      unfold Dataset.get at hn ⊢
      cases hs : src SAT_IN_VIEW with
      | none => rw [hs] at hn; simp [Variant.toInt] at hn
      | some v =>
        rw [hs] at hint
        cases v with
        | int m => simp [Variant.toInt]
        | _ => exact absurd hint (by simp)
    generalize (src.get SAT_IN_VIEW).toInt = n at hn hview
    have e : gsvTexts src = GSVSentence.bodies sGSV src (((min n 16).toNat + 3) / 4)
        (List.range' 1 (((min n 16).toNat + 3) / 4)) := by
      have g1 : (src.get SAT_IN_VIEW).toInt = n := by
        simp [Dataset.get, hview, Variant.toInt]
      unfold gsvTexts
      rw [g1, if_neg hn]
    rw [e]
    generalize hmc : ((min n 16).toNat + 3) / 4 = mc
    have hm1 : 1 ≤ mc := by omega
    have hm4 : mc ≤ 4 := by omega
    have key := parseFrames_gsv u src mc hm4 mc 1 dst s (le_refl 1) (by omega)
    simp only [Nat.add_sub_cancel_left, Nat.sub_self, Nat.zero_mul, Nat.add_zero] at key
    refine ⟨?_, Or.inr ⟨n, by omega, hview, ?_, ?_⟩⟩
    · intro k hk1 hk2
      rw [key k, if_neg (by omega), if_neg (fun h => hk1 h.1), if_neg (by omega)]
    · rw [key SAT_IN_VIEW, if_neg (by omega), if_pos ⟨rfl, hm1⟩]
      have hr : renderOf src (SAT_IN_VIEW, tInt2) = (Token.int 2).toString (Variant.int n) := by
        simp [renderOf, hview, tInt2]
      have e2 : tInt2 = Token.int 2 := rfl
      rw [hr, e2, fieldValue_int_render]
    · intro i hi
      rw [key (SATELLITE_01 + i), if_pos (by omega)]

end NMEA

namespace NMEA

theorem gsv_key_not_id (self : Sentence)
    (hsub : ∀ f ∈ self.format, f ∈ sGGA.format ++ sGSA.format ++ sRMC.format ++ sGLL.format)
    (key : Nat) (hk : key = SAT_IN_VIEW ∨ (SATELLITE_01 ≤ key ∧ key < SATELLITE_01 + 16)) :
    key ∉ self.ids := by
  have hS : SATELLITE_01 = 38 := rfl
  have hV : SAT_IN_VIEW = 24 := rfl
  intro hid
  obtain ⟨f, hf, hfk⟩ := List.mem_map.1 hid
  have := fields_not_gsv f (hsub f hf)
  rw [hfk] at this
  omega

theorem plain_body_frameSafe (u : Int) (self : Sentence) (src : Dataset)
    (hhead : ∀ b ∈ self.head, b ≠ 0 ∧ b ≠ 13 ∧ b < 128)
    (hsub : ∀ f ∈ self.format, f ∈ sGGA.format ++ sGSA.format ++ sRMC.format ++ sGLL.format)
    (hwt : ∀ f ∈ sGGA.format ++ sGSA.format ++ sRMC.format ++ sGLL.format, src.wellTypedAt f) :
    frameSafe (self.body src) :=
  body_frameSafe self src hhead
    (fun f hf => (render_back u src f (hwt f (hsub f hf)) (fields_sized f (hsub f hf)).1
      (fields_sized f (hsub f hf)).2).2.1)
    (fun f hf => render_ascii src f (hwt f (hsub f hf)))

theorem generatedTexts_frameSafe (u : Int) (src : Dataset)
    (hwt : ∀ f ∈ sGGA.format ++ sGSA.format ++ sRMC.format ++ sGLL.format, src.wellTypedAt f) :
    ∀ b ∈ generatedTexts src, frameSafe b := by
  intro b hb
  unfold generatedTexts at hb
  simp only [List.mem_append, List.mem_cons, List.mem_singleton, List.not_mem_nil,
    or_false] at hb
  rcases hb with ((rfl | rfl) | hb) | (rfl | rfl)
  · exact plain_body_frameSafe u sGGA src (by decide) (by intro f hf; simp [hf]) hwt
  · exact plain_body_frameSafe u sGSA src (by decide) (by intro f hf; simp [hf]) hwt
  · unfold gsvTexts at hb
    split_ifs at hb
    · simp at hb
    · simp only [GSVSentence.bodies, List.mem_map] at hb
      obtain ⟨k, _, rfl⟩ := hb
      exact gsv_body_frameSafe _
  · exact plain_body_frameSafe u sRMC src (by decide) (by intro f hf; simp [hf]) hwt
  · exact plain_body_frameSafe u sGLL src (by decide) (by intro f hf; simp [hf]) hwt

/-- The store `NMEA::parse` decodes from the text generated for a well-typed store: every
field of the four plain formats holds what its codec read from the text of the store, and
the satellite-visibility texts written from it are those of the store. -/
theorem loop_back_store (u : Int) (src : Dataset) (hwt : src.wellTyped) :
    (∀ f ∈ sGGA.format ++ sGSA.format ++ sRMC.format ++ sGLL.format,
      (parseFrames u [SentencePtr.GGA, SentencePtr.GSA, SentencePtr.GSA1, SentencePtr.GSV,
        SentencePtr.GSV1, SentencePtr.GSV2, SentencePtr.GSV3, SentencePtr.RMC,
        SentencePtr.RMC1, SentencePtr.GLL] (generatedTexts src) Info.new 0).1 f.1
        = fieldValue u f.2 (renderOf src f)) ∧
    gsvTexts (parseFrames u [SentencePtr.GGA, SentencePtr.GSA, SentencePtr.GSA1,
        SentencePtr.GSV, SentencePtr.GSV1, SentencePtr.GSV2, SentencePtr.GSV3, SentencePtr.RMC,
        SentencePtr.RMC1, SentencePtr.GLL] (generatedTexts src) Info.new 0).1
      = gsvTexts src := by
  obtain ⟨hF, hint, hsat⟩ := hwt
  have subGGA : ∀ f ∈ sGGA.format,
      f ∈ sGGA.format ++ sGSA.format ++ sRMC.format ++ sGLL.format := by
    intro f hf; simp [hf]
  have subGSA : ∀ f ∈ sGSA.format,
      f ∈ sGGA.format ++ sGSA.format ++ sRMC.format ++ sGLL.format := by
    intro f hf; simp [hf]
  have subRMC : ∀ f ∈ sRMC.format,
      f ∈ sGGA.format ++ sGSA.format ++ sRMC.format ++ sGLL.format := by
    intro f hf; simp [hf]
  have subGLL : ∀ f ∈ sGLL.format,
      f ∈ sGGA.format ++ sGSA.format ++ sRMC.format ++ sGLL.format := by
    intro f hf; simp [hf]
  have e : generatedTexts src = [sGGA.body src] ++ ([sGSA.body src] ++
      (gsvTexts src ++ ([sRMC.body src] ++ [sGLL.body src]))) := by
    simp [generatedTexts]
  rw [e]
  -- GPGGA
  obtain ⟨acc1, ag1, ot1⟩ := plain_parse_agree u sGGA src Info.new [] (by decide) (by decide)
    (by decide) subGGA (by simp) hF (by simp)
  have c1 := parseChain_gga_body u src Info.new 0 acc1
  rw [parseFrames_append, parseFrames_single, c1]
  simp only
  generalize (sGGA.parse u (sGGA.body src) Info.new).2 = d1 at ag1 ot1
  -- GPGSA
  obtain ⟨acc2, ag2, ot2⟩ := plain_parse_agree u sGSA src d1 ([] ++ sGGA.format) (by decide)
    (by decide) (by decide) subGSA (by intro f hf; simp at hf; simp [hf]) hF ag1
  have c2 := parseChain_gsa_body u src d1 (0 ||| GGA) acc2
  rw [parseFrames_append, parseFrames_single, c2]
  simp only
  generalize (sGSA.parse u (sGSA.body src) d1).2 = d2 at ag2 ot2
  -- GPGSV
  obtain ⟨st1, st2⟩ := gsv_stage u src d2 (0 ||| GGA ||| GSA) hint
  rw [parseFrames_append]
  generalize parseFrames u [SentencePtr.GGA, SentencePtr.GSA, SentencePtr.GSA1,
    SentencePtr.GSV, SentencePtr.GSV1, SentencePtr.GSV2, SentencePtr.GSV3, SentencePtr.RMC,
    SentencePtr.RMC1, SentencePtr.GLL] (gsvTexts src) d2 (0 ||| GGA ||| GSA) = p3 at st1 st2
  obtain ⟨d3, m3⟩ := p3
  simp only at st1 st2 ⊢
  have ag3 : ∀ f ∈ [] ++ sGGA.format ++ sGSA.format,
      d3 f.1 = fieldValue u f.2 (renderOf src f) := by
    intro f hf
    have hfF : f ∈ sGGA.format ++ sGSA.format ++ sRMC.format ++ sGLL.format := by
      simp at hf; rcases hf with h | h <;> simp [h]
    have := fields_not_gsv f hfF
    rw [st1 f.1 this.1 this.2]
    exact ag2 f hf
  -- GPRMC
  obtain ⟨acc4, ag4, ot4⟩ := plain_parse_agree u sRMC src d3 ([] ++ sGGA.format ++ sGSA.format)
    (by decide) (by decide) (by decide) subRMC
    (by intro f hf; simp at hf; rcases hf with h | h <;> simp [h]) hF ag3
  have c4 := parseChain_rmc_body u src d3 m3 acc4
  rw [parseFrames_append, parseFrames_single, parseFrames_single, c4]
  simp only
  generalize (sRMC.parse u (sRMC.body src) d3).2 = d4 at ag4 ot4
  -- GPGLL
  obtain ⟨acc5, ag5, ot5⟩ := plain_parse_agree u sGLL src d4
    ([] ++ sGGA.format ++ sGSA.format ++ sRMC.format)
    (by decide) (by decide) (by decide) subGLL
    (by intro f hf; simp at hf; rcases hf with h | h | h <;> simp [h]) hF ag4
  have c5 := parseChain_gll_body u src d4 (m3 ||| RMC) acc5
  rw [c5]
  simp only
  generalize (sGLL.parse u (sGLL.body src) d4).2 = d5 at ag5 ot5
  refine ⟨fun f hf => ag5 f (by simpa using hf), ?_⟩
  -- the satellite-visibility fields after the last two sentences are those after the frames
  have hkeep : ∀ key, (key = SAT_IN_VIEW ∨ (SATELLITE_01 ≤ key ∧ key < SATELLITE_01 + 16)) →
      d5 key = d3 key := by
    intro key hk
    rw [ot5 key (gsv_key_not_id sGLL subGLL key hk), ot4 key (gsv_key_not_id sRMC subRMC key hk)]
  rcases st2 with ⟨hn, hd3⟩ | ⟨n, hn, hview, h24, hslots⟩
  · have h5 : d5 SAT_IN_VIEW = none := by
      rw [hkeep SAT_IN_VIEW (Or.inl rfl), hd3,
        ot2 SAT_IN_VIEW (gsv_key_not_id sGSA subGSA _ (Or.inl rfl)),
        ot1 SAT_IN_VIEW (gsv_key_not_id sGGA subGGA _ (Or.inl rfl))]
      decide
    have e5 : gsvTexts d5 = [] := by
      unfold gsvTexts
      rw [if_pos (by simp [Dataset.get, h5, Variant.toInt])]
    have e0 : gsvTexts src = [] := by
      unfold gsvTexts
      rw [if_pos hn]
    rw [e5, e0]
  · apply gsvTexts_readBack src d5 n hn hview hsat
    · rw [hkeep SAT_IN_VIEW (Or.inl rfl)]
      exact h24
    · intro i hi
      have hS : SATELLITE_01 = 38 := rfl
      rw [hkeep (SATELLITE_01 + i) (Or.inr ⟨by omega, by omega⟩)]
      exact hslots i hi

end NMEA

namespace NMEA

/-- Claim C7, amended. Loop-back on generated text: for every store whose fields hold values
the encoders accept (7-bit characters, below 128, other than NUL and the comma, times of day
and dates within the asserted ranges, any integers, any finite decimals, the satellite count
absent or an integer, the satellite slots absent or satellite records), `NMEA::parse` of the text
`NMEA::generate` writes for it, into a freshly constructed `Info`, consumes the whole text,
and `NMEA::generate` of the decoded `Info` writes the same text byte for byte. -/
theorem loop_back (u : Int) (src : Dataset) (hwt : src.wellTyped) :
    (parse u (generate src [] ALL) Info.new ALL).1 = (generate src [] ALL).length ∧
    generate (parse u (generate src [] ALL) Info.new ALL).2.1 [] ALL = generate src [] ALL := by
  have hsafe := generatedTexts_frameSafe u src hwt.1
  obtain ⟨hfields, hgsv⟩ := loop_back_store u src hwt
  rw [generate_eq_joinFrames src, parse_joinFrames u (generatedTexts src) Info.new hsafe]
  refine ⟨rfl, ?_⟩
  simp only
  generalize (parseFrames u [SentencePtr.GGA, SentencePtr.GSA, SentencePtr.GSA1,
    SentencePtr.GSV, SentencePtr.GSV1, SentencePtr.GSV2, SentencePtr.GSV3, SentencePtr.RMC,
    SentencePtr.RMC1, SentencePtr.GLL] (generatedTexts src) Info.new 0).1 = d at hfields hgsv
  have hbody : ∀ self : Sentence,
      (∀ f ∈ self.format, f ∈ sGGA.format ++ sGSA.format ++ sRMC.format ++ sGLL.format) →
      self.body d = self.body src := by
    intro self hsub
    apply body_congr
    intro f hf
    exact (render_back u src f (hwt.1 f (hsub f hf)) (fields_sized f (hsub f hf)).1
      (fields_sized f (hsub f hf)).2).2.2 d (hfields f (hsub f hf))
  rw [generate_eq_joinFrames d]
  unfold generatedTexts
  rw [hgsv, hbody sGGA (by intro f hf; simp [hf]), hbody sGSA (by intro f hf; simp [hf]),
    hbody sRMC (by intro f hf; simp [hf]), hbody sGLL (by intro f hf; simp [hf])]

set_option maxRecDepth 1000000 in
/-- Claim C7, amended, at the store of a fresh `Info` given the time of day 17:27:24.00, the
hemisphere `'N'` and five satellites in view. -/
theorem loop_back_witness :
    (Info.setSatsInView ((Info.new.set TIME (Variant.time ⟨17, 27, 24, 0⟩)).set LATITUDE_NS
      (Variant.char 78)) fiveSats).wellTyped ∧
    (parse 0 (generate (Info.setSatsInView ((Info.new.set TIME
        (Variant.time ⟨17, 27, 24, 0⟩)).set LATITUDE_NS (Variant.char 78)) fiveSats) [] ALL)
        Info.new ALL).1
      = (generate (Info.setSatsInView ((Info.new.set TIME
        (Variant.time ⟨17, 27, 24, 0⟩)).set LATITUDE_NS (Variant.char 78)) fiveSats) []
        ALL).length ∧
    generate (parse 0 (generate (Info.setSatsInView ((Info.new.set TIME
        (Variant.time ⟨17, 27, 24, 0⟩)).set LATITUDE_NS (Variant.char 78)) fiveSats) [] ALL)
        Info.new ALL).2.1 [] ALL
      = generate (Info.setSatsInView ((Info.new.set TIME
        (Variant.time ⟨17, 27, 24, 0⟩)).set LATITUDE_NS (Variant.char 78)) fiveSats) [] ALL :=
  ⟨by decide, loop_back 0 _ (by decide)⟩

set_option maxRecDepth 1000000 in
/-- Claim C7 as stated fails at a fresh `Info` whose latitude hemisphere is the character
`','`: every other field is one the encoders accept, the text generated for the store is
consumed whole, yet the GPGGA and GPGLL sentences then carry one token too many, are
rejected, and the text generated from the decoded `Info` differs. -/
theorem loop_back_counterexample :
    commaStore LATITUDE_NS = some (Variant.char 44) ∧
    (∀ f ∈ sGGA.format ++ sGSA.format ++ sRMC.format ++ sGLL.format,
      f.1 ≠ LATITUDE_NS → commaStore.wellTypedAt f) ∧
    commaStore.intAt SAT_IN_VIEW ∧
    (∀ i < MAX_SAT_IN_VIEW, commaStore.satelliteAt (SATELLITE_01 + i)) ∧
    (parse 0 (generate commaStore [] ALL) Info.new ALL).1
      = (generate commaStore [] ALL).length ∧
    generate (parse 0 (generate commaStore [] ALL) Info.new ALL).2.1 [] ALL
      ≠ generate commaStore [] ALL := by
  decide

end NMEA

namespace GPSProtocol

/-- Claim C21. Consumption step of the streaming adapter: for every adapter state, buffer
and chunk, if the decoder reports `k > 0` consumed bytes for the buffer followed by the
chunk, then after `GPSProtocol::parse` the buffer is those bytes without the first `k`, the
state is `OK` and the call returns true; if it reports 0 and the bytes are fewer than 1024,
the buffer holds them all and the state is unchanged. -/
theorem parse_consumption_step {σ : Type} (tryParse : σ → List Nat → Nat × σ)
    (self : Adapter σ) (data : List Nat) :
    (0 < (tryParse self.sub (self.parseBuffer ++ data)).1 →
      (parse tryParse self data).2.parseBuffer
        = (self.parseBuffer ++ data).drop (tryParse self.sub (self.parseBuffer ++ data)).1 ∧
      (parse tryParse self data).2.state = State.OK ∧
      (parse tryParse self data).1 = true) ∧
    ((tryParse self.sub (self.parseBuffer ++ data)).1 = 0 →
      (self.parseBuffer ++ data).length < MAX_BUF_SIZE →
      (parse tryParse self data).2.parseBuffer = self.parseBuffer ++ data ∧
      (parse tryParse self data).2.state = self.state) := by
  constructor
  · intro hk
    unfold parse
    simp only [gt_iff_lt, hk, if_true]
    simp
  · intro h0 hlen
    unfold parse
    have hge : ¬ (self.parseBuffer ++ data).length ≥ MAX_BUF_SIZE := by omega
    simp only [h0, gt_iff_lt, lt_self_iff_false, if_false, hge]
    simp

set_option maxRecDepth 1000000 in
/-- An NMEA adapter in state `FAILURE` that holds `"$GPGLL,,,,"` and is fed the rest of a
GPGLL sentence and the start of the next one: the 18 bytes of the sentence are consumed. -/
theorem parse_consumption_step_witness :
    0 < (nmeaTryParse 0 0 NMEA.Info.new (NMEA.str "$GPGLL,,,," ++ NMEA.str ",,V*06\r\n$GP")).1 ∧
    (parse (nmeaTryParse 0 0) ⟨State.FAILURE, NMEA.str "$GPGLL,,,,", NMEA.Info.new⟩
        (NMEA.str ",,V*06\r\n$GP")).2.parseBuffer = NMEA.str "$GP" ∧
    (parse (nmeaTryParse 0 0) ⟨State.FAILURE, NMEA.str "$GPGLL,,,,", NMEA.Info.new⟩
        (NMEA.str ",,V*06\r\n$GP")).2.state = State.OK ∧
    (parse (nmeaTryParse 0 0) ⟨State.FAILURE, NMEA.str "$GPGLL,,,,", NMEA.Info.new⟩
        (NMEA.str ",,V*06\r\n$GP")).1 = true :=
  ⟨by decide,
    ((parse_consumption_step (nmeaTryParse 0 0)
        ⟨State.FAILURE, NMEA.str "$GPGLL,,,,", NMEA.Info.new⟩
        (NMEA.str ",,V*06\r\n$GP")).1 (by decide)).1.trans (by decide),
    ((parse_consumption_step (nmeaTryParse 0 0)
        ⟨State.FAILURE, NMEA.str "$GPGLL,,,,", NMEA.Info.new⟩
        (NMEA.str ",,V*06\r\n$GP")).1 (by decide)).2⟩

end GPSProtocol

namespace NMEA

theorem ptr_rejected_snd (p : SentencePtr) (u : Int) (text : Text) (dst : Dataset)
    (h : (p.parse u text dst).1 = false) : (p.parse u text dst).2 = dst := by
  unfold SentencePtr.parse at h ⊢
  split_ifs at h ⊢
  · exact gsv_parse_rejected_snd _ u text dst h
  · exact sentence_parse_rejected_snd _ u text dst h

/-- A text that every format of the chain rejects leaves the store and the mask as they
were. -/
theorem parseChain_rejected (u : Int) (text : Text) :
    ∀ (chain : List SentencePtr) (dst : Dataset) (s : Nat),
      (∀ p ∈ chain, (p.parse u text Dataset.empty).1 = false) →
      parseChain u text chain dst s = (dst, s) := by
  intro chain
  induction chain with
  | nil => intro dst s _; rfl
  | cons p rest ih =>
    intro dst s h
    have hp : (p.parse u text dst).1 = false := by
      rw [gsv_parse_fst_indep p u text dst Dataset.empty]
      exact h p (List.mem_cons_self _ _)
    unfold parseChain
    simp only [hp, Bool.false_eq_true, if_false]
    rw [ptr_rejected_snd p u text dst hp]
    exact ih dst s (fun q hq => h q (List.mem_cons_of_mem _ hq))

theorem parseFrames_rejected (u : Int) (chain : List SentencePtr) :
    ∀ (bodies : List Text) (dst : Dataset) (s : Nat),
      (∀ b ∈ bodies, ∀ p ∈ chain, (p.parse u b Dataset.empty).1 = false) →
      parseFrames u chain bodies dst s = (dst, s) := by
  intro bodies
  induction bodies with
  | nil => intro dst s _; rfl
  | cons b rest ih =>
    intro dst s h
    unfold parseFrames
    rw [parseChain_rejected u b chain dst s (h b (List.mem_cons_self _ _))]
    exact ih dst s (fun x hx => h x (List.mem_cons_of_mem _ hx))

end NMEA

namespace GPSProtocol

/-- Claim C22, amended. Unrecognized frames set the adapter state: when the buffer of the
text adapter followed by the chunk consists only of complete frames (at least one) which no
catalog format accepts, `GPSProtocol::parse` returns true, consumes all the bytes and sets
the state to `OK` whatever it was before; the store `_info` is left as it was, except that
its satellites in view are cleared when the timer `_gsvTimer` has run for more than
`GSV_TIMEOUT` (5000 ms). -/
theorem unrecognized_frames_state (u : Int) (elapsed : Nat) (self : Adapter NMEA.Dataset)
    (data : List Nat) (bodies : List NMEA.Text) (hne : bodies ≠ [])
    (hdata : self.parseBuffer ++ data = NMEA.joinFrames bodies)
    (hsafe : ∀ b ∈ bodies, NMEA.frameSafe b)
    (hrej : ∀ b ∈ bodies, ∀ p ∈ [NMEA.SentencePtr.GGA, NMEA.SentencePtr.GSA,
      NMEA.SentencePtr.GSA1, NMEA.SentencePtr.GSV, NMEA.SentencePtr.GSV1,
      NMEA.SentencePtr.GSV2, NMEA.SentencePtr.GSV3, NMEA.SentencePtr.RMC,
      NMEA.SentencePtr.RMC1, NMEA.SentencePtr.GLL],
      (NMEA.SentencePtr.parse p u b NMEA.Dataset.empty).1 = false) :
    parse (nmeaTryParse u elapsed) self data =
      (true, ⟨State.OK, [],
        if elapsed > GSV_TIMEOUT then NMEA.Info.clearSatsInView self.sub else self.sub⟩) := by
  have hlen : 0 < (NMEA.joinFrames bodies).length := by
    have := NMEA.joinFrames_length bodies
    have : 0 < bodies.length := List.length_pos.2 hne
    omega
  have hmask : (0 : Nat) &&& NMEA.GSV = 0 := by decide
  have htry : nmeaTryParse u elapsed self.sub (NMEA.joinFrames bodies) =
      ((NMEA.joinFrames bodies).length,
        if elapsed > GSV_TIMEOUT then NMEA.Info.clearSatsInView self.sub else self.sub) := by
    unfold nmeaTryParse
    simp only [NMEA.parse_joinFrames u bodies self.sub hsafe,
      NMEA.parseFrames_rejected u _ bodies self.sub 0 hrej, gt_iff_lt, hlen, if_true, hmask,
      ne_eq, not_true_eq_false, if_false]
    split_ifs <;> rfl
  unfold parse
  simp only [hdata, htry, gt_iff_lt, hlen, if_true, List.drop_length]
  simp

set_option maxRecDepth 1000000 in
/-- Claim C22, amended, at a fresh adapter in state `UNKNOWN` fed two GPZDA sentences, a
type that is not in the catalog, 6000 ms after the timer was started. -/
theorem unrecognized_frames_state_witness :
    parse (nmeaTryParse 0 6000) (Adapter.new NMEA.Info.new)
        (NMEA.str "$GPZDA,,,,,,*48\r\n$GPZDA,,,,,,*48\r\n")
      = (true, ⟨State.OK, [],
          if 6000 > GSV_TIMEOUT then NMEA.Info.clearSatsInView NMEA.Info.new
          else NMEA.Info.new⟩) :=
  unrecognized_frames_state 0 6000 (Adapter.new NMEA.Info.new)
    (NMEA.str "$GPZDA,,,,,,*48\r\n$GPZDA,,,,,,*48\r\n")
    [NMEA.str "GPZDA,,,,,,*48", NMEA.str "GPZDA,,,,,,*48"] (by decide) (by decide)
    (by decide) (by decide)

set_option maxRecDepth 1000000 in
/-- Claim C22 as stated fails at a fresh adapter fed one complete GPZDA sentence: no catalog
format accepts it, the bytes are consumed, and the state goes from `UNKNOWN` to `OK`. -/
theorem unrecognized_frames_state_counterexample :
    (∀ p ∈ [NMEA.SentencePtr.GGA, NMEA.SentencePtr.GSA, NMEA.SentencePtr.GSA1,
      NMEA.SentencePtr.GSV, NMEA.SentencePtr.GSV1, NMEA.SentencePtr.GSV2,
      NMEA.SentencePtr.GSV3, NMEA.SentencePtr.RMC, NMEA.SentencePtr.RMC1,
      NMEA.SentencePtr.GLL],
      (NMEA.SentencePtr.parse p 0 (NMEA.str "GPZDA,,,,,,*48") NMEA.Info.new).1 = false) ∧
    (Adapter.new NMEA.Info.new).state = State.UNKNOWN ∧
    (parse (nmeaTryParse 0 0) (Adapter.new NMEA.Info.new)
        (NMEA.str "$GPZDA,,,,,,*48\r\n")).2.parseBuffer = [] ∧
    (parse (nmeaTryParse 0 0) (Adapter.new NMEA.Info.new)
        (NMEA.str "$GPZDA,,,,,,*48\r\n")).2.state = State.OK := by
  decide

end GPSProtocol

namespace NMEA

theorem tdiv_ten_cast (v : Nat) : ((v : Int)).tdiv 10 = ((v / 10 : Nat) : Int) := by
  rw [Int.tdiv_eq_ediv (by omega) (by norm_num)]
  norm_cast

/-- Claim C23. Fractional seconds on parse: for every time token `"hhmmss.F"` of decimal
digits where `F` has 1, 2 or 3 digits and the value `v`, `TimeToken::parse` accepts and
yields hour, minute and second equal to the three 2-digit groups and hsecond equal to
`10 * v` for one digit, `v` for two and `v / 10` rounded down for three. -/
theorem time_fraction_parse (u : Int) (h1 h2 m1 m2 s1 s2 : Nat) (F : Text)
    (hd : ∀ c ∈ [h1, h2, m1, m2, s1, s2] ++ F, isDigit c = true)
    (hF : 1 ≤ F.length ∧ F.length ≤ 3) :
    TimeToken.parse u ([h1, h2, m1, m2, s1, s2, 46] ++ F) =
      some ⟨(digitsVal [h1, h2] : Nat), (digitsVal [m1, m2] : Nat), (digitsVal [s1, s2] : Nat),
        ((if F.length = 1 then 10 * digitsVal F
          else if F.length = 2 then digitsVal F else digitsVal F / 10 : Nat) : Int)⟩ := by
  have hh : atoi [h1, h2] = (digitsVal [h1, h2] : Nat) :=
    atoi_of_digits _ (fun b hb => hd b (by simp at hb ⊢; tauto))
  have hm : atoi [m1, m2] = (digitsVal [m1, m2] : Nat) :=
    atoi_of_digits _ (fun b hb => hd b (by simp at hb ⊢; tauto))
  have hs : atoi [s1, s2] = (digitsVal [s1, s2] : Nat) :=
    atoi_of_digits _ (fun b hb => hd b (by simp at hb ⊢; tauto))
  have hf : atoi F = (digitsVal F : Nat) :=
    atoi_of_digits _ (fun b hb => hd b (by simp; tauto))
  have hlen : ([h1, h2, m1, m2, s1, s2, 46] ++ F).length = 7 + F.length := by
    simp only [List.length_append, List.length_cons, List.length_nil]
  unfold TimeToken.parse
  rw [hlen, if_neg (by omega), if_pos (by omega)]
  have e1 : ([h1, h2, m1, m2, s1, s2, 46] ++ F).take 2 = [h1, h2] := rfl
  have e2 : (([h1, h2, m1, m2, s1, s2, 46] ++ F).drop 2).take 2 = [m1, m2] := rfl
  have e3 : (([h1, h2, m1, m2, s1, s2, 46] ++ F).drop 4).take 2 = [s1, s2] := rfl
  have e4 : (([h1, h2, m1, m2, s1, s2, 46] ++ F).drop 7).take (7 + F.length - 7) = F := by
    have : ([h1, h2, m1, m2, s1, s2, 46] ++ F).drop 7 = F := rfl
    rw [this, Nat.add_sub_cancel_left, List.take_length]
  rw [e1, e2, e3, e4, hh, hm, hs, hf, Nat.add_sub_cancel_left]
  obtain ⟨hlo, hhi⟩ := hF
  have hcases : F.length = 1 ∨ F.length = 2 ∨ F.length = 3 := by omega
  rcases hcases with h | h | h
  · rw [h]
    simp only [TimeToken.hsecondIn, if_true]
    push_cast
    congr 2
    ring
  · rw [h]
    simp only [TimeToken.hsecondIn]
    norm_num
  · rw [h]
    simp only [TimeToken.hsecondIn, tdiv_ten_cast]
    norm_num

/-- Claim C23 at the tokens of `test_time_hsecond_parse`: `".9"` gives 90, `".99"` gives 99
and `".999"` gives 99. -/
theorem time_fraction_parse_witness :
    TimeToken.parse 0 (str "000000.9") = some ⟨0, 0, 0, 90⟩ ∧
    TimeToken.parse 0 (str "000000.99") = some ⟨0, 0, 0, 99⟩ ∧
    TimeToken.parse 0 (str "235960.999") = some ⟨23, 59, 60, 99⟩ :=
  ⟨time_fraction_parse 0 48 48 48 48 48 48 [57] (by decide) (by decide),
   time_fraction_parse 0 48 48 48 48 48 48 [57, 57] (by decide) (by decide),
   time_fraction_parse 0 50 51 53 57 54 48 [57, 57, 57] (by decide) (by decide)⟩

/-- Claim C24 fails for tokens without fractional digits. For the 6-character token
`"123519"` of `test_parse_new_rmc` the decoded hsecond is the uninitialised value of the
field, whatever it is, not 0; for the 7-character token `"123519."` the call reaches
`assert(false)`, and with assertions compiled out hsecond is again the uninitialised
value. -/
theorem time_parse_no_fraction (u : Int) :
    TimeToken.parse u (str "123519") = some ⟨12, 35, 19, u⟩ ∧
    TimeToken.parseAssertFails (str "123519") = false ∧
    TimeToken.parse u (str "123519.") = some ⟨12, 35, 19, u⟩ ∧
    TimeToken.parseAssertFails (str "123519.") = true :=
  ⟨rfl, rfl, rfl, rfl⟩

/-- Claim C25. Time-of-day render: for every `Time` with hour 0..23, minute 0..59, second
0..60 and hsecond 0..999, `TimeToken::toString` appends the nine characters `"hhmmss.ff"`,
each group two decimal digits, where `ff` is `hsecond * 10` if hsecond is 1..9, `hsecond`
if it is 0 or 10..99, and `hsecond / 10` rounded down if it is 100 or more. -/
theorem time_render (t : Time) (hh : 0 ≤ t.hour ∧ t.hour ≤ 23)
    (hm : 0 ≤ t.minute ∧ t.minute ≤ 59) (hs : 0 ≤ t.second ∧ t.second ≤ 60)
    (hc : 0 ≤ t.hsecond ∧ t.hsecond ≤ 999) :
    ∃ ff : Nat,
      (1 ≤ t.hsecond ∧ t.hsecond ≤ 9 → (ff : Int) = t.hsecond * 10) ∧
      (t.hsecond = 0 ∨ (10 ≤ t.hsecond ∧ t.hsecond ≤ 99) → (ff : Int) = t.hsecond) ∧
      (100 ≤ t.hsecond → (ff : Int) = t.hsecond / 10) ∧
      Token.time.toString (Variant.time t) =
        [48 + t.hour.toNat / 10, 48 + t.hour.toNat % 10,
         48 + t.minute.toNat / 10, 48 + t.minute.toNat % 10,
         48 + t.second.toNat / 10, 48 + t.second.toNat % 10, 46,
         48 + ff / 10, 48 + ff % 10] := by
  obtain ⟨hour, minute, second, hsecond⟩ := t
  simp only at hh hm hs hc
  obtain ⟨a, rfl⟩ : ∃ a : Nat, hour = a := ⟨hour.toNat, by omega⟩
  obtain ⟨b, rfl⟩ : ∃ b : Nat, minute = b := ⟨minute.toNat, by omega⟩
  obtain ⟨c, rfl⟩ : ∃ c : Nat, second = c := ⟨second.toNat, by omega⟩
  obtain ⟨d, rfl⟩ : ∃ d : Nat, hsecond = d := ⟨hsecond.toNat, by omega⟩
  have hout : ∃ ff : Nat, TimeToken.hsecondOut (d : Int) = (ff : Int) ∧ ff < 100 ∧
      (1 ≤ (d : Int) ∧ (d : Int) ≤ 9 → (ff : Int) = (d : Int) * 10) ∧
      ((d : Int) = 0 ∨ (10 ≤ (d : Int) ∧ (d : Int) ≤ 99) → (ff : Int) = (d : Int)) ∧
      (100 ≤ (d : Int) → (ff : Int) = (d : Int) / 10) := by
    unfold TimeToken.hsecondOut
    rw [tdiv_ten_cast]
    split_ifs with c1 c2
    · exact ⟨d * 10, by push_cast; rfl, by omega, by intro _; push_cast; rfl, by omega,
        by omega⟩
    · exact ⟨d / 10, rfl, by omega, by omega, by omega, by intro _; push_cast; rfl⟩
    · exact ⟨d, rfl, by omega, by omega, by intro _; rfl, by omega⟩
  obtain ⟨ff, hff, hlt, p1, p2, p3⟩ := hout
  refine ⟨ff, p1, p2, p3, ?_⟩
  simp only [Token.toString, Variant.toTime, hff, fmtInt_two_digits a (by omega),
    fmtInt_two_digits b (by omega), fmtInt_two_digits c (by omega), fmtInt_two_digits ff hlt,
    Int.toNat_ofNat]
  rfl

/-- Claim C25 at the times of `test_time_hsecond_generate` with hsecond 9 and 999, written
`".90"` and `".99"`. -/
theorem time_render_witness :
    Token.time.toString (Variant.time ⟨0, 0, 0, 9⟩) = str "000000.90" ∧
    Token.time.toString (Variant.time ⟨23, 59, 60, 999⟩) = str "235960.99" := by
  obtain ⟨f1, a1, _, _, e1⟩ :=
    time_render ⟨0, 0, 0, 9⟩ (by decide) (by decide) (by decide) (by decide)
  obtain ⟨f2, _, _, a2, e2⟩ :=
    time_render ⟨23, 59, 60, 999⟩ (by decide) (by decide) (by decide) (by decide)
  have h1 : f1 = 90 := by have := a1 (by decide); simp only at this; omega
  have h2 : f2 = 99 := by have := a2 (by decide); simp only at this; omega
  subst h1 h2
  exact ⟨e1, e2⟩

end NMEA

namespace NMEA

theorem foldl_copy_get (src : Dataset) (key : Nat) :
    ∀ (fields : List Nat) (dst : Dataset),
      (fields.foldl (fun acc f => src.copy f acc) dst) key
        = if key ∈ fields then src key else dst key := by
  intro fields
  induction fields with
  | nil => intro dst; simp
  | cons f rest ih =>
    intro dst
    rw [List.foldl_cons, ih, copy_get]
    by_cases h1 : key ∈ rest
    · simp [h1]
    · by_cases h2 : key = f
      · simp [h2]
      · simp [h1, h2]

/-- The store after the eleven copiers, field by field: the fields below 54 other than
`FIX_MODE`, `PDOP`, `HDOP` and `VDOP` are those of the source, the others are untouched. -/
theorem copyGroups_get (src dst : Dataset) (key : Nat) :
    Info.copyGroups src dst key =
      if key < 54 ∧ key ≠ FIX_MODE ∧ key ≠ PDOP ∧ key ≠ HDOP ∧ key ≠ VDOP then src key
      else dst key := by
  have e : Info.copyGroups src dst =
      ([0, 1, 15, 16, 3, 4, 5, 6, 7, 8, 9, 10, 11, 12, 13, 14, 22, 23, 25, 24,
        38, 39, 40, 41, 42, 43, 44, 45, 46, 47, 48, 49, 50, 51, 52, 53,
        26, 27, 28, 29, 30, 31, 32, 33, 34, 35, 36, 37, 21, 20] : List Nat).foldl
        (fun acc f => src.copy f acc) dst := rfl
  rw [e, foldl_copy_get]
  have h2 : FIX_MODE = 2 := rfl
  have h17 : PDOP = 17 := rfl
  have h18 : HDOP = 18 := rfl
  have h19 : VDOP = 19 := rfl
  rw [h2, h17, h18, h19]
  congr 1
  simp only [List.mem_cons, List.mem_singleton, List.not_mem_nil, or_false, eq_iff_iff]
  omega

theorem frameSats_congr (src dst : Dataset) (msgNo : Nat) :
    ∀ (l : List Nat) (gsv : Dataset),
      (∀ satNo ∈ l, src (SATELLITE_01 + (msgNo - 1) * SAT_IN_MESSAGE + satNo)
        = dst (SATELLITE_01 + (msgNo - 1) * SAT_IN_MESSAGE + satNo)) →
      GSVSentence.frameSats src msgNo l gsv = GSVSentence.frameSats dst msgNo l gsv := by
  intro l
  induction l with
  | nil => intro gsv _; rfl
  | cons satNo rest ih =>
    intro gsv h
    unfold GSVSentence.frameSats
    simp only [Dataset.isPresent, Dataset.get, h satNo (List.mem_cons_self _ _)]
    exact ih _ (fun x hx => h x (List.mem_cons_of_mem _ hx))

theorem gsvTexts_congr (src dst : Dataset) (hview : src SAT_IN_VIEW = dst SAT_IN_VIEW)
    (hsat : ∀ i < MAX_SAT_IN_VIEW, src (SATELLITE_01 + i) = dst (SATELLITE_01 + i)) :
    gsvTexts src = gsvTexts dst := by
  have hget : src.get SAT_IN_VIEW = dst.get SAT_IN_VIEW := by
    unfold Dataset.get; rw [hview]
  unfold gsvTexts
  rw [hget]
  split_ifs with h0
  · rfl
  · unfold GSVSentence.bodies
    apply List.map_congr_left
    intro k hk
    have hk2 := List.mem_range'_1.1 hk
    have hmc : ((min (dst.get SAT_IN_VIEW).toInt 16).toNat + 3) / 4 ≤ 4 := by omega
    congr 1
    unfold GSVSentence.frame
    have hc : src.copy SAT_IN_VIEW Dataset.empty = dst.copy SAT_IN_VIEW Dataset.empty := by
      unfold Dataset.copy Dataset.isPresent
      rw [hget, hview]
    rw [hc]
    apply frameSats_congr
    intro satNo hs
    have hs4 : satNo < 4 := List.mem_range.1 hs
    have hS : SAT_IN_MESSAGE = 4 := rfl
    have hM : MAX_SAT_IN_VIEW = 16 := rfl
    rw [hS, Nat.add_assoc]
    exact hsat _ (by omega)

/-- The text `NMEA::generate` writes with the mask `ALL` depends on the fields below 54
only. -/
theorem generate_congr (src dst : Dataset) (h : ∀ key < 54, src key = dst key) :
    generate src [] ALL = generate dst [] ALL := by
  have hall : ∀ f ∈ sGGA.format ++ sGSA.format ++ sRMC.format ++ sGLL.format, f.1 < 54 := by
    decide
  have hbody : ∀ self : Sentence,
      (∀ f ∈ self.format, f ∈ sGGA.format ++ sGSA.format ++ sRMC.format ++ sGLL.format) →
      self.body src = self.body dst := by
    intro self hsub
    apply body_congr
    intro f hf
    have hlt : f.1 < 54 := hall f (hsub f hf)
    unfold renderOf
    rw [h f.1 hlt]
  rw [generate_eq_joinFrames, generate_eq_joinFrames]
  unfold generatedTexts
  rw [hbody sGGA (by intro f hf; simp [hf]), hbody sGSA (by intro f hf; simp [hf]),
    hbody sRMC (by intro f hf; simp [hf]), hbody sGLL (by intro f hf; simp [hf]),
    gsvTexts_congr src dst (h _ (by decide))
      (fun i hi => h _ (by have hS : SATELLITE_01 = 38 := rfl
                           have hM : MAX_SAT_IN_VIEW = 16 := rfl
                           omega))]

/-- Claim C26, amended. Record-store copy: for every field id and stores `src` and `dst`,
after `src.copy(f, dst)` the store `dst` agrees with `src` on `f` and every other field of
`dst` is unchanged (a copy onto the store itself changes nothing); and when two `Info`
stores agree on the fields no copier covers (`FIX_MODE`, `PDOP`, `HDOP`, `VDOP`), copying
every field group of one into the other makes `NMEA::generate` write the same text for
both. -/
theorem copy_frame (f : Nat) (src dst : Dataset) :
    (src.copy f dst) f = src f ∧
    (∀ key, key ≠ f → (src.copy f dst) key = dst key) ∧
    src.copy f src = src ∧
    ((∀ key ∈ [FIX_MODE, PDOP, HDOP, VDOP], dst key = src key) →
      generate (Info.copyGroups src dst) [] ALL = generate src [] ALL) := by
  refine ⟨by rw [copy_get, if_pos rfl], fun key hk => by rw [copy_get, if_neg hk], ?_, ?_⟩
  · funext key
    rw [copy_get]
    split_ifs with hk
    · rw [hk]
    · rfl
  · intro hagree
    apply generate_congr
    intro key hlt
    rw [copyGroups_get]
    split_ifs with hc
    · rfl
    · have h2 : FIX_MODE = 2 := rfl
      have h17 : PDOP = 17 := rfl
      have h18 : HDOP = 18 := rfl
      have h19 : VDOP = 19 := rfl
      apply hagree
      simp only [List.mem_cons, List.mem_singleton, List.not_mem_nil, or_false]
      omega

set_option maxRecDepth 1000000 in
/-- Claim C26, amended, at the copy of a fresh `Info` with five satellites in view into a
fresh `Info`. -/
theorem copy_frame_witness :
    (∀ key ∈ [FIX_MODE, PDOP, HDOP, VDOP],
      Info.new key = Info.setSatsInView Info.new fiveSats key) ∧
    generate (Info.copyGroups (Info.setSatsInView Info.new fiveSats) Info.new) [] ALL
      = generate (Info.setSatsInView Info.new fiveSats) [] ALL :=
  ⟨by decide,
    (copy_frame 0 (Info.setSatsInView Info.new fiveSats) Info.new).2.2.2 (by decide)⟩

set_option maxRecDepth 1000000 in
/-- Claim C26 as stated fails at a fresh `Info` after `setHDOP(1.5)` copied into a fresh
`Info`: no copier covers `HDOP`, and the texts generated for the two differ. -/
theorem copy_frame_counterexample :
    generate (Info.copyGroups hdopStore Info.new) [] ALL ≠ generate hdopStore [] ALL := by
  decide

end NMEA

namespace Sirf

theorem set_append_length (w t : List Nat) (a x : Nat) :
    (w ++ a :: t).set w.length x = w ++ x :: t := by
  induction w with
  | nil => rfl
  | cons b w ih => simp [List.set, ih]

theorem bit_set_iff (m i : Nat) : (m >>> i) &&& 1 ≠ 0 ↔ (m >>> i) &&& 1 = 1 := by
  rw [Nat.and_one_is_mod]
  omega

/-- The loop of `parseFix` started with `w` written and zeros behind: it appends the
numbers of the set bits that remain, up to twelve in all, and writes nothing else. -/
theorem prnLoop_written (m : Nat) :
    ∀ (l w : List Nat), w.length < 12 →
      prnLoop m l (w ++ List.replicate (12 - w.length) 0) w.length
        = some ((w ++ (l.filter (fun i => (m >>> i) &&& 1 = 1)).map (fun i => i + 1)).take 12
            ++ List.replicate (12 - ((w ++ (l.filter (fun i => (m >>> i) &&& 1 = 1)).map
                (fun i => i + 1)).take 12).length) 0,
          ((w ++ (l.filter (fun i => (m >>> i) &&& 1 = 1)).map (fun i => i + 1)).take
            12).length) := by
  intro l
  induction l with
  | nil =>
    intro w hw
    simp only [prnLoop, List.filter_nil, List.map_nil, List.append_nil]
    rw [List.take_of_length_le (by omega)]
  | cons i rest ih =>
    intro w hw
    unfold prnLoop
    by_cases hb : (m >>> i) &&& 1 = 1
    · have hb0 : (m >>> i) &&& 1 ≠ 0 := (bit_set_iff m i).2 hb
      have hrep : List.replicate (12 - w.length) 0
          = 0 :: List.replicate (12 - (w.length + 1)) 0 := by
        have : 12 - w.length = (12 - (w.length + 1)) + 1 := by omega
        rw [this, List.replicate_succ]
      have hset : (w ++ List.replicate (12 - w.length) 0).set w.length (i + 1)
          = (w ++ [i + 1]) ++ List.replicate (12 - (w ++ [i + 1]).length) 0 := by
        rw [hrep, set_append_length]
        simp
      have hlen : w.length < (w ++ List.replicate (12 - w.length) 0).length := by
        simp only [List.length_append, List.length_replicate]
        omega
      have hfil : (List.filter (fun i => (m >>> i) &&& 1 = 1) (i :: rest)).map (fun i => i + 1)
          = (i + 1) :: (List.filter (fun i => (m >>> i) &&& 1 = 1) rest).map
              (fun i => i + 1) := by
        rw [List.filter_cons, if_pos (decide_eq_true hb), List.map_cons]
      have happ : w ++ (i + 1) :: (List.filter (fun i => (m >>> i) &&& 1 = 1) rest).map
          (fun i => i + 1)
          = (w ++ [i + 1]) ++ (List.filter (fun i => (m >>> i) &&& 1 = 1) rest).map
              (fun i => i + 1) := by
        simp
      rw [if_pos hb0, if_pos hlen, hset, hfil, happ]
      have hl1 : (w ++ [i + 1]).length = w.length + 1 := by simp
      by_cases h12 : w.length + 1 = MAX_SAT_IN_USE
      · rw [if_pos h12]
        have h12b : (w ++ [i + 1]).length = 12 := by rw [hl1]; exact h12
        rw [List.take_append_of_le_length (by omega), List.take_of_length_le (by omega), hl1]
      · rw [if_neg h12]
        have hlt : (w ++ [i + 1]).length < 12 := by
          rw [hl1]
          have : MAX_SAT_IN_USE = 12 := rfl
          omega
        have e := ih (w ++ [i + 1]) hlt
        rw [← hl1]
        exact e
    · have hb0 : ¬ (m >>> i) &&& 1 ≠ 0 := fun h => hb ((bit_set_iff m i).1 h)
      have hne : ¬ w.length = MAX_SAT_IN_USE := by
        have : MAX_SAT_IN_USE = 12 := rfl
        omega
      rw [if_neg hb0, if_neg hne, List.filter_cons,
        if_neg (by rw [decide_eq_true_eq]; exact hb)]
      exact ih w hw

end Sirf

namespace Sirf

theorem testBit_eq_and_one (m i : Nat) : m.testBit i = decide ((m >>> i) &&& 1 = 1) := by
  simp [Nat.testBit, Nat.and_comm]

theorem satsInMap_eq (m : Nat) :
    satsInMap m = (((List.range 32).filter (fun i => m.testBit i)).map (fun i => i + 1)).take 12 := by
  unfold satsInMap
  congr 2
  apply List.filter_congr
  intro i _
  rw [testBit_eq_and_one]

theorem fixPrn_eq (m : Nat) :
    fixPrn m = some (satsInMap m ++ List.replicate (12 - (satsInMap m).length) 0,
      (satsInMap m).length) := by
  have := prnLoop_written m (List.range 32) [] (by decide)
  simp only [List.length_nil, Nat.sub_zero, List.nil_append] at this
  exact this

theorem satsInMap_pairwise (m : Nat) : (satsInMap m).Pairwise (fun a b => a < b) := by
  unfold satsInMap
  apply List.Pairwise.sublist (List.take_sublist _ _)
  rw [List.pairwise_map]
  apply List.Pairwise.sublist (List.filter_sublist _)
  exact List.Pairwise.imp (fun h => Nat.add_lt_add_right h 1) (List.pairwise_lt_range 32)

/-- Claim C27. Satellites-in-fix bitmap: for every bitmap, the loop of `parseFix` writes
no element outside the 12-element array; the first `svInFix` elements of `prn` are, in
strictly increasing order, the values bit index + 1 of the set bits from bit 0 on, cut to
the first twelve; `svInFix` is the smaller of the number of set bits among the 32 and 12;
and the elements after them stay 0. The `Fix` decoded from a message holds this array and
count. -/
theorem fix_prn_bitmap (satsMap : Nat) :
    ∃ prn n, fixPrn satsMap = some (prn, n) ∧ prn.length = MAX_SAT_IN_USE ∧
      n = min ((List.range 32).filter (fun i => satsMap.testBit i)).length MAX_SAT_IN_USE ∧
      prn.take n = (((List.range 32).filter (fun i => satsMap.testBit i)).map
        (fun i => i + 1)).take MAX_SAT_IN_USE ∧
      (prn.take n).Pairwise (fun a b => a < b) ∧
      (∀ j, n ≤ j → j < MAX_SAT_IN_USE → prn.getD j 0 = 0) ∧
      ∀ v : List Nat, v.getD 8 0 = satsMap → (fixOf v).prn = prn ∧ (fixOf v).svInFix = n := by
  have hM : MAX_SAT_IN_USE = 12 := rfl
  have hlen : (satsInMap satsMap).length
      = min ((List.range 32).filter (fun i => satsMap.testBit i)).length 12 := by
    rw [satsInMap_eq, List.length_take, List.length_map, Nat.min_comm]
  refine ⟨satsInMap satsMap ++ List.replicate (12 - (satsInMap satsMap).length) 0,
    (satsInMap satsMap).length, fixPrn_eq satsMap, ?_, ?_, ?_, ?_, ?_, ?_⟩
  · rw [List.length_append, List.length_replicate, hM]
    omega
  · rw [hM]
    exact hlen
  · rw [List.take_left', hM]
    · exact satsInMap_eq satsMap
    · rfl
  · rw [List.take_left' rfl]
    exact satsInMap_pairwise satsMap
  · intro j hj hj12
    rw [List.getD_append_right _ _ _ _ hj, List.getD_eq_getElem?_getD, List.getElem?_replicate]
    split_ifs <;> rfl
  · intro v hv
    subst hv
    exact ⟨rfl, rfl⟩

/-- Claim C27 at the bitmap with all 32 bits set, where the loop stops after the twelfth
write, and at the bitmap with the bits 0, 2 and 31 set. -/
theorem fix_prn_bitmap_witness :
    fixPrn 0xFFFFFFFF = some ([1, 2, 3, 4, 5, 6, 7, 8, 9, 10, 11, 12], 12) ∧
    fixPrn 0x80000005 = some ([1, 3, 32, 0, 0, 0, 0, 0, 0, 0, 0, 0], 3) := by
  decide

end Sirf

namespace Sirf

theorem peek_one : ∀ (x : List Nat) (k : Nat), k < x.length →
    ((x.drop k).take 1).foldl (fun a b => a * 256 + b) 0 = x.getD k 0 := by
  intro x
  induction x with
  | nil => intro k h; simp at h
  | cons b r ih =>
    intro k h
    cases k with
    | zero => simp
    | succ k =>
      simp only [List.drop_succ_cons, List.getD_cons_succ]
      exact ih k (by simpa using h)

/-- A `read8` inside the bytes `x` that follow the prefix `pre`. -/
theorem read8_at (pre x : List Nat) (k : Nat) (h : k < x.length) :
    SirfInputStream.read8 ⟨pre ++ x, pre.length + k⟩
      = some (x.getD k 0, ⟨pre ++ x, pre.length + k + 1⟩) := by
  unfold SirfInputStream.read8
  rw [skip_ok _ 1 (by simp only [List.length_append]; omega)]
  simp only [Option.map_some', SirfInputStream.peek, List.drop_append, peek_one x k h]

/-- The loop of `parseSatellites` over channels of 15 bytes each that follow the prefix
`pre`: the channels with a non-zero identifier are appended in order and the stream ends up
behind them. -/
theorem parseChannels_chans (timetag : Nat) :
    ∀ (chans : List (List Nat)) (pre tail : List Nat) (sats : List Satellite),
      (∀ c ∈ chans, c.length = 15) →
      parseChannels timetag chans.length ⟨pre ++ (chans.flatten ++ tail), pre.length⟩ sats
        = some (sats ++ (chans.filter (fun c => c.getD 0 0 ≠ 0)).map
              (fun c => ⟨c.getD 0 0, c.getD 1 0 * 3 / 2, c.getD 2 0 / 2, c.getD 14 0, timetag⟩),
            ⟨pre ++ (chans.flatten ++ tail), pre.length + chans.flatten.length⟩) := by
  intro chans
  induction chans with
  | nil => intro pre tail sats _; simp [parseChannels]
  | cons c cs ih =>
    intro pre tail sats h
    have hc : c.length = 15 := h c (List.mem_cons_self _ _)
    have hx : 15 ≤ (c ++ cs.flatten ++ tail).length := by
      simp only [List.length_append]; omega
    have hg : ∀ k, k < 15 → (c ++ cs.flatten ++ tail).getD k 0 = c.getD k 0 := by
      intro k hk
      rw [List.append_assoc, List.getD_append _ _ _ _ (by omega)]
    have hbytes : pre ++ ((c :: cs).flatten ++ tail) = pre ++ (c ++ cs.flatten ++ tail) := by
      simp
    have hlen : (pre ++ (c ++ cs.flatten ++ tail)).length
        = pre.length + (c ++ cs.flatten ++ tail).length := List.length_append _ _
    rw [hbytes, List.length_cons]
    unfold parseChannels
    have r0 := read8_at pre (c ++ cs.flatten ++ tail) 0 (by omega)
    rw [Nat.add_zero] at r0
    rw [r0]
    simp only [Option.some_bind]
    rw [read8_at pre _ 1 (by omega)]
    simp only [Option.some_bind]
    rw [read8_at pre _ 2 (by omega)]
    simp only [Option.some_bind]
    rw [skip_ok _ 2 (by simp only [hlen]; omega)]
    simp only [Option.some_bind]
    rw [skip_ok _ 9 (by simp only [hlen]; omega)]
    simp only [Option.some_bind]
    have e14 : pre.length + 2 + 1 + 2 + 9 = pre.length + 14 := by omega
    rw [e14, read8_at pre _ 14 (by omega)]
    simp only [Option.some_bind, hg 0 (by omega), hg 1 (by omega), hg 2 (by omega),
      hg 14 (by omega)]
    have hnext := ih (pre ++ c) tail
      (if c.getD 0 0 ≠ 0 then
        sats ++ [⟨c.getD 0 0, c.getD 1 0 * 3 / 2, c.getD 2 0 / 2, c.getD 14 0, timetag⟩]
      else sats) (fun x hxm => h x (List.mem_cons_of_mem _ hxm))
    have hb2 : pre ++ c ++ (cs.flatten ++ tail) = pre ++ (c ++ cs.flatten ++ tail) := by simp
    have hl2 : (pre ++ c).length = pre.length + 14 + 1 := by
      rw [List.length_append, hc]
    rw [hb2, hl2] at hnext
    rw [hnext]
    have hj : (c :: cs).flatten.length = 15 + cs.flatten.length := by
      simp [hc]
    have ho : pre.length + 14 + 1 + cs.flatten.length
        = pre.length + (15 + cs.flatten.length) := by omega
    rw [hj, ho]
    by_cases hz : c.getD 0 0 = 0
    · rw [if_neg (not_not.2 hz), List.filter_cons,
        if_neg (by rw [decide_eq_true_eq]; exact not_not.2 hz)]
    · rw [if_pos hz, List.filter_cons, if_pos (decide_eq_true hz), List.map_cons,
        List.append_assoc]
      rfl

end Sirf

namespace Sirf

/-- The reads of `parseSatellites` before its loop, on a payload of message id 4 with the
week `w1 w0`, the time of week `t3 t2 t1 t0` and the count byte `n`. -/
theorem parseSatellites_header (w1 w0 t3 t2 t1 t0 n : Nat) (rest : List Nat) :
    parseSatellites ⟨[4, w1, w0, t3, t2, t1, t0, n] ++ rest, 1⟩ =
      if rest.length ≠ n * 15 then some []
      else
        (parseChannels
          (fromGPSTime (w1 * 256 + w0) ((((t3 * 256 + t2) * 256 + t1) * 256 + t0) / 100)) n
          ⟨[4, w1, w0, t3, t2, t1, t0, n] ++ rest, 8⟩ []).bind fun r =>
        if r.2.avail ≠ 0 then none else some r.1 := by
  unfold parseSatellites
  simp only [SirfInputStream.read16, SirfInputStream.read32, SirfInputStream.read8]
  rw [skip_ok _ 2 (by simp only [List.length_append, List.length_cons]; omega)]
  simp only [Option.map_some', Option.some_bind]
  rw [skip_ok _ 4 (by simp only [List.length_append, List.length_cons]; omega)]
  simp only [Option.map_some', Option.some_bind]
  rw [skip_ok _ 1 (by simp only [List.length_append, List.length_cons]; omega)]
  simp only [Option.map_some', Option.some_bind]
  have p2 : SirfInputStream.peek ⟨[4, w1, w0, t3, t2, t1, t0, n] ++ rest, 1⟩ 2
      = w1 * 256 + w0 := by
    simp [SirfInputStream.peek]
  have p4 : SirfInputStream.peek ⟨[4, w1, w0, t3, t2, t1, t0, n] ++ rest, 1 + 2⟩ 4
      = ((t3 * 256 + t2) * 256 + t1) * 256 + t0 := by
    simp [SirfInputStream.peek]
  have p1 : SirfInputStream.peek ⟨[4, w1, w0, t3, t2, t1, t0, n] ++ rest, 1 + 2 + 4⟩ 1
      = n := by
    simp [SirfInputStream.peek]
  have hav : SirfInputStream.avail ⟨[4, w1, w0, t3, t2, t1, t0, n] ++ rest, 1 + 2 + 4 + 1⟩
      = rest.length := by
    simp [SirfInputStream.avail, SirfInputStream.size]
  rw [p2, p4, p1, hav]

/-- Claim C28. Per-satellite tracking message: for a payload of message id 4 whose count
byte (after the 2-byte week and the 4-byte time of week) is the number of 15-byte channels
that follow, the decoded list holds, in channel order, exactly the channels whose identifier
byte is non-zero, each with `satelliteId` that byte, `azimuth = 3 a / 2` and
`elevation = e / 2` rounded down for its azimuth byte `a` and elevation byte `e`, and `snr`
its fifteenth byte, the last of the ten C/N0 bytes; when the number of bytes that follow the
count byte `n` differs from `15 n` the list is empty. -/
theorem tracker_message (w1 w0 t3 t2 t1 t0 : Nat) (chans : List (List Nat))
    (hch : ∀ c ∈ chans, c.length = 15) :
    parseSatellites ⟨[4, w1, w0, t3, t2, t1, t0, chans.length] ++ chans.flatten, 1⟩
      = some ((chans.filter (fun c => c.getD 0 0 ≠ 0)).map (fun c =>
          ⟨c.getD 0 0, c.getD 1 0 * 3 / 2, c.getD 2 0 / 2, c.getD 14 0,
            fromGPSTime (w1 * 256 + w0)
              ((((t3 * 256 + t2) * 256 + t1) * 256 + t0) / 100)⟩)) ∧
    ∀ (n : Nat) (rest : List Nat), rest.length ≠ 15 * n →
      parseSatellites ⟨[4, w1, w0, t3, t2, t1, t0, n] ++ rest, 1⟩ = some [] := by
  constructor
  · have hlen : ∀ l : List (List Nat), (∀ c ∈ l, c.length = 15) →
        l.flatten.length = l.length * 15 := by
      intro l
      induction l with
      | nil => intro _; rfl
      | cons c cs ih =>
        intro h
        rw [List.flatten_cons, List.length_append, h c (List.mem_cons_self _ _),
          ih (fun x hx => h x (List.mem_cons_of_mem _ hx)), List.length_cons]
        omega
    rw [parseSatellites_header, if_neg (not_not.2 (hlen chans hch))]
    have := parseChannels_chans
      (fromGPSTime (w1 * 256 + w0) ((((t3 * 256 + t2) * 256 + t1) * 256 + t0) / 100))
      chans [4, w1, w0, t3, t2, t1, t0, chans.length] [] [] hch
    rw [List.append_nil] at this
    have h8 : [4, w1, w0, t3, t2, t1, t0, chans.length].length = 8 := rfl
    rw [h8] at this
    rw [this]
    simp only [Option.some_bind, List.nil_append]
    have hav : SirfInputStream.avail
        ⟨[4, w1, w0, t3, t2, t1, t0, chans.length] ++ chans.flatten, 8 + chans.flatten.length⟩
        = 0 := by
      simp only [SirfInputStream.avail, SirfInputStream.size, List.length_append,
        List.length_cons, List.length_nil]
      omega
    rw [if_neg (not_not.2 hav)]
  · intro n rest h
    rw [parseSatellites_header, if_pos (by omega)]

set_option maxRecDepth 1000000 in
/-- Claim C28 at a payload of two channels, the first with identifier 0, the second with
identifier 7, azimuth byte 101, elevation byte 31 and C/N0 bytes 1..10. -/
theorem tracker_message_witness :
    parseSatellites ⟨[4, 0, 1, 0, 0, 0, 200, 2] ++
        ([0, 9, 9, 0, 0, 0, 0, 0, 0, 0, 0, 0, 0, 0, 9] ++
         [7, 101, 31, 0, 0, 1, 2, 3, 4, 5, 6, 7, 8, 9, 10]), 1⟩
      = some [⟨7, 151, 15, 10, fromGPSTime 1 2⟩] :=
  (tracker_message 0 1 0 0 0 200
    [[0, 9, 9, 0, 0, 0, 0, 0, 0, 0, 0, 0, 0, 0, 9],
     [7, 101, 31, 0, 0, 1, 2, 3, 4, 5, 6, 7, 8, 9, 10]] (by decide)).1

end Sirf

namespace NMEA

/-- An accepted text has as many tokens as the format declares fields. -/
theorem accept_tokens (p : SentencePtr) (u : Int) (x : Text) (dst : Dataset)
    (h : (p.parse u x dst).1 = true) :
    calcTokens ((x.drop 6).take (x.length - 3 - 5 - 1)) = p.sentence.format.length := by
  have hbase : (p.sentence.parse u x Dataset.empty).1 = true := by
    unfold SentencePtr.parse at h
    split_ifs at h
    · exact (gsv_parse_accepted _ u x dst h).1
    · rw [Sentence.parse_fst_indep _ u x Dataset.empty dst]; exact h
  have := ((Sentence.parse_fst_iff _ u x Dataset.empty).1 hbase).2.2.2
  unfold payloadOf at this
  rw [head_length_five] at this
  exact this

/-- At most one format of the catalog accepts a text. -/
theorem acceptor_unique (p q : SentencePtr) (u : Int) (x : Text) (d1 d2 : Dataset)
    (hp : (p.parse u x d1).1 = true) (hq : (q.parse u x d2).1 = true) : p = q := by
  have hhead : p.sentence.head = q.sentence.head :=
    (accept_head p u x d1 hp).symm.trans (accept_head q u x d2 hq)
  have hlen : p.sentence.format.length = q.sentence.format.length :=
    (accept_tokens p u x d1 hp).symm.trans (accept_tokens q u x d2 hq)
  revert hhead hlen
  cases p <;> cases q <;> decide

/-- The inner loop of `NMEA::parse` when a format of the chain accepts the text. -/
theorem parseChain_accepted (u : Int) (x : Text) (p : SentencePtr) :
    ∀ (chain : List SentencePtr) (dst : Dataset) (s : Nat), p ∈ chain →
      (p.parse u x dst).1 = true →
      parseChain u x chain dst s = ((p.parse u x dst).2, s ||| toSentenceId p) := by
  intro chain
  induction chain with
  | nil => intro dst s h; simp at h
  | cons q rest ih =>
    intro dst s hmem hacc
    unfold parseChain
    simp only
    by_cases hq : (q.parse u x dst).1 = true
    · rw [if_pos hq, acceptor_unique q p u x dst dst hq hacc]
    · have hp : p ≠ q := fun e => hq (e ▸ hacc)
      have hrest : p ∈ rest := by
        rcases List.mem_cons.1 hmem with h | h
        · exact absurd h hp
        · exact h
      rw [if_neg hq, ptr_rejected_snd q u x dst (by simpa using hq)]
      exact ih dst s hrest hacc

/-- The inner loop of `NMEA::parse` gives the same store and mask for every order of the
chain, the calls reading one and the same value `u` of the uninitialised field. -/
theorem parseChain_perm (u : Int) (x : Text) (chain other : List SentencePtr)
    (hperm : other.Perm chain) (dst : Dataset) (s : Nat) :
    parseChain u x other dst s = parseChain u x chain dst s := by
  by_cases h : ∃ p ∈ chain, (p.parse u x dst).1 = true
  · obtain ⟨p, hp, hacc⟩ := h
    rw [parseChain_accepted u x p chain dst s hp hacc,
      parseChain_accepted u x p other dst s (hperm.mem_iff.2 hp) hacc]
  · have hrej : ∀ p ∈ chain, (p.parse u x Dataset.empty).1 = false := by
      intro p hp
      rw [← gsv_parse_fst_indep p u x dst Dataset.empty]
      by_contra hne
      exact h ⟨p, hp, by simpa using hne⟩
    rw [parseChain_rejected u x chain dst s hrej,
      parseChain_rejected u x other dst s (fun p hp => hrej p (hperm.mem_iff.1 hp))]

/-- The outer loop of `NMEA::parse` likewise, for one value `u`. -/
theorem parseLoop_perm (u : Int) (chain other : List SentencePtr) (hperm : other.Perm chain) :
    ∀ (fuel : Nat) (next : Text) (dst : Dataset) (s : Nat),
      parseLoop u other fuel next dst s = parseLoop u chain fuel next dst s := by
  intro fuel
  induction fuel with
  | zero => intro next dst s; rfl
  | succ fuel ih =>
    intro next dst s
    unfold parseLoop
    cases Sentence.find next with
    | none => rfl
    | some r =>
      simp only
      rw [parseChain_perm u r.1 chain other hperm dst s]
      exact ih _ _ _

end NMEA

namespace NMEA

theorem cstr_take_prefix : ∀ (a r : Text) (h : Nat), h ≤ a.length →
    (cstr (a ++ r)).take h = (cstr a).take h := by
  intro a
  induction a with
  | nil =>
    intro r h hle
    have : h = 0 := by simpa using hle
    subst this
    rfl
  | cons c a ih =>
    intro r h hle
    cases h with
    | zero => rfl
    | succ h =>
      by_cases hc : c = 0
      · subst hc
        rfl
      · have e1 : cstr (c :: a ++ r) = c :: cstr (a ++ r) := by
          unfold cstr
          rw [List.cons_append, List.takeWhile_cons_of_pos (by simpa using hc)]
        have e2 : cstr (c :: a) = c :: cstr a := by
          unfold cstr
          rw [List.takeWhile_cons_of_pos (by simpa using hc)]
        rw [e1, e2, List.take_succ_cons, List.take_succ_cons,
          ih r h (by simpa using hle)]

/-- Method `Sentence::parse` on a text of `a`, one byte `z` and two more bytes `b`: the byte
`z` at index `length - 3` takes no part in the result. -/
theorem parse_marker (self : Sentence) (u : Int) (a b : Text) (z : Nat) (dst : Dataset)
    (hb : b.length = 2) :
    self.parse u (a ++ z :: b) dst =
      if a.length < self.head.length + 1 then (false, dst)
      else if (cstr a).take self.head.length ≠ self.head then (false, dst)
      else if int32 (calcChecksum a) ≠ extractChecksum b then (false, dst)
      else self.parsePayload u (a.drop (self.head.length + 1)) dst := by
  have hl : (a ++ z :: b).length = a.length + 3 := by
    rw [List.length_append, List.length_cons, hb]
  unfold Sentence.parse
  rw [hl]
  by_cases h1 : a.length < self.head.length + 1
  · rw [if_pos (by omega), if_pos h1]
  · rw [if_neg (by omega), if_neg h1, cstr_take_prefix a (z :: b) _ (by omega)]
    have e1 : (a ++ z :: b).take (a.length + 3 - 3) = a := by
      rw [Nat.add_sub_cancel, List.take_left' rfl]
    have e2 : (a ++ z :: b).drop (a.length + 3 - 3 + 1) = b := by
      rw [Nat.add_sub_cancel, List.drop_append, List.drop_succ_cons, List.drop_zero]
    have e3 : ((a ++ z :: b).drop (self.head.length + 1)).take
        (a.length + 3 - 3 - self.head.length - 1) = a.drop (self.head.length + 1) := by
      rw [List.drop_append_of_le_length (by omega), List.take_left']
      rw [List.length_drop]
      omega
    simp only [e1, e2, e3]

end NMEA

namespace NMEA

/-- Only the time-of-day codec reads the uninitialised field. -/
theorem token_parse_indep (u w : Int) (token : Token) (s : Text) (h : token ≠ Token.time) :
    token.parse u s = token.parse w s := by
  cases token <;> first | rfl | exact absurd rfl h

/-- The loop of `Sentence::parsePayload` run with two values of the uninitialised field on
two stores that agree on a field which is not a time of day of the format: the results agree
on that field. -/
theorem parseFields_agree (u w : Int) (key : Nat) :
    ∀ (fmt : List Field) (p : Text) (d1 d2 : Dataset),
      (∀ f ∈ fmt, f.2 = Token.time → f.1 ≠ key) → d1 key = d2 key →
      Sentence.parseFields u fmt p d1 key = Sentence.parseFields w fmt p d2 key := by
  intro fmt
  induction fmt with
  | nil => intro p d1 d2 _ h; exact h
  | cons f rest ih =>
    obtain ⟨id, token⟩ := f
    intro p d1 d2 hfmt h
    simp only [Sentence.parseFields]
    apply ih _ _ _ (fun g hg => hfmt g (List.mem_cons_of_mem _ hg))
    by_cases hid : key = id
    · subst hid
      have hnt : token ≠ Token.time := fun ht => hfmt (key, token) (List.mem_cons_self _ _) ht rfl
      rw [token_parse_indep u w token _ hnt]
      split
      · split
        · rw [Dataset.set_same, Dataset.set_same]
        · rw [Dataset.remove_same, Dataset.remove_same]
      · rw [Dataset.remove_same, Dataset.remove_same]
    · split
      · split <;> split <;>
          simp only [Dataset.set_other _ _ hid, Dataset.remove_other _ hid, h]
      · rw [Dataset.remove_other _ hid, Dataset.remove_other _ hid, h]

/-- The result of `Sentence::parse` does not depend on the uninitialised field, and neither
does the store it leaves, outside the time-of-day fields of the format. -/
theorem sentence_parse_agree (self : Sentence) (u w : Int) (text : Text) (d1 d2 : Dataset) :
    (self.parse u text d1).1 = (self.parse w text d2).1 ∧
    ∀ key, (∀ f ∈ self.format, f.2 = Token.time → f.1 ≠ key) → d1 key = d2 key →
      (self.parse u text d1).2 key = (self.parse w text d2).2 key := by
  have hacc : (self.parse u text d1).1 = (self.parse w text d2).1 := by
    have h1 := Sentence.parse_fst_iff self u text d1
    have h2 := Sentence.parse_fst_iff self w text d2
    cases h : (self.parse u text d1).1 <;> cases h' : (self.parse w text d2).1 <;> simp_all
  refine ⟨hacc, ?_⟩
  intro key hfmt h
  rw [Sentence.parse_snd, Sentence.parse_snd, hacc]
  split
  · exact parseFields_agree u w key _ _ _ _ hfmt h
  · exact h

/-- A format without a time-of-day field decodes the same whatever the uninitialised field
holds. -/
theorem sentence_parse_timeless (self : Sentence) (u w : Int) (text : Text) (dst : Dataset)
    (hnt : ∀ f ∈ self.format, f.2 ≠ Token.time) :
    self.parse u text dst = self.parse w text dst := by
  obtain ⟨h1, h2⟩ := sentence_parse_agree self u w text dst dst
  apply Prod.ext h1
  funext key
  exact h2 key (fun f hf ht => absurd ht (hnt f hf)) rfl

theorem gsv_parse_agree (self : Sentence) (u w : Int) (text : Text) (d1 d2 : Dataset)
    (hnt : ∀ f ∈ self.format, f.2 ≠ Token.time) :
    (GSVSentence.parse self u text d1).1 = (GSVSentence.parse self w text d2).1 ∧
    ∀ key, d1 key = d2 key →
      (GSVSentence.parse self u text d1).2 key = (GSVSentence.parse self w text d2).2 key := by
  have hu : GSVSentence.parse self w text d2 = GSVSentence.parse self u text d2 := by
    unfold GSVSentence.parse
    rw [sentence_parse_timeless self w u text Dataset.empty hnt]
  rw [hu]
  have hacc : (GSVSentence.parse self u text d1).1 = (GSVSentence.parse self u text d2).1 := by
    unfold GSVSentence.parse
    simp only
    split_ifs <;> rfl
  refine ⟨hacc, ?_⟩
  intro key h
  cases hb : (GSVSentence.parse self u text d1).1 with
  | false =>
    rw [gsv_parse_rejected_snd self u text d1 hb,
      gsv_parse_rejected_snd self u text d2 (hacc ▸ hb)]
    exact h
  | true =>
    rw [(gsv_parse_accepted self u text d1 hb).2.2.2.2.2 key,
      (gsv_parse_accepted self u text d2 (hacc ▸ hb)).2.2.2.2.2 key, h]

/-- A time of day is decoded into the field `TIME` only. -/
theorem catalog_time_field (p : SentencePtr) :
    ∀ f ∈ p.sentence.format, f.2 = Token.time → f.1 = TIME := by
  cases p <;> decide

theorem gsv_catalog_timeless (p : SentencePtr) (h : p.isGSV = true) :
    ∀ f ∈ p.sentence.format, f.2 ≠ Token.time := by
  cases p <;> first | exact absurd h (by decide) | decide

/-- The virtual call on a catalog object with two values of the uninitialised field: the
results are the same and the stores left agree wherever the stores given agree, the field
`TIME` apart. -/
theorem ptr_parse_agree (p : SentencePtr) (u w : Int) (text : Text) (d1 d2 : Dataset) :
    (p.parse u text d1).1 = (p.parse w text d2).1 ∧
    ∀ key, key ≠ TIME → d1 key = d2 key → (p.parse u text d1).2 key = (p.parse w text d2).2 key := by
  unfold SentencePtr.parse
  by_cases hg : p.isGSV = true
  · rw [if_pos hg, if_pos hg]
    obtain ⟨h1, h2⟩ := gsv_parse_agree p.sentence u w text d1 d2 (gsv_catalog_timeless p hg)
    exact ⟨h1, fun key _ h => h2 key h⟩
  · rw [if_neg hg, if_neg hg]
    obtain ⟨h1, h2⟩ := sentence_parse_agree p.sentence u w text d1 d2
    exact ⟨h1, fun key hk h => h2 key
      (fun f hf ht he => hk (he ▸ catalog_time_field p f hf ht)) h⟩

theorem parseChain_agree (u w : Int) (text : Text) :
    ∀ (chain : List SentencePtr) (d1 d2 : Dataset) (s : Nat),
      (∀ key, key ≠ TIME → d1 key = d2 key) →
      (parseChain u text chain d1 s).2 = (parseChain w text chain d2 s).2 ∧
      ∀ key, key ≠ TIME → (parseChain u text chain d1 s).1 key
        = (parseChain w text chain d2 s).1 key := by
  intro chain
  induction chain with
  | nil => intro d1 d2 s h; exact ⟨rfl, h⟩
  | cons p rest ih =>
    intro d1 d2 s h
    obtain ⟨h1, h2⟩ := ptr_parse_agree p u w text d1 d2
    unfold parseChain
    simp only
    rw [h1]
    split_ifs
    · exact ⟨rfl, fun key hk => h2 key hk (h key hk)⟩
    · exact ih _ _ s (fun key hk => h2 key hk (h key hk))

/-- The outer loop of `NMEA::parse` with two values of the uninitialised field: the same
text remains, the same mask results, and the stores agree outside the field `TIME`. -/
theorem parseLoop_agree (u w : Int) (chain : List SentencePtr) :
    ∀ (fuel : Nat) (next : Text) (d1 d2 : Dataset) (s : Nat),
      (∀ key, key ≠ TIME → d1 key = d2 key) →
      (parseLoop u chain fuel next d1 s).1 = (parseLoop w chain fuel next d2 s).1 ∧
      (parseLoop u chain fuel next d1 s).2.2 = (parseLoop w chain fuel next d2 s).2.2 ∧
      ∀ key, key ≠ TIME → (parseLoop u chain fuel next d1 s).2.1 key
        = (parseLoop w chain fuel next d2 s).2.1 key := by
  intro fuel
  induction fuel with
  | zero => intro next d1 d2 s h; exact ⟨rfl, rfl, h⟩
  | succ fuel ih =>
    intro next d1 d2 s h
    unfold parseLoop
    cases Sentence.find next with
    | none => exact ⟨rfl, rfl, h⟩
    | some r =>
      simp only
      obtain ⟨c1, c2⟩ := parseChain_agree u w r.1 chain d1 d2 s h
      rw [c1]
      exact ih _ _ _ _ c2

/-- The function `NMEA::parse` with two values of the uninitialised field on stores that
agree outside the field `TIME`: the same count and mask, and stores that agree outside
`TIME`. -/
theorem parse_agree (u w : Int) (text : Text) (d1 d2 : Dataset) (s : Nat)
    (h : ∀ key, key ≠ TIME → d1 key = d2 key) :
    (parse u text d1 s).1 = (parse w text d2 s).1 ∧
    (parse u text d1 s).2.2 = (parse w text d2 s).2.2 ∧
    ∀ key, key ≠ TIME → (parse u text d1 s).2.1 key = (parse w text d2 s).2.1 key := by
  unfold parse
  simp only
  generalize getSentences _ = chain
  obtain ⟨a1, a2, a3⟩ := parseLoop_agree u w chain (text.length + 1) text d1 d2 0 h
  rw [a1]
  exact ⟨rfl, a2, a3⟩

end NMEA

namespace NMEA

/-- Claim C13 on the code, each of the three calls reading its own value (`u1`, `u2`, `u3`)
of the uninitialised `Time::hsecond`. For texts `a` without NUL bytes and `b`, any store:
parsing `a`, discarding the bytes consumed and parsing the remainder of `a` followed by `b`
consumes in total the bytes one call on `a` followed by `b` consumes; the two stores agree
on every field other than `TIME`; they are equal when the three calls read the same value.
They differ on `TIME` otherwise: for the sentence of `test_parse_new_rmc`, whose time of day
`"123519"` has no fraction, followed by nothing, the store of the two calls holds the
hsecond `u1` and the store of the one call holds `u3`. -/
theorem split_read_independence (u1 u2 u3 : Int) (a b : Text) (dst : Dataset) (s : Nat)
    (ha : 0 ∉ a) :
    ((parse u1 a dst s).1
        + (parse u2 (a.drop (parse u1 a dst s).1 ++ b) (parse u1 a dst s).2.1 s).1
      = (parse u3 (a ++ b) dst s).1) ∧
    (∀ key, key ≠ TIME →
      (parse u2 (a.drop (parse u1 a dst s).1 ++ b) (parse u1 a dst s).2.1 s).2.1 key
        = (parse u3 (a ++ b) dst s).2.1 key) ∧
    (u2 = u1 → u3 = u1 →
      (parse u2 (a.drop (parse u1 a dst s).1 ++ b) (parse u1 a dst s).2.1 s).2.1
        = (parse u3 (a ++ b) dst s).2.1) ∧
    ((parse u2 (newRmcText.drop (parse u1 newRmcText Info.new ALL).1 ++ [])
        (parse u1 newRmcText Info.new ALL).2.1 ALL).2.1 TIME
        = some (Variant.time ⟨12, 35, 19, u1⟩) ∧
      (parse u3 (newRmcText ++ []) Info.new ALL).2.1 TIME
        = some (Variant.time ⟨12, 35, 19, u3⟩)) := by
  obtain ⟨hstore, hcount⟩ := split_read_one_value u1 a b dst s ha
  obtain ⟨c2, _, d2⟩ := parse_agree u2 u1 (a.drop (parse u1 a dst s).1 ++ b)
    (parse u1 a dst s).2.1 (parse u1 a dst s).2.1 s (fun _ _ => rfl)
  obtain ⟨c3, _, d3⟩ := parse_agree u3 u1 (a ++ b) dst dst s (fun _ _ => rfl)
  refine ⟨?_, ?_, ?_, ?_, ?_⟩
  · rw [c2, c3]
    exact hcount
  · intro key hk
    rw [d2 key hk, d3 key hk, hstore]
  · intro e2 e3
    rw [e2, e3]
    exact hstore
  · rfl
  · rfl

set_option maxRecDepth 100000 in
/-- Claim C13 at the capture of `test_loop_back` cut in the middle of its third sentence,
the three calls reading 0, 1 and 2: the byte counts add up. -/
theorem split_read_independence_witness :
    0 ∉ loopBackText.take 150 ∧
    (parse 0 (loopBackText.take 150) Info.new ALL).1 +
        (parse 1 ((loopBackText.take 150).drop
          (parse 0 (loopBackText.take 150) Info.new ALL).1 ++ loopBackText.drop 150)
          (parse 0 (loopBackText.take 150) Info.new ALL).2.1 ALL).1
      = (parse 2 (loopBackText.take 150 ++ loopBackText.drop 150) Info.new ALL).1 :=
  ⟨by decide,
    (split_read_independence 0 1 2 (loopBackText.take 150) (loopBackText.drop 150) Info.new ALL
      (by decide)).1⟩

end NMEA

namespace NMEA

/-- Claim C29 on the code, the two executions that are compared reading their own values
`u1` and `u2` of the uninitialised `Time::hsecond`. For every sentence text at most one
format of the catalog accepts it, in particular at most one of the two GPGSA formats and at
most one of the four GPGSV formats, since an accepted text has as many tokens as the format
declares fields. Hence, for every order in which the formats of the chain are tried, the
inner and the outer loop of `NMEA::parse` give the same mask, the same remaining text and
stores that agree on every field other than `TIME`, and equal stores when both executions
read the same value. The stores differ on `TIME` otherwise: for the sentence of
`test_parse_new_rmc` and the two GPRMC formats in either order, one holds the hsecond `u1`
and the other `u2`. -/
theorem dispatch_order_independent (u1 u2 : Int) (text : Text) (dst : Dataset) :
    (∀ p q : SentencePtr, (p.parse u1 text dst).1 = true → (q.parse u2 text dst).1 = true →
      p = q) ∧
    ((SentencePtr.GSA.parse u1 text dst).1 = true →
      (SentencePtr.GSA1.parse u2 text dst).1 = false) ∧
    (∀ p ∈ [SentencePtr.GSV, SentencePtr.GSV1, SentencePtr.GSV2, SentencePtr.GSV3],
      (p.parse u1 text dst).1 = true →
      ∀ q ∈ [SentencePtr.GSV, SentencePtr.GSV1, SentencePtr.GSV2, SentencePtr.GSV3],
        q ≠ p → (q.parse u2 text dst).1 = false) ∧
    (∀ (p : SentencePtr), (p.parse u1 text dst).1 = true →
      (payloadOf p.sentence text).count 44 + 1 = p.sentence.format.length) ∧
    (∀ (chain other : List SentencePtr) (s : Nat), other.Perm chain →
      (parseChain u1 text other dst s).2 = (parseChain u2 text chain dst s).2 ∧
      (∀ key, key ≠ TIME →
        (parseChain u1 text other dst s).1 key = (parseChain u2 text chain dst s).1 key) ∧
      (u1 = u2 → parseChain u1 text other dst s = parseChain u2 text chain dst s)) ∧
    (∀ (chain other : List SentencePtr) (fuel s : Nat), other.Perm chain →
      (parseLoop u1 other fuel text dst s).1 = (parseLoop u2 chain fuel text dst s).1 ∧
      (parseLoop u1 other fuel text dst s).2.2 = (parseLoop u2 chain fuel text dst s).2.2 ∧
      (∀ key, key ≠ TIME →
        (parseLoop u1 other fuel text dst s).2.1 key
          = (parseLoop u2 chain fuel text dst s).2.1 key) ∧
      (u1 = u2 → parseLoop u1 other fuel text dst s = parseLoop u2 chain fuel text dst s)) ∧
    ((parseChain u1 newRmcBody [SentencePtr.RMC, SentencePtr.RMC1] Info.new 0).1 TIME
        = some (Variant.time ⟨12, 35, 19, u1⟩) ∧
      (parseChain u2 newRmcBody [SentencePtr.RMC1, SentencePtr.RMC] Info.new 0).1 TIME
        = some (Variant.time ⟨12, 35, 19, u2⟩)) := by
  have hacc : ∀ q : SentencePtr, (q.parse u2 text dst).1 = (q.parse u1 text dst).1 :=
    fun q => (ptr_parse_agree q u2 u1 text dst dst).1
  refine ⟨fun p q hp hq => acceptor_unique p q u1 text dst dst hp ((hacc q) ▸ hq), ?_, ?_, ?_,
    ?_, ?_, rfl, rfl⟩
  · intro h
    by_contra hne
    have hq : (SentencePtr.GSA1.parse u1 text dst).1 = true := by
      rw [← hacc]; simpa using hne
    exact absurd (acceptor_unique _ _ u1 text dst dst h hq) (by decide)
  · intro p _ hp q _ hqp
    by_contra hne
    have hq : (q.parse u1 text dst).1 = true := by
      rw [← hacc]; simpa using hne
    exact hqp (acceptor_unique _ _ u1 text dst dst hq hp)
  · intro p hp
    have := accept_tokens p u1 text dst hp
    rw [calcTokens_eq] at this
    unfold payloadOf
    rw [head_length_five]
    exact this
  · intro chain other s h
    rw [parseChain_perm u1 text chain other h dst s]
    obtain ⟨a1, a2⟩ := parseChain_agree u1 u2 text chain dst dst s (fun _ _ => rfl)
    exact ⟨a1, a2, fun e => by rw [e]⟩
  · intro chain other fuel s h
    rw [parseLoop_perm u1 chain other h fuel text dst s]
    obtain ⟨a1, a2, a3⟩ := parseLoop_agree u1 u2 chain fuel text dst dst s (fun _ _ => rfl)
    exact ⟨a1, a2, a3, fun e => by rw [e]⟩

set_option maxRecDepth 1000000 in
/-- Claim C29 at the GPGSA sentence of `test_loop_back`, with the two GPGSA formats tried in
either order by executions that read 0 and 1: the same store and the mask `GSA`. -/
theorem dispatch_order_independent_witness :
    (∀ key, key ≠ TIME →
      (parseChain 0 (str "GPGSA,A,3,01,02,03,04,05,06,07,08,,,,,,1.5,*3E")
          [SentencePtr.GSA1, SentencePtr.GSA] Info.new 0).1 key
        = (parseChain 1 (str "GPGSA,A,3,01,02,03,04,05,06,07,08,,,,,,1.5,*3E")
          [SentencePtr.GSA, SentencePtr.GSA1] Info.new 0).1 key) ∧
    (parseChain 0 (str "GPGSA,A,3,01,02,03,04,05,06,07,08,,,,,,1.5,*3E")
        [SentencePtr.GSA1, SentencePtr.GSA] Info.new 0).2 = GSA :=
  ⟨((dispatch_order_independent 0 1 (str "GPGSA,A,3,01,02,03,04,05,06,07,08,,,,,,1.5,*3E")
      Info.new).2.2.2.2.1 _ _ 0 (List.Perm.swap _ _ _)).2.1, by decide⟩

end NMEA

namespace NMEA

/-- Claim C30 on the code, the two calls reading their own values `u1` and `u2` of the
uninitialised `Time::hsecond`. For every format, store and two texts of equal length that
differ only in the byte at index `length - 3`, `Sentence::parse` returns the same result,
and the two stores agree on every field that is not a time of day of the format; they are
equal when the format has no time of day or both calls read the same value. A text is
accepted exactly when it starts with the header followed by one more byte, its last two
bytes read as hex digits give the checksum of its first `length - 3` bytes, and the payload
has as many tokens as the format declares, whatever the byte at `length - 3` is. The stores
differ on `TIME` when the values read differ: for the sentence of `test_parse_new_rmc` and
the same sentence with `'X'` for `'*'`, one holds the hsecond `u1` and the other `u2`. -/
theorem checksum_marker_ignored (self : Sentence) (u1 u2 : Int) (a b : Text) (x y : Nat)
    (dst : Dataset) (hb : b.length = 2) :
    (self.parse u1 (a ++ x :: b) dst).1 = (self.parse u2 (a ++ y :: b) dst).1 ∧
    (∀ key, (∀ f ∈ self.format, f.2 = Token.time → f.1 ≠ key) →
      (self.parse u1 (a ++ x :: b) dst).2 key = (self.parse u2 (a ++ y :: b) dst).2 key) ∧
    ((∀ f ∈ self.format, f.2 ≠ Token.time) →
      self.parse u1 (a ++ x :: b) dst = self.parse u2 (a ++ y :: b) dst) ∧
    (u1 = u2 → self.parse u1 (a ++ x :: b) dst = self.parse u2 (a ++ y :: b) dst) ∧
    ((self.parse u1 (a ++ x :: b) dst).1 = true ↔
      self.head.length + 1 ≤ a.length ∧ (cstr a).take self.head.length = self.head ∧
      int32 (calcChecksum a) = extractChecksum b ∧
      calcTokens (a.drop (self.head.length + 1)) = self.format.length) ∧
    ((sRMC1.parse u1 newRmcBody Info.new).2 TIME = some (Variant.time ⟨12, 35, 19, u1⟩) ∧
      (sRMC1.parse u2 newRmcMarked Info.new).2 TIME = some (Variant.time ⟨12, 35, 19, u2⟩)) := by
  have hxy : self.parse u2 (a ++ y :: b) dst = self.parse u2 (a ++ x :: b) dst := by
    rw [parse_marker self u2 a b x dst hb, parse_marker self u2 a b y dst hb]
  obtain ⟨h1, h2⟩ := sentence_parse_agree self u1 u2 (a ++ x :: b) dst dst
  refine ⟨?_, ?_, ?_, ?_, ?_, rfl, rfl⟩
  · rw [hxy]; exact h1
  · intro key hk
    rw [hxy]
    exact h2 key hk rfl
  · intro hnt
    rw [hxy]
    exact sentence_parse_timeless self u1 u2 _ dst hnt
  · intro e
    rw [hxy, e]
  · rw [parse_marker self u1 a b x dst hb]
    unfold Sentence.parsePayload
    split_ifs with h1 h2 h3 h4
    · simp; omega
    · simp [h2]
    · simp [h3]
    · simp [h4]
    · simp only [true_iff]
      exact ⟨by omega, not_not.1 h2, not_not.1 h3, not_not.1 h4⟩

set_option maxRecDepth 1000000 in
/-- Claim C30 at the GPGGA sentence of a fresh `Info` with `'X'` in place of `'*'`: it is
accepted like the sentence itself. -/
theorem checksum_marker_ignored_witness :
    (sGGA.parse 0 (str "GPGGA,,,,,,0,,,,,,,,X66") Info.new).1
      = (sGGA.parse 1 (str "GPGGA,,,,,,0,,,,,,,,*66") Info.new).1 ∧
    (sGGA.parse 0 (str "GPGGA,,,,,,0,,,,,,,,X66") Info.new).1 = true :=
  ⟨(checksum_marker_ignored sGGA 0 1 (str "GPGGA,,,,,,0,,,,,,,,") (str "66") 88 42 Info.new
      (by decide)).1, by decide⟩

end NMEA
